import Mathlib

/-! Laghos: quadrature-data update, geometric factors, force operator, operator
construction, dof-to-quadrature maps and kernel dispatch.

A shallow embedding of the numerical kernels of the Laghos miniapp.

* `double` values are modelled by exact rationals (`ℚ`): the theorems are about
  the arithmetic the code performs, not about its rounding.
* The two variables that the code initialises to infinity (`dt_est`, `min_detJ`)
  are modelled in `WithTop ℚ`, with `⊤` for `+∞`.
* The time-step candidate `cfl * (1.0 / inv_dt)` divides by lengths and by `inv_dt`,
  which vanish on degenerate data; `h_min`, `inv_dt` and the candidate are
  computed in `Dbl`, the rationals extended by `+∞`, `−∞` and NaN with the IEEE
  rules for division by zero, and `min` keeps `dt_est` when the candidate is
  `+∞` or NaN. The other divisions (the density `rho0DetJ0w / detJ / weight`, the
  length `h` of the viscosity, the inverses) are the field division of `ℚ`, which
  is the code's as long as the divisor is not zero.
* C arrays are functions `Nat → ℚ`; a store `a[i] = v` is `Function.update a i v`.
* `for (int i = 0; i < n; ++i)` is `forLoop n`; the strided loop
  `for (int d = q; d < stop; d += step)` is `stridedLoop`.
* Library calls whose code is not part of the sources (determinant, inverse,
  eigen-solver, singular values, norms, the element transformation, the
  equation of state) are fields of the structures `Lib` and `Hydro`; those of the
  constructor, of `Mult` and of the maps are fields of `InitialMesh`, `MultEnv`
  and `MapsEnv`.
* A call that may end the process returns an `Option` (`none` for the abort) or an
  `Outcome`; pointers to heap objects are indices into the table of objects.
* Where a property speaks of the order or of the number of the iterations of a
  loop, the indices the loop visits are listed by a function that follows the
  same loop (`zonesVisited`, `stridedVisits`, `gatherVisits`,
  `rMassAssemble2SVisits`), and the loop is proved to be the fold of its body over
  that list.
-/

set_option autoImplicit false

namespace Laghos

/-! ## Loops and arrays -/

/-- The loop `for (int i = 0; i < n; ++i) body(i)` run on the state `s`. -/
def forLoop {σ : Type} : Nat → (Nat → σ → σ) → σ → σ
  | 0, _, s => s
  | n + 1, body, s => body n (forLoop n body s)

/-- The loop `for (int d = start; d < stop; d += step) body(d)`; `fuel` bounds the
number of iterations (`stop` iterations are enough whenever `step ≥ 1`). -/
def stridedLoop {σ : Type} (stop step : Nat) (body : Nat → σ → σ) :
    Nat → Nat → σ → σ
  | 0, _, s => s
  | fuel + 1, d, s =>
    if d < stop then stridedLoop stop step body fuel (d + step) (body d s) else s

/-- A `double*` buffer. -/
abbrev Buf := Nat → ℚ

/-- A `double` together with its exceptional values: an exact rational, `+∞`, `−∞`
or NaN. Zero carries no sign; a zero divisor counts as `+0`. -/
inductive Dbl where
  | fin (x : ℚ)
  | pinf
  | ninf
  | nan
deriving DecidableEq

/-- The sum of two `double` values: `∞ + (−∞)` is NaN. -/
def Dbl.add : Dbl → Dbl → Dbl
  | .nan, _ => .nan
  | _, .nan => .nan
  | .fin x, .fin y => .fin (x + y)
  | .pinf, .ninf => .nan
  | .ninf, .pinf => .nan
  | .pinf, _ => .pinf
  | _, .pinf => .pinf
  | .ninf, _ => .ninf
  | _, .ninf => .ninf

/-- The product of two `double` values: `0 * ±∞` is NaN. -/
def Dbl.mul : Dbl → Dbl → Dbl
  | .nan, _ => .nan
  | _, .nan => .nan
  | .fin x, .fin y => .fin (x * y)
  | .fin x, .pinf => if x = 0 then .nan else if 0 < x then .pinf else .ninf
  | .fin x, .ninf => if x = 0 then .nan else if 0 < x then .ninf else .pinf
  | .pinf, .fin y => if y = 0 then .nan else if 0 < y then .pinf else .ninf
  | .ninf, .fin y => if y = 0 then .nan else if 0 < y then .ninf else .pinf
  | .pinf, .pinf => .pinf
  | .pinf, .ninf => .ninf
  | .ninf, .pinf => .ninf
  | .ninf, .ninf => .pinf

/-- The quotient of two `double` values: `x / 0` is `±∞` with the sign of `x` and
`0 / 0` is NaN, a number over `±∞` is `0`, and `±∞ / ±∞` is NaN. -/
def Dbl.div : Dbl → Dbl → Dbl
  | .nan, _ => .nan
  | _, .nan => .nan
  | .fin x, .fin y =>
    if y = 0 then (if x = 0 then .nan else if 0 < x then .pinf else .ninf)
    else .fin (x / y)
  | .fin _, .pinf => .fin 0
  | .fin _, .ninf => .fin 0
  | .pinf, .fin y => if 0 ≤ y then .pinf else .ninf
  | .ninf, .fin y => if 0 ≤ y then .ninf else .pinf
  | .pinf, .pinf => .nan
  | .pinf, .ninf => .nan
  | .ninf, .pinf => .nan
  | .ninf, .ninf => .nan

/-! ## Geometric factor kernels (`kernels/kInitGeometryInfo3D.c`) -/

/-- The index helpers of `defines.h`, which is not part of the sources: they are
taken as parameters. -/
structure Layout where
  /-- `ijN(i,j,N)` -/
  ijN : Nat → Nat → Nat → Nat
  /-- `ijkN(i,j,k,N)` -/
  ijkN : Nat → Nat → Nat → Nat → Nat
  /-- `ijkNM(i,j,k,N,M)` -/
  ijkNM : Nat → Nat → Nat → Nat → Nat → Nat
  /-- `ijklNM(i,j,k,l,N,M)` -/
  ijklNM : Nat → Nat → Nat → Nat → Nat → Nat → Nat

/-- The index helpers address distinct cells for distinct index tuples whose
leading indices are in range (`i < N` for `ijN`; `i, j < N` and `k < M` for
`ijklNM`). Only the helpers used for stores are constrained. -/
structure Layout.Injective (L : Layout) : Prop where
  ijN_inj : ∀ N i j i' j', i < N → i' < N →
    L.ijN i j N = L.ijN i' j' N → i = i' ∧ j = j'
  ijklNM_inj : ∀ N M i j k l i' j' k' l', i < N → j < N → k < M →
    i' < N → j' < N → k' < M →
    L.ijklNM i j k l N M = L.ijklNM i' j' k' l' N M →
      i = i' ∧ j = j' ∧ k = k' ∧ l = l'

/-- The three output buffers of the geometry kernels. -/
structure GeomOut where
  J : Buf
  invJ : Buf
  detJ : Buf

/-- The nodes of element `e` gathered into `s_nodes` by `kInitGeometryInfo1D`
(source lines 25-29); `s0` is the content of the uninitialised `s_nodes`. -/
def gather1D (L : Layout) (NUM_DOFS NUM_QUAD : Nat) (nodes : Buf) (e : Nat)
    (s0 : Buf) : Buf :=
  forLoop NUM_QUAD (fun q s =>
    stridedLoop NUM_DOFS NUM_QUAD (fun d s =>
      Function.update s d (nodes (L.ijkN 0 d e NUM_QUAD))) NUM_DOFS q s) s0

/-- The accumulation of `J11` at point `q` in `kInitGeometryInfo1D` (lines 31-35). -/
def accum1D (L : Layout) (NUM_DOFS : Nat) (dofToQuadD s_nodes : Buf) (q : Nat) : ℚ :=
  forLoop NUM_DOFS (fun d J11 =>
    let wx := dofToQuadD (L.ijN q d NUM_DOFS)
    J11 + wx * s_nodes d) 0

/-- `kInitGeometryInfo1D`. `s0` is the content of the uninitialised `s_nodes`. -/
def kInitGeometryInfo1D (L : Layout) (NUM_DOFS NUM_QUAD numElements : Nat)
    (dofToQuadD nodes : Buf) (s0 : Buf) (out : GeomOut) : GeomOut :=
  forLoop numElements (fun e out =>
    let s_nodes : Buf := gather1D L NUM_DOFS NUM_QUAD nodes e s0
    forLoop NUM_QUAD (fun q out =>
      let J11 : ℚ := accum1D L NUM_DOFS dofToQuadD s_nodes q
      { J := Function.update out.J (L.ijN q e NUM_QUAD) J11
        invJ := Function.update out.invJ (L.ijN q e NUM_QUAD) (1 / J11)
        detJ := Function.update out.detJ (L.ijN q e NUM_QUAD) J11 }) out) out

/-- The four accumulators of the 2D Jacobian loop. -/
structure Acc2 where
  J11 : ℚ
  J12 : ℚ
  J21 : ℚ
  J22 : ℚ

/-- The nodes of element `e` gathered into `s_nodes` by `kInitGeometryInfo2D`
(source lines 54-59). -/
def gather2D (L : Layout) (NUM_DOFS NUM_QUAD : Nat) (nodes : Buf) (e : Nat)
    (s0 : Buf) : Buf :=
  forLoop NUM_QUAD (fun q s =>
    stridedLoop NUM_DOFS NUM_QUAD (fun d s =>
      let s := Function.update s (L.ijN 0 d 2) (nodes (L.ijkNM 0 d e 2 NUM_DOFS))
      Function.update s (L.ijN 1 d 2) (nodes (L.ijkNM 1 d e 2 NUM_DOFS)))
      NUM_DOFS q s) s0

/-- The accumulation of the Jacobian at point `q` in `kInitGeometryInfo2D`
(source lines 61-70). -/
def accum2D (L : Layout) (NUM_DOFS NUM_QUAD : Nat) (dofToQuadD s_nodes : Buf)
    (q : Nat) : Acc2 :=
  forLoop NUM_DOFS (fun d a =>
    let wx := dofToQuadD (L.ijkNM 0 q d 2 NUM_QUAD)
    let wy := dofToQuadD (L.ijkNM 1 q d 2 NUM_QUAD)
    let x := s_nodes (L.ijN 0 d 2)
    let y := s_nodes (L.ijN 1 d 2)
    { J11 := a.J11 + wx * x, J12 := a.J12 + wx * y
      J21 := a.J21 + wy * x, J22 := a.J22 + wy * y }) ⟨0, 0, 0, 0⟩

/-- `kInitGeometryInfo2D`. `s0` is the content of the uninitialised `s_nodes`. -/
def kInitGeometryInfo2D (L : Layout) (NUM_DOFS NUM_QUAD numElements : Nat)
    (dofToQuadD nodes : Buf) (s0 : Buf) (out : GeomOut) : GeomOut :=
  forLoop numElements (fun e out =>
    let s_nodes : Buf := gather2D L NUM_DOFS NUM_QUAD nodes e s0
    forLoop NUM_QUAD (fun q out =>
      let a : Acc2 := accum2D L NUM_DOFS NUM_QUAD dofToQuadD s_nodes q
      let r_detJ := (a.J11 * a.J22) - (a.J12 * a.J21)
      let J := Function.update out.J (L.ijklNM 0 0 q e 2 NUM_QUAD) a.J11
      let J := Function.update J (L.ijklNM 1 0 q e 2 NUM_QUAD) a.J12
      let J := Function.update J (L.ijklNM 0 1 q e 2 NUM_QUAD) a.J21
      let J := Function.update J (L.ijklNM 1 1 q e 2 NUM_QUAD) a.J22
      let r_idetJ := 1 / r_detJ
      let invJ := Function.update out.invJ (L.ijklNM 0 0 q e 2 NUM_QUAD) (a.J22 * r_idetJ)
      let invJ := Function.update invJ (L.ijklNM 1 0 q e 2 NUM_QUAD) (-a.J12 * r_idetJ)
      let invJ := Function.update invJ (L.ijklNM 0 1 q e 2 NUM_QUAD) (-a.J21 * r_idetJ)
      let invJ := Function.update invJ (L.ijklNM 1 1 q e 2 NUM_QUAD) (a.J11 * r_idetJ)
      { J := J, invJ := invJ
        detJ := Function.update out.detJ (L.ijN q e NUM_QUAD) r_detJ }) out) out

/-- The nine accumulators of the 3D Jacobian loop. -/
structure Acc3 where
  J11 : ℚ
  J12 : ℚ
  J13 : ℚ
  J21 : ℚ
  J22 : ℚ
  J23 : ℚ
  J31 : ℚ
  J32 : ℚ
  J33 : ℚ

/-- The nodes of element `e` gathered into `s_nodes` by `kInitGeometryInfo3D`
(source lines 98-104). -/
def gather3D (L : Layout) (NUM_DOFS NUM_QUAD : Nat) (nodes : Buf) (e : Nat)
    (s0 : Buf) : Buf :=
  forLoop NUM_QUAD (fun q s =>
    stridedLoop NUM_DOFS NUM_QUAD (fun d s =>
      let s := Function.update s (L.ijN 0 d 3) (nodes (L.ijkNM 0 d e 3 NUM_DOFS))
      let s := Function.update s (L.ijN 1 d 3) (nodes (L.ijkNM 1 d e 3 NUM_DOFS))
      Function.update s (L.ijN 2 d 3) (nodes (L.ijkNM 2 d e 3 NUM_DOFS)))
      NUM_DOFS q s) s0

/-- The accumulation of the Jacobian at point `q` in `kInitGeometryInfo3D`
(source lines 106-119). -/
def accum3D (L : Layout) (NUM_DOFS NUM_QUAD : Nat) (dofToQuadD s_nodes : Buf)
    (q : Nat) : Acc3 :=
  forLoop NUM_DOFS (fun d a =>
    let wx := dofToQuadD (L.ijkNM 0 q d 3 NUM_QUAD)
    let wy := dofToQuadD (L.ijkNM 1 q d 3 NUM_QUAD)
    let wz := dofToQuadD (L.ijkNM 2 q d 3 NUM_QUAD)
    let x := s_nodes (L.ijN 0 d 3)
    let y := s_nodes (L.ijN 1 d 3)
    let z := s_nodes (L.ijN 2 d 3)
    { J11 := a.J11 + wx * x, J12 := a.J12 + wx * y, J13 := a.J13 + wx * z
      J21 := a.J21 + wy * x, J22 := a.J22 + wy * y, J23 := a.J23 + wy * z
      J31 := a.J31 + wz * x, J32 := a.J32 + wz * y, J33 := a.J33 + wz * z })
    ⟨0, 0, 0, 0, 0, 0, 0, 0, 0⟩

/-- `kInitGeometryInfo3D`. `s0` is the content of the uninitialised `s_nodes`. -/
def kInitGeometryInfo3D (L : Layout) (NUM_DOFS NUM_QUAD numElements : Nat)
    (dofToQuadD nodes : Buf) (s0 : Buf) (out : GeomOut) : GeomOut :=
  forLoop numElements (fun e out =>
    let s_nodes : Buf := gather3D L NUM_DOFS NUM_QUAD nodes e s0
    forLoop NUM_QUAD (fun q out =>
      let a : Acc3 := accum3D L NUM_DOFS NUM_QUAD dofToQuadD s_nodes q
      let r_detJ := ((a.J11 * a.J22 * a.J33) + (a.J12 * a.J23 * a.J31) +
                     (a.J13 * a.J21 * a.J32) -
                     (a.J13 * a.J22 * a.J31) - (a.J12 * a.J21 * a.J33) -
                     (a.J11 * a.J23 * a.J32))
      let J := Function.update out.J (L.ijklNM 0 0 q e 3 NUM_QUAD) a.J11
      let J := Function.update J (L.ijklNM 1 0 q e 3 NUM_QUAD) a.J12
      let J := Function.update J (L.ijklNM 2 0 q e 3 NUM_QUAD) a.J13
      let J := Function.update J (L.ijklNM 0 1 q e 3 NUM_QUAD) a.J21
      let J := Function.update J (L.ijklNM 1 1 q e 3 NUM_QUAD) a.J22
      let J := Function.update J (L.ijklNM 2 1 q e 3 NUM_QUAD) a.J23
      let J := Function.update J (L.ijklNM 0 2 q e 3 NUM_QUAD) a.J31
      let J := Function.update J (L.ijklNM 1 2 q e 3 NUM_QUAD) a.J32
      let J := Function.update J (L.ijklNM 2 2 q e 3 NUM_QUAD) a.J33
      let r_idetJ := 1 / r_detJ
      let invJ := Function.update out.invJ (L.ijklNM 0 0 q e 3 NUM_QUAD)
        (r_idetJ * ((a.J22 * a.J33) - (a.J23 * a.J32)))
      let invJ := Function.update invJ (L.ijklNM 1 0 q e 3 NUM_QUAD)
        (r_idetJ * ((a.J32 * a.J13) - (a.J33 * a.J12)))
      let invJ := Function.update invJ (L.ijklNM 2 0 q e 3 NUM_QUAD)
        (r_idetJ * ((a.J12 * a.J23) - (a.J13 * a.J22)))
      let invJ := Function.update invJ (L.ijklNM 0 1 q e 3 NUM_QUAD)
        (r_idetJ * ((a.J23 * a.J31) - (a.J21 * a.J33)))
      let invJ := Function.update invJ (L.ijklNM 1 1 q e 3 NUM_QUAD)
        (r_idetJ * ((a.J33 * a.J11) - (a.J31 * a.J13)))
      let invJ := Function.update invJ (L.ijklNM 2 1 q e 3 NUM_QUAD)
        (r_idetJ * ((a.J13 * a.J21) - (a.J11 * a.J23)))
      let invJ := Function.update invJ (L.ijklNM 0 2 q e 3 NUM_QUAD)
        (r_idetJ * ((a.J21 * a.J32) - (a.J22 * a.J31)))
      let invJ := Function.update invJ (L.ijklNM 1 2 q e 3 NUM_QUAD)
        (r_idetJ * ((a.J31 * a.J12) - (a.J32 * a.J11)))
      let invJ := Function.update invJ (L.ijklNM 2 2 q e 3 NUM_QUAD)
        (r_idetJ * ((a.J11 * a.J22) - (a.J12 * a.J21)))
      { J := J, invJ := invJ
        detJ := Function.update out.detJ (L.ijN q e NUM_QUAD) r_detJ }) out) out

/-- Predicate: the cell `(q, e)` of the 1D outputs holds the values computed from `J11`. -/
def Cell1 (L : Layout) (NUM_QUAD : Nat) (J11 : ℚ) (q e : Nat) (out : GeomOut) : Prop :=
  out.J (L.ijN q e NUM_QUAD) = J11 ∧ out.invJ (L.ijN q e NUM_QUAD) = 1 / J11 ∧
  out.detJ (L.ijN q e NUM_QUAD) = J11

/-- Predicate: the cell `(q, e)` of the 2D outputs holds the values computed from `a`. -/
def Cell2 (L : Layout) (NUM_QUAD : Nat) (a : Acc2) (q e : Nat) (out : GeomOut) : Prop :=
  (out.J (L.ijklNM 0 0 q e 2 NUM_QUAD) = a.J11 ∧
   out.J (L.ijklNM 1 0 q e 2 NUM_QUAD) = a.J12 ∧
   out.J (L.ijklNM 0 1 q e 2 NUM_QUAD) = a.J21 ∧
   out.J (L.ijklNM 1 1 q e 2 NUM_QUAD) = a.J22) ∧
  (out.invJ (L.ijklNM 0 0 q e 2 NUM_QUAD) = a.J22 * (1 / (a.J11 * a.J22 - a.J12 * a.J21)) ∧
   out.invJ (L.ijklNM 1 0 q e 2 NUM_QUAD) = -a.J12 * (1 / (a.J11 * a.J22 - a.J12 * a.J21)) ∧
   out.invJ (L.ijklNM 0 1 q e 2 NUM_QUAD) = -a.J21 * (1 / (a.J11 * a.J22 - a.J12 * a.J21)) ∧
   out.invJ (L.ijklNM 1 1 q e 2 NUM_QUAD) = a.J11 * (1 / (a.J11 * a.J22 - a.J12 * a.J21))) ∧
  out.detJ (L.ijN q e NUM_QUAD) = a.J11 * a.J22 - a.J12 * a.J21

/-- The determinant expression of `kInitGeometryInfo3D` (source lines 120-122). -/
def Acc3.det (a : Acc3) : ℚ :=
  (a.J11 * a.J22 * a.J33) + (a.J12 * a.J23 * a.J31) + (a.J13 * a.J21 * a.J32) -
  (a.J13 * a.J22 * a.J31) - (a.J12 * a.J21 * a.J33) - (a.J11 * a.J23 * a.J32)

/-- Predicate: the cell `(q, e)` of the 3D outputs holds the values computed from `a`. -/
def Cell3 (L : Layout) (NUM_QUAD : Nat) (a : Acc3) (q e : Nat) (out : GeomOut) : Prop :=
  (out.J (L.ijklNM 0 0 q e 3 NUM_QUAD) = a.J11 ∧
   out.J (L.ijklNM 1 0 q e 3 NUM_QUAD) = a.J12 ∧
   out.J (L.ijklNM 2 0 q e 3 NUM_QUAD) = a.J13 ∧
   out.J (L.ijklNM 0 1 q e 3 NUM_QUAD) = a.J21 ∧
   out.J (L.ijklNM 1 1 q e 3 NUM_QUAD) = a.J22 ∧
   out.J (L.ijklNM 2 1 q e 3 NUM_QUAD) = a.J23 ∧
   out.J (L.ijklNM 0 2 q e 3 NUM_QUAD) = a.J31 ∧
   out.J (L.ijklNM 1 2 q e 3 NUM_QUAD) = a.J32 ∧
   out.J (L.ijklNM 2 2 q e 3 NUM_QUAD) = a.J33) ∧
  (out.invJ (L.ijklNM 0 0 q e 3 NUM_QUAD) = 1 / a.det * ((a.J22 * a.J33) - (a.J23 * a.J32)) ∧
   out.invJ (L.ijklNM 1 0 q e 3 NUM_QUAD) = 1 / a.det * ((a.J32 * a.J13) - (a.J33 * a.J12)) ∧
   out.invJ (L.ijklNM 2 0 q e 3 NUM_QUAD) = 1 / a.det * ((a.J12 * a.J23) - (a.J13 * a.J22)) ∧
   out.invJ (L.ijklNM 0 1 q e 3 NUM_QUAD) = 1 / a.det * ((a.J23 * a.J31) - (a.J21 * a.J33)) ∧
   out.invJ (L.ijklNM 1 1 q e 3 NUM_QUAD) = 1 / a.det * ((a.J33 * a.J11) - (a.J31 * a.J13)) ∧
   out.invJ (L.ijklNM 2 1 q e 3 NUM_QUAD) = 1 / a.det * ((a.J13 * a.J21) - (a.J11 * a.J23)) ∧
   out.invJ (L.ijklNM 0 2 q e 3 NUM_QUAD) = 1 / a.det * ((a.J21 * a.J32) - (a.J22 * a.J31)) ∧
   out.invJ (L.ijklNM 1 2 q e 3 NUM_QUAD) = 1 / a.det * ((a.J31 * a.J12) - (a.J32 * a.J11)) ∧
   out.invJ (L.ijklNM 2 2 q e 3 NUM_QUAD) = 1 / a.det * ((a.J11 * a.J22) - (a.J12 * a.J21))) ∧
  out.detJ (L.ijN q e NUM_QUAD) = a.det

/-- The `dim × dim` matrix read from the buffer `a` at point `q` of element `e`: its
entry `(i, j)` is `a[ijklNM(i, j, q, e, dim, NUM_QUAD)]`. -/
def storedMatrix (L : Layout) (dim NUM_QUAD : Nat) (a : Buf) (q e : Nat) :
    Matrix (Fin dim) (Fin dim) ℚ :=
  Matrix.of fun i j => a (L.ijklNM i.val j.val q e dim NUM_QUAD)

/-- The Jacobian of dimension `dim`: the entry for reference axis `i` and physical
coordinate `j` is the sum over the dofs of the gradient-table entry for axis `i` at
`(q, dof)` times coordinate `j` of node `dof` of element `e`. The table is
addressed `ijkNM (i, q, dof, dim, NUM_QUAD)` and the nodes
`ijkNM (j, dof, e, dim, NUM_DOFS)`, as the 2D and 3D kernels read them. -/
def jacobian (L : Layout) (dim NUM_DOFS NUM_QUAD : Nat) (dofToQuadD nodes : Buf)
    (q e : Nat) : Matrix (Fin dim) (Fin dim) ℚ :=
  Matrix.of fun i j => ∑ d in Finset.range NUM_DOFS,
    dofToQuadD (L.ijkNM i.val q d dim NUM_QUAD) * nodes (L.ijkNM j.val d e dim NUM_DOFS)

/-- The sum that `kInitGeometryInfo1D` accumulates in `J11` (source lines 27-35): the
table is read at `ijN (q, dof, NUM_DOFS)` and the nodes at
`ijkN (0, dof, e, NUM_QUAD)`. These are not the addresses of `jacobian` for
`dim = 1`. -/
def sum1D (L : Layout) (NUM_DOFS NUM_QUAD : Nat) (dofToQuadD nodes : Buf)
    (q e : Nat) : ℚ :=
  ∑ d in Finset.range NUM_DOFS,
    dofToQuadD (L.ijN q d NUM_DOFS) * nodes (L.ijkN 0 d e NUM_QUAD)

/-- The usual column-major flattening, an instance of the index helpers. -/
def stdLayout : Layout where
  ijN := fun i j N => i + N * j
  ijkN := fun i j k N => i + N * (j + N * k)
  ijkNM := fun i j k N M => i + N * (j + M * k)
  ijklNM := fun i j k l N M => i + N * (j + N * (k + M * l))

/-- A sample gradient table used to evaluate the kernels. -/
def exD : Buf := fun k => (k : ℚ) * k + 1

/-- A sample node buffer used to evaluate the kernels. -/
def exNodes : Buf := fun k => if k % 3 = 0 then 2 * k + 1 else (k : ℚ) * k

/-- Zeroed output buffers. -/
def exOut : GeomOut := ⟨fun _ => 0, fun _ => 0, fun _ => 0⟩

/-! ## Quadrature-data update (`laghos_solver.cpp`) -/

/-- A `DenseMatrix`, addressed `(i, j)`. -/
abbrev DenseMatrix := Nat → Nat → ℚ

/-- The `mfem::Mult (A, B, C)` product `C = A * B` of `dim × dim` matrices. -/
def Mult (dim : Nat) (A B : DenseMatrix) : DenseMatrix :=
  fun i j => ∑ k in Finset.range dim, A i k * B k j

/-- The `mfem::MultABt (A, B, ABt)` product `A * Bᵀ` of `dim × dim` matrices. -/
def MultABt (dim : Nat) (A B : DenseMatrix) : DenseMatrix :=
  fun i j => ∑ k in Finset.range dim, A i k * B j k

/-- The matrix-vector product `DenseMatrix::Mult (x, y)`. -/
def MultVec (dim : Nat) (A : DenseMatrix) (x : Buf) : Buf :=
  fun i => ∑ k in Finset.range dim, A i k * x k

/-- The symmetric part, `DenseMatrix::Symmetrize`. -/
def Symmetrize (A : DenseMatrix) : DenseMatrix :=
  fun i j => (A i j + A j i) / 2

/-- The update `DenseMatrix::Add (c, A)`: `this += c * A`. -/
def DenseMatrix.Add (M : DenseMatrix) (c : ℚ) (A : DenseMatrix) : DenseMatrix :=
  fun i j => M i j + c * A i j

/-- The scaling `DenseMatrix::operator*= (c)`. -/
def DenseMatrix.scale (M : DenseMatrix) (c : ℚ) : DenseMatrix :=
  fun i j => M i j * c

/-- The store `M(i, j) = v`. -/
def DenseMatrix.set (M : DenseMatrix) (i j : Nat) (v : ℚ) : DenseMatrix :=
  Function.update M i (Function.update (M i) j v)

/-- Library routines used by `UpdateQuadratureData` whose code is not part of the
sources; they are parameters of the model. The first argument of the matrix
routines is the size `dim` of the matrix. -/
structure Lib where
  /-- `DenseMatrix::Det` -/
  Det : Nat → DenseMatrix → ℚ
  /-- `CalcInverse (A, Ainv)` -/
  CalcInverse : Nat → DenseMatrix → DenseMatrix
  /-- `DenseMatrix::CalcSingularvalue (i)` -/
  CalcSingularvalue : Nat → DenseMatrix → Nat → ℚ
  /-- `DenseMatrix::CalcEigenvalues (lambda, vec)`: the two buffers it fills -/
  CalcEigenvalues : Nat → DenseMatrix → Buf × Buf
  /-- `Vector::Norml2` of a vector of the given size -/
  Norml2 : Nat → Buf → ℚ
  /-- The content of freshly allocated `double` storage -/
  uninit : Buf
  /-- The content of the freshly allocated `Jpr_b` tensors -/
  uninitJpr : Nat → Nat → DenseMatrix

/-- The members of `LagrangianHydroOperator` that `UpdateQuadratureData` reads, and
the finite-element collaborators it calls, as functions of the state vector `S`,
the zone and the quadrature point. -/
structure Hydro (σ : Type) where
  dim : Nat
  nzones : Nat
  /-- `integ_rule.GetNPoints ()` -/
  nqp : Nat
  /-- `(double) H1FESpace.GetOrder (0)` -/
  order : ℚ
  cfl : ℚ
  /-- The CFL number is not negative -/
  cfl_nonneg : 0 ≤ cfl
  use_viscosity : Bool
  p_assembly : Bool
  /-- `material_pcf`: `none` for `NULL`, else its `Eval (*T, ip)` at (zone, point) -/
  material_pcf : Option (Nat → Nat → ℚ)
  /-- `integ_rule.IntPoint (q).weight` -/
  weight : Nat → ℚ
  /-- The material callback at one point: `(gamma, rho, e) ↦ (p, sound speed)` -/
  eos : ℚ → ℚ → ℚ → ℚ × ℚ
  /-- `T->Jacobian ()` at (zone, point) -/
  T_Jacobian : σ → Nat → Nat → DenseMatrix
  /-- `evaluator->GetVectorGrad` of the positions of a zone, at each point -/
  GetVectorGrad_x : σ → Nat → Nat → DenseMatrix
  /-- `evaluator->GetVectorGrad` of the velocities of a zone, at each point -/
  GetVectorGrad_v : σ → Nat → Nat → DenseMatrix
  /-- `evaluator->GetL2Values` of the energies of a zone, at each point -/
  GetL2Values : σ → Nat → Nat → ℚ
  /-- `e.GetValues (z_id, integ_rule, e_vals)` -/
  e_GetValues : σ → Nat → Nat → ℚ
  /-- `v.GetVectorGradient (*T, sgrad_v)` at (zone, point) -/
  v_GetVectorGradient : σ → Nat → Nat → DenseMatrix

/-- The `QuadratureData` record. `stressJinvT (vd, i, gd)` is the entry
`stressJinvT(vd)(i, gd)`; `dt_est` may be `+∞` (`⊤`). -/
structure QuadratureData where
  Jac0inv : Nat → DenseMatrix
  rho0DetJ0w : Buf
  stressJinvT : Nat × Nat × Nat → ℚ
  h0 : ℚ
  dt_est : WithTop ℚ

/-- The mutable members of the operator: the quadrature data and its freshness flag. -/
structure HydroState where
  quad_data : QuadratureData
  quad_data_is_current : Bool

/-- `ResetTimeStepEstimate`. -/
def ResetTimeStepEstimate (st : HydroState) : HydroState :=
  { st with quad_data := { st.quad_data with dt_est := ⊤ } }

/-- Modelled from the spec: `ComputeMaterialProperties` is declared in
`laghos_solver.hpp`, which is missing; it evaluates the material callback
`(γ, ρ, e) ↦ (p, sound speed)` at each of the `nvalues` points of the batch. -/
def ComputeMaterialProperties (eos : ℚ → ℚ → ℚ → ℚ × ℚ) (nvalues : Nat)
    (gamma rho e : Buf) (p cs : Buf) : Buf × Buf :=
  forLoop nvalues (fun v (pc : Buf × Buf) =>
    (Function.update pc.1 v (eos (gamma v) (rho v) (e v)).1,
     Function.update pc.2 v (eos (gamma v) (rho v) (e v)).2)) (p, cs)

/-- The variables of the first zone loop of a batch (source lines 661-695), with
the buffers it fills. -/
structure Gather where
  min_detJ : WithTop ℚ
  z_id : Nat
  gamma_b : Buf
  rho_b : Buf
  e_b : Buf
  Jpr_b : Nat → Nat → DenseMatrix

/-- The body of the quadrature-point loop of the first zone loop (source lines
682-692) for the zone `z` of the batch. -/
def gatherPoint {σ : Type} (H : Hydro σ) (lib : Lib) (S : σ) (qd : QuadratureData)
    (e_vals : Nat → ℚ) (z q : Nat) (g : Gather) : Gather :=
  let Jpr_b : Nat → Nat → DenseMatrix :=
    if ¬ H.p_assembly then
      Function.update g.Jpr_b z (Function.update (g.Jpr_b z) q (H.T_Jacobian S g.z_id q))
    else g.Jpr_b
  let detJ : ℚ := lib.Det H.dim (Jpr_b z q)
  let min_detJ : WithTop ℚ := min g.min_detJ (detJ : WithTop ℚ)
  let idx := z * H.nqp + q
  let gamma : ℚ :=
    match H.material_pcf with
    | none => 5 / 3
    | some f => f g.z_id q
  { min_detJ := min_detJ
    z_id := g.z_id
    gamma_b := Function.update g.gamma_b idx gamma
    rho_b := Function.update g.rho_b idx
      (qd.rho0DetJ0w (g.z_id * H.nqp + q) / detJ / H.weight q)
    e_b := Function.update g.e_b idx (max 0 (e_vals q))
    Jpr_b := Jpr_b }

/-- One iteration `z` of the first zone loop of a batch (source lines 662-695). -/
def gatherZone {σ : Type} (H : Hydro σ) (lib : Lib) (S : σ) (qd : QuadratureData)
    (z : Nat) (g : Gather) : Gather :=
  let e_vals : Nat → ℚ :=
    if H.p_assembly then H.GetL2Values S g.z_id else H.e_GetValues S g.z_id
  let Jpr_b : Nat → Nat → DenseMatrix :=
    if H.p_assembly then Function.update g.Jpr_b z (H.GetVectorGrad_x S g.z_id)
    else g.Jpr_b
  let g : Gather := forLoop H.nqp (gatherPoint H lib S qd e_vals z) { g with Jpr_b := Jpr_b }
  { g with z_id := g.z_id + 1 }

/-- The symmetrized velocity gradient `sgrad_v` at a point (source lines 732-740). -/
def sgradV {σ : Type} (H : Hydro σ) (S : σ) (Jinv : DenseMatrix) (z_id q : Nat) :
    DenseMatrix :=
  Symmetrize
    (if H.p_assembly then Mult H.dim (H.GetVectorGrad_v S z_id q) Jinv
     else H.v_GetVectorGradient S z_id q)

/-- The buffers `eig_val_data` and `eig_vec_data` (source lines 741-747). -/
def eigenData {σ : Type} (H : Hydro σ) (lib : Lib) (sgrad_v : DenseMatrix) : Buf × Buf :=
  if H.dim = 1 then
    (Function.update lib.uninit 0 (sgrad_v 0 0), Function.update lib.uninit 0 1)
  else lib.CalcEigenvalues H.dim sgrad_v

/-- The compression length `h` at a point (source lines 748-754). -/
def comprLength {σ : Type} (H : Hydro σ) (lib : Lib) (qd : QuadratureData)
    (Jpr sgrad_v : DenseMatrix) (z_id q : Nat) : ℚ :=
  let compr_dir : Buf := (eigenData H lib sgrad_v).2
  let Jpi : DenseMatrix := Mult H.dim Jpr (qd.Jac0inv (z_id * H.nqp + q))
  let ph_dir : Buf := MultVec H.dim Jpi compr_dir
  qd.h0 * lib.Norml2 H.dim ph_dir / lib.Norml2 H.dim compr_dir

/-- The measure of maximal compression `mu = eig_val_data[0]` (source line 757). -/
def muAt {σ : Type} (H : Hydro σ) (lib : Lib) (sgrad_v : DenseMatrix) : ℚ :=
  (eigenData H lib sgrad_v).1 0

/-- The viscosity coefficient `visc_coeff` at a point (source lines 725-761). -/
def viscCoeff {σ : Type} (H : Hydro σ) (lib : Lib) (S : σ) (qd : QuadratureData)
    (Jpr : DenseMatrix) (rho sound_speed : ℚ) (z_id q : Nat) : ℚ :=
  if H.use_viscosity then
    let sgrad_v := sgradV H S (lib.CalcInverse H.dim Jpr) z_id q
    let h := comprLength H lib qd Jpr sgrad_v z_id q
    let mu := muAt H lib sgrad_v
    let visc_coeff := 2 * rho * h * h * |mu|
    if mu < 0 then visc_coeff + (1 / 2) * rho * h * sound_speed else visc_coeff
  else 0

/-- The matrix `stress` at a point (source lines 722-761). -/
def stressAt {σ : Type} (H : Hydro σ) (lib : Lib) (S : σ) (qd : QuadratureData)
    (Jpr : DenseMatrix) (rho p sound_speed : ℚ) (z_id q : Nat) : DenseMatrix :=
  let stress : DenseMatrix :=
    forLoop H.dim (fun d stress => stress.set d d (-p)) (fun _ _ => 0)
  if H.use_viscosity then
    stress.Add (viscCoeff H lib S qd Jpr rho sound_speed z_id q)
      (sgradV H S (lib.CalcInverse H.dim Jpr) z_id q)
  else stress

/-- The length `h_min` at a point (source lines 767-768). -/
def hMin {σ : Type} (H : Hydro σ) (lib : Lib) (Jpr : DenseMatrix) : Dbl :=
  Dbl.div (.fin (lib.CalcSingularvalue H.dim Jpr (H.dim - 1))) (.fin H.order)

/-- The value `inv_dt` at a point (source lines 769-770). -/
def invDt {σ : Type} (H : Hydro σ) (lib : Lib) (S : σ) (qd : QuadratureData)
    (Jpr : DenseMatrix) (rho sound_speed : ℚ) (z_id q : Nat) : Dbl :=
  Dbl.add (Dbl.div (.fin sound_speed) (hMin H lib Jpr))
    (Dbl.div (Dbl.div (Dbl.div
      (Dbl.mul (.fin (5 / 2)) (.fin (viscCoeff H lib S qd Jpr rho sound_speed z_id q)))
      (.fin rho)) (hMin H lib Jpr)) (hMin H lib Jpr))

/-- The candidate `cfl * (1.0 / inv_dt)` as `min (quad_data.dt_est, ·)` of line 778
takes it. `⊤` stands for `+∞` and for NaN: `min (a, b)` is `b < a ? b : a`, which
is `a` for both. The candidate is not `−∞`, since `cfl` is not negative. -/
def dtCandidate (cfl : ℚ) (inv_dt : Dbl) : WithTop ℚ :=
  match Dbl.mul (.fin cfl) (Dbl.div (.fin 1) inv_dt) with
  | .fin c => ((c : ℚ) : WithTop ℚ)
  | .pinf => ⊤
  | .nan => ⊤
  | .ninf => ⊤

/-- The matrix `stressJiT` at a point (source lines 782-783). -/
def stressJiTAt {σ : Type} (H : Hydro σ) (lib : Lib) (S : σ) (qd : QuadratureData)
    (Jpr : DenseMatrix) (rho p sound_speed : ℚ) (z_id q : Nat) : DenseMatrix :=
  (MultABt H.dim (stressAt H lib S qd Jpr rho p sound_speed z_id q)
    (lib.CalcInverse H.dim Jpr)).scale (H.weight q * lib.Det H.dim Jpr)

/-- The body of the quadrature-point loop of the second zone loop (source lines
713-791), given the minimum determinant of the batch and the values read from the
batch buffers. -/
def pointUpdate {σ : Type} (H : Hydro σ) (lib : Lib) (S : σ) (min_detJ : WithTop ℚ)
    (Jpr : DenseMatrix) (rho p sound_speed : ℚ) (z_id q : Nat) (qd : QuadratureData) :
    QuadratureData :=
  let inv_dt := invDt H lib S qd Jpr rho sound_speed z_id q
  let dt_est : WithTop ℚ :=
    if min_detJ < 0 then 0
    else min qd.dt_est (dtCandidate H.cfl inv_dt)
  let stressJiT := stressJiTAt H lib S qd Jpr rho p sound_speed z_id q
  let stressJinvT := forLoop H.dim (fun vd T =>
    forLoop H.dim (fun gd T =>
      Function.update T (vd, z_id * H.nqp + q, gd) (stressJiT vd gd)) T) qd.stressJinvT
  { qd with dt_est := dt_est, stressJinvT := stressJinvT }

/-- The variables of the second zone loop of a batch (source lines 700-794). -/
structure Update where
  qd : QuadratureData
  z_id : Nat

/-- The body of the quadrature-point loop of zone `z` of a batch (source lines
711-792): the values are read from the batch buffers. -/
def updatePoint {σ : Type} (H : Hydro σ) (lib : Lib) (S : σ)
    (Jpr_b : Nat → Nat → DenseMatrix) (rho_b p_b cs_b : Buf)
    (min_detJ : WithTop ℚ) (z q : Nat) (u : Update) : Update :=
  let qd := pointUpdate H lib S min_detJ (Jpr_b z q)
    (rho_b (z * H.nqp + q)) (p_b (z * H.nqp + q)) (cs_b (z * H.nqp + q)) u.z_id q u.qd
  { u with qd := qd }

/-- One iteration `z` of the second zone loop of a batch (source lines 701-794). -/
def updateZone {σ : Type} (H : Hydro σ) (lib : Lib) (S : σ)
    (Jpr_b : Nat → Nat → DenseMatrix) (rho_b p_b cs_b : Buf)
    (min_detJ : WithTop ℚ) (z : Nat) (u : Update) : Update :=
  let u := forLoop H.nqp (updatePoint H lib S Jpr_b rho_b p_b cs_b min_detJ z) u
  { u with z_id := u.z_id + 1 }

/-- The variables that live across the batch loop (source lines 639-650). -/
structure Pass where
  nzones_batch : Nat
  nqp_batch : Nat
  gamma_b : Buf
  rho_b : Buf
  e_b : Buf
  p_b : Buf
  cs_b : Buf
  Jpr_b : Nat → Nat → DenseMatrix
  qd : QuadratureData
  /-- The `break` of line 654 was taken -/
  broke : Bool

/-- The head of one batch iteration (source lines 652-659): the first zone of the
batch, and the batch size shortened for the last batch. `none` stands for `break`. -/
def batchHead {σ : Type} (H : Hydro σ) (b : Nat) (st : Pass) : Option (Nat × Pass) :=
  let z_id := b * st.nzones_batch
  if z_id = H.nzones then none
  else if z_id + st.nzones_batch > H.nzones then
    some (z_id, { st with nzones_batch := H.nzones - z_id
                          nqp_batch := H.nqp * (H.nzones - z_id) })
  else some (z_id, st)

/-- The first zone loop of a batch (source lines 661-695). -/
def batchGather {σ : Type} (H : Hydro σ) (lib : Lib) (S : σ) (z_id : Nat) (st : Pass) :
    Gather :=
  forLoop st.nzones_batch (gatherZone H lib S st.qd)
    { min_detJ := ⊤, z_id := z_id, gamma_b := st.gamma_b, rho_b := st.rho_b
      e_b := st.e_b, Jpr_b := st.Jpr_b }

/-- The material evaluation of a batch (source line 698): `p_b` and `cs_b`. -/
def batchMaterial {σ : Type} (H : Hydro σ) (g : Gather) (st : Pass) : Buf × Buf :=
  ComputeMaterialProperties H.eos st.nqp_batch g.gamma_b g.rho_b g.e_b st.p_b st.cs_b

/-- The state of the second zone loop of the batch starting at zone `z_id`, after
`z` zones and then `q` points of the next zone (source lines 700-794). -/
def batchUpdate {σ : Type} (H : Hydro σ) (lib : Lib) (S : σ) (z_id : Nat) (st : Pass)
    (z q : Nat) : Update :=
  let g := batchGather H lib S z_id st
  let pc := batchMaterial H g st
  forLoop q (updatePoint H lib S g.Jpr_b g.rho_b pc.1 pc.2 g.min_detJ z)
    (forLoop z (updateZone H lib S g.Jpr_b g.rho_b pc.1 pc.2 g.min_detJ)
      { qd := st.qd, z_id := g.z_id - st.nzones_batch })

/-- One iteration `b` of the batch loop (source lines 650-795). -/
def batchBody {σ : Type} (H : Hydro σ) (lib : Lib) (S : σ) (b : Nat) (st : Pass) : Pass :=
  if st.broke then st
  else
    match batchHead H b st with
    | none => { st with broke := true }
    | some (z_id, st) =>
      let g := batchGather H lib S z_id st
      let pc := batchMaterial H g st
      let u := batchUpdate H lib S z_id st st.nzones_batch 0
      { st with gamma_b := g.gamma_b, rho_b := g.rho_b, e_b := g.e_b, Jpr_b := g.Jpr_b
                p_b := pc.1, cs_b := pc.2, qd := u.qd }

/-- The state of the batch loop on entry, for the batch-size constant `B`. -/
def passInit {σ : Type} (H : Hydro σ) (lib : Lib) (B : Nat) (qd : QuadratureData) : Pass :=
  { nzones_batch := B
    nqp_batch := H.nqp * B
    gamma_b := lib.uninit
    rho_b := lib.uninit
    e_b := lib.uninit
    p_b := lib.uninit
    cs_b := lib.uninit
    Jpr_b := lib.uninitJpr
    qd := qd
    broke := false }

/-- `UpdateQuadratureData` with the constant `nzones_batch = 3` replaced by `B`. -/
def UpdateQuadratureDataB {σ : Type} (H : Hydro σ) (lib : Lib) (B : Nat) (S : σ)
    (st : HydroState) : HydroState :=
  if st.quad_data_is_current then st
  else
    let nbatches := H.nzones / B + 1
    let fin := forLoop nbatches (batchBody H lib S) (passInit H lib B st.quad_data)
    { quad_data := fin.qd, quad_data_is_current := true }

/-- `LagrangianHydroOperator::UpdateQuadratureData`. -/
def UpdateQuadratureData {σ : Type} (H : Hydro σ) (lib : Lib) (S : σ)
    (st : HydroState) : HydroState :=
  UpdateQuadratureDataB H lib 3 S st

/-- `LagrangianHydroOperator::GetTimeStepEstimate`: the update, then the minimum
over the ranks (`MPI_Allreduce` with `MPI_MIN`); `others` are the `dt_est` of the
other ranks. -/
def GetTimeStepEstimate {σ : Type} (H : Hydro σ) (lib : Lib) (S : σ)
    (others : List (WithTop ℚ)) (st : HydroState) : HydroState × WithTop ℚ :=
  let st := UpdateQuadratureData H lib S st
  (st, others.foldl min st.quad_data.dt_est)

/-- The effect of `LagrangianHydroOperator::Mult` on the quadrature data and its
flag: the update of line 309, then the flag is cleared on line 516. -/
def MultQuadData {σ : Type} (H : Hydro σ) (lib : Lib) (S : σ)
    (st : HydroState) : HydroState :=
  { (UpdateQuadratureData H lib S st) with quad_data_is_current := false }

/-! ### The values at one quadrature point, as functions of the zone and the point -/

/-- The Jacobian `Jpr_b[z](q)` of the zone `z_id` at the point `q`. -/
def JprAt {σ : Type} (H : Hydro σ) (S : σ) (z_id q : Nat) : DenseMatrix :=
  if H.p_assembly then H.GetVectorGrad_x S z_id q else H.T_Jacobian S z_id q

/-- The determinant `detJ` of the zone `z_id` at the point `q`. -/
def detJAt {σ : Type} (H : Hydro σ) (lib : Lib) (S : σ) (z_id q : Nat) : ℚ :=
  lib.Det H.dim (JprAt H S z_id q)

/-- The value stored in `gamma_b` for the zone `z_id` at the point `q`. -/
def gammaAt {σ : Type} (H : Hydro σ) (z_id q : Nat) : ℚ :=
  match H.material_pcf with
  | none => 5 / 3
  | some f => f z_id q

/-- The density stored in `rho_b` for the zone `z_id` at the point `q`; `r0` is the
array `rho0DetJ0w`. -/
def rhoAt {σ : Type} (H : Hydro σ) (lib : Lib) (S : σ) (r0 : Buf) (z_id q : Nat) : ℚ :=
  r0 (z_id * H.nqp + q) / detJAt H lib S z_id q / H.weight q

/-- The energy stored in `e_b` for the zone `z_id` at the point `q`. -/
def eAt {σ : Type} (H : Hydro σ) (S : σ) (z_id q : Nat) : ℚ :=
  max 0 (if H.p_assembly then H.GetL2Values S z_id q else H.e_GetValues S z_id q)

/-- The pressure returned by the material callback for the zone `z_id` at `q`. -/
def pAt {σ : Type} (H : Hydro σ) (lib : Lib) (S : σ) (r0 : Buf) (z_id q : Nat) : ℚ :=
  (H.eos (gammaAt H z_id q) (rhoAt H lib S r0 z_id q) (eAt H S z_id q)).1

/-- The sound speed returned by the material callback for the zone `z_id` at `q`. -/
def csAt {σ : Type} (H : Hydro σ) (lib : Lib) (S : σ) (r0 : Buf) (z_id q : Nat) : ℚ :=
  (H.eos (gammaAt H z_id q) (rhoAt H lib S r0 z_id q) (eAt H S z_id q)).2

/-- The minimum determinant over the `nb` zones starting at `z0`, from `+∞`. -/
def minDetJ {σ : Type} (H : Hydro σ) (lib : Lib) (S : σ) (z0 nb : Nat) : WithTop ℚ :=
  forLoop nb (fun z m =>
    forLoop H.nqp (fun q m => min m ((detJAt H lib S (z0 + z) q : ℚ) : WithTop ℚ)) m) ⊤

/-- The point update of the zone `z_id` at the point `q` on the values of that
point; `r0` is the array `rho0DetJ0w` and `m` the minimum determinant of the batch. -/
def refPoint {σ : Type} (H : Hydro σ) (lib : Lib) (S : σ) (r0 : Buf)
    (m : WithTop ℚ) (z_id q : Nat) (qd : QuadratureData) : QuadratureData :=
  pointUpdate H lib S m (JprAt H S z_id q) (rhoAt H lib S r0 z_id q)
    (pAt H lib S r0 z_id q) (csAt H lib S r0 z_id q) z_id q qd

/-- The point updates of the zones `z0 .. z0 + n - 1` in order, the zone `z` with
the minimum determinant `m z`. -/
def refZones {σ : Type} (H : Hydro σ) (lib : Lib) (S : σ) (r0 : Buf)
    (m : Nat → WithTop ℚ) (z0 n : Nat) (qd : QuadratureData) : QuadratureData :=
  forLoop n (fun z qd =>
    forLoop H.nqp (fun q qd => refPoint H lib S r0 (m (z0 + z)) (z0 + z) q qd) qd) qd

/-- Predicate: the buffers of the first zone loop hold at the cell `(z, q)` of the
batch starting at zone `z0` the values of the zone `z0 + z` at the point `q`. -/
def GCell {σ : Type} (H : Hydro σ) (lib : Lib) (S : σ) (qd : QuadratureData) (z0 : Nat)
    (g : Gather) (z q : Nat) : Prop :=
  g.gamma_b (z * H.nqp + q) = gammaAt H (z0 + z) q ∧
  g.rho_b (z * H.nqp + q) = rhoAt H lib S qd.rho0DetJ0w (z0 + z) q ∧
  g.e_b (z * H.nqp + q) = eAt H S (z0 + z) q ∧
  g.Jpr_b z q = JprAt H S (z0 + z) q

/-- The minimum determinant of the batch that contains the zone `z`, for the
batch-size constant `B`. -/
def zoneMinDetJ {σ : Type} (H : Hydro σ) (lib : Lib) (S : σ) (B : Nat) (z : Nat) :
    WithTop ℚ :=
  minDetJ H lib S (z / B * B) (min B (H.nzones - z / B * B))

/-- The state of the batch loop after `b` iterations, from the quadrature data `qd`,
for the batch-size constant `B`. -/
def passAfter {σ : Type} (H : Hydro σ) (lib : Lib) (B : Nat) (S : σ)
    (qd : QuadratureData) (b : Nat) : Pass :=
  forLoop b (batchBody H lib S) (passInit H lib B qd)

/-- The contracts of the collaborators under which the time-step candidates
`cfl / inv_dt` are non-negative: a non-negative CFL number, order and initial
length `h0`, and non-negative sound speeds, singular values and norms. -/
structure Contracts {σ : Type} (H : Hydro σ) (lib : Lib) (qd : QuadratureData) : Prop where
  cfl_nonneg : 0 ≤ H.cfl
  order_nonneg : 0 ≤ H.order
  h0_nonneg : 0 ≤ qd.h0
  sound_speed_nonneg : ∀ gamma rho e, 0 ≤ (H.eos gamma rho e).2
  singular_nonneg : ∀ n A i, 0 ≤ lib.CalcSingularvalue n A i
  norm_nonneg : ∀ n v, 0 ≤ lib.Norml2 n v

/-- The time-step candidate `cfl * (1.0 / inv_dt)` of the zone `z_id` at the point
`q`; `⊤` when it is `+∞` or NaN. -/
def candAt {σ : Type} (H : Hydro σ) (lib : Lib) (S : σ) (qd : QuadratureData)
    (z_id q : Nat) : WithTop ℚ :=
  dtCandidate H.cfl (invDt H lib S qd (JprAt H S z_id q)
    (rhoAt H lib S qd.rho0DetJ0w z_id q) (csAt H lib S qd.rho0DetJ0w z_id q) z_id q)

/-- The matrix `stressJiT` of the zone `z_id` at the point `q`. -/
def stressJiTOf {σ : Type} (H : Hydro σ) (lib : Lib) (S : σ) (qd : QuadratureData)
    (z_id q : Nat) : DenseMatrix :=
  stressJiTAt H lib S qd (JprAt H S z_id q) (rhoAt H lib S qd.rho0DetJ0w z_id q)
    (pAt H lib S qd.rho0DetJ0w z_id q) (csAt H lib S qd.rho0DetJ0w z_id q) z_id q

/-- The running value of `dt_est` over the zones `z0 .. z0 + n - 1`, the zone `z`
with the minimum determinant `m z` and the candidates `c z q`. -/
def dtZones (nqp : Nat) (m : Nat → WithTop ℚ) (c : Nat → Nat → WithTop ℚ) (z0 n : Nat)
    (dt : WithTop ℚ) : WithTop ℚ :=
  forLoop n (fun z dt =>
    forLoop nqp (fun q dt =>
      if m (z0 + z) < 0 then 0 else min dt (c (z0 + z) q)) dt) dt

/-- The calls of the operator that reach the quadrature data. -/
inductive Call (σ : Type) where
  | update (S : σ)
  | mult (S : σ)
  | estimate (S : σ) (others : List (WithTop ℚ))
  | reset

/-- The effect of one call on the quadrature data and its flag. -/
def Call.run {σ : Type} (H : Hydro σ) (lib : Lib) : Call σ → HydroState → HydroState
  | .update S, st => UpdateQuadratureData H lib S st
  | .mult S, st => MultQuadData H lib S st
  | .estimate S others, st => (GetTimeStepEstimate H lib S others st).1
  | .reset, st => ResetTimeStepEstimate st

/-- The effect of a sequence of calls, in order. -/
def runCalls {σ : Type} (H : Hydro σ) (lib : Lib) (calls : List (Call σ))
    (st : HydroState) : HydroState :=
  calls.foldl (fun st c => c.run H lib st) st

/-- The sum of `rho0DetJ0w` over the quadrature points of the zone `z`. -/
def zoneMass (nqp : Nat) (qd : QuadratureData) (z : Nat) : ℚ :=
  ∑ q in Finset.range nqp, qd.rho0DetJ0w (z * nqp + q)

/-- A library instance for two dimensions, exact on diagonal matrices. -/
def exLib : Lib where
  Det := fun _ A => A 0 0 * A 1 1 - A 0 1 * A 1 0
  CalcInverse := fun _ A i j =>
    (if i = j then A (1 - i) (1 - j) else -A i j) / (A 0 0 * A 1 1 - A 0 1 * A 1 0)
  CalcSingularvalue := fun _ A i =>
    if i = 0 then max |A 0 0| |A 1 1| else min |A 0 0| |A 1 1|
  CalcEigenvalues := fun _ A =>
    (fun i => if i = 0 then min (A 0 0) (A 1 1) else max (A 0 0) (A 1 1),
     fun i => if A 0 0 ≤ A 1 1 then (if i = 0 ∨ i = 3 then 1 else 0)
              else (if i = 1 ∨ i = 2 then 1 else 0))
  Norml2 := fun n v => ∑ i in Finset.range n, |v i|
  uninit := fun _ => 0
  uninitJpr := fun _ _ _ _ => 0

/-- A sample operator: four zones of two points in two dimensions, full assembly,
artificial viscosity on; the zone 1 is inverted. The state vector plays no role. -/
def exHydro : Hydro Unit where
  dim := 2
  nzones := 4
  nqp := 2
  order := 1
  cfl := 1 / 2
  cfl_nonneg := by norm_num
  use_viscosity := true
  p_assembly := false
  material_pcf := none
  weight := fun _ => 1 / 2
  eos := fun gamma rho e => ((gamma - 1) * rho * e, |e| / 3)
  T_Jacobian := fun _ z _ i j => if i = j then (if z = 1 ∧ i = 1 then -1 else 2) else 0
  GetVectorGrad_x := fun _ _ _ _ _ => 0
  GetVectorGrad_v := fun _ _ _ _ _ => 0
  GetL2Values := fun _ _ _ => 0
  e_GetValues := fun _ _ _ => 10
  v_GetVectorGradient := fun _ _ _ i j => if i = j then (if i = 0 then -1 else 1) else 0

/-- The sample operator without its inverted zone. -/
def exHydroGood : Hydro Unit :=
  { exHydro with T_Jacobian := fun _ _ _ i j => if i = j then 2 else 0 }

/-- Sample quadrature data, as left by the constructor. -/
def exQuadData : QuadratureData where
  Jac0inv := fun _ i j => if i = j then 1 / 2 else 0
  rho0DetJ0w := fun _ => 2
  stressJinvT := fun _ => 0
  h0 := 1
  dt_est := ⊤

/-- A sample operator state whose quadrature data is stale. -/
def exState : HydroState := ⟨exQuadData, false⟩

/-- An element-local vector: the value at the component `c`, the 1D dof indices
`dx dy dz` and the zone `z`. The energy space has the single component `c = 0`;
in two dimensions `dz = 0`. -/
abbrev LocalVec := Nat → Nat → Nat → Nat → Nat → ℚ

/-- The 1D contraction of a two-index array along its first axis with the table
`T`: the new first index `a` replaces the contracted index `d < n`. -/
def contractX (n : Nat) (T : Nat → Nat → ℚ) (u : Nat → Nat → ℚ) : Nat → Nat → ℚ :=
  fun a j => ∑ d in Finset.range n, T a d * u d j

/-- The 1D contraction of a two-index array along its second axis. -/
def contractY (n : Nat) (T : Nat → Nat → ℚ) (u : Nat → Nat → ℚ) : Nat → Nat → ℚ :=
  fun i b => ∑ d in Finset.range n, T b d * u i d

/-- The 1D contraction of a three-index array along its first axis. -/
def contractX3 (n : Nat) (T : Nat → Nat → ℚ) (u : Nat → Nat → Nat → ℚ) :
    Nat → Nat → Nat → ℚ :=
  fun a j k => ∑ d in Finset.range n, T a d * u d j k

/-- The 1D contraction of a three-index array along its second axis. -/
def contractY3 (n : Nat) (T : Nat → Nat → ℚ) (u : Nat → Nat → Nat → ℚ) :
    Nat → Nat → Nat → ℚ :=
  fun i b k => ∑ d in Finset.range n, T b d * u i d k

/-- The 1D contraction of a three-index array along its third axis. -/
def contractZ3 (n : Nat) (T : Nat → Nat → ℚ) (u : Nat → Nat → Nat → ℚ) :
    Nat → Nat → Nat → ℚ :=
  fun i j c => ∑ d in Finset.range n, T c d * u i j d

/-- Modelled from the spec: `rForceMult2D` is declared in `force.cpp` and defined in
a file that is missing. The energies of a zone are taken to the quadrature points
by 1D contractions along each axis, multiplied by `stressJinvT`, and contracted
with the 1D gradient table along one axis and the value table along the other. The
point `(qx, qy)` of the zone `z` is the row `z * Q^2 + qx + Q * qy` of `stressJinvT`. -/
def rForceMult2D (_NUM_DIM _NUM_DOFS_1D NUM_QUAD_1D L2_DOFS_1D _H1_DOFS_1D _nzones : Nat)
    (L2QuadToDof H1DofToQuad H1DofToQuadD : Nat → Nat → ℚ)
    (stressJinvT : Nat × Nat × Nat → ℚ) (e : LocalVec) : LocalVec :=
  fun c dx dy _ z =>
    let row := fun qx qy => z * (NUM_QUAD_1D * NUM_QUAD_1D) + (qx + NUM_QUAD_1D * qy)
    let eq := contractY L2_DOFS_1D L2QuadToDof
      (contractX L2_DOFS_1D L2QuadToDof (fun ex ey => e 0 ex ey 0 z))
    contractY NUM_QUAD_1D H1DofToQuad
        (contractX NUM_QUAD_1D H1DofToQuadD
          (fun qx qy => stressJinvT (c, row qx qy, 0) * eq qx qy)) dx dy +
      contractY NUM_QUAD_1D H1DofToQuadD
        (contractX NUM_QUAD_1D H1DofToQuad
          (fun qx qy => stressJinvT (c, row qx qy, 1) * eq qx qy)) dx dy

/-- Modelled from the spec: `rForceMultTranspose2D` is declared in `force.cpp` and
defined in a file that is missing. The velocity gradient of a zone is taken to the
quadrature points by 1D contractions, contracted with `stressJinvT` over the
components, and gathered onto the energy dofs with the plain value table. -/
def rForceMultTranspose2D
    (_NUM_DIM _NUM_DOFS_1D NUM_QUAD_1D _L2_DOFS_1D H1_DOFS_1D _nzones : Nat)
    (L2QuadToDof H1DofToQuad H1DofToQuadD : Nat → Nat → ℚ)
    (stressJinvT : Nat × Nat × Nat → ℚ) (v : LocalVec) : LocalVec :=
  fun _ ex ey _ z =>
    let row := fun qx qy => z * (NUM_QUAD_1D * NUM_QUAD_1D) + (qx + NUM_QUAD_1D * qy)
    let s : Nat → Nat → ℚ := fun qx qy =>
      ∑ c in Finset.range 2,
        (stressJinvT (c, row qx qy, 0) *
            contractX H1_DOFS_1D H1DofToQuadD
              (contractY H1_DOFS_1D H1DofToQuad (fun dx dy => v c dx dy 0 z)) qx qy +
          stressJinvT (c, row qx qy, 1) *
            contractX H1_DOFS_1D H1DofToQuad
              (contractY H1_DOFS_1D H1DofToQuadD (fun dx dy => v c dx dy 0 z)) qx qy)
    contractX NUM_QUAD_1D L2QuadToDof (contractY NUM_QUAD_1D L2QuadToDof s) ex ey

/-- Modelled from the spec: `rForceMult3D` is declared in `force.cpp` and defined in
a file that is missing; the three-dimensional analogue of `rForceMult2D`. The point
`(qx, qy, qz)` of the zone `z` is the row `z * Q^3 + qx + Q * (qy + Q * qz)`. -/
def rForceMult3D (_NUM_DIM _NUM_DOFS_1D NUM_QUAD_1D L2_DOFS_1D _H1_DOFS_1D _nzones : Nat)
    (L2QuadToDof H1DofToQuad H1DofToQuadD : Nat → Nat → ℚ)
    (stressJinvT : Nat × Nat × Nat → ℚ) (e : LocalVec) : LocalVec :=
  fun c dx dy dz z =>
    let row := fun qx qy qz =>
      z * (NUM_QUAD_1D * NUM_QUAD_1D * NUM_QUAD_1D) + (qx + NUM_QUAD_1D * (qy + NUM_QUAD_1D * qz))
    let eq := contractZ3 L2_DOFS_1D L2QuadToDof
      (contractY3 L2_DOFS_1D L2QuadToDof
        (contractX3 L2_DOFS_1D L2QuadToDof (fun ex ey ez => e 0 ex ey ez z)))
    contractZ3 NUM_QUAD_1D H1DofToQuad
        (contractY3 NUM_QUAD_1D H1DofToQuad
          (contractX3 NUM_QUAD_1D H1DofToQuadD
            (fun qx qy qz => stressJinvT (c, row qx qy qz, 0) * eq qx qy qz))) dx dy dz +
      contractZ3 NUM_QUAD_1D H1DofToQuad
        (contractY3 NUM_QUAD_1D H1DofToQuadD
          (contractX3 NUM_QUAD_1D H1DofToQuad
            (fun qx qy qz => stressJinvT (c, row qx qy qz, 1) * eq qx qy qz))) dx dy dz +
      contractZ3 NUM_QUAD_1D H1DofToQuadD
        (contractY3 NUM_QUAD_1D H1DofToQuad
          (contractX3 NUM_QUAD_1D H1DofToQuad
            (fun qx qy qz => stressJinvT (c, row qx qy qz, 2) * eq qx qy qz))) dx dy dz

/-- Modelled from the spec: `rForceMultTranspose3D` is declared in `force.cpp` and
defined in a file that is missing; the three-dimensional analogue of
`rForceMultTranspose2D`. -/
def rForceMultTranspose3D
    (_NUM_DIM _NUM_DOFS_1D NUM_QUAD_1D _L2_DOFS_1D H1_DOFS_1D _nzones : Nat)
    (L2QuadToDof H1DofToQuad H1DofToQuadD : Nat → Nat → ℚ)
    (stressJinvT : Nat × Nat × Nat → ℚ) (v : LocalVec) : LocalVec :=
  fun _ ex ey ez z =>
    let row := fun qx qy qz =>
      z * (NUM_QUAD_1D * NUM_QUAD_1D * NUM_QUAD_1D) + (qx + NUM_QUAD_1D * (qy + NUM_QUAD_1D * qz))
    let s : Nat → Nat → Nat → ℚ := fun qx qy qz =>
      ∑ c in Finset.range 3,
        (stressJinvT (c, row qx qy qz, 0) *
            contractX3 H1_DOFS_1D H1DofToQuadD
              (contractY3 H1_DOFS_1D H1DofToQuad
                (contractZ3 H1_DOFS_1D H1DofToQuad
                  (fun dx dy dz => v c dx dy dz z))) qx qy qz +
          stressJinvT (c, row qx qy qz, 1) *
            contractX3 H1_DOFS_1D H1DofToQuad
              (contractY3 H1_DOFS_1D H1DofToQuadD
                (contractZ3 H1_DOFS_1D H1DofToQuad
                  (fun dx dy dz => v c dx dy dz z))) qx qy qz +
          stressJinvT (c, row qx qy qz, 2) *
            contractX3 H1_DOFS_1D H1DofToQuad
              (contractY3 H1_DOFS_1D H1DofToQuad
                (contractZ3 H1_DOFS_1D H1DofToQuadD
                  (fun dx dy dz => v c dx dy dz z))) qx qy qz)
    contractX3 NUM_QUAD_1D L2QuadToDof
      (contractY3 NUM_QUAD_1D L2QuadToDof (contractZ3 NUM_QUAD_1D L2QuadToDof s)) ex ey ez

/-- `rForceMult` (`force.cpp`, lines 37-80): the 2D kernel for `NUM_DIM = 2`, the 3D
kernel for `NUM_DIM = 3`; `none` stands for the `exit` of line 78. -/
def rForceMult (NUM_DIM NUM_DOFS_1D NUM_QUAD_1D L2_DOFS_1D H1_DOFS_1D nzones : Nat)
    (L2QuadToDof H1DofToQuad H1DofToQuadD : Nat → Nat → ℚ)
    (stressJinvT : Nat × Nat × Nat → ℚ) (e : LocalVec) (v : LocalVec) : Option LocalVec :=
  let v := if NUM_DIM = 2 then
      rForceMult2D NUM_DIM NUM_DOFS_1D NUM_QUAD_1D L2_DOFS_1D H1_DOFS_1D nzones
        L2QuadToDof H1DofToQuad H1DofToQuadD stressJinvT e
    else v
  let v := if NUM_DIM = 3 then
      rForceMult3D NUM_DIM NUM_DOFS_1D NUM_QUAD_1D L2_DOFS_1D H1_DOFS_1D nzones
        L2QuadToDof H1DofToQuad H1DofToQuadD stressJinvT e
    else v
  if NUM_DIM ≠ 2 ∧ NUM_DIM ≠ 3 then none else some v

/-- `rForceMultTranspose` (`force.cpp`, lines 83-126). -/
def rForceMultTranspose (NUM_DIM NUM_DOFS_1D NUM_QUAD_1D L2_DOFS_1D H1_DOFS_1D nzones : Nat)
    (L2QuadToDof H1DofToQuad H1DofToQuadD : Nat → Nat → ℚ)
    (stressJinvT : Nat × Nat × Nat → ℚ) (v : LocalVec) (e : LocalVec) : Option LocalVec :=
  let e := if NUM_DIM = 2 then
      rForceMultTranspose2D NUM_DIM NUM_DOFS_1D NUM_QUAD_1D L2_DOFS_1D H1_DOFS_1D nzones
        L2QuadToDof H1DofToQuad H1DofToQuadD stressJinvT v
    else e
  let e := if NUM_DIM = 3 then
      rForceMultTranspose3D NUM_DIM NUM_DOFS_1D NUM_QUAD_1D L2_DOFS_1D H1_DOFS_1D nzones
        L2QuadToDof H1DofToQuad H1DofToQuadD stressJinvT v
    else e
  if NUM_DIM ≠ 2 ∧ NUM_DIM ≠ 3 then none else some e

/-- The tables of a cached dof-quadrature map: `dofToQuad` and `dofToQuadD` are
addressed `(q, d)`, `quadToDof` and `quadToDofD` are addressed `(d, q)`. -/
structure DofQuadMaps where
  dofToQuad : Nat → Nat → ℚ
  dofToQuadD : Nat → Nat → ℚ
  quadToDof : Nat → Nat → ℚ
  quadToDofD : Nat → Nat → ℚ

/-- The `quadToDof` tables hold the entries of the `dofToQuad` tables with the two
indices exchanged. -/
def DofQuadMaps.Transposed (m : DofQuadMaps) : Prop :=
  ∀ q d, m.quadToDof d q = m.dofToQuad q d ∧ m.quadToDofD d q = m.dofToQuadD q d

/-- The members of `kForcePAOperator` read by `Mult` and `MultTranspose`. The dof
lists of the two spaces give the global index of each element-local entry. -/
structure kForcePAOperator where
  dim : Nat
  nzones : Nat
  NUM_DOFS_1D : Nat
  NUM_QUAD_1D : Nat
  L2_DOFS_1D : Nat
  H1_DOFS_1D : Nat
  l2D2Q : DofQuadMaps
  h1D2Q : DofQuadMaps
  /-- The dof list of `l2k`: the global index of the entry `(c, dx, dy, dz, z)` -/
  l2dofs : Nat → Nat → Nat → Nat → Nat → Nat
  /-- The dof list of `h1k` -/
  h1dofs : Nat → Nat → Nat → Nat → Nat → Nat
  /-- The size of the energy-space vectors -/
  VsizeL2 : Nat
  /-- The size of the velocity-space vectors -/
  VsizeH1 : Nat

/-- The sum over the element-local entries of a space with `vdim` components and
`D` dofs per axis: `dz` ranges over `D` in three dimensions and is `0` otherwise. -/
def localSum (dim vdim D nzones : Nat) (f : Nat → Nat → Nat → Nat → Nat → ℚ) : ℚ :=
  ∑ z in Finset.range nzones, ∑ c in Finset.range vdim,
    ∑ dx in Finset.range D, ∑ dy in Finset.range D,
      ∑ dz in Finset.range (if dim = 3 then D else 1), f c dx dy dz z

/-- Modelled from the spec: `kFiniteElementSpace::GlobalToLocal` is not part of the
sources; the element-local entries are read from the vector through the dof lists. -/
def GlobalToLocal (dofs : Nat → Nat → Nat → Nat → Nat → Nat) (g : Buf) : LocalVec :=
  fun c dx dy dz z => g (dofs c dx dy dz z)

/-- Modelled from the spec: `kFiniteElementSpace::LocalToGlobal` is not part of the
sources; each entry of the vector is the sum of the element-local entries that the
dof lists map to it. -/
def LocalToGlobal (dim vdim D nzones : Nat) (dofs : Nat → Nat → Nat → Nat → Nat → Nat)
    (l : LocalVec) : Buf :=
  fun j => localSum dim vdim D nzones
    (fun c dx dy dz z => if dofs c dx dy dz z = j then l c dx dy dz z else 0)

/-- `kForcePAOperator::Mult`: the device copy of `stressJinvT` it makes and the
velocity-space result; `gVecH1` is the previous content of the work vector. -/
def kForcePAOperator.Mult (op : kForcePAOperator) (stressJinvT : Nat × Nat × Nat → ℚ)
    (gVecH1 : LocalVec) (vecL2 : Buf) : Option ((Nat × Nat × Nat → ℚ) × Buf) :=
  let rgVecL2 := GlobalToLocal op.l2dofs vecL2
  let d_stressJinvT := stressJinvT
  match rForceMult op.dim op.NUM_DOFS_1D op.NUM_QUAD_1D op.L2_DOFS_1D op.H1_DOFS_1D
      op.nzones op.l2D2Q.dofToQuad op.h1D2Q.quadToDof op.h1D2Q.quadToDofD
      d_stressJinvT rgVecL2 gVecH1 with
  | none => none
  | some rgVecH1 =>
    some (d_stressJinvT,
      LocalToGlobal op.dim op.dim op.H1_DOFS_1D op.nzones op.h1dofs rgVecH1)

/-- `kForcePAOperator::MultTranspose`, from the device copy of `stressJinvT`;
`gVecL2` is the previous content of the work vector. -/
def kForcePAOperator.MultTranspose (op : kForcePAOperator)
    (d_stressJinvT : Nat × Nat × Nat → ℚ) (gVecL2 : LocalVec) (vecH1 : Buf) :
    Option Buf :=
  let rgVecH1 := GlobalToLocal op.h1dofs vecH1
  match rForceMultTranspose op.dim op.NUM_DOFS_1D op.NUM_QUAD_1D op.L2_DOFS_1D
      op.H1_DOFS_1D op.nzones op.l2D2Q.quadToDof op.h1D2Q.dofToQuad op.h1D2Q.dofToQuadD
      d_stressJinvT rgVecH1 gVecL2 with
  | none => none
  | some rgVecL2 =>
    some (LocalToGlobal op.dim 1 op.L2_DOFS_1D op.nzones op.l2dofs rgVecL2)

/-- The inner product of two vectors of size `n`. -/
def dot (n : Nat) (u w : Buf) : ℚ :=
  ∑ i in Finset.range n, u i * w i

/-- The dof lists map the element-local entries inside the vectors. -/
def kForcePAOperator.DofsInRange (op : kForcePAOperator) : Prop :=
  (∀ dx dy dz z, dx < op.L2_DOFS_1D → dy < op.L2_DOFS_1D →
    dz < (if op.dim = 3 then op.L2_DOFS_1D else 1) → z < op.nzones →
    op.l2dofs 0 dx dy dz z < op.VsizeL2) ∧
  (∀ c dx dy dz z, c < op.dim → dx < op.H1_DOFS_1D → dy < op.H1_DOFS_1D →
    dz < (if op.dim = 3 then op.H1_DOFS_1D else 1) → z < op.nzones →
    op.h1dofs c dx dy dz z < op.VsizeH1)

/-- A sample operator in two dimensions: two zones side by side, two quadrature
points and two velocity dofs per axis, one energy dof per zone. -/
def exForce : kForcePAOperator where
  dim := 2
  nzones := 2
  NUM_DOFS_1D := 2
  NUM_QUAD_1D := 2
  L2_DOFS_1D := 1
  H1_DOFS_1D := 2
  l2D2Q := ⟨fun _ _ => 1, fun _ _ => 0, fun _ _ => 1, fun _ _ => 0⟩
  h1D2Q := ⟨fun q d => if q = d then 3 / 4 else 1 / 4, fun _ d => if d = 0 then -1 else 1,
            fun d q => if q = d then 3 / 4 else 1 / 4, fun d _ => if d = 0 then -1 else 1⟩
  l2dofs := fun _ _ _ _ z => z
  h1dofs := fun c dx dy _ z => 6 * c + (dx + z) + 3 * dy
  VsizeL2 := 2
  VsizeH1 := 12

/-- The sample operator in three dimensions, with one zone. -/
def exForce3 : kForcePAOperator :=
  { exForce with
    dim := 3
    nzones := 1
    l2dofs := fun _ _ _ _ _ => 0
    h1dofs := fun c dx dy dz _ => 8 * c + dx + 2 * dy + 4 * dz
    VsizeL2 := 1
    VsizeH1 := 24 }

/-- The inner product of two two-index arrays of sizes `A × B`. -/
def ip2 (A B : Nat) (u w : Nat → Nat → ℚ) : ℚ :=
  ∑ i in Finset.range A, ∑ j in Finset.range B, u i j * w i j

/-- The inner product of two three-index arrays of sizes `A × B × C`. -/
def ip3 (A B C : Nat) (u w : Nat → Nat → Nat → ℚ) : ℚ :=
  ∑ i in Finset.range A, ∑ j in Finset.range B, ∑ k in Finset.range C, u i j k * w i j k

/-! ## Construction of the operator (`laghos_solver.cpp`, lines 77-295) -/

/-- The zone shapes named by the `switch` of the constructor (source lines 227-240);
`OTHER` stands for every other value of `Geometry::Type`. -/
inductive Geometry where
  | SEGMENT
  | SQUARE
  | TRIANGLE
  | CUBE
  | TETRAHEDRON
  | OTHER
  deriving DecidableEq

/-- The collaborators the constructor reads on the initial mesh, and the two
`libm` functions it calls. -/
structure InitialMesh where
  /-- `rho0.GetValues (i, integ_rule, rho_vals)`: the entry `rho_vals (q)` for zone `i` -/
  rho0_GetValues : Nat → Nat → ℚ
  /-- `T->Jacobian ()` at (zone, point) -/
  T_Jacobian : Nat → Nat → DenseMatrix
  /-- `T->Weight ()` at (zone, point) -/
  T_Weight : Nat → Nat → ℚ
  /-- `DenseMatrixInverse (A).GetInverseMatrix (Ainv)` -/
  GetInverseMatrix : DenseMatrix → DenseMatrix
  /-- `pm->GetElementVolume (i)` -/
  GetElementVolume : Nat → ℚ
  /-- `pm->GetElementBaseGeometry (0)` -/
  GetElementBaseGeometry : Geometry
  /-- `sqrt` -/
  sqrt : ℚ → ℚ
  /-- `pow` -/
  pow : ℚ → ℚ → ℚ

/-- The loop over the zones and the quadrature points that fills `Jac0inv` and
`rho0DetJ0w` (source lines 178-196). -/
def initReferenceData {σ : Type} (H : Hydro σ) (M : InitialMesh) (qd : QuadratureData) :
    QuadratureData :=
  forLoop H.nzones (fun i qd =>
    let rho_vals := M.rho0_GetValues i
    forLoop H.nqp (fun q qd =>
      let rho0DetJ0 := M.T_Weight i q * rho_vals q
      { qd with
        Jac0inv := Function.update qd.Jac0inv (i * H.nqp + q)
          (M.GetInverseMatrix (M.T_Jacobian i q))
        rho0DetJ0w := Function.update qd.rho0DetJ0w (i * H.nqp + q)
          (rho0DetJ0 * H.weight q) }) qd) qd

/-- The local sum `loc_area` of the zone volumes (source line 223). -/
def locArea {σ : Type} (H : Hydro σ) (M : InitialMesh) : ℚ :=
  forLoop H.nzones (fun i loc_area => loc_area + M.GetElementVolume i) 0

/-- The initial mesh size `h0` (source lines 219-241); `others` are the pairs
(`loc_area`, `loc_z_cnt`) of the other ranks, summed by `MPI_Allreduce`. `none`
stands for `MFEM_ABORT`. -/
def initialMeshSize {σ : Type} (H : Hydro σ) (M : InitialMesh) (others : List (ℚ × Nat)) :
    Option ℚ :=
  let loc_area := locArea H M
  let loc_z_cnt := H.nzones
  let glob_area := others.foldl (fun a o => a + o.1) loc_area
  let glob_z_cnt := others.foldl (fun n o => n + o.2) loc_z_cnt
  let h0 : Option ℚ :=
    match M.GetElementBaseGeometry with
    | .SEGMENT => some (glob_area / glob_z_cnt)
    | .SQUARE => some (M.sqrt (glob_area / glob_z_cnt))
    | .TRIANGLE => some (M.sqrt (2 * glob_area / glob_z_cnt))
    | .CUBE => some (M.pow (glob_area / glob_z_cnt) (1 / 3))
    | .TETRAHEDRON => some (M.pow (6 * glob_area / glob_z_cnt) (1 / 3))
    | .OTHER => none
  match h0 with
  | none => none
  | some h0 => some (h0 / H.order)

/-- The effect of the constructor `LagrangianHydroOperator::LagrangianHydroOperator`
on the quadrature data and its flag; `qd` is the freshly allocated record. `none`
stands for `MFEM_ABORT`. -/
def LagrangianHydroOperator {σ : Type} (H : Hydro σ) (M : InitialMesh)
    (others : List (ℚ × Nat)) (qd : QuadratureData) : Option HydroState :=
  let quad_data_is_current := false
  let qd := initReferenceData H M qd
  match initialMeshSize H M others with
  | none => none
  | some h0 => some { quad_data := { qd with h0 := h0 }
                      quad_data_is_current := quad_data_is_current }

/-- The global mesh volume `V`: the zone volumes of this rank and of the others. -/
def globalVolume {σ : Type} (H : Hydro σ) (M : InitialMesh) (others : List (ℚ × Nat)) : ℚ :=
  (∑ i in Finset.range H.nzones, M.GetElementVolume i) + (others.map Prod.fst).sum

/-- The global zone count `N`. -/
def globalZoneCount {σ : Type} (H : Hydro σ) (others : List (ℚ × Nat)) : Nat :=
  H.nzones + (others.map Prod.snd).sum

/-! ## The time derivative (`LagrangianHydroOperator::Mult`, lines 296-518) -/

/-- The collaborators of `Mult` that produce the velocity and energy blocks: the
linear solves are not part of the sources. -/
structure MultEnv (σ : Type) where
  /-- The entries of the state vector `S` -/
  data : σ → Buf
  /-- `dS_dt.Size ()` -/
  size : Nat
  VsizeH1 : Nat
  l2dofs_cnt : Nat
  /-- `engine` is not `NULL` -/
  engine : Bool
  /-- `H1compFESpace.GetVSize ()` -/
  size_c : Nat
  /-- The vector `dv` after `RecoverFEMSolution` (partial assembly, no engine) -/
  dv_pa : σ → QuadratureData → Buf
  /-- The vector `dv_c` after the solve for the component `c` (engine) -/
  dv_c : σ → QuadratureData → Nat → Buf
  /-- The vector `dv` after `Mv.RecoverFEMSolution` (full assembly) -/
  dv_full : σ → QuadratureData → Buf
  /-- `L2FESpace.GetElementDofs (z, l2dofs)` -/
  l2dofs : Nat → Nat → Nat
  /-- The vector `loc_de` of the zone `z` after the local solve -/
  loc_de : σ → QuadratureData → Nat → Buf

/-- The assignment of the vector `src` of size `n` to the block of `dst` that
starts at `off`. -/
def assignBlock (dst : Buf) (off n : Nat) (src : Buf) : Buf :=
  forLoop n (fun i dst => Function.update dst (off + i) (src i)) dst

/-- The velocity block `dv` of `dS_dt` after the velocity solve (source lines
340-444). -/
def solveVelocity {σ : Type} (H : Hydro σ) (E : MultEnv σ) (S : σ) (qd : QuadratureData)
    (dS_dt : Buf) : Buf :=
  if H.p_assembly then
    if !E.engine then assignBlock dS_dt E.VsizeH1 E.VsizeH1 (E.dv_pa S qd)
    else
      forLoop H.dim (fun c dS_dt =>
        assignBlock dS_dt (E.VsizeH1 + c * E.size_c) E.size_c (E.dv_c S qd c)) dS_dt
  else assignBlock dS_dt E.VsizeH1 E.VsizeH1 (E.dv_full S qd)

/-- The energy block `de` of `dS_dt` after the zone loop (source lines 472-507):
`de.SetSubVector (l2dofs, loc_de)` for every zone, in both assembly modes. -/
def solveEnergy {σ : Type} (H : Hydro σ) (E : MultEnv σ) (S : σ) (qd : QuadratureData)
    (dS_dt : Buf) : Buf :=
  forLoop H.nzones (fun z dS_dt =>
    forLoop E.l2dofs_cnt (fun k dS_dt =>
      Function.update dS_dt (E.VsizeH1 * 2 + E.l2dofs z k) (E.loc_de S qd z k)) dS_dt) dS_dt

/-- `LagrangianHydroOperator::Mult`: the vector `dS_dt` and the quadrature data with
its flag. -/
def LagrangianHydroOperator.Mult {σ : Type} (H : Hydro σ) (lib : Lib) (E : MultEnv σ)
    (S : σ) (dS_dt : Buf) (st : HydroState) : Buf × HydroState :=
  let dS_dt : Buf := fun i => if i < E.size then 0 else dS_dt i
  let st := UpdateQuadratureData H lib S st
  let v : Buf := fun i => E.data S (E.VsizeH1 + i)
  let dS_dt := assignBlock dS_dt 0 E.VsizeH1 v
  let dS_dt := solveVelocity H E S st.quad_data dS_dt
  let dS_dt := solveEnergy H E S st.quad_data dS_dt
  (dS_dt, { st with quad_data_is_current := false })

/-! ### Sample data -/

/-- A sample initial mesh: squares of side 2 (volume 4), density `3 + z + q`. The
square root is exact on the squares of rationals; `pow` is exact on the bases 0
and 1. -/
def exMesh : InitialMesh where
  rho0_GetValues := fun z q => 3 + z + q
  T_Jacobian := fun _ _ i j => if i = j then 2 else 0
  T_Weight := fun _ _ => 4
  GetInverseMatrix := fun A i j => if i = j then 1 / A i j else 0
  GetElementVolume := fun _ => 4
  GetElementBaseGeometry := Geometry.SQUARE
  sqrt := fun x => (Nat.sqrt x.num.toNat : ℚ) / (Nat.sqrt x.den : ℚ)
  pow := fun x _ => x

/-- The sample operator on elements of order 2. -/
def exHydroP2 : Hydro Unit :=
  { exHydroGood with order := 2 }

/-- A sample operator whose state is a scale factor `s` of the mesh: the Jacobian
is `s` times the identity. -/
def exHydroS : Hydro ℚ :=
  { dim := 2
    nzones := 4
    nqp := 2
    order := 1
    cfl := 1 / 2
    cfl_nonneg := by norm_num
    use_viscosity := false
    p_assembly := false
    material_pcf := none
    weight := fun _ => 1 / 2
    eos := fun gamma rho e => ((gamma - 1) * rho * e, |e| / 3)
    T_Jacobian := fun s _ _ i j => if i = j then s else 0
    GetVectorGrad_x := fun _ _ _ _ _ => 0
    GetVectorGrad_v := fun _ _ _ _ _ => 0
    GetL2Values := fun _ _ _ => 0
    e_GetValues := fun _ _ _ => 10
    v_GetVectorGradient := fun _ _ _ _ _ => 0 }

/-- A sample `Mult` environment: three velocity dofs per component, four zones of
one energy dof. -/
def exMultEnv : MultEnv ℚ where
  data := fun s i => s + i
  size := 16
  VsizeH1 := 6
  l2dofs_cnt := 1
  engine := true
  size_c := 3
  dv_pa := fun _ _ _ => 7
  dv_c := fun _ _ c _ => 8 + c
  dv_full := fun _ _ _ => 9
  l2dofs := fun z _ => z
  loc_de := fun _ _ _ _ => 5


/-! ### The 1D point count of `Tensors1D` -/

/-- The 1D point count that the constructor passes to `Tensors1D` (source lines
258-260): `int (floor (0.7 + pow (nqp, 1.0 / dim)))`, with the library `pow` as
a parameter. -/
def tensors1DPoints (pow : ℚ → ℚ → ℚ) (nqp dim : Nat) : Int :=
  ⌊(7 / 10 : ℚ) + pow nqp (1 / dim)⌋

/-- A sample `pow` with a rounding error: the cube root of 27 is returned as
`2.999999`, every other call returns its base. -/
def exPowRounded : ℚ → ℚ → ℚ :=
  fun x y => if x = 27 ∧ y = 1 / 3 then 2999999 / 1000000 else x
/-! ## Dof-to-quadrature maps (`qupdate/dof2quad.cpp`) -/

/-- An `IntegrationPoint`: the coordinate `x` and the weight. -/
structure IntegrationPoint where
  x : ℚ
  weight : ℚ

/-- The members of an `IntegrationRule` that the maps read. -/
structure IntegrationRule where
  GetNPoints : Nat
  GetOrder : Nat
  IntPoint : Nat → IntegrationPoint

/-- The members of a `TensorBasisElement` that the maps read. -/
structure TensorBasisElement where
  GetBasisType : Nat
  /-- `GetBasis1D ().Eval (x, u, d)`: the values and the derivatives it stores -/
  Eval : ℚ → Buf × Buf

/-- The members of a `FiniteElement` that the maps read. -/
structure FiniteElement where
  GetOrder : Nat
  GetDim : Nat
  GetDof : Nat
  /-- The result of `dynamic_cast<const TensorBasisElement&>`; `none` when it throws -/
  tensor : Option TensorBasisElement
  CalcShape : IntegrationPoint → Buf
  /-- `CalcDShape (ip, d2qD)`, addressed `(dof, dim)` -/
  CalcDShape : IntegrationPoint → DenseMatrix

/-- A `qarray<double>`: its storage and the strides `dim ()`. The class is not part
of the sources; an assignment from an array copies the content and keeps the
strides, an assignment from a `qarray` copies both. -/
structure qarray where
  data : Buf
  dim : Nat → Nat

/-- The fields of a `qDofQuadMaps` object. -/
structure qDofQuadMaps where
  hash : String
  dofToQuad : qarray
  dofToQuadD : qarray
  quadToDof : qarray
  quadToDofD : qarray
  quadWeights : qarray

/-- Library parts used by the maps whose code is not part of the sources. -/
structure MapsEnv where
  /-- `IntRules.Get (Geometry::SEGMENT, order)` -/
  IntRules_Get_SEGMENT : Nat → IntegrationRule
  /-- The strides set by `qarray::allocate (X, Y, Z, D, transposed)` -/
  allocate : Nat → Nat → Nat → Nat → Bool → Nat → Nat
  /-- The content of freshly allocated `double` storage -/
  uninit : Buf
  /-- A default-constructed `qarray` -/
  empty : qarray

/-- The static registry `AllDofQuadMaps` together with the objects created by
`new qDofQuadMaps ()`: a pointer is the index of its object. -/
structure Registry where
  AllDofQuadMaps : String → Option Nat
  objects : Nat → qDofQuadMaps
  count : Nat

/-- The allocation `new qDofQuadMaps ()`: the pointer and the new heap. -/
def Registry.new (E : MapsEnv) (reg : Registry) : Nat × Registry :=
  (reg.count,
   { reg with
     objects := Function.update reg.objects reg.count
       ⟨"", E.empty, E.empty, E.empty, E.empty, E.empty⟩
     count := reg.count + 1 })

/-- The assignment `AllDofQuadMaps[hash] = maps`. -/
def Registry.insert (reg : Registry) (hash : String) (maps : Nat) : Registry :=
  { reg with AllDofQuadMaps := Function.update reg.AllDofQuadMaps hash (some maps) }

/-- A store through the pointer `maps`. -/
def Registry.modify (reg : Registry) (maps : Nat) (f : qDofQuadMaps → qDofQuadMaps) :
    Registry :=
  { reg with objects := Function.update reg.objects maps (f (reg.objects maps)) }

/-- The call `a.allocate (X, Y, Z, D, transposed)`. -/
def qarray.allocate (E : MapsEnv) (X Y Z D : Nat) (transposed : Bool) : qarray :=
  { data := E.uninit, dim := E.allocate X Y Z D transposed }

/-- The key written by the `stringstream` of `GetD2QTensorMaps` (lines 131-137). -/
def D2QTensorMapHash (order dofs dims quadPoints : Nat) (transpose : Bool) : String :=
  "D2QTensorMap:" ++ " order:" ++ toString order ++ " dofs:" ++ toString dofs
    ++ " dims:" ++ toString dims ++ " quadPoints:" ++ toString quadPoints
    ++ " transpose:" ++ (if transpose then "T" else "F")

/-- The variables of the loop over the 1D points of `GetD2QTensorMaps`. -/
structure D2QLoop where
  quadWeights1DData : Buf
  dofToQuad : Buf
  dofToQuadD : Buf

/-- The loop over the 1D points and the dofs of `GetD2QTensorMaps` (lines 161-173);
`d0` and `d1` are the strides `maps->dofToQuad.dim ()[0]` and `[1]`. -/
def d2qTensorLoop (tfe : TensorBasisElement) (ir1D : IntegrationRule)
    (quadPoints dofs : Nat) (transpose : Bool) (d0 d1 : Nat) (s : D2QLoop) : D2QLoop :=
  forLoop quadPoints (fun q s =>
    let ip := ir1D.IntPoint q
    let d2q := (tfe.Eval ip.x).1
    let d2qD := (tfe.Eval ip.x).2
    let s := if transpose then
        { s with quadWeights1DData := Function.update s.quadWeights1DData q ip.weight }
      else s
    forLoop dofs (fun d s =>
      { s with
        dofToQuad := Function.update s.dofToQuad (d0 * q + d1 * d) (d2q d)
        dofToQuadD := Function.update s.dofToQuadD (d0 * q + d1 * d) (d2qD d) }) s) s

/-- The loop over the points that fills `quadWeights` (lines 179-194). -/
def d2qTensorWeights (dims quadPoints quadPointsND : Nat) (quadWeights1DData : Buf)
    (quadWeights : Buf) : Buf :=
  let quadPoints2D := quadPoints * quadPoints
  forLoop quadPointsND (fun q quadWeights =>
    let qx := q % quadPoints
    let qz := q / quadPoints2D
    let qy := (q - qz * quadPoints2D) / quadPoints
    let w := quadWeights1DData qx
    let w := if dims > 1 then w * quadWeights1DData qy else w
    let w := if dims > 2 then w * quadWeights1DData qz else w
    Function.update quadWeights q w) quadWeights

/-- `qDofQuadMaps::GetD2QTensorMaps`: the pointer returned and the registry after
the call; `none` when the `dynamic_cast` throws. -/
def GetD2QTensorMaps (E : MapsEnv) (fe : FiniteElement) (ir : IntegrationRule)
    (transpose : Bool) (reg : Registry) : Option (Nat × Registry) :=
  match fe.tensor with
  | none => none
  | some tfe =>
    let order := fe.GetOrder
    let dofs := order + 1
    let dims := fe.GetDim
    let ir1D := E.IntRules_Get_SEGMENT ir.GetOrder
    let quadPoints := ir1D.GetNPoints
    let quadPoints2D := quadPoints * quadPoints
    let quadPoints3D := quadPoints2D * quadPoints
    let quadPointsND :=
      if dims = 1 then quadPoints else if dims = 2 then quadPoints2D else quadPoints3D
    let hash := D2QTensorMapHash order dofs dims quadPoints transpose
    match reg.AllDofQuadMaps hash with
    | some maps => some (maps, reg)
    | none =>
      let (maps, reg) := reg.new E
      let reg := reg.insert hash maps
      let reg := reg.modify maps (fun m => { m with hash := hash })
      let reg := reg.modify maps (fun m =>
        { m with dofToQuad := qarray.allocate E quadPoints dofs 1 1 transpose })
      let reg := reg.modify maps (fun m =>
        { m with dofToQuadD := qarray.allocate E quadPoints dofs 1 1 transpose })
      let reg := if transpose then
          reg.modify maps (fun m =>
            { m with quadWeights := qarray.allocate E quadPointsND 1 1 1 false })
        else reg
      let s := d2qTensorLoop tfe ir1D quadPoints dofs transpose
        ((reg.objects maps).dofToQuad.dim 0) ((reg.objects maps).dofToQuad.dim 1)
        ⟨E.uninit, E.uninit, E.uninit⟩
      let reg := reg.modify maps (fun m =>
        { m with dofToQuad := { m.dofToQuad with data := s.dofToQuad } })
      let reg := reg.modify maps (fun m =>
        { m with dofToQuadD := { m.dofToQuadD with data := s.dofToQuadD } })
      let reg := if transpose then
          let quadWeights :=
            d2qTensorWeights dims quadPoints quadPointsND s.quadWeights1DData E.uninit
          reg.modify maps (fun m =>
            { m with quadWeights := { m.quadWeights with data := quadWeights } })
        else reg
      some (maps, reg)

/-- The key written by the `stringstream` of `GetTensorMaps` (lines 83-89). -/
def TensorMapHash (O1 O2 BT1 BT2 Q : Nat) : String :=
  "TensorMap:" ++ " O1:" ++ toString O1 ++ " O2:" ++ toString O2
    ++ " BT1:" ++ toString BT1 ++ " BT2:" ++ toString BT2 ++ " Q:" ++ toString Q

/-- `qDofQuadMaps::GetTensorMaps`; the argument `transpose` is not used by the
source. `none` when a `dynamic_cast` throws. -/
def GetTensorMaps (E : MapsEnv) (trialFE testFE : FiniteElement) (ir : IntegrationRule)
    (_transpose : Bool) (reg : Registry) : Option (Nat × Registry) :=
  match trialFE.tensor, testFE.tensor with
  | some trialTFE, some testTFE =>
    let hash := TensorMapHash trialFE.GetOrder testFE.GetOrder trialTFE.GetBasisType
      testTFE.GetBasisType ir.GetNPoints
    match reg.AllDofQuadMaps hash with
    | some maps => some (maps, reg)
    | none =>
      let (maps, reg) := reg.new E
      let reg := reg.insert hash maps
      let reg := reg.modify maps (fun m => { m with hash := hash })
      match GetD2QTensorMaps E trialFE ir false reg with
      | none => none
      | some (trialMaps, reg) =>
        match GetD2QTensorMaps E testFE ir true reg with
        | none => none
        | some (testMaps, reg) =>
          let reg := reg.modify maps (fun m =>
            { m with dofToQuad := (reg.objects trialMaps).dofToQuad })
          let reg := reg.modify maps (fun m =>
            { m with dofToQuadD := (reg.objects trialMaps).dofToQuadD })
          let reg := reg.modify maps (fun m =>
            { m with quadToDof := (reg.objects testMaps).dofToQuad })
          let reg := reg.modify maps (fun m =>
            { m with quadToDofD := (reg.objects testMaps).dofToQuadD })
          let reg := reg.modify maps (fun m =>
            { m with quadWeights := (reg.objects testMaps).quadWeights })
          some (maps, reg)
  | _, _ => none

/-- The key written by the `stringstream` of `GetD2QSimplexMaps` (lines 242-247). -/
def D2QSimplexMapHash (dims numDofs numQuad : Nat) (transpose : Bool) : String :=
  "D2QSimplexMap:" ++ " Dim:" ++ toString dims ++ " numDofs:" ++ toString numDofs
    ++ " numQuad:" ++ toString numQuad ++ " transpose:" ++ (if transpose then "T" else "F")

/-- The variables of the loop over the points of `GetD2QSimplexMaps`. -/
structure SimplexLoop where
  quadWeights : Buf
  dofToQuad : Buf
  dofToQuadD : Buf

/-- The loop over the points, the dofs and the dimensions of `GetD2QSimplexMaps`
(lines 270-292); `a0 a1` are the strides of `maps->dofToQuad` and `b0 b1 b2` those
of `maps->dofToQuadD`. -/
def d2qSimplexLoop (fe : FiniteElement) (ir : IntegrationRule) (dims numDofs numQuad : Nat)
    (transpose : Bool) (a0 a1 b0 b1 b2 : Nat) (s : SimplexLoop) : SimplexLoop :=
  forLoop numQuad (fun q s =>
    let ip := ir.IntPoint q
    let s := if transpose then
        { s with quadWeights := Function.update s.quadWeights q ip.weight }
      else s
    let d2q := fe.CalcShape ip
    let d2qD := fe.CalcDShape ip
    forLoop numDofs (fun d s =>
      let w := d2q d
      let s := { s with dofToQuad := Function.update s.dofToQuad (a0 * q + a1 * d) w }
      forLoop dims (fun dim s =>
        let wD := d2qD d dim
        { s with
          dofToQuadD := Function.update s.dofToQuadD (b0 * dim + b1 * q + b2 * d) wD }) s)
      s) s

/-- `qDofQuadMaps::GetD2QSimplexMaps`. -/
def GetD2QSimplexMaps (E : MapsEnv) (fe : FiniteElement) (ir : IntegrationRule)
    (transpose : Bool) (reg : Registry) : Nat × Registry :=
  let dims := fe.GetDim
  let numDofs := fe.GetDof
  let numQuad := ir.GetNPoints
  let hash := D2QSimplexMapHash dims numDofs numQuad transpose
  match reg.AllDofQuadMaps hash with
  | some maps => (maps, reg)
  | none =>
    let (maps, reg) := reg.new E
    let reg := reg.insert hash maps
    let reg := reg.modify maps (fun m => { m with hash := hash })
    let reg := reg.modify maps (fun m =>
      { m with dofToQuad := qarray.allocate E numQuad numDofs 1 1 transpose })
    let reg := reg.modify maps (fun m =>
      { m with dofToQuadD := qarray.allocate E dims numQuad numDofs 1 transpose })
    let reg := if transpose then
        reg.modify maps (fun m =>
          { m with quadWeights := qarray.allocate E numQuad 1 1 1 false })
      else reg
    let s := d2qSimplexLoop fe ir dims numDofs numQuad transpose
      ((reg.objects maps).dofToQuad.dim 0) ((reg.objects maps).dofToQuad.dim 1)
      ((reg.objects maps).dofToQuadD.dim 0) ((reg.objects maps).dofToQuadD.dim 1)
      ((reg.objects maps).dofToQuadD.dim 2)
      ⟨E.uninit, E.uninit, E.uninit⟩
    let reg := if transpose then
        reg.modify maps (fun m =>
          { m with quadWeights := { m.quadWeights with data := s.quadWeights } })
      else reg
    let reg := reg.modify maps (fun m =>
      { m with dofToQuad := { m.dofToQuad with data := s.dofToQuad } })
    let reg := reg.modify maps (fun m =>
      { m with dofToQuadD := { m.dofToQuadD with data := s.dofToQuadD } })
    (maps, reg)

/-- The key written by the `stringstream` of `GetSimplexMaps` (lines 218-222). -/
def SimplexMapHash (O1 O2 Q : Nat) : String :=
  "SimplexMap:" ++ " O1:" ++ toString O1 ++ " O2:" ++ toString O2 ++ " Q:" ++ toString Q

/-- `qDofQuadMaps::GetSimplexMaps` (trial and test element); the argument
`transpose` is not used by the source. -/
def GetSimplexMaps (E : MapsEnv) (trialFE testFE : FiniteElement) (ir : IntegrationRule)
    (_transpose : Bool) (reg : Registry) : Nat × Registry :=
  let hash := SimplexMapHash trialFE.GetOrder testFE.GetOrder ir.GetNPoints
  match reg.AllDofQuadMaps hash with
  | some maps => (maps, reg)
  | none =>
    let (maps, reg) := reg.new E
    let reg := reg.insert hash maps
    let reg := reg.modify maps (fun m => { m with hash := hash })
    let (trialMaps, reg) := GetD2QSimplexMaps E trialFE ir false reg
    let (testMaps, reg) := GetD2QSimplexMaps E testFE ir true reg
    let reg := reg.modify maps (fun m =>
      { m with dofToQuad := (reg.objects trialMaps).dofToQuad })
    let reg := reg.modify maps (fun m =>
      { m with dofToQuadD := (reg.objects trialMaps).dofToQuadD })
    let reg := reg.modify maps (fun m =>
      { m with quadToDof := (reg.objects testMaps).dofToQuad })
    let reg := reg.modify maps (fun m =>
      { m with quadToDofD := (reg.objects testMaps).dofToQuadD })
    let reg := reg.modify maps (fun m =>
      { m with quadWeights := (reg.objects testMaps).quadWeights })
    (maps, reg)

/-- The entry of the table `a` for the point `q` and the dof `d`, addressed through
the strides `dim ()` as the stores of `GetD2QTensorMaps` do (lines 170-171). -/
def qarray.entry (a : qarray) (q d : Nat) : ℚ :=
  a.data (a.dim 0 * q + a.dim 1 * d)

/-- The strides `d0`, `d1` address distinct cells for distinct pairs (point, dof)
with `q < X` and `d < Y`. -/
def StridesInjective (d0 d1 X Y : Nat) : Prop :=
  ∀ q q2 d d2, q < X → q2 < X → d < Y → d2 < Y →
    d0 * q + d1 * d = d0 * q2 + d1 * d2 → q = q2 ∧ d = d2

/-- The strides set by `allocate` for a table of `X` points and `Y` dofs address
distinct cells, transposed or not. -/
def MapsEnv.NoAlias (E : MapsEnv) (X Y : Nat) : Prop :=
  ∀ t, StridesInjective (E.allocate X Y 1 1 t 0) (E.allocate X Y 1 1 t 1) X Y

/-- The number of points `quadPointsND` of `GetD2QTensorMaps` (lines 126-128). -/
def quadPointsND (dims quadPoints : Nat) : Nat :=
  if dims = 1 then quadPoints
  else if dims = 2 then quadPoints * quadPoints else quadPoints * quadPoints * quadPoints

/-- The object that `GetD2QTensorMaps` builds when the key is free (lines 144-199):
the tables synthesized from the 1D basis `tfe` of the element and the 1D rule. -/
def synthD2QTensorMaps (E : MapsEnv) (fe : FiniteElement) (tfe : TensorBasisElement)
    (ir : IntegrationRule) (transpose : Bool) : qDofQuadMaps :=
  let dofs := fe.GetOrder + 1
  let ir1D := E.IntRules_Get_SEGMENT ir.GetOrder
  let quadPoints := ir1D.GetNPoints
  let s := d2qTensorLoop tfe ir1D quadPoints dofs transpose
    (E.allocate quadPoints dofs 1 1 transpose 0) (E.allocate quadPoints dofs 1 1 transpose 1)
    ⟨E.uninit, E.uninit, E.uninit⟩
  { hash := D2QTensorMapHash fe.GetOrder dofs fe.GetDim quadPoints transpose
    dofToQuad := ⟨s.dofToQuad, E.allocate quadPoints dofs 1 1 transpose⟩
    dofToQuadD := ⟨s.dofToQuadD, E.allocate quadPoints dofs 1 1 transpose⟩
    quadToDof := E.empty
    quadToDofD := E.empty
    quadWeights :=
      if transpose then
        ⟨d2qTensorWeights fe.GetDim quadPoints (quadPointsND fe.GetDim quadPoints)
            s.quadWeights1DData E.uninit,
          E.allocate (quadPointsND fe.GetDim quadPoints) 1 1 1 false⟩
      else E.empty }

/-- The registry is well formed: the pointers it holds were allocated, and no
object is registered under two keys. -/
def Registry.WF (reg : Registry) : Prop :=
  (∀ k p, reg.AllDofQuadMaps k = some p → p < reg.count) ∧
  (∀ k k2 p, reg.AllDofQuadMaps k = some p → reg.AllDofQuadMaps k2 = some p → k = k2)

/-! ### Sample data -/

/-- A sample environment: the 1D rule of order `o` has `o / 2 + 1` points, the
strides are those of a column-major array, exchanged when transposed. -/
def exMapsEnv : MapsEnv where
  IntRules_Get_SEGMENT := fun o => ⟨o / 2 + 1, o, fun q => ⟨(q + 1) / (o / 2 + 2), 1 / (o / 2 + 1)⟩⟩
  allocate := fun X Y _ _ t i =>
    if t then (if i = 0 then Y else if i = 1 then 1 else X * Y)
    else (if i = 0 then 1 else if i = 1 then X else X * Y)
  uninit := fun _ => 0
  empty := ⟨fun _ => 0, fun _ => 0⟩

/-- A sample tensor-product element of order 1 in two dimensions, with the linear
1D basis `1 - x`, `x`. -/
def exElement : FiniteElement where
  GetOrder := 1
  GetDim := 2
  GetDof := 4
  tensor := some ⟨1, fun x => (fun d => if d = 0 then 1 - x else x,
                              fun d => if d = 0 then -1 else 1)⟩
  CalcShape := fun _ _ => 0
  CalcDShape := fun _ _ _ => 0

/-- The sample element with order 2. -/
def exElement2 : FiniteElement :=
  { exElement with GetOrder := 2, GetDof := 9 }

/-- The nodal 1D basis of order 2 on the points 0, 1/2, 1 (basis type 1). -/
def exBasisNodal : TensorBasisElement where
  GetBasisType := 1
  Eval := fun x =>
    (fun d => if d = 0 then (1 - x) * (1 - 2 * x) else if d = 1 then 4 * x * (1 - x)
      else x * (2 * x - 1),
     fun d => if d = 0 then 4 * x - 3 else if d = 1 then 4 - 8 * x else 4 * x - 1)

/-- The positive (Bernstein) 1D basis of order 2 (basis type 2). -/
def exBasisPositive : TensorBasisElement where
  GetBasisType := 2
  Eval := fun x =>
    (fun d => if d = 0 then (1 - x) * (1 - x) else if d = 1 then 2 * x * (1 - x) else x * x,
     fun d => if d = 0 then 2 * x - 2 else if d = 1 then 2 - 4 * x else 2 * x)

/-- A sample element of order 2 in two dimensions with the nodal basis. -/
def exElementNodal : FiniteElement where
  GetOrder := 2
  GetDim := 2
  GetDof := 9
  tensor := some exBasisNodal
  CalcShape := fun _ _ => 0
  CalcDShape := fun _ _ _ => 0

/-- A sample element of order 2 in two dimensions with the positive basis. -/
def exElementPositive : FiniteElement where
  GetOrder := 2
  GetDim := 2
  GetDof := 9
  tensor := some exBasisPositive
  CalcShape := fun _ _ => 0
  CalcDShape := fun _ _ _ => 0

/-- A sample rule of order 3 with four points. -/
def exRule : IntegrationRule where
  GetNPoints := 4
  GetOrder := 3
  IntPoint := fun q => ⟨(q + 1) / 5, 1 / 4⟩

/-- The registry before the first call. -/
def emptyRegistry : Registry where
  AllDofQuadMaps := fun _ => none
  objects := fun _ => ⟨"", ⟨fun _ => 0, fun _ => 0⟩, ⟨fun _ => 0, fun _ => 0⟩,
    ⟨fun _ => 0, fun _ => 0⟩, ⟨fun _ => 0, fun _ => 0⟩, ⟨fun _ => 0, fun _ => 0⟩⟩
  count := 0

/-! ## Kernel dispatch (`kernels/force/force.cpp`, `raja/kernels/rMassAssembleS.cpp`) -/

/-- How a call ends: it returns, the process ends through `exit (status)` after
writing `stdout`, or the process is aborted by a failed `assert`. -/
inductive Outcome (α : Type) where
  | returned (value : α)
  | exited (status : Int) (stdout : String)
  | aborted

/-- The status of the process seen by its parent after `exit (status)`: the low
eight bits. -/
def exitStatus (status : Int) : Int :=
  status % 256

/-- The four force kernels, which `force.cpp` only declares. -/
inductive ForceKernel where
  | rForceMult2D
  | rForceMultTranspose2D
  | rForceMult3D
  | rForceMultTranspose3D
  deriving DecidableEq

/-- The arguments of `rForceMult` and `rForceMultTranspose`, in order; `src` is the
input vector (`e` or `v`) and `dst` the output vector (`v` or `e`). -/
structure ForceArgs where
  NUM_DIM : Int
  NUM_DOFS_1D : Int
  NUM_QUAD_1D : Int
  L2_DOFS_1D : Int
  H1_DOFS_1D : Int
  nzones : Int
  L2QuadToDof : Nat → Nat → ℚ
  H1DofToQuad : Nat → Nat → ℚ
  H1DofToQuadD : Nat → Nat → ℚ
  stressJinvT : Nat × Nat × Nat → ℚ
  src : LocalVec
  dst : LocalVec

/-- What a dispatcher did: the kernel calls it made, each with its arguments, and
how it ended (the output vector when it returned). -/
structure DispatchRun where
  calls : List (ForceKernel × ForceArgs)
  outcome : Outcome LocalVec

/-- The text printed by `rForceMult` for an unsupported dimension (line 78). -/
def rForceMultError : String :=
  "\n[rForceMult] NUM_DIM!=2 && NUM_DIM!=3 ERROR"

/-- The text printed by `rForceMultTranspose` for an unsupported dimension (line 124). -/
def rForceMultTransposeError : String :=
  "\n[rForceMultTranspose] NUM_DIM!=2 && NUM_DIM!=3 ERROR"

/-- The value of `printf (text)` for a text without conversions: the number of
characters written. -/
def printf (text : String) : Int :=
  text.length

/-- The body shared by `rForceMult` (lines 37-80) and `rForceMultTranspose` (lines
83-126): the three `if` statements in order. `kernel2D` and `kernel3D` give the
output vector left by the two kernels, `k2` and `k3` name them, `text` is the
diagnostic. -/
def forceDispatch (k2 k3 : ForceKernel) (kernel2D kernel3D : ForceArgs → LocalVec)
    (text : String) (a : ForceArgs) : DispatchRun :=
  let calls : List (ForceKernel × ForceArgs) := []
  let dst := a.dst
  let (calls, dst) :=
    if a.NUM_DIM = 2 then (calls ++ [(k2, { a with dst := dst })], kernel2D { a with dst := dst })
    else (calls, dst)
  let (calls, dst) :=
    if a.NUM_DIM = 3 then (calls ++ [(k3, { a with dst := dst })], kernel3D { a with dst := dst })
    else (calls, dst)
  if a.NUM_DIM ≠ 2 ∧ a.NUM_DIM ≠ 3 then
    { calls := calls, outcome := Outcome.exited (printf text) text }
  else { calls := calls, outcome := Outcome.returned dst }

/-- `rForceMult` (`force.cpp`, lines 37-80), with the calls it makes. -/
def rForceMultRun (kernel2D kernel3D : ForceArgs → LocalVec) (a : ForceArgs) : DispatchRun :=
  forceDispatch ForceKernel.rForceMult2D ForceKernel.rForceMult3D kernel2D kernel3D
    rForceMultError a

/-- `rForceMultTranspose` (`force.cpp`, lines 83-126), with the calls it makes. -/
def rForceMultTransposeRun (kernel2D kernel3D : ForceArgs → LocalVec) (a : ForceArgs) :
    DispatchRun :=
  forceDispatch ForceKernel.rForceMultTranspose2D ForceKernel.rForceMultTranspose3D
    kernel2D kernel3D rForceMultTransposeError a

/-- Modelled from the spec: the macro `forallS` is not part of the sources; the
sequential loop `for (i = 0; i < max; i += step)` over the batches. The loop
`rMassAssemble2S` (`rMassAssembleS.cpp`, lines 19-41) with the batch constants
`A2_ELEMENT_BATCH` and `A2_QUAD_BATCH` as parameters. -/
def rMassAssemble2S (L : Layout) (A2_ELEMENT_BATCH A2_QUAD_BATCH : Nat)
    (NUM_QUAD_2D numElements : Nat) (COEFF : ℚ) (quadWeights J : Buf) (oper : Buf) : Buf :=
  stridedLoop numElements A2_ELEMENT_BATCH (fun eOff oper =>
    forLoop A2_ELEMENT_BATCH (fun i oper =>
      let e := eOff + i
      if e < numElements then
        forLoop A2_QUAD_BATCH (fun qOff oper =>
          stridedLoop NUM_QUAD_2D A2_QUAD_BATCH (fun q oper =>
            let J11 := J (L.ijklNM 0 0 q e 2 NUM_QUAD_2D)
            let J12 := J (L.ijklNM 1 0 q e 2 NUM_QUAD_2D)
            let J21 := J (L.ijklNM 0 1 q e 2 NUM_QUAD_2D)
            let J22 := J (L.ijklNM 1 1 q e 2 NUM_QUAD_2D)
            Function.update oper (L.ijN q e NUM_QUAD_2D)
              (quadWeights q * COEFF * ((J11 * J22) - (J21 * J12))))
            NUM_QUAD_2D qOff oper) oper
      else oper) oper) numElements 0 oper

/-- `rMassAssembleS` (`rMassAssembleS.cpp`, lines 44-53), with assertions enabled:
`assert (false)` aborts the process. -/
def rMassAssembleS (L : Layout) (A2_ELEMENT_BATCH A2_QUAD_BATCH : Nat) (dim : Int)
    (NUM_QUAD numElements : Nat) (quadWeights J : Buf) (COEFF : ℚ) (oper : Buf) :
    Outcome Buf :=
  if dim = 1 then Outcome.aborted
  else
    let oper :=
      if dim = 2 then
        rMassAssemble2S L A2_ELEMENT_BATCH A2_QUAD_BATCH NUM_QUAD numElements COEFF
          quadWeights J oper
      else oper
    if dim = 3 then Outcome.aborted
    else Outcome.returned oper

/-- The arguments of the sample dispatch: `NUM_DIM` with one dof and one point per
axis and one zone. -/
def exForceArgs (NUM_DIM : Int) : ForceArgs where
  NUM_DIM := NUM_DIM
  NUM_DOFS_1D := 1
  NUM_QUAD_1D := 1
  L2_DOFS_1D := 1
  H1_DOFS_1D := 1
  nzones := 1
  L2QuadToDof := fun _ _ => 1
  H1DofToQuad := fun _ _ => 1
  H1DofToQuadD := fun _ _ => 1
  stressJinvT := fun _ => 1
  src := fun _ _ _ _ _ => 1
  dst := fun _ _ _ _ _ => 0

/-! ## The order of the iterations -/

/-- The values of `z_id` in the second zone loop of the batch `b` entered in the
state `st` (source lines 652-659 and 699-794), in order; no zone once the loop has
been left, or when it is left by the `break`. -/
def batchZones {σ : Type} (H : Hydro σ) (b : Nat) (st : Pass) : List Nat :=
  if st.broke then []
  else
    match batchHead H b st with
    | none => []
    | some (z_id, st) => (List.range st.nzones_batch).map (fun z => z_id + z)

/-- The zones processed by the first `nb` iterations of the batch loop, in order,
for the batch-size constant `B`. -/
def zonesVisited {σ : Type} (H : Hydro σ) (lib : Lib) (B : Nat) (S : σ)
    (qd : QuadratureData) (nb : Nat) : List Nat :=
  (List.range nb).flatMap (fun b => batchZones H b (passAfter H lib B S qd b))

/-- The pairs (zone `z_id`, point `q`) at which the point loop of the second zone
loop runs its body for the zones `zones`, in order (source lines 700-711). -/
def pointsVisited (nqp : Nat) (zones : List Nat) : List (Nat × Nat) :=
  zones.flatMap (fun z_id => (List.range nqp).map (fun q => (z_id, q)))

/-- The rows `z_id * nqp + q` of `stressJinvT` stored at the points visited for the
zones `zones`, in order (source lines 784-791). -/
def rowsStored (nqp : Nat) (zones : List Nat) : List Nat :=
  (pointsVisited nqp zones).map (fun p => p.1 * nqp + p.2)


/-- The indices at which the loop `for (d = start; d < stop; d += step)` runs its
body, in order; `fuel` bounds the number of iterations as for `stridedLoop`. -/
def stridedVisits (stop step : Nat) : Nat → Nat → List Nat
  | 0, _ => []
  | fuel + 1, d => if d < stop then d :: stridedVisits stop step fuel (d + step) else []

/-- Whether the loop `for (d = start; d < stop; d += step)` has left through its
condition after at most `fuel` iterations. -/
def stridedFinished (stop step : Nat) : Nat → Nat → Bool
  | 0, d => decide (stop ≤ d)
  | fuel + 1, d => if d < stop then stridedFinished stop step fuel (d + step) else true

/-- The dof indices at which the gather of `kInitGeometryInfo1D/2D/3D` stores, in
order: `for (q < NUM_QUAD) for (d = q; d < NUM_DOFS; d += NUM_QUAD)`. -/
def gatherVisits (NUM_DOFS NUM_QUAD : Nat) : List Nat :=
  (List.range NUM_QUAD).flatMap (fun q => stridedVisits NUM_DOFS NUM_QUAD NUM_DOFS q)

/-- The pairs (point `q`, element `e`) at which `rMassAssemble2S` stores, in order. -/
def rMassAssemble2SVisits (A2_ELEMENT_BATCH A2_QUAD_BATCH NUM_QUAD_2D numElements : Nat) :
    List (Nat × Nat) :=
  (stridedVisits numElements A2_ELEMENT_BATCH numElements 0).flatMap (fun eOff =>
    (List.range A2_ELEMENT_BATCH).flatMap (fun i =>
      let e := eOff + i
      if e < numElements then
        (List.range A2_QUAD_BATCH).flatMap (fun qOff =>
          (stridedVisits NUM_QUAD_2D A2_QUAD_BATCH NUM_QUAD_2D qOff).map (fun q => (q, e)))
      else []))

/-- The store of `rMassAssemble2S` at the point `q` of the element `e` (lines 28-34). -/
def rMassAssemble2SStore (L : Layout) (NUM_QUAD_2D : Nat) (COEFF : ℚ) (quadWeights J : Buf)
    (q e : Nat) (oper : Buf) : Buf :=
  let J11 := J (L.ijklNM 0 0 q e 2 NUM_QUAD_2D)
  let J12 := J (L.ijklNM 1 0 q e 2 NUM_QUAD_2D)
  let J21 := J (L.ijklNM 0 1 q e 2 NUM_QUAD_2D)
  let J22 := J (L.ijklNM 1 1 q e 2 NUM_QUAD_2D)
  Function.update oper (L.ijN q e NUM_QUAD_2D)
    (quadWeights q * COEFF * ((J11 * J22) - (J21 * J12)))

/-- The elements at which the two outer loops of `rMassAssemble2S` pass the test
`e < numElements`, in order. -/
def rMassAssemble2SElements (A2_ELEMENT_BATCH numElements : Nat) : List Nat :=
  (stridedVisits numElements A2_ELEMENT_BATCH numElements 0).flatMap (fun eOff =>
    (List.range A2_ELEMENT_BATCH).flatMap (fun i =>
      if eOff + i < numElements then [eOff + i] else []))
/-! ## The device copy of the stress (`kForcePAOperator.cpp`, `laghos_solver.cpp`) -/

/-- The two stress arrays of `QuadratureData` on the engine path: the host array
`stressJinvT`, written by `UpdateQuadratureData`, and the device array
`d_stressJinvT`, allocated by the constructor (source lines 209-217). -/
structure StressMem where
  stressJinvT : Nat × Nat × Nat → ℚ
  d_stressJinvT : Nat × Nat × Nat → ℚ

/-- `kForcePAOperator::Mult` as a step on the stress arrays (lines 66-101): the
copy `rHtoD` overwrites the device array with the host array, the kernel reads the
device array. `gVecH1` is the previous content of the work vector. -/
def kForcePAOperator.MultStep (op : kForcePAOperator) (vecL2 : Buf) (gVecH1 : LocalVec)
    (s : StressMem) : Option (Buf × StressMem) :=
  match op.Mult s.stressJinvT gVecH1 vecL2 with
  | none => none
  | some (d_stressJinvT, vecH1) => some (vecH1, { s with d_stressJinvT := d_stressJinvT })

/-- `kForcePAOperator::MultTranspose` as a step on the stress arrays (lines 104-129):
the kernel reads the device array, no copy is made. -/
def kForcePAOperator.MultTransposeStep (op : kForcePAOperator) (vecH1 : Buf)
    (gVecL2 : LocalVec) (s : StressMem) : Option (Buf × StressMem) :=
  match op.MultTranspose s.d_stressJinvT gVecL2 vecH1 with
  | none => none
  | some vecL2 => some (vecL2, s)

/-- The force applications of one `LagrangianHydroOperator::Mult` with partial
assembly on the engine path: `UpdateQuadratureData (S)` (line 309),
`ForcePA->Mult (one, rhs)` and `rhs.Axpby (-1.0, rhs, 0.0, one)` (lines 344-346),
`ForcePA->MultTranspose (kv, e_rhs)` (line 477). The velocity solve between them
does not touch the stress arrays. The result is `rhs`, `e_rhs`, the stress arrays
and the state of the operator; `d_stressJinvT` is the device array before the call. -/
def LagrangianHydroOperator.forceSteps {σ : Type} (H : Hydro σ) (lib : Lib)
    (op : kForcePAOperator) (S : σ) (one kv : Buf) (gVecH1 gVecL2 : LocalVec)
    (st : HydroState) (d_stressJinvT : Nat × Nat × Nat → ℚ) :
    Option (Buf × Buf × StressMem × HydroState) :=
  let st := UpdateQuadratureData H lib S st
  let s : StressMem := ⟨st.quad_data.stressJinvT, d_stressJinvT⟩
  match op.MultStep one gVecH1 s with
  | none => none
  | some (rhs, s) =>
    let rhs : Buf := fun i => -1 * rhs i + 0 * one i
    match op.MultTransposeStep kv gVecL2 s with
    | none => none
    | some (e_rhs, s) => some (rhs, e_rhs, s, st)

/-! ## The work vectors of `kForcePAOperator` (`kForcePAOperator.cpp`, lines 32-64) -/

theorem forLoop_succ {σ : Type} (n : Nat) (body : Nat → σ → σ) (s : σ) :
    forLoop (n + 1) body s = body n (forLoop n body s) := rfl

/-- A property established by iteration `j` and preserved by the others holds
after the loop. -/
theorem forLoop_establish {σ : Type} (P : Nat → σ → Prop) (body : Nat → σ → σ)
    (n : Nat)
    (hest : ∀ i, i < n → ∀ s, P i (body i s))
    (hpres : ∀ i, i < n → ∀ j, j < n → ∀ s, P j s → P j (body i s))
    (s : σ) : ∀ j, j < n → P j (forLoop n body s) := by
  induction n with
  | zero => intro j hj; omega
  | succ n ih =>
    intro j hj
    rw [forLoop_succ]
    by_cases h : j = n
    · subst h
      exact hest j (by omega) _
    · apply hpres n (by omega) j hj
      apply ih
      · intro i hi s; exact hest i (by omega) s
      · intro i hi k hk s hP; exact hpres i (by omega) k (by omega) s hP
      · omega

/-- A property preserved by every iteration survives the loop. -/
theorem forLoop_preserve {σ : Type} (P : σ → Prop) (body : Nat → σ → σ) (n : Nat)
    (hpres : ∀ i, i < n → ∀ s, P s → P (body i s)) (s : σ) (hs : P s) :
    P (forLoop n body s) := by
  induction n with
  | zero => exact hs
  | succ n ih =>
    rw [forLoop_succ]
    exact hpres n (by omega) _ (ih (fun i hi s h => hpres i (by omega) s h))

theorem stridedLoop_preserve {σ : Type} (P : σ → Prop) (stop step : Nat)
    (body : Nat → σ → σ) (hpres : ∀ d, d < stop → ∀ s, P s → P (body d s)) :
    ∀ (fuel d : Nat) (s : σ), P s → P (stridedLoop stop step body fuel d s) := by
  intro fuel
  induction fuel with
  | zero => intro d s hs; exact hs
  | succ fuel ih =>
    intro d s hs
    unfold stridedLoop
    split
    · rename_i hd
      exact ih _ _ (hpres d hd s hs)
    · exact hs

/-- The strided loop started at `d` reaches `d + k * step` when `k` is below the fuel. -/
theorem stridedLoop_establish {σ : Type} (P : Nat → σ → Prop) (stop step : Nat)
    (body : Nat → σ → σ)
    (hest : ∀ d, d < stop → ∀ s, P d (body d s))
    (hpres : ∀ d, d < stop → ∀ j, j < stop → ∀ s, P j s → P j (body d s)) :
    ∀ (fuel d : Nat) (s : σ) (k : Nat), k < fuel → d + k * step < stop →
      P (d + k * step) (stridedLoop stop step body fuel d s) := by
  intro fuel
  induction fuel with
  | zero => intro d s k hk; omega
  | succ fuel ih =>
    intro d s k hk hlt
    unfold stridedLoop
    have hd : d < stop := lt_of_le_of_lt (Nat.le_add_right _ _) hlt
    rw [if_pos hd]
    cases k with
    | zero =>
      simp only [Nat.zero_mul, Nat.add_zero] at hlt ⊢
      exact stridedLoop_preserve (P d) stop step body
        (fun d' hd' s hs => hpres d' hd' d hd s hs) fuel _ _ (hest d hd s)
    | succ k =>
      have e : d + (k + 1) * step = (d + step) + k * step := by ring
      rw [e] at hlt ⊢
      exact ih (d + step) (body d s) k (by omega) hlt

theorem forLoop_sum (n : Nat) (f : Nat → ℚ) (a : ℚ) :
    forLoop n (fun d acc => acc + f d) a = a + ∑ d in Finset.range n, f d := by
  induction n with
  | zero => simp [forLoop]
  | succ n ih => rw [forLoop_succ, ih, Finset.sum_range_succ]; ring

theorem Layout.Injective.ijN_eq_iff {L : Layout} (hL : L.Injective) {N i j i' j' : Nat}
    (hi : i < N) (hi' : i' < N) :
    L.ijN i j N = L.ijN i' j' N ↔ i = i' ∧ j = j' :=
  ⟨hL.ijN_inj N i j i' j' hi hi', fun h => by rw [h.1, h.2]⟩

theorem Layout.Injective.ijklNM_eq_iff {L : Layout} (hL : L.Injective)
    {N M i j k l i' j' k' l' : Nat}
    (hi : i < N) (hj : j < N) (hk : k < M) (hi' : i' < N) (hj' : j' < N) (hk' : k' < M) :
    L.ijklNM i j k l N M = L.ijklNM i' j' k' l' N M ↔ i = i' ∧ j = j' ∧ k = k' ∧ l = l' :=
  ⟨hL.ijklNM_inj N M i j k l i' j' k' l' hi hj hk hi' hj' hk',
    fun h => by rw [h.1, h.2.1, h.2.2.1, h.2.2.2]⟩

/-- Every dof below `NUM_DOFS` is reached by the two gather loops. -/
theorem gather_establish {σ : Type} (P : Nat → σ → Prop) (NUM_DOFS NUM_QUAD : Nat)
    (body : Nat → σ → σ)
    (hest : ∀ d, d < NUM_DOFS → ∀ s, P d (body d s))
    (hpres : ∀ d, d < NUM_DOFS → ∀ j, j < NUM_DOFS → ∀ s, P j s → P j (body d s))
    (hq : 0 < NUM_QUAD) (s0 : σ) (d : Nat) (hd : d < NUM_DOFS) :
    P d (forLoop NUM_QUAD (fun q s => stridedLoop NUM_DOFS NUM_QUAD body NUM_DOFS q s) s0) := by
  have key : ∀ q, q < NUM_QUAD → ∀ d, d < NUM_DOFS → d % NUM_QUAD = q →
      P d (forLoop NUM_QUAD
        (fun q s => stridedLoop NUM_DOFS NUM_QUAD body NUM_DOFS q s) s0) := by
    intro q hq'
    refine forLoop_establish
      (fun q s => ∀ d, d < NUM_DOFS → d % NUM_QUAD = q → P d s) _ NUM_QUAD ?_ ?_ s0 q hq'
    · intro q _ s d hd hmod
      have e : d = q + (d / NUM_QUAD) * NUM_QUAD := by
        have := Nat.mod_add_div d NUM_QUAD
        rw [hmod] at this
        rw [Nat.mul_comm]; omega
      have hk : d / NUM_QUAD < NUM_DOFS :=
        lt_of_le_of_lt (Nat.div_le_self _ _) hd
      have := stridedLoop_establish P NUM_DOFS NUM_QUAD body hest hpres NUM_DOFS q s
        (d / NUM_QUAD) hk (by rw [← e]; exact hd)
      rw [← e] at this
      exact this
    · intro q _ j _ s hP d hd hmod
      exact stridedLoop_preserve (P d) NUM_DOFS NUM_QUAD body
        (fun d' hd' s hs => hpres d' hd' d hd s hs) NUM_DOFS q s (hP d hd hmod)
  exact key (d % NUM_QUAD) (Nat.mod_lt _ hq) d hd rfl

theorem gather1D_spec (L : Layout) (NUM_DOFS NUM_QUAD : Nat) (nodes : Buf) (e : Nat)
    (s0 : Buf) (hq : 0 < NUM_QUAD) (d : Nat) (hd : d < NUM_DOFS) :
    gather1D L NUM_DOFS NUM_QUAD nodes e s0 d = nodes (L.ijkN 0 d e NUM_QUAD) := by
  unfold gather1D
  refine gather_establish (fun d s => s d = nodes (L.ijkN 0 d e NUM_QUAD))
    NUM_DOFS NUM_QUAD _ ?_ ?_ hq s0 d hd
  · intro d _ s; simp
  · intro d _ j _ s hP
    by_cases h : j = d
    · subst h; simp
    · simp [Function.update_apply, h, hP]

theorem gather2D_spec (L : Layout) (hL : L.Injective) (NUM_DOFS NUM_QUAD : Nat)
    (nodes : Buf) (e : Nat) (s0 : Buf) (hq : 0 < NUM_QUAD) (d : Nat) (hd : d < NUM_DOFS) :
    ∀ c, c < 2 → gather2D L NUM_DOFS NUM_QUAD nodes e s0 (L.ijN c d 2)
      = nodes (L.ijkNM c d e 2 NUM_DOFS) := by
  unfold gather2D
  refine gather_establish
    (fun d s => ∀ c, c < 2 → s (L.ijN c d 2) = nodes (L.ijkNM c d e 2 NUM_DOFS))
    NUM_DOFS NUM_QUAD _ ?_ ?_ hq s0 d hd
  · intro d _ s c hc
    interval_cases c <;> simp [Function.update_apply, hL.ijN_eq_iff]
  · intro d _ j _ s hP c hc
    have h0 := hP 0 (by omega)
    have h1 := hP 1 (by omega)
    by_cases h : j = d
    · subst h
      interval_cases c <;> simp [Function.update_apply, hL.ijN_eq_iff]
    · interval_cases c <;> simp [Function.update_apply, hL.ijN_eq_iff, h, h0, h1]

theorem gather3D_spec (L : Layout) (hL : L.Injective) (NUM_DOFS NUM_QUAD : Nat)
    (nodes : Buf) (e : Nat) (s0 : Buf) (hq : 0 < NUM_QUAD) (d : Nat) (hd : d < NUM_DOFS) :
    ∀ c, c < 3 → gather3D L NUM_DOFS NUM_QUAD nodes e s0 (L.ijN c d 3)
      = nodes (L.ijkNM c d e 3 NUM_DOFS) := by
  unfold gather3D
  refine gather_establish
    (fun d s => ∀ c, c < 3 → s (L.ijN c d 3) = nodes (L.ijkNM c d e 3 NUM_DOFS))
    NUM_DOFS NUM_QUAD _ ?_ ?_ hq s0 d hd
  · intro d _ s c hc
    interval_cases c <;> simp [Function.update_apply, hL.ijN_eq_iff]
  · intro d _ j _ s hP c hc
    have h0 := hP 0 (by omega)
    have h1 := hP 1 (by omega)
    have h2 := hP 2 (by omega)
    by_cases h : j = d
    · subst h
      interval_cases c <;> simp [Function.update_apply, hL.ijN_eq_iff]
    · interval_cases c <;> simp [Function.update_apply, hL.ijN_eq_iff, h, h0, h1, h2]

theorem kInitGeometryInfo1D_cell (L : Layout) (hL : L.Injective)
    (NUM_DOFS NUM_QUAD numElements : Nat) (dofToQuadD nodes s0 : Buf) (out : GeomOut)
    (e q : Nat) (he : e < numElements) (hq : q < NUM_QUAD) :
    Cell1 L NUM_QUAD
      (accum1D L NUM_DOFS dofToQuadD (gather1D L NUM_DOFS NUM_QUAD nodes e s0) q)
      q e (kInitGeometryInfo1D L NUM_DOFS NUM_QUAD numElements dofToQuadD nodes s0 out) := by
  unfold kInitGeometryInfo1D
  have step : ∀ e' q', q' < NUM_QUAD → ∀ e q, q < NUM_QUAD → ∀ out : GeomOut,
      ((q' = q ∧ e' = e) ∨ Cell1 L NUM_QUAD
        (accum1D L NUM_DOFS dofToQuadD (gather1D L NUM_DOFS NUM_QUAD nodes e s0) q)
        q e out) →
      Cell1 L NUM_QUAD
        (accum1D L NUM_DOFS dofToQuadD (gather1D L NUM_DOFS NUM_QUAD nodes e s0) q)
        q e
        (let J11 : ℚ := accum1D L NUM_DOFS dofToQuadD
            (gather1D L NUM_DOFS NUM_QUAD nodes e' s0) q'
         ({ J := Function.update out.J (L.ijN q' e' NUM_QUAD) J11
            invJ := Function.update out.invJ (L.ijN q' e' NUM_QUAD) (1 / J11)
            detJ := Function.update out.detJ (L.ijN q' e' NUM_QUAD) J11 } : GeomOut)) := by
    intro e' q' hq' e q hq out h
    by_cases hc : q' = q ∧ e' = e
    · obtain ⟨rfl, rfl⟩ := hc
      simp [Cell1, Function.update_apply, hL.ijN_eq_iff, hq']
    · have hc' : ¬ (q = q' ∧ e = e') := fun h => hc ⟨h.1.symm, h.2.symm⟩
      rcases h with h | h
      · exact absurd h hc
      · simpa [Cell1, Function.update_apply, hL.ijN_eq_iff, hq', hq, hc'] using h
  refine forLoop_establish (fun e out => ∀ q, q < NUM_QUAD → Cell1 L NUM_QUAD
      (accum1D L NUM_DOFS dofToQuadD (gather1D L NUM_DOFS NUM_QUAD nodes e s0) q)
      q e out) _ numElements ?_ ?_ out e he q hq
  · intro e _ out q hq
    refine forLoop_establish (fun q out => Cell1 L NUM_QUAD
      (accum1D L NUM_DOFS dofToQuadD (gather1D L NUM_DOFS NUM_QUAD nodes e s0) q)
      q e out) _ NUM_QUAD ?_ ?_ out q hq
    · intro q hq out
      exact step e q hq e q hq out (Or.inl ⟨rfl, rfl⟩)
    · intro q' hq' q hq out h
      exact step e q' hq' e q hq out (Or.inr h)
  · intro e' _ e _ out h q hq
    refine forLoop_preserve (fun out => Cell1 L NUM_QUAD
      (accum1D L NUM_DOFS dofToQuadD (gather1D L NUM_DOFS NUM_QUAD nodes e s0) q)
      q e out) _ NUM_QUAD ?_ out (h q hq)
    intro q' hq' out h
    exact step e' q' hq' e q hq out (Or.inr h)

theorem kInitGeometryInfo2D_cell (L : Layout) (hL : L.Injective)
    (NUM_DOFS NUM_QUAD numElements : Nat) (dofToQuadD nodes s0 : Buf) (out : GeomOut)
    (e q : Nat) (he : e < numElements) (hq : q < NUM_QUAD) :
    Cell2 L NUM_QUAD
      (accum2D L NUM_DOFS NUM_QUAD dofToQuadD (gather2D L NUM_DOFS NUM_QUAD nodes e s0) q)
      q e (kInitGeometryInfo2D L NUM_DOFS NUM_QUAD numElements dofToQuadD nodes s0 out) := by
  unfold kInitGeometryInfo2D
  have step : ∀ e' q', q' < NUM_QUAD → ∀ e q, q < NUM_QUAD → ∀ out : GeomOut,
      ((q' = q ∧ e' = e) ∨ Cell2 L NUM_QUAD
        (accum2D L NUM_DOFS NUM_QUAD dofToQuadD (gather2D L NUM_DOFS NUM_QUAD nodes e s0) q)
        q e out) →
      Cell2 L NUM_QUAD
        (accum2D L NUM_DOFS NUM_QUAD dofToQuadD (gather2D L NUM_DOFS NUM_QUAD nodes e s0) q)
        q e
        (let a : Acc2 := accum2D L NUM_DOFS NUM_QUAD dofToQuadD
            (gather2D L NUM_DOFS NUM_QUAD nodes e' s0) q'
         let r_detJ := (a.J11 * a.J22) - (a.J12 * a.J21)
         let J := Function.update out.J (L.ijklNM 0 0 q' e' 2 NUM_QUAD) a.J11
         let J := Function.update J (L.ijklNM 1 0 q' e' 2 NUM_QUAD) a.J12
         let J := Function.update J (L.ijklNM 0 1 q' e' 2 NUM_QUAD) a.J21
         let J := Function.update J (L.ijklNM 1 1 q' e' 2 NUM_QUAD) a.J22
         let r_idetJ := 1 / r_detJ
         let invJ := Function.update out.invJ (L.ijklNM 0 0 q' e' 2 NUM_QUAD) (a.J22 * r_idetJ)
         let invJ := Function.update invJ (L.ijklNM 1 0 q' e' 2 NUM_QUAD) (-a.J12 * r_idetJ)
         let invJ := Function.update invJ (L.ijklNM 0 1 q' e' 2 NUM_QUAD) (-a.J21 * r_idetJ)
         let invJ := Function.update invJ (L.ijklNM 1 1 q' e' 2 NUM_QUAD) (a.J11 * r_idetJ)
         ({ J := J, invJ := invJ
            detJ := Function.update out.detJ (L.ijN q' e' NUM_QUAD) r_detJ } : GeomOut)) := by
    intro e' q' hq' e q hq out h
    by_cases hc : q' = q ∧ e' = e
    · obtain ⟨rfl, rfl⟩ := hc
      simp [Cell2, Function.update_apply, hL.ijklNM_eq_iff, hL.ijN_eq_iff, hq']
    · have hc' : ¬ (q = q' ∧ e = e') := fun h => hc ⟨h.1.symm, h.2.symm⟩
      rcases h with h | h
      · exact absurd h hc
      · simpa [Cell2, Function.update_apply, hL.ijklNM_eq_iff, hL.ijN_eq_iff, hq', hq, hc']
          using h
  refine forLoop_establish (fun e out => ∀ q, q < NUM_QUAD → Cell2 L NUM_QUAD
      (accum2D L NUM_DOFS NUM_QUAD dofToQuadD (gather2D L NUM_DOFS NUM_QUAD nodes e s0) q)
      q e out) _ numElements ?_ ?_ out e he q hq
  · intro e _ out q hq
    refine forLoop_establish (fun q out => Cell2 L NUM_QUAD
      (accum2D L NUM_DOFS NUM_QUAD dofToQuadD (gather2D L NUM_DOFS NUM_QUAD nodes e s0) q)
      q e out) _ NUM_QUAD ?_ ?_ out q hq
    · intro q hq out
      exact step e q hq e q hq out (Or.inl ⟨rfl, rfl⟩)
    · intro q' hq' q hq out h
      exact step e q' hq' e q hq out (Or.inr h)
  · intro e' _ e _ out h q hq
    refine forLoop_preserve (fun out => Cell2 L NUM_QUAD
      (accum2D L NUM_DOFS NUM_QUAD dofToQuadD (gather2D L NUM_DOFS NUM_QUAD nodes e s0) q)
      q e out) _ NUM_QUAD ?_ out (h q hq)
    intro q' hq' out h
    exact step e' q' hq' e q hq out (Or.inr h)

set_option maxHeartbeats 1600000 in
theorem kInitGeometryInfo3D_cell (L : Layout) (hL : L.Injective)
    (NUM_DOFS NUM_QUAD numElements : Nat) (dofToQuadD nodes s0 : Buf) (out : GeomOut)
    (e q : Nat) (he : e < numElements) (hq : q < NUM_QUAD) :
    Cell3 L NUM_QUAD
      (accum3D L NUM_DOFS NUM_QUAD dofToQuadD (gather3D L NUM_DOFS NUM_QUAD nodes e s0) q)
      q e (kInitGeometryInfo3D L NUM_DOFS NUM_QUAD numElements dofToQuadD nodes s0 out) := by
  unfold kInitGeometryInfo3D
  have step : ∀ e' q', q' < NUM_QUAD → ∀ e q, q < NUM_QUAD → ∀ out : GeomOut,
      ((q' = q ∧ e' = e) ∨ Cell3 L NUM_QUAD
        (accum3D L NUM_DOFS NUM_QUAD dofToQuadD (gather3D L NUM_DOFS NUM_QUAD nodes e s0) q)
        q e out) →
      Cell3 L NUM_QUAD
        (accum3D L NUM_DOFS NUM_QUAD dofToQuadD (gather3D L NUM_DOFS NUM_QUAD nodes e s0) q)
        q e
        (let a : Acc3 := accum3D L NUM_DOFS NUM_QUAD dofToQuadD
            (gather3D L NUM_DOFS NUM_QUAD nodes e' s0) q'
         let r_detJ := ((a.J11 * a.J22 * a.J33) + (a.J12 * a.J23 * a.J31) +
                     (a.J13 * a.J21 * a.J32) -
                     (a.J13 * a.J22 * a.J31) - (a.J12 * a.J21 * a.J33) -
                     (a.J11 * a.J23 * a.J32))
         let J := Function.update out.J (L.ijklNM 0 0 q' e' 3 NUM_QUAD) a.J11
         let J := Function.update J (L.ijklNM 1 0 q' e' 3 NUM_QUAD) a.J12
         let J := Function.update J (L.ijklNM 2 0 q' e' 3 NUM_QUAD) a.J13
         let J := Function.update J (L.ijklNM 0 1 q' e' 3 NUM_QUAD) a.J21
         let J := Function.update J (L.ijklNM 1 1 q' e' 3 NUM_QUAD) a.J22
         let J := Function.update J (L.ijklNM 2 1 q' e' 3 NUM_QUAD) a.J23
         let J := Function.update J (L.ijklNM 0 2 q' e' 3 NUM_QUAD) a.J31
         let J := Function.update J (L.ijklNM 1 2 q' e' 3 NUM_QUAD) a.J32
         let J := Function.update J (L.ijklNM 2 2 q' e' 3 NUM_QUAD) a.J33
         let r_idetJ := 1 / r_detJ
         let invJ := Function.update out.invJ (L.ijklNM 0 0 q' e' 3 NUM_QUAD)
           (r_idetJ * ((a.J22 * a.J33) - (a.J23 * a.J32)))
         let invJ := Function.update invJ (L.ijklNM 1 0 q' e' 3 NUM_QUAD)
           (r_idetJ * ((a.J32 * a.J13) - (a.J33 * a.J12)))
         let invJ := Function.update invJ (L.ijklNM 2 0 q' e' 3 NUM_QUAD)
           (r_idetJ * ((a.J12 * a.J23) - (a.J13 * a.J22)))
         let invJ := Function.update invJ (L.ijklNM 0 1 q' e' 3 NUM_QUAD)
           (r_idetJ * ((a.J23 * a.J31) - (a.J21 * a.J33)))
         let invJ := Function.update invJ (L.ijklNM 1 1 q' e' 3 NUM_QUAD)
           (r_idetJ * ((a.J33 * a.J11) - (a.J31 * a.J13)))
         let invJ := Function.update invJ (L.ijklNM 2 1 q' e' 3 NUM_QUAD)
           (r_idetJ * ((a.J13 * a.J21) - (a.J11 * a.J23)))
         let invJ := Function.update invJ (L.ijklNM 0 2 q' e' 3 NUM_QUAD)
           (r_idetJ * ((a.J21 * a.J32) - (a.J22 * a.J31)))
         let invJ := Function.update invJ (L.ijklNM 1 2 q' e' 3 NUM_QUAD)
           (r_idetJ * ((a.J31 * a.J12) - (a.J32 * a.J11)))
         let invJ := Function.update invJ (L.ijklNM 2 2 q' e' 3 NUM_QUAD)
           (r_idetJ * ((a.J11 * a.J22) - (a.J12 * a.J21)))
         ({ J := J, invJ := invJ
            detJ := Function.update out.detJ (L.ijN q' e' NUM_QUAD) r_detJ } : GeomOut)) := by
    intro e' q' hq' e q hq out h
    by_cases hc : q' = q ∧ e' = e
    · obtain ⟨rfl, rfl⟩ := hc
      simp [Cell3, Acc3.det, Function.update_apply, hL.ijklNM_eq_iff, hL.ijN_eq_iff, hq']
    · have hc' : ¬ (q = q' ∧ e = e') := fun h => hc ⟨h.1.symm, h.2.symm⟩
      rcases h with h | h
      · exact absurd h hc
      · simpa [Cell3, Function.update_apply, hL.ijklNM_eq_iff, hL.ijN_eq_iff, hq', hq, hc']
          using h
  refine forLoop_establish (fun e out => ∀ q, q < NUM_QUAD → Cell3 L NUM_QUAD
      (accum3D L NUM_DOFS NUM_QUAD dofToQuadD (gather3D L NUM_DOFS NUM_QUAD nodes e s0) q)
      q e out) _ numElements ?_ ?_ out e he q hq
  · intro e _ out q hq
    refine forLoop_establish (fun q out => Cell3 L NUM_QUAD
      (accum3D L NUM_DOFS NUM_QUAD dofToQuadD (gather3D L NUM_DOFS NUM_QUAD nodes e s0) q)
      q e out) _ NUM_QUAD ?_ ?_ out q hq
    · intro q hq out
      exact step e q hq e q hq out (Or.inl ⟨rfl, rfl⟩)
    · intro q' hq' q hq out h
      exact step e q' hq' e q hq out (Or.inr h)
  · intro e' _ e _ out h q hq
    refine forLoop_preserve (fun out => Cell3 L NUM_QUAD
      (accum3D L NUM_DOFS NUM_QUAD dofToQuadD (gather3D L NUM_DOFS NUM_QUAD nodes e s0) q)
      q e out) _ NUM_QUAD ?_ out (h q hq)
    intro q' hq' out h
    exact step e' q' hq' e q hq out (Or.inr h)

theorem accum1D_eq (L : Layout) (NUM_DOFS : Nat) (dofToQuadD s : Buf) (q : Nat) :
    accum1D L NUM_DOFS dofToQuadD s q
      = ∑ d in Finset.range NUM_DOFS, dofToQuadD (L.ijN q d NUM_DOFS) * s d := by
  unfold accum1D
  have := forLoop_sum NUM_DOFS (fun d => dofToQuadD (L.ijN q d NUM_DOFS) * s d) 0
  simpa using this

theorem accum2D_eq (L : Layout) (NUM_DOFS NUM_QUAD : Nat) (dofToQuadD s : Buf) (q : Nat) :
    accum2D L NUM_DOFS NUM_QUAD dofToQuadD s q =
      { J11 := ∑ d in Finset.range NUM_DOFS,
          dofToQuadD (L.ijkNM 0 q d 2 NUM_QUAD) * s (L.ijN 0 d 2)
        J12 := ∑ d in Finset.range NUM_DOFS,
          dofToQuadD (L.ijkNM 0 q d 2 NUM_QUAD) * s (L.ijN 1 d 2)
        J21 := ∑ d in Finset.range NUM_DOFS,
          dofToQuadD (L.ijkNM 1 q d 2 NUM_QUAD) * s (L.ijN 0 d 2)
        J22 := ∑ d in Finset.range NUM_DOFS,
          dofToQuadD (L.ijkNM 1 q d 2 NUM_QUAD) * s (L.ijN 1 d 2) } := by
  unfold accum2D
  induction NUM_DOFS with
  | zero => simp [forLoop]
  | succ n ih => rw [forLoop_succ, ih]; simp [Finset.sum_range_succ]

theorem accum3D_eq (L : Layout) (NUM_DOFS NUM_QUAD : Nat) (dofToQuadD s : Buf) (q : Nat) :
    accum3D L NUM_DOFS NUM_QUAD dofToQuadD s q =
      { J11 := ∑ d in Finset.range NUM_DOFS,
          dofToQuadD (L.ijkNM 0 q d 3 NUM_QUAD) * s (L.ijN 0 d 3)
        J12 := ∑ d in Finset.range NUM_DOFS,
          dofToQuadD (L.ijkNM 0 q d 3 NUM_QUAD) * s (L.ijN 1 d 3)
        J13 := ∑ d in Finset.range NUM_DOFS,
          dofToQuadD (L.ijkNM 0 q d 3 NUM_QUAD) * s (L.ijN 2 d 3)
        J21 := ∑ d in Finset.range NUM_DOFS,
          dofToQuadD (L.ijkNM 1 q d 3 NUM_QUAD) * s (L.ijN 0 d 3)
        J22 := ∑ d in Finset.range NUM_DOFS,
          dofToQuadD (L.ijkNM 1 q d 3 NUM_QUAD) * s (L.ijN 1 d 3)
        J23 := ∑ d in Finset.range NUM_DOFS,
          dofToQuadD (L.ijkNM 1 q d 3 NUM_QUAD) * s (L.ijN 2 d 3)
        J31 := ∑ d in Finset.range NUM_DOFS,
          dofToQuadD (L.ijkNM 2 q d 3 NUM_QUAD) * s (L.ijN 0 d 3)
        J32 := ∑ d in Finset.range NUM_DOFS,
          dofToQuadD (L.ijkNM 2 q d 3 NUM_QUAD) * s (L.ijN 1 d 3)
        J33 := ∑ d in Finset.range NUM_DOFS,
          dofToQuadD (L.ijkNM 2 q d 3 NUM_QUAD) * s (L.ijN 2 d 3) } := by
  unfold accum3D
  induction NUM_DOFS with
  | zero => simp [forLoop]
  | succ n ih => rw [forLoop_succ, ih]; simp [Finset.sum_range_succ]

/-- The 1D accumulator on the gathered nodes. -/
theorem accum1D_gather (L : Layout) (NUM_DOFS NUM_QUAD : Nat) (dofToQuadD nodes s0 : Buf)
    (q e : Nat) (hq : q < NUM_QUAD) :
    accum1D L NUM_DOFS dofToQuadD (gather1D L NUM_DOFS NUM_QUAD nodes e s0) q
      = sum1D L NUM_DOFS NUM_QUAD dofToQuadD nodes q e := by
  rw [accum1D_eq]
  simp only [sum1D]
  refine Finset.sum_congr rfl (fun d hd => ?_)
  rw [gather1D_spec L NUM_DOFS NUM_QUAD nodes e s0 (by omega) d (Finset.mem_range.mp hd)]

/-- The 2D accumulators on the gathered nodes are the entries of the Jacobian. -/
theorem accum2D_gather (L : Layout) (hL : L.Injective) (NUM_DOFS NUM_QUAD : Nat)
    (dofToQuadD nodes s0 : Buf) (q e : Nat) (hq : q < NUM_QUAD) :
    accum2D L NUM_DOFS NUM_QUAD dofToQuadD (gather2D L NUM_DOFS NUM_QUAD nodes e s0) q =
      { J11 := jacobian L 2 NUM_DOFS NUM_QUAD dofToQuadD nodes q e 0 0
        J12 := jacobian L 2 NUM_DOFS NUM_QUAD dofToQuadD nodes q e 0 1
        J21 := jacobian L 2 NUM_DOFS NUM_QUAD dofToQuadD nodes q e 1 0
        J22 := jacobian L 2 NUM_DOFS NUM_QUAD dofToQuadD nodes q e 1 1 } := by
  rw [accum2D_eq]
  have g := fun d (hd : d ∈ Finset.range NUM_DOFS) =>
    gather2D_spec L hL NUM_DOFS NUM_QUAD nodes e s0 (by omega) d (Finset.mem_range.mp hd)
  simp only [jacobian, Matrix.of_apply, Fin.val_zero, Fin.val_one]
  congr 1 <;> refine Finset.sum_congr rfl (fun d hd => ?_)
  · rw [g d hd 0 (by omega)]
  · rw [g d hd 1 (by omega)]
  · rw [g d hd 0 (by omega)]
  · rw [g d hd 1 (by omega)]

/-- The 3D accumulators on the gathered nodes are the entries of the Jacobian. -/
theorem accum3D_gather (L : Layout) (hL : L.Injective) (NUM_DOFS NUM_QUAD : Nat)
    (dofToQuadD nodes s0 : Buf) (q e : Nat) (hq : q < NUM_QUAD) :
    accum3D L NUM_DOFS NUM_QUAD dofToQuadD (gather3D L NUM_DOFS NUM_QUAD nodes e s0) q =
      { J11 := jacobian L 3 NUM_DOFS NUM_QUAD dofToQuadD nodes q e 0 0
        J12 := jacobian L 3 NUM_DOFS NUM_QUAD dofToQuadD nodes q e 0 1
        J13 := jacobian L 3 NUM_DOFS NUM_QUAD dofToQuadD nodes q e 0 2
        J21 := jacobian L 3 NUM_DOFS NUM_QUAD dofToQuadD nodes q e 1 0
        J22 := jacobian L 3 NUM_DOFS NUM_QUAD dofToQuadD nodes q e 1 1
        J23 := jacobian L 3 NUM_DOFS NUM_QUAD dofToQuadD nodes q e 1 2
        J31 := jacobian L 3 NUM_DOFS NUM_QUAD dofToQuadD nodes q e 2 0
        J32 := jacobian L 3 NUM_DOFS NUM_QUAD dofToQuadD nodes q e 2 1
        J33 := jacobian L 3 NUM_DOFS NUM_QUAD dofToQuadD nodes q e 2 2 } := by
  rw [accum3D_eq]
  have g := fun d (hd : d ∈ Finset.range NUM_DOFS) =>
    gather3D_spec L hL NUM_DOFS NUM_QUAD nodes e s0 (by omega) d (Finset.mem_range.mp hd)
  have v2 : ((2 : Fin 3) : Nat) = 2 := rfl
  simp only [jacobian, Matrix.of_apply, Fin.val_zero, Fin.val_one, v2]
  congr 1 <;> refine Finset.sum_congr rfl (fun d hd => ?_)
  · rw [g d hd 0 (by omega)]
  · rw [g d hd 1 (by omega)]
  · rw [g d hd 2 (by omega)]
  · rw [g d hd 0 (by omega)]
  · rw [g d hd 1 (by omega)]
  · rw [g d hd 2 (by omega)]
  · rw [g d hd 0 (by omega)]
  · rw [g d hd 1 (by omega)]
  · rw [g d hd 2 (by omega)]

theorem flatten_inj (N a b a' b' : Nat) (ha : a < N) (ha' : a' < N)
    (h : a + N * b = a' + N * b') : a = a' ∧ b = b' := by
  have hN : 0 < N := by omega
  have h1 : (a + N * b) % N = a := by
    rw [Nat.add_mul_mod_self_left]; exact Nat.mod_eq_of_lt ha
  have h2 : (a' + N * b') % N = a' := by
    rw [Nat.add_mul_mod_self_left]; exact Nat.mod_eq_of_lt ha'
  have e : a = a' := by rw [← h1, ← h2, h]
  subst e
  exact ⟨rfl, Nat.eq_of_mul_eq_mul_left hN (Nat.add_left_cancel h)⟩

theorem stdLayout_injective : stdLayout.Injective where
  ijN_inj := by
    intro N i j i' j' hi hi' h
    exact flatten_inj N i j i' j' hi hi' h
  ijklNM_inj := by
    intro N M i j k l i' j' k' l' hi hj hk hi' hj' hk' h
    obtain ⟨h1, h⟩ := flatten_inj N i _ i' _ hi hi' h
    obtain ⟨h2, h⟩ := flatten_inj N j _ j' _ hj hj' h
    obtain ⟨h3, h⟩ := flatten_inj M k _ k' _ hk hk' h
    exact ⟨h1, h2, h3, h⟩


/-- The determinant written by `kInitGeometryInfo1D` at `(q, e)`. -/
theorem kInitGeometryInfo1D_detJ (L : Layout) (hL : L.Injective)
    (NUM_DOFS NUM_QUAD numElements : Nat) (dofToQuadD nodes s0 : Buf) (out : GeomOut)
    (e q : Nat) (he : e < numElements) (hq : q < NUM_QUAD) :
    (kInitGeometryInfo1D L NUM_DOFS NUM_QUAD numElements dofToQuadD nodes s0 out).detJ
        (L.ijN q e NUM_QUAD) = sum1D L NUM_DOFS NUM_QUAD dofToQuadD nodes q e := by
  obtain ⟨_, _, hD⟩ := kInitGeometryInfo1D_cell L hL NUM_DOFS NUM_QUAD numElements
    dofToQuadD nodes s0 out e q he hq
  rw [hD, accum1D_gather L NUM_DOFS NUM_QUAD dofToQuadD nodes s0 q e hq]

/-- The determinant written by `kInitGeometryInfo2D` at `(q, e)`. -/
theorem kInitGeometryInfo2D_detJ (L : Layout) (hL : L.Injective)
    (NUM_DOFS NUM_QUAD numElements : Nat) (dofToQuadD nodes s0 : Buf) (out : GeomOut)
    (e q : Nat) (he : e < numElements) (hq : q < NUM_QUAD) :
    (kInitGeometryInfo2D L NUM_DOFS NUM_QUAD numElements dofToQuadD nodes s0 out).detJ
        (L.ijN q e NUM_QUAD) = (jacobian L 2 NUM_DOFS NUM_QUAD dofToQuadD nodes q e).det := by
  obtain ⟨_, _, hD⟩ := kInitGeometryInfo2D_cell L hL NUM_DOFS NUM_QUAD numElements
    dofToQuadD nodes s0 out e q he hq
  rw [accum2D_gather L hL NUM_DOFS NUM_QUAD dofToQuadD nodes s0 q e hq] at hD
  rw [hD, Matrix.det_fin_two]

/-- The determinant written by `kInitGeometryInfo3D` at `(q, e)`. -/
theorem kInitGeometryInfo3D_detJ (L : Layout) (hL : L.Injective)
    (NUM_DOFS NUM_QUAD numElements : Nat) (dofToQuadD nodes s0 : Buf) (out : GeomOut)
    (e q : Nat) (he : e < numElements) (hq : q < NUM_QUAD) :
    (kInitGeometryInfo3D L NUM_DOFS NUM_QUAD numElements dofToQuadD nodes s0 out).detJ
        (L.ijN q e NUM_QUAD) = (jacobian L 3 NUM_DOFS NUM_QUAD dofToQuadD nodes q e).det := by
  obtain ⟨_, _, hD⟩ := kInitGeometryInfo3D_cell L hL NUM_DOFS NUM_QUAD numElements
    dofToQuadD nodes s0 out e q he hq
  rw [accum3D_gather L hL NUM_DOFS NUM_QUAD dofToQuadD nodes s0 q e hq] at hD
  rw [hD, Matrix.det_fin_three]
  simp only [Acc3.det]
  ring

set_option maxHeartbeats 4000000 in
/-- C8: whenever the determinant written at `(q, e)` is non-zero, the `invJ(q,e)`
written by `kInitGeometryInfo{1,2,3}D` is the two-sided inverse of the `J(q,e)` it
writes, both read with the same `(i, j)` storage layout. -/
theorem kInitGeometryInfo_invJ_is_inverse (L : Layout) (hL : L.Injective)
    (NUM_DOFS NUM_QUAD numElements : Nat) (dofToQuadD nodes s0 : Buf) (out : GeomOut)
    (e q : Nat) (he : e < numElements) (hq : q < NUM_QUAD) :
    ((kInitGeometryInfo1D L NUM_DOFS NUM_QUAD numElements dofToQuadD nodes s0 out).detJ
        (L.ijN q e NUM_QUAD) ≠ 0 →
      (kInitGeometryInfo1D L NUM_DOFS NUM_QUAD numElements dofToQuadD nodes s0 out).invJ
          (L.ijN q e NUM_QUAD) *
        (kInitGeometryInfo1D L NUM_DOFS NUM_QUAD numElements dofToQuadD nodes s0 out).J
          (L.ijN q e NUM_QUAD) = 1 ∧
      (kInitGeometryInfo1D L NUM_DOFS NUM_QUAD numElements dofToQuadD nodes s0 out).J
          (L.ijN q e NUM_QUAD) *
        (kInitGeometryInfo1D L NUM_DOFS NUM_QUAD numElements dofToQuadD nodes s0 out).invJ
          (L.ijN q e NUM_QUAD) = 1) ∧
    ((kInitGeometryInfo2D L NUM_DOFS NUM_QUAD numElements dofToQuadD nodes s0 out).detJ
        (L.ijN q e NUM_QUAD) ≠ 0 →
      storedMatrix L 2 NUM_QUAD
          (kInitGeometryInfo2D L NUM_DOFS NUM_QUAD numElements dofToQuadD nodes s0 out).invJ
          q e *
        storedMatrix L 2 NUM_QUAD
          (kInitGeometryInfo2D L NUM_DOFS NUM_QUAD numElements dofToQuadD nodes s0 out).J
          q e = 1 ∧
      storedMatrix L 2 NUM_QUAD
          (kInitGeometryInfo2D L NUM_DOFS NUM_QUAD numElements dofToQuadD nodes s0 out).J
          q e *
        storedMatrix L 2 NUM_QUAD
          (kInitGeometryInfo2D L NUM_DOFS NUM_QUAD numElements dofToQuadD nodes s0 out).invJ
          q e = 1) ∧
    ((kInitGeometryInfo3D L NUM_DOFS NUM_QUAD numElements dofToQuadD nodes s0 out).detJ
        (L.ijN q e NUM_QUAD) ≠ 0 →
      storedMatrix L 3 NUM_QUAD
          (kInitGeometryInfo3D L NUM_DOFS NUM_QUAD numElements dofToQuadD nodes s0 out).invJ
          q e *
        storedMatrix L 3 NUM_QUAD
          (kInitGeometryInfo3D L NUM_DOFS NUM_QUAD numElements dofToQuadD nodes s0 out).J
          q e = 1 ∧
      storedMatrix L 3 NUM_QUAD
          (kInitGeometryInfo3D L NUM_DOFS NUM_QUAD numElements dofToQuadD nodes s0 out).J
          q e *
        storedMatrix L 3 NUM_QUAD
          (kInitGeometryInfo3D L NUM_DOFS NUM_QUAD numElements dofToQuadD nodes s0 out).invJ
          q e = 1) := by
  refine ⟨?_, ?_, ?_⟩
  · have hc := kInitGeometryInfo1D_cell L hL NUM_DOFS NUM_QUAD numElements
      dofToQuadD nodes s0 out e q he hq
    generalize kInitGeometryInfo1D L NUM_DOFS NUM_QUAD numElements dofToQuadD nodes s0 out
      = r at hc ⊢
    generalize accum1D L NUM_DOFS dofToQuadD (gather1D L NUM_DOFS NUM_QUAD nodes e s0) q
      = a at hc
    intro hdet
    obtain ⟨hJ, hI, hD⟩ := hc
    rw [hD] at hdet
    rw [hJ, hI]
    constructor <;> field_simp
  · have hc := kInitGeometryInfo2D_cell L hL NUM_DOFS NUM_QUAD numElements
      dofToQuadD nodes s0 out e q he hq
    generalize kInitGeometryInfo2D L NUM_DOFS NUM_QUAD numElements dofToQuadD nodes s0 out
      = r at hc ⊢
    generalize accum2D L NUM_DOFS NUM_QUAD dofToQuadD
      (gather2D L NUM_DOFS NUM_QUAD nodes e s0) q = a at hc
    intro hdet
    obtain ⟨⟨h00, h10, h01, h11⟩, ⟨i00, i10, i01, i11⟩, hD⟩ := hc
    rw [hD] at hdet
    constructor <;>
    · ext i j
      fin_cases i <;> fin_cases j <;>
      · simp only [Matrix.mul_apply, Fin.sum_univ_two, storedMatrix, Matrix.of_apply,
          Fin.zero_eta, Fin.mk_one, Fin.val_zero, Fin.val_one, Fin.isValue,
          h00, h10, h01, h11, i00, i10, i01, i11, Matrix.one_apply_eq,
          Matrix.one_apply_ne, ne_eq, one_ne_zero, zero_ne_one, not_false_eq_true]
        field_simp
        try ring
  · have hc := kInitGeometryInfo3D_cell L hL NUM_DOFS NUM_QUAD numElements
      dofToQuadD nodes s0 out e q he hq
    generalize kInitGeometryInfo3D L NUM_DOFS NUM_QUAD numElements dofToQuadD nodes s0 out
      = r at hc ⊢
    generalize accum3D L NUM_DOFS NUM_QUAD dofToQuadD
      (gather3D L NUM_DOFS NUM_QUAD nodes e s0) q = a at hc
    intro hdet
    obtain ⟨⟨h00, h10, h20, h01, h11, h21, h02, h12, h22⟩,
        ⟨i00, i10, i20, i01, i11, i21, i02, i12, i22⟩, hD⟩ := hc
    rw [hD] at hdet
    have v2 : ((2 : Fin 3) : Nat) = 2 := rfl
    have hdet' := hdet
    simp only [Acc3.det] at hdet'
    constructor <;>
    · ext i j
      fin_cases i <;> fin_cases j <;>
      · simp only [Matrix.mul_apply, Fin.sum_univ_three, storedMatrix, Matrix.of_apply,
          Fin.zero_eta, Fin.mk_one, Fin.val_zero, Fin.val_one, Fin.isValue, v2,
          Fin.reduceFinMk,
          h00, h10, h20, h01, h11, h21, h02, h12, h22,
          i00, i10, i20, i01, i11, i21, i02, i12, i22, Matrix.one_apply_eq]
        try rw [Matrix.one_apply_ne (by decide)]
        simp only [Acc3.det]
        field_simp
        try ring

theorem exJacobian1D_det : sum1D stdLayout 3 2 exD exNodes 1 1 = 3453 := by
  simp [sum1D, stdLayout, exD, exNodes, Finset.sum_range_succ]
  norm_num

theorem exJacobian2D_det : (jacobian stdLayout 2 3 2 exD exNodes 1 1).det = -1454904 := by
  rw [Matrix.det_fin_two]
  simp [jacobian, stdLayout, exD, exNodes, Finset.sum_range_succ]
  norm_num

theorem exJacobian3D_det : (jacobian stdLayout 3 3 2 exD exNodes 1 1).det = -373248 := by
  rw [Matrix.det_fin_three]
  have v2 : ((2 : Fin 3) : Nat) = 2 := rfl
  simp [jacobian, stdLayout, exD, exNodes, Finset.sum_range_succ, v2]
  norm_num

/-- Witness for C8: three dofs, two points, two elements, at point 1 of element 1. -/
theorem kInitGeometryInfo_invJ_is_inverse_witness :
    ((1 : Nat) < 2 ∧ (1 : Nat) < 2) ∧
    ((kInitGeometryInfo1D stdLayout 3 2 2 exD exNodes (fun _ => 7) exOut).invJ
        (stdLayout.ijN 1 1 2) *
      (kInitGeometryInfo1D stdLayout 3 2 2 exD exNodes (fun _ => 7) exOut).J
        (stdLayout.ijN 1 1 2) = 1) ∧
    (storedMatrix stdLayout 2 2
        (kInitGeometryInfo2D stdLayout 3 2 2 exD exNodes (fun _ => 7) exOut).invJ 1 1 *
      storedMatrix stdLayout 2 2
        (kInitGeometryInfo2D stdLayout 3 2 2 exD exNodes (fun _ => 7) exOut).J 1 1 = 1) ∧
    (storedMatrix stdLayout 3 2
        (kInitGeometryInfo3D stdLayout 3 2 2 exD exNodes (fun _ => 7) exOut).invJ 1 1 *
      storedMatrix stdLayout 3 2
        (kInitGeometryInfo3D stdLayout 3 2 2 exD exNodes (fun _ => 7) exOut).J 1 1 = 1) :=
  ⟨⟨by decide, by decide⟩,
   ((kInitGeometryInfo_invJ_is_inverse stdLayout stdLayout_injective 3 2 2 exD exNodes
      (fun _ => 7) exOut 1 1 (by decide) (by decide)).1
      (by rw [kInitGeometryInfo1D_detJ stdLayout stdLayout_injective 3 2 2 exD exNodes
            (fun _ => 7) exOut 1 1 (by decide) (by decide), exJacobian1D_det]
          norm_num)).1,
   ((kInitGeometryInfo_invJ_is_inverse stdLayout stdLayout_injective 3 2 2 exD exNodes
      (fun _ => 7) exOut 1 1 (by decide) (by decide)).2.1
      (by rw [kInitGeometryInfo2D_detJ stdLayout stdLayout_injective 3 2 2 exD exNodes
            (fun _ => 7) exOut 1 1 (by decide) (by decide), exJacobian2D_det]
          norm_num)).1,
   ((kInitGeometryInfo_invJ_is_inverse stdLayout stdLayout_injective 3 2 2 exD exNodes
      (fun _ => 7) exOut 1 1 (by decide) (by decide)).2.2
      (by rw [kInitGeometryInfo3D_detJ stdLayout stdLayout_injective 3 2 2 exD exNodes
            (fun _ => 7) exOut 1 1 (by decide) (by decide), exJacobian3D_det]
          norm_num)).1⟩

theorem forLoop_zero {σ : Type} (body : Nat → σ → σ) (s : σ) : forLoop 0 body s = s := rfl

theorem forLoop_add {σ : Type} (a b : Nat) (body : Nat → σ → σ) (s : σ) :
    forLoop (a + b) body s = forLoop b (fun i s => body (a + i) s) (forLoop a body s) := by
  induction b with
  | zero => rfl
  | succ b ih => rw [← Nat.add_assoc, forLoop_succ, forLoop_succ, ih]

theorem forLoop_congr {σ : Type} (n : Nat) (f g : Nat → σ → σ) (s : σ)
    (h : ∀ i, i < n → ∀ s, f i s = g i s) : forLoop n f s = forLoop n g s := by
  induction n with
  | zero => rfl
  | succ n ih =>
    rw [forLoop_succ, forLoop_succ, ih (fun i hi s => h i (by omega) s), h n (by omega)]

/-- The flattening `z * n + q` of (zone, point) is injective for `q < n`. -/
theorem idx_inj {n z q z' q' : Nat} (hq : q < n) (hq' : q' < n)
    (h : z * n + q = z' * n + q') : z = z' ∧ q = q' := by
  have h1 : q + n * z = q' + n * z' := by
    rw [Nat.mul_comm n z, Nat.mul_comm n z']; omega
  have := flatten_inj n q z q' z' hq hq' h1
  exact ⟨this.2, this.1⟩

theorem idx_eq_iff {n z q z' q' : Nat} (hq : q < n) (hq' : q' < n) :
    z * n + q = z' * n + q' ↔ z = z' ∧ q = q' :=
  ⟨idx_inj hq hq', fun h => by rw [h.1, h.2]⟩

/-! ### The stores into `stressJinvT` -/

theorem stress_store_inner (M : DenseMatrix) (vd r : Nat) (n : Nat)
    (T : Nat × Nat × Nat → ℚ) (a b c : Nat) :
    forLoop n (fun gd T => Function.update T (vd, r, gd) (M vd gd)) T (a, b, c)
      = if a = vd ∧ b = r ∧ c < n then M vd c else T (a, b, c) := by
  induction n with
  | zero => simp [forLoop]
  | succ n ih =>
    rw [forLoop_succ, Function.update_apply, ih]
    by_cases h1 : a = vd <;> by_cases h2 : b = r <;> by_cases h3 : c = n
    all_goals simp [h1, h2, h3, Nat.lt_succ_iff]
    all_goals simp_all [Nat.lt_iff_le_and_ne]

theorem stress_store (M : DenseMatrix) (r : Nat) (n k : Nat)
    (T : Nat × Nat × Nat → ℚ) (a b c : Nat) :
    forLoop k (fun vd T =>
      forLoop n (fun gd T => Function.update T (vd, r, gd) (M vd gd)) T) T (a, b, c)
      = if a < k ∧ b = r ∧ c < n then M a c else T (a, b, c) := by
  induction k with
  | zero => simp [forLoop]
  | succ k ih =>
    rw [forLoop_succ, stress_store_inner, ih]
    by_cases h1 : a = k
    · subst h1; simp
    · have : a < k + 1 ↔ a < k := by omega
      simp [h1, this]

/-! ### The first zone loop of a batch -/

theorem gatherPoint_spec {σ : Type} (H : Hydro σ) (lib : Lib) (S : σ) (qd : QuadratureData)
    (z0 k j : Nat) (g : Gather) (hj : j < H.nqp) (hz : g.z_id = z0 + k)
    (hpa : H.p_assembly = true → g.Jpr_b k = H.GetVectorGrad_x S (z0 + k)) :
    (gatherPoint H lib S qd
        (if H.p_assembly then H.GetL2Values S (z0 + k) else H.e_GetValues S (z0 + k))
        k j g).z_id = z0 + k ∧
    (gatherPoint H lib S qd
        (if H.p_assembly then H.GetL2Values S (z0 + k) else H.e_GetValues S (z0 + k))
        k j g).min_detJ = min g.min_detJ ((detJAt H lib S (z0 + k) j : ℚ) : WithTop ℚ) ∧
    GCell H lib S qd z0 (gatherPoint H lib S qd
        (if H.p_assembly then H.GetL2Values S (z0 + k) else H.e_GetValues S (z0 + k))
        k j g) k j ∧
    (∀ z q, q < H.nqp → ¬ (z = k ∧ q = j) → GCell H lib S qd z0 g z q →
      GCell H lib S qd z0 (gatherPoint H lib S qd
        (if H.p_assembly then H.GetL2Values S (z0 + k) else H.e_GetValues S (z0 + k))
        k j g) z q) ∧
    (H.p_assembly = true → (gatherPoint H lib S qd
        (if H.p_assembly then H.GetL2Values S (z0 + k) else H.e_GetValues S (z0 + k))
        k j g).Jpr_b k = H.GetVectorGrad_x S (z0 + k)) := by
  have hJ : (if ¬ H.p_assembly = true then
        Function.update g.Jpr_b k (Function.update (g.Jpr_b k) j (H.T_Jacobian S (z0 + k) j))
      else g.Jpr_b) k j = JprAt H S (z0 + k) j := by
    unfold JprAt
    by_cases hp : H.p_assembly = true
    · simp [hp, hpa hp]
    · simp [hp]
  refine ⟨hz, ?_, ?_, ?_, ?_⟩
  · simp only [gatherPoint, hz, hJ, detJAt]
  · refine ⟨?_, ?_, ?_, ?_⟩
    · simp [gatherPoint, gammaAt, hz]
    · simp only [gatherPoint, hz, hJ, rhoAt, detJAt, Function.update_same]
    · simp only [gatherPoint, eAt, Function.update_same]
      by_cases hp : H.p_assembly = true <;> simp [hp]
    · simp only [gatherPoint, hz, hJ]
  · intro z q hq hne ⟨h1, h2, h3, h4⟩
    have hidx : z * H.nqp + q ≠ k * H.nqp + j := by
      intro h
      exact hne (idx_inj hq hj h)
    refine ⟨?_, ?_, ?_, ?_⟩
    · simp only [gatherPoint, Function.update_noteq hidx, h1]
    · simp only [gatherPoint, Function.update_noteq hidx, h2]
    · simp only [gatherPoint, Function.update_noteq hidx, h3]
    · simp only [gatherPoint]
      by_cases hp : H.p_assembly = true
      · simp [hp, h4]
      · simp only [hp, not_false_eq_true, if_true]
        by_cases hzk : z = k
        · subst hzk
          have hqj : q ≠ j := fun h => hne ⟨rfl, h⟩
          simp [Function.update_noteq hqj, h4]
        · simp [Function.update_noteq hzk, h4]
  · intro hp
    simp [gatherPoint, hp, hpa hp]


theorem gatherZone_spec {σ : Type} (H : Hydro σ) (lib : Lib) (S : σ) (qd : QuadratureData)
    (z0 k : Nat) (g : Gather) (hz : g.z_id = z0 + k)
    (hc : ∀ z, z < k → ∀ q, q < H.nqp → GCell H lib S qd z0 g z q) :
    (gatherZone H lib S qd k g).z_id = z0 + (k + 1) ∧
    (gatherZone H lib S qd k g).min_detJ =
      forLoop H.nqp (fun q m => min m ((detJAt H lib S (z0 + k) q : ℚ) : WithTop ℚ))
        g.min_detJ ∧
    (∀ z, z < k + 1 → ∀ q, q < H.nqp →
      GCell H lib S qd z0 (gatherZone H lib S qd k g) z q) := by
  have key : ∀ j, j ≤ H.nqp →
      (forLoop j (gatherPoint H lib S qd
        (if H.p_assembly then H.GetL2Values S (z0 + k) else H.e_GetValues S (z0 + k)) k)
        { g with Jpr_b := if H.p_assembly then
            Function.update g.Jpr_b k (H.GetVectorGrad_x S (z0 + k)) else g.Jpr_b }).z_id
        = z0 + k ∧
      (forLoop j (gatherPoint H lib S qd
        (if H.p_assembly then H.GetL2Values S (z0 + k) else H.e_GetValues S (z0 + k)) k)
        { g with Jpr_b := if H.p_assembly then
            Function.update g.Jpr_b k (H.GetVectorGrad_x S (z0 + k)) else g.Jpr_b }).min_detJ
        = forLoop j (fun q m => min m ((detJAt H lib S (z0 + k) q : ℚ) : WithTop ℚ))
            g.min_detJ ∧
      (∀ z, z < k → ∀ q, q < H.nqp → GCell H lib S qd z0
        (forLoop j (gatherPoint H lib S qd
          (if H.p_assembly then H.GetL2Values S (z0 + k) else H.e_GetValues S (z0 + k)) k)
          { g with Jpr_b := if H.p_assembly then
              Function.update g.Jpr_b k (H.GetVectorGrad_x S (z0 + k)) else g.Jpr_b }) z q) ∧
      (∀ q, q < j → GCell H lib S qd z0
        (forLoop j (gatherPoint H lib S qd
          (if H.p_assembly then H.GetL2Values S (z0 + k) else H.e_GetValues S (z0 + k)) k)
          { g with Jpr_b := if H.p_assembly then
              Function.update g.Jpr_b k (H.GetVectorGrad_x S (z0 + k)) else g.Jpr_b }) k q) ∧
      (H.p_assembly = true →
        (forLoop j (gatherPoint H lib S qd
          (if H.p_assembly then H.GetL2Values S (z0 + k) else H.e_GetValues S (z0 + k)) k)
          { g with Jpr_b := if H.p_assembly then
              Function.update g.Jpr_b k (H.GetVectorGrad_x S (z0 + k)) else g.Jpr_b }).Jpr_b k
          = H.GetVectorGrad_x S (z0 + k)) := by
    intro j
    induction j with
    | zero =>
      intro _
      refine ⟨hz, rfl, ?_, ?_, ?_⟩
      · intro z hzk q hq
        obtain ⟨h1, h2, h3, h4⟩ := hc z hzk q hq
        refine ⟨h1, h2, h3, ?_⟩
        simp only [forLoop_zero]
        by_cases hp : H.p_assembly = true
        · have hne : z ≠ k := by omega
          simp [hp, Function.update_noteq hne, h4]
        · simp [hp, h4]
      · intro q hq; omega
      · intro hp
        simp [forLoop_zero, hp]
    | succ j ih =>
      intro hj
      obtain ⟨i1, i2, i3, i4, i5⟩ := ih (by omega)
      rw [forLoop_succ]
      obtain ⟨s1, s2, s3, s4, s5⟩ := gatherPoint_spec H lib S qd z0 k j _ (by omega) i1 i5
      refine ⟨s1, ?_, ?_, ?_, s5⟩
      · rw [s2, i2, forLoop_succ]
      · intro z hzk q hq
        exact s4 z q hq (by omega) (i3 z hzk q hq)
      · intro q hq
        by_cases hqj : q = j
        · subst hqj; exact s3
        · exact s4 k q (by omega) (by omega) (i4 q (by omega))
  obtain ⟨k1, k2, k3, k4, _⟩ := key H.nqp (le_refl _)
  have e : gatherZone H lib S qd k g =
      { (forLoop H.nqp (gatherPoint H lib S qd
          (if H.p_assembly then H.GetL2Values S (z0 + k) else H.e_GetValues S (z0 + k)) k)
          { g with Jpr_b := if H.p_assembly then
              Function.update g.Jpr_b k (H.GetVectorGrad_x S (z0 + k)) else g.Jpr_b }) with
        z_id := (forLoop H.nqp (gatherPoint H lib S qd
          (if H.p_assembly then H.GetL2Values S (z0 + k) else H.e_GetValues S (z0 + k)) k)
          { g with Jpr_b := if H.p_assembly then
              Function.update g.Jpr_b k (H.GetVectorGrad_x S (z0 + k)) else g.Jpr_b }).z_id
            + 1 } := by
    simp only [gatherZone, hz]
  rw [e]
  refine ⟨by simp only [k1]; omega, k2, ?_⟩
  intro z hzk q hq
  by_cases h : z = k
  · subst h; exact k4 q hq
  · exact k3 z (by omega) q hq

theorem batchGather_spec {σ : Type} (H : Hydro σ) (lib : Lib) (S : σ) (z0 : Nat)
    (st : Pass) :
    (batchGather H lib S z0 st).z_id = z0 + st.nzones_batch ∧
    (batchGather H lib S z0 st).min_detJ = minDetJ H lib S z0 st.nzones_batch ∧
    (∀ z, z < st.nzones_batch → ∀ q, q < H.nqp →
      GCell H lib S st.qd z0 (batchGather H lib S z0 st) z q) := by
  unfold batchGather minDetJ
  generalize st.nzones_batch = nb
  induction nb with
  | zero => exact ⟨rfl, rfl, fun z hz => by omega⟩
  | succ nb ih =>
    obtain ⟨i1, i2, i3⟩ := ih
    rw [forLoop_succ, forLoop_succ]
    obtain ⟨s1, s2, s3⟩ := gatherZone_spec H lib S st.qd z0 nb _ i1 i3
    exact ⟨s1, by rw [s2, i2], s3⟩

theorem ComputeMaterialProperties_spec (eos : ℚ → ℚ → ℚ → ℚ × ℚ) (n : Nat)
    (gamma rho e p cs : Buf) (i : Nat) (hi : i < n) :
    (ComputeMaterialProperties eos n gamma rho e p cs).1 i = (eos (gamma i) (rho i) (e i)).1 ∧
    (ComputeMaterialProperties eos n gamma rho e p cs).2 i = (eos (gamma i) (rho i) (e i)).2 := by
  unfold ComputeMaterialProperties
  induction n with
  | zero => omega
  | succ n ih =>
    rw [forLoop_succ]
    by_cases h : i = n
    · subst h; simp
    · have := ih (by omega)
      simp [Function.update_noteq h, this]

/-! ### The second zone loop of a batch -/

theorem idx_lt {n nb z q : Nat} (hz : z < nb) (hq : q < n) : z * n + q < n * nb := by
  calc z * n + q < z * n + n := by omega
    _ = (z + 1) * n := by ring
    _ ≤ nb * n := Nat.mul_le_mul_right n (by omega)
    _ = n * nb := Nat.mul_comm _ _

/-- The values read from the batch buffers at the cell `(z, q)` are the values of
the zone `z0 + z` at the point `q`. -/
theorem updatePoint_eq {σ : Type} (H : Hydro σ) (lib : Lib) (S : σ) (z0 : Nat) (st : Pass)
    (hn : st.nqp_batch = H.nqp * st.nzones_batch) (m : WithTop ℚ)
    (z q : Nat) (hz : z < st.nzones_batch) (hq : q < H.nqp) (u : Update)
    (hu : u.z_id = z0 + z) :
    updatePoint H lib S (batchGather H lib S z0 st).Jpr_b (batchGather H lib S z0 st).rho_b
        (batchMaterial H (batchGather H lib S z0 st) st).1
        (batchMaterial H (batchGather H lib S z0 st) st).2 m z q u
      = { qd := refPoint H lib S st.qd.rho0DetJ0w m (z0 + z) q u.qd, z_id := z0 + z } := by
  obtain ⟨_, _, hcell⟩ := batchGather_spec H lib S z0 st
  obtain ⟨c1, c2, c3, c4⟩ := hcell z hz q hq
  have hi : z * H.nqp + q < st.nqp_batch := by rw [hn]; exact idx_lt hz hq
  obtain ⟨m1, m2⟩ := ComputeMaterialProperties_spec H.eos st.nqp_batch
    (batchGather H lib S z0 st).gamma_b (batchGather H lib S z0 st).rho_b
    (batchGather H lib S z0 st).e_b st.p_b st.cs_b (z * H.nqp + q) hi
  simp only [updatePoint, refPoint, batchMaterial, m1, m2, c1, c2, c3, c4, hu, pAt, csAt]

theorem updateZone_eq {σ : Type} (H : Hydro σ) (lib : Lib) (S : σ) (z0 : Nat) (st : Pass)
    (hn : st.nqp_batch = H.nqp * st.nzones_batch) (m : WithTop ℚ)
    (z : Nat) (hz : z < st.nzones_batch) (u : Update) (hu : u.z_id = z0 + z)
    (j : Nat) (hj : j ≤ H.nqp) :
    forLoop j (updatePoint H lib S (batchGather H lib S z0 st).Jpr_b
        (batchGather H lib S z0 st).rho_b
        (batchMaterial H (batchGather H lib S z0 st) st).1
        (batchMaterial H (batchGather H lib S z0 st) st).2 m z) u
      = { qd := forLoop j (fun q qd => refPoint H lib S st.qd.rho0DetJ0w m (z0 + z) q qd) u.qd
          z_id := z0 + z } := by
  induction j with
  | zero => simp only [forLoop_zero, ← hu]
  | succ j ih =>
    rw [forLoop_succ, ih (by omega), forLoop_succ]
    exact updatePoint_eq H lib S z0 st hn m z j hz (by omega) _ rfl

theorem updateZones_eq {σ : Type} (H : Hydro σ) (lib : Lib) (S : σ) (z0 : Nat) (st : Pass)
    (hn : st.nqp_batch = H.nqp * st.nzones_batch) (m : WithTop ℚ) (qd : QuadratureData)
    (k : Nat) (hk : k ≤ st.nzones_batch) :
    forLoop k (updateZone H lib S (batchGather H lib S z0 st).Jpr_b
        (batchGather H lib S z0 st).rho_b
        (batchMaterial H (batchGather H lib S z0 st) st).1
        (batchMaterial H (batchGather H lib S z0 st) st).2 m) { qd := qd, z_id := z0 }
      = { qd := refZones H lib S st.qd.rho0DetJ0w (fun _ => m) z0 k qd, z_id := z0 + k } := by
  induction k with
  | zero => rfl
  | succ k ih =>
    rw [forLoop_succ, ih (by omega)]
    unfold updateZone
    rw [updateZone_eq H lib S z0 st hn m k (by omega) _ rfl H.nqp (le_refl _)]
    simp only [refZones, forLoop_succ]
    rfl

/-- The second zone loop of a batch, after `z` zones and `q` points, in terms of the
point updates. -/
theorem batchUpdate_eq {σ : Type} (H : Hydro σ) (lib : Lib) (S : σ) (z0 : Nat) (st : Pass)
    (hn : st.nqp_batch = H.nqp * st.nzones_batch)
    (z q : Nat) (hz : z < st.nzones_batch ∨ (z = st.nzones_batch ∧ q = 0)) (hq : q ≤ H.nqp) :
    batchUpdate H lib S z0 st z q =
      { qd := forLoop q (fun q qd => refPoint H lib S st.qd.rho0DetJ0w
              (minDetJ H lib S z0 st.nzones_batch) (z0 + z) q qd)
            (refZones H lib S st.qd.rho0DetJ0w
              (fun _ => minDetJ H lib S z0 st.nzones_batch) z0 z st.qd)
        z_id := z0 + z } := by
  obtain ⟨g1, g2, _⟩ := batchGather_spec H lib S z0 st
  unfold batchUpdate
  simp only [g1, g2, Nat.add_sub_cancel]
  rw [updateZones_eq H lib S z0 st hn _ st.qd z (by omega)]
  rcases hz with hz | ⟨_, hq0⟩
  · rw [updateZone_eq H lib S z0 st hn _ z hz _ rfl q hq]
  · subst hq0; rfl

/-! ### The batch loop -/

theorem refPoint_frame {σ : Type} (H : Hydro σ) (lib : Lib) (S : σ) (r0 : Buf)
    (m : WithTop ℚ) (z q : Nat) (qd : QuadratureData) :
    (refPoint H lib S r0 m z q qd).Jac0inv = qd.Jac0inv ∧
    (refPoint H lib S r0 m z q qd).rho0DetJ0w = qd.rho0DetJ0w ∧
    (refPoint H lib S r0 m z q qd).h0 = qd.h0 := ⟨rfl, rfl, rfl⟩

theorem refZones_frame {σ : Type} (H : Hydro σ) (lib : Lib) (S : σ) (r0 : Buf)
    (m : Nat → WithTop ℚ) (z0 n : Nat) (qd : QuadratureData) :
    (refZones H lib S r0 m z0 n qd).Jac0inv = qd.Jac0inv ∧
    (refZones H lib S r0 m z0 n qd).rho0DetJ0w = qd.rho0DetJ0w ∧
    (refZones H lib S r0 m z0 n qd).h0 = qd.h0 := by
  unfold refZones
  refine forLoop_preserve (fun x => x.Jac0inv = qd.Jac0inv ∧ x.rho0DetJ0w = qd.rho0DetJ0w ∧
    x.h0 = qd.h0) _ n ?_ qd ⟨rfl, rfl, rfl⟩
  intro z _ x hx
  refine forLoop_preserve (fun x => x.Jac0inv = qd.Jac0inv ∧ x.rho0DetJ0w = qd.rho0DetJ0w ∧
    x.h0 = qd.h0) _ H.nqp ?_ x hx
  intro q _ x hx
  exact hx

theorem refZones_add {σ : Type} (H : Hydro σ) (lib : Lib) (S : σ) (r0 : Buf)
    (m : Nat → WithTop ℚ) (a c : Nat) (qd : QuadratureData) :
    refZones H lib S r0 m 0 (a + c) qd
      = refZones H lib S r0 m a c (refZones H lib S r0 m 0 a qd) := by
  unfold refZones
  rw [forLoop_add]
  simp only [Nat.zero_add]

theorem refZones_congr {σ : Type} (H : Hydro σ) (lib : Lib) (S : σ) (r0 : Buf)
    (m m' : Nat → WithTop ℚ) (z0 n : Nat) (qd : QuadratureData)
    (h : ∀ z, z < n → m (z0 + z) = m' (z0 + z)) :
    refZones H lib S r0 m z0 n qd = refZones H lib S r0 m' z0 n qd := by
  unfold refZones
  refine forLoop_congr n _ _ qd (fun z hz x => ?_)
  rw [h z hz]

/-- The zones of a full batch have the minimum determinant of that batch. -/
theorem zoneMinDetJ_full {σ : Type} (H : Hydro σ) (lib : Lib) (S : σ) (B b z : Nat)
    (hfull : b * B + B ≤ H.nzones) (hz : z < B) :
    zoneMinDetJ H lib S B (b * B + z) = minDetJ H lib S (b * B) B := by
  have hd : (b * B + z) / B = b :=
    Nat.div_eq_of_lt_le (by omega) (by rw [Nat.add_mul, Nat.one_mul]; omega)
  unfold zoneMinDetJ
  rw [hd, Nat.min_eq_left (by omega)]

/-- The zones of the last, shortened batch have the minimum determinant of it. -/
theorem zoneMinDetJ_last {σ : Type} (H : Hydro σ) (lib : Lib) (S : σ) (B b z : Nat)
    (hb : b * B ≤ H.nzones) (hlast : H.nzones < b * B + B) (hz : z < H.nzones - b * B) :
    zoneMinDetJ H lib S B (b * B + z) = minDetJ H lib S (b * B) (H.nzones - b * B) := by
  have hd : (b * B + z) / B = b :=
    Nat.div_eq_of_lt_le (by omega) (by rw [Nat.add_mul, Nat.one_mul]; omega)
  unfold zoneMinDetJ
  rw [hd, Nat.min_eq_right (by omega)]

/-- A full batch: the quadrature data after the iteration `b` of the batch loop. -/
theorem batchBody_full {σ : Type} (H : Hydro σ) (lib : Lib) (S : σ) (B b : Nat) (st : Pass)
    (hB : 0 < B) (hbr : st.broke = false) (hnb : st.nzones_batch = B)
    (hn : st.nqp_batch = H.nqp * B) (hfull : b * B + B ≤ H.nzones) :
    (batchBody H lib S b st).broke = false ∧
    (batchBody H lib S b st).nzones_batch = B ∧
    (batchBody H lib S b st).nqp_batch = H.nqp * B ∧
    (batchBody H lib S b st).qd = refZones H lib S st.qd.rho0DetJ0w
      (zoneMinDetJ H lib S B) (b * B) B st.qd := by
  have hh : batchHead H b st = some (b * B, st) := by
    unfold batchHead
    simp only [hnb]
    rw [if_neg (by omega), if_neg (by omega)]
  unfold batchBody
  simp only [hbr, hh, Bool.false_eq_true, if_false]
  refine ⟨trivial, hnb, hn, ?_⟩
  rw [batchUpdate_eq H lib S (b * B) st (by rw [hn, hnb]) st.nzones_batch 0
    (Or.inr ⟨rfl, rfl⟩) (Nat.zero_le _)]
  simp only [forLoop_zero, hnb]
  exact refZones_congr H lib S _ _ _ (b * B) B st.qd
    (fun z hz => (zoneMinDetJ_full H lib S B b z hfull hz).symm)

/-- The last iteration of the batch loop: a shortened batch, or the `break`. -/
theorem batchBody_last {σ : Type} (H : Hydro σ) (lib : Lib) (S : σ) (B b : Nat) (st : Pass)
    (hbr : st.broke = false) (hnb : st.nzones_batch = B)
    (hb : b * B ≤ H.nzones) (hlast : H.nzones < b * B + B) :
    (batchBody H lib S b st).qd = refZones H lib S st.qd.rho0DetJ0w
      (zoneMinDetJ H lib S B) (b * B) (H.nzones - b * B) st.qd := by
  by_cases he : b * B = H.nzones
  · have hh : batchHead H b st = none := by
      unfold batchHead
      simp only [hnb]
      rw [if_pos he]
    unfold batchBody
    simp only [hbr, hh, Bool.false_eq_true, if_false]
    rw [he, Nat.sub_self]
    rfl
  · have hh : batchHead H b st = some (b * B,
        { st with nzones_batch := H.nzones - b * B
                  nqp_batch := H.nqp * (H.nzones - b * B) }) := by
      unfold batchHead
      simp only [hnb]
      rw [if_neg he, if_pos (by omega)]
    unfold batchBody
    simp only [hbr, hh, Bool.false_eq_true, if_false]
    rw [batchUpdate_eq H lib S (b * B) _ rfl _ 0 (Or.inr ⟨rfl, rfl⟩) (Nat.zero_le _)]
    simp only [forLoop_zero]
    exact refZones_congr H lib S _ _ _ (b * B) (H.nzones - b * B) st.qd
      (fun z hz => (zoneMinDetJ_last H lib S B b z hb hlast hz).symm)

/-- The batch loop after `b` full batches. -/
theorem passAfter_full {σ : Type} (H : Hydro σ) (lib : Lib) (S : σ) (B : Nat)
    (qd0 : QuadratureData) (hB : 0 < B) (b : Nat) (hb : b ≤ H.nzones / B) :
    (passAfter H lib B S qd0 b).broke = false ∧
    (passAfter H lib B S qd0 b).nzones_batch = B ∧
    (passAfter H lib B S qd0 b).nqp_batch = H.nqp * B ∧
    (passAfter H lib B S qd0 b).qd = refZones H lib S qd0.rho0DetJ0w
      (zoneMinDetJ H lib S B) 0 (b * B) qd0 := by
  induction b with
  | zero =>
    refine ⟨rfl, rfl, rfl, ?_⟩
    rw [Nat.zero_mul]
    rfl
  | succ b ih =>
    obtain ⟨i1, i2, i3, i4⟩ := ih (by omega)
    have hfull : b * B + B ≤ H.nzones := by
      have := (Nat.le_div_iff_mul_le hB).mp hb
      rw [Nat.add_mul, Nat.one_mul] at this
      exact this
    have e : passAfter H lib B S qd0 (b + 1)
        = batchBody H lib S b (passAfter H lib B S qd0 b) := rfl
    rw [e]
    obtain ⟨s1, s2, s3, s4⟩ := batchBody_full H lib S B b _ hB i1 i2 i3 hfull
    refine ⟨s1, s2, s3, ?_⟩
    rw [s4, i4, Nat.add_mul, Nat.one_mul, refZones_add,
      (refZones_frame H lib S _ _ 0 (b * B) qd0).2.1]

/-- The quadrature data after the batch loop: every zone updated once, in order,
each with the minimum determinant of its batch. -/
theorem passAfter_all {σ : Type} (H : Hydro σ) (lib : Lib) (S : σ) (B : Nat)
    (qd0 : QuadratureData) (hB : 0 < B) :
    (passAfter H lib B S qd0 (H.nzones / B + 1)).qd = refZones H lib S qd0.rho0DetJ0w
      (zoneMinDetJ H lib S B) 0 H.nzones qd0 := by
  obtain ⟨i1, i2, _, i4⟩ := passAfter_full H lib S B qd0 hB (H.nzones / B) (le_refl _)
  have e : passAfter H lib B S qd0 (H.nzones / B + 1)
      = batchBody H lib S (H.nzones / B) (passAfter H lib B S qd0 (H.nzones / B)) := rfl
  have h1 : H.nzones / B * B ≤ H.nzones := Nat.div_mul_le_self _ _
  have h2 : H.nzones < H.nzones / B * B + B := Nat.lt_div_mul_add hB
  rw [e, batchBody_last H lib S B _ _ i1 i2 h1 h2, i4,
    (refZones_frame H lib S _ _ 0 _ qd0).2.1, ← refZones_add]
  congr 1
  omega

/-! ### The point update -/

theorem viscCoeff_congr {σ : Type} (H : Hydro σ) (lib : Lib) (S : σ) (x qd : QuadratureData)
    (h1 : x.Jac0inv = qd.Jac0inv) (h2 : x.h0 = qd.h0)
    (Jpr : DenseMatrix) (rho cs : ℚ) (z q : Nat) :
    viscCoeff H lib S x Jpr rho cs z q = viscCoeff H lib S qd Jpr rho cs z q := by
  simp only [viscCoeff, comprLength, h1, h2]

theorem invDt_congr {σ : Type} (H : Hydro σ) (lib : Lib) (S : σ) (x qd : QuadratureData)
    (h1 : x.Jac0inv = qd.Jac0inv) (h2 : x.h0 = qd.h0)
    (Jpr : DenseMatrix) (rho cs : ℚ) (z q : Nat) :
    invDt H lib S x Jpr rho cs z q = invDt H lib S qd Jpr rho cs z q := by
  simp only [invDt, viscCoeff_congr H lib S x qd h1 h2]

theorem stressJiTAt_congr {σ : Type} (H : Hydro σ) (lib : Lib) (S : σ)
    (x qd : QuadratureData) (h1 : x.Jac0inv = qd.Jac0inv) (h2 : x.h0 = qd.h0)
    (Jpr : DenseMatrix) (rho p cs : ℚ) (z q : Nat) :
    stressJiTAt H lib S x Jpr rho p cs z q = stressJiTAt H lib S qd Jpr rho p cs z q := by
  simp only [stressJiTAt, stressAt, viscCoeff_congr H lib S x qd h1 h2]

/-- The entries of `stressJinvT` after one point update. -/
theorem pointUpdate_stressJinvT {σ : Type} (H : Hydro σ) (lib : Lib) (S : σ)
    (m : WithTop ℚ) (Jpr : DenseMatrix) (rho p cs : ℚ) (z q : Nat) (qd : QuadratureData)
    (a b c : Nat) :
    (pointUpdate H lib S m Jpr rho p cs z q qd).stressJinvT (a, b, c) =
      if a < H.dim ∧ b = z * H.nqp + q ∧ c < H.dim then
        stressJiTAt H lib S qd Jpr rho p cs z q a c
      else qd.stressJinvT (a, b, c) := by
  simp only [pointUpdate]
  exact stress_store _ _ _ _ _ a b c

/-- The value of `dt_est` after one point update. -/
theorem pointUpdate_dt_est {σ : Type} (H : Hydro σ) (lib : Lib) (S : σ)
    (m : WithTop ℚ) (Jpr : DenseMatrix) (rho p cs : ℚ) (z q : Nat) (qd : QuadratureData) :
    (pointUpdate H lib S m Jpr rho p cs z q qd).dt_est =
      if m < 0 then 0
      else min qd.dt_est (dtCandidate H.cfl (invDt H lib S qd Jpr rho cs z q)) :=
  rfl

theorem refPoint_stressJinvT {σ : Type} (H : Hydro σ) (lib : Lib) (S : σ) (r0 : Buf)
    (m : WithTop ℚ) (z q : Nat) (qd : QuadratureData) (a b c : Nat) :
    (refPoint H lib S r0 m z q qd).stressJinvT (a, b, c) =
      if a < H.dim ∧ b = z * H.nqp + q ∧ c < H.dim then
        stressJiTAt H lib S qd (JprAt H S z q) (rhoAt H lib S r0 z q)
          (pAt H lib S r0 z q) (csAt H lib S r0 z q) z q a c
      else qd.stressJinvT (a, b, c) :=
  pointUpdate_stressJinvT H lib S m _ _ _ _ z q qd a b c

theorem refPoint_dt_est {σ : Type} (H : Hydro σ) (lib : Lib) (S : σ) (r0 : Buf)
    (m : WithTop ℚ) (z q : Nat) (qd : QuadratureData) :
    (refPoint H lib S r0 m z q qd).dt_est =
      if m < 0 then 0
      else min qd.dt_est (dtCandidate H.cfl (invDt H lib S qd (JprAt H S z q)
        (rhoAt H lib S r0 z q) (csAt H lib S r0 z q) z q)) :=
  rfl

/-- The state after the first `j` points of a zone, from a state with the frame of
`qd`: the entries of `stressJinvT`, the frame and `dt_est`. -/
theorem refPoints_spec {σ : Type} (H : Hydro σ) (lib : Lib) (S : σ) (qd : QuadratureData)
    (m : WithTop ℚ) (z : Nat) (x : QuadratureData)
    (h1 : x.Jac0inv = qd.Jac0inv) (h2 : x.h0 = qd.h0) (h3 : x.rho0DetJ0w = qd.rho0DetJ0w)
    (j : Nat) (hj : j ≤ H.nqp) :
    (forLoop j (fun q x => refPoint H lib S qd.rho0DetJ0w m z q x) x).Jac0inv = qd.Jac0inv ∧
    (forLoop j (fun q x => refPoint H lib S qd.rho0DetJ0w m z q x) x).h0 = qd.h0 ∧
    (forLoop j (fun q x => refPoint H lib S qd.rho0DetJ0w m z q x) x).rho0DetJ0w
      = qd.rho0DetJ0w ∧
    (∀ a b c,
      (forLoop j (fun q x => refPoint H lib S qd.rho0DetJ0w m z q x) x).stressJinvT (a, b, c)
        = if a < H.dim ∧ c < H.dim ∧ z * H.nqp ≤ b ∧ b < z * H.nqp + j then
            stressJiTOf H lib S qd z (b - z * H.nqp) a c
          else x.stressJinvT (a, b, c)) ∧
    (forLoop j (fun q x => refPoint H lib S qd.rho0DetJ0w m z q x) x).dt_est
      = forLoop j (fun q dt =>
          if m < 0 then 0 else min dt (candAt H lib S qd z q)) x.dt_est := by
  induction j with
  | zero =>
    refine ⟨h1, h2, h3, ?_, rfl⟩
    intro a b c
    rw [if_neg (by omega)]
    rfl
  | succ j ih =>
    obtain ⟨i1, i2, i3, i4, i5⟩ := ih (by omega)
    rw [forLoop_succ]
    refine ⟨i1, i2, i3, ?_, ?_⟩
    · intro a b c
      rw [refPoint_stressJinvT, i4, stressJiTAt_congr H lib S _ qd i1 i2]
      by_cases hb : b = z * H.nqp + j
      · subst hb
        by_cases ha : a < H.dim <;> by_cases hc : c < H.dim <;>
          simp [ha, hc, stressJiTOf]
      · have e : (b < z * H.nqp + (j + 1)) ↔ (b < z * H.nqp + j) := by omega
        simp only [hb, false_and, and_false, if_false, e]
    · rw [refPoint_dt_est, invDt_congr H lib S _ qd i1 i2, i5, forLoop_succ]
      rfl

/-- The state after the zones `0 .. n - 1`: the entries of `stressJinvT`, the frame
and `dt_est`. -/
theorem refZones_spec {σ : Type} (H : Hydro σ) (lib : Lib) (S : σ) (qd : QuadratureData)
    (m : Nat → WithTop ℚ) (n : Nat) :
    (∀ a b c,
      (refZones H lib S qd.rho0DetJ0w m 0 n qd).stressJinvT (a, b, c)
        = if a < H.dim ∧ c < H.dim ∧ b < n * H.nqp then
            stressJiTOf H lib S qd (b / H.nqp) (b % H.nqp) a c
          else qd.stressJinvT (a, b, c)) ∧
    (refZones H lib S qd.rho0DetJ0w m 0 n qd).dt_est
      = dtZones H.nqp m (candAt H lib S qd) 0 n qd.dt_est := by
  induction n with
  | zero =>
    refine ⟨?_, rfl⟩
    intro a b c
    rw [if_neg (by omega)]
    rfl
  | succ n ih =>
    obtain ⟨i4, i5⟩ := ih
    obtain ⟨f1, f2, f3⟩ := refZones_frame H lib S qd.rho0DetJ0w m 0 n qd
    have e : refZones H lib S qd.rho0DetJ0w m 0 (n + 1) qd
        = forLoop H.nqp (fun q x => refPoint H lib S qd.rho0DetJ0w (m (0 + n)) (0 + n) q x)
            (refZones H lib S qd.rho0DetJ0w m 0 n qd) := rfl
    obtain ⟨_, _, _, s4, s5⟩ := refPoints_spec H lib S qd (m (0 + n)) (0 + n)
      (refZones H lib S qd.rho0DetJ0w m 0 n qd) f1 f3 f2 H.nqp (le_refl _)
    rw [e]
    refine ⟨?_, ?_⟩
    · intro a b c
      rw [s4, i4]
      simp only [Nat.zero_add]
      by_cases hb : n * H.nqp ≤ b ∧ b < n * H.nqp + H.nqp
      · have hq : 0 < H.nqp := by omega
        have hd : b / H.nqp = n :=
          Nat.div_eq_of_lt_le hb.1 (by rw [Nat.add_mul, Nat.one_mul]; exact hb.2)
        have hmod : b % H.nqp = b - n * H.nqp := by
          have := Nat.div_add_mod b H.nqp
          rw [hd, Nat.mul_comm] at this
          omega
        have hlt : b < (n + 1) * H.nqp := by rw [Nat.add_mul, Nat.one_mul]; exact hb.2
        by_cases ha : a < H.dim <;> by_cases hc : c < H.dim <;>
          simp [ha, hc, hb.1, hb.2, hlt, hd, hmod]
      · have hlt : b < (n + 1) * H.nqp ↔ b < n * H.nqp := by
          rw [Nat.add_mul, Nat.one_mul]; omega
        have hb' : ¬ (a < H.dim ∧ c < H.dim ∧ n * H.nqp ≤ b ∧ b < n * H.nqp + H.nqp) :=
          fun h => hb ⟨h.2.2.1, h.2.2.2⟩
        rw [if_neg hb']
        simp only [hlt]
    · rw [s5, i5]
      rfl

/-! ### Signs of the time-step candidates -/

theorem comprLength_nonneg {σ : Type} (H : Hydro σ) (lib : Lib) (qd : QuadratureData)
    (hC : Contracts H lib qd) (Jpr sgrad : DenseMatrix) (z q : Nat) :
    0 ≤ comprLength H lib qd Jpr sgrad z q := by
  unfold comprLength
  exact div_nonneg (mul_nonneg hC.h0_nonneg (hC.norm_nonneg _ _)) (hC.norm_nonneg _ _)

/-- The viscosity coefficient is the density times a non-negative factor. -/
theorem viscCoeff_factor {σ : Type} (H : Hydro σ) (lib : Lib) (S : σ) (qd : QuadratureData)
    (hC : Contracts H lib qd) (Jpr : DenseMatrix) (rho cs : ℚ) (hcs : 0 ≤ cs) (z q : Nat) :
    ∃ K : ℚ, 0 ≤ K ∧ viscCoeff H lib S qd Jpr rho cs z q = rho * K := by
  unfold viscCoeff
  by_cases hv : H.use_viscosity = true
  · simp only [hv, if_true]
    have hh := comprLength_nonneg H lib qd hC Jpr
      (sgradV H S (lib.CalcInverse H.dim Jpr) z q) z q
    generalize comprLength H lib qd Jpr (sgradV H S (lib.CalcInverse H.dim Jpr) z q) z q
      = h at hh
    generalize muAt H lib (sgradV H S (lib.CalcInverse H.dim Jpr) z q) = mu
    by_cases hmu : mu < 0
    · refine ⟨2 * h * h * |mu| + 1 / 2 * h * cs, by positivity, ?_⟩
      rw [if_pos hmu]; ring
    · refine ⟨2 * h * h * |mu|, by positivity, ?_⟩
      rw [if_neg hmu]; ring
  · refine ⟨0, le_refl _, ?_⟩
    simp [hv]

/-- A quotient of two `double` values that are not negative numbers is not a
negative number. -/
theorem Dbl.div_fin_nonneg (a b : Dbl) (ha : ∀ x, a = .fin x → 0 ≤ x)
    (hb : ∀ y, b = .fin y → 0 ≤ y) (r : ℚ) (h : Dbl.div a b = .fin r) : 0 ≤ r := by
  cases a with
  | fin x =>
    cases b with
    | fin y =>
      by_cases hy : y = 0
      · by_cases hx : x = 0
        · simp [Dbl.div, hy, hx] at h
        · by_cases hx' : 0 < x <;> simp [Dbl.div, hy, hx, hx'] at h
      · simp only [Dbl.div, hy, if_false, Dbl.fin.injEq] at h
        rw [← h]
        exact div_nonneg (ha x rfl) (hb y rfl)
    | pinf => simp only [Dbl.div, Dbl.fin.injEq] at h; rw [← h]
    | ninf => simp only [Dbl.div, Dbl.fin.injEq] at h; rw [← h]
    | nan => simp [Dbl.div] at h
  | pinf =>
    cases b with
    | fin y => by_cases hy : 0 ≤ y <;> simp [Dbl.div, hy] at h
    | pinf => simp [Dbl.div] at h
    | ninf => simp [Dbl.div] at h
    | nan => simp [Dbl.div] at h
  | ninf =>
    cases b with
    | fin y => by_cases hy : 0 ≤ y <;> simp [Dbl.div, hy] at h
    | pinf => simp [Dbl.div] at h
    | ninf => simp [Dbl.div] at h
    | nan => simp [Dbl.div] at h
  | nan => cases b <;> simp [Dbl.div] at h

/-- A sum of two `double` values that are not negative numbers is not a negative
number. -/
theorem Dbl.add_fin_nonneg (a b : Dbl) (ha : ∀ x, a = .fin x → 0 ≤ x)
    (hb : ∀ y, b = .fin y → 0 ≤ y) (r : ℚ) (h : Dbl.add a b = .fin r) : 0 ≤ r := by
  cases a with
  | fin x =>
    cases b with
    | fin y =>
      simp only [Dbl.add, Dbl.fin.injEq] at h
      rw [← h]
      exact add_nonneg (ha x rfl) (hb y rfl)
    | pinf => simp [Dbl.add] at h
    | ninf => simp [Dbl.add] at h
    | nan => simp [Dbl.add] at h
  | pinf => cases b <;> simp [Dbl.add] at h
  | ninf => cases b <;> simp [Dbl.add] at h
  | nan => cases b <;> simp [Dbl.add] at h

theorem hMin_nonneg {σ : Type} (H : Hydro σ) (lib : Lib) (qd : QuadratureData)
    (hC : Contracts H lib qd) (Jpr : DenseMatrix) (r : ℚ) (h : hMin H lib Jpr = .fin r) :
    0 ≤ r := by
  unfold hMin at h
  refine Dbl.div_fin_nonneg _ _ ?_ ?_ r h
  · intro x hx
    rw [Dbl.fin.injEq] at hx
    rw [← hx]
    exact hC.singular_nonneg _ _ _
  · intro y hy
    rw [Dbl.fin.injEq] at hy
    rw [← hy]
    exact hC.order_nonneg

/-- When `inv_dt` is a number, it is not negative. -/
theorem invDt_nonneg {σ : Type} (H : Hydro σ) (lib : Lib) (S : σ) (qd : QuadratureData)
    (hC : Contracts H lib qd) (Jpr : DenseMatrix) (rho cs : ℚ) (hcs : 0 ≤ cs) (z q : Nat)
    (r : ℚ) (h : invDt H lib S qd Jpr rho cs z q = .fin r) : 0 ≤ r := by
  unfold invDt at h
  have hm := hMin_nonneg H lib qd hC Jpr
  obtain ⟨K, hK, hv⟩ := viscCoeff_factor H lib S qd hC Jpr rho cs hcs z q
  rw [hv] at h
  refine Dbl.add_fin_nonneg _ _ ?_ ?_ r h
  · refine Dbl.div_fin_nonneg _ _ ?_ hm
    intro x hx
    rw [Dbl.fin.injEq] at hx
    rw [← hx]
    exact hcs
  · refine Dbl.div_fin_nonneg _ _ (Dbl.div_fin_nonneg _ _ ?_ hm) hm
    intro x hx
    by_cases hr : rho = 0
    · simp [Dbl.div, Dbl.mul, hr] at hx
    · simp only [Dbl.div, Dbl.mul, hr, if_false, Dbl.fin.injEq] at hx
      rw [← hx]
      have : 5 / 2 * (rho * K) / rho = 5 / 2 * K := by field_simp; ring
      rw [this]; positivity

/-- For a CFL number that is not negative the product `cfl * (1.0 / inv_dt)` is
never `−∞`. -/
theorem dtCandidate_not_ninf (cfl : ℚ) (hcfl : 0 ≤ cfl) (d : Dbl) :
    Dbl.mul (.fin cfl) (Dbl.div (.fin 1) d) ≠ .ninf := by
  cases d with
  | fin x =>
    by_cases hx : x = 0
    · subst hx
      by_cases h0 : cfl = 0
      · simp [Dbl.div, Dbl.mul, h0]
      · have h1 : 0 < cfl := lt_of_le_of_ne hcfl (Ne.symm h0)
        simp [Dbl.div, Dbl.mul, h0, h1]
    · simp [Dbl.div, Dbl.mul, hx]
  | pinf => simp [Dbl.div, Dbl.mul]
  | ninf => simp [Dbl.div, Dbl.mul]
  | nan => simp [Dbl.div, Dbl.mul]

/-- The candidate of a non-negative CFL number and of an `inv_dt` that is not a
negative number is not negative. -/
theorem dtCandidate_nonneg (cfl : ℚ) (hcfl : 0 ≤ cfl) (d : Dbl)
    (hd : ∀ x, d = .fin x → 0 ≤ x) : 0 ≤ dtCandidate cfl d := by
  cases d with
  | fin x =>
    by_cases hx : x = 0
    · subst hx
      by_cases h0 : cfl = 0
      · simp [dtCandidate, Dbl.div, Dbl.mul, h0]
      · by_cases h1 : 0 < cfl <;> simp [dtCandidate, Dbl.div, Dbl.mul, h0, h1]
    · have h2 : 0 ≤ cfl * (1 / x) := mul_nonneg hcfl (div_nonneg zero_le_one (hd x rfl))
      simp only [dtCandidate, Dbl.div, Dbl.mul, hx, if_false]
      exact_mod_cast h2
  | pinf => simp [dtCandidate, Dbl.div, Dbl.mul]
  | ninf => simp [dtCandidate, Dbl.div, Dbl.mul]
  | nan => simp [dtCandidate, Dbl.div, Dbl.mul]

theorem candAt_nonneg {σ : Type} (H : Hydro σ) (lib : Lib) (S : σ) (qd : QuadratureData)
    (hC : Contracts H lib qd) (z q : Nat) : 0 ≤ candAt H lib S qd z q := by
  unfold candAt
  exact dtCandidate_nonneg _ hC.cfl_nonneg _
    (invDt_nonneg H lib S qd hC (JprAt H S z q) (rhoAt H lib S qd.rho0DetJ0w z q)
      (csAt H lib S qd.rho0DetJ0w z q) (hC.sound_speed_nonneg _ _ _) z q)

/-! ### The values of the time-step candidates -/

/-- The candidate of an `inv_dt` that is a number: `+∞` or NaN at zero, else
`cfl / inv_dt`. -/
theorem dtCandidate_fin (cfl x : ℚ) :
    dtCandidate cfl (.fin x) = if x = 0 then ⊤ else ((cfl / x : ℚ) : WithTop ℚ) := by
  by_cases hx : x = 0
  · subst hx
    by_cases h0 : cfl = 0
    · simp [dtCandidate, Dbl.div, Dbl.mul, h0]
    · by_cases h1 : 0 < cfl <;> simp [dtCandidate, Dbl.div, Dbl.mul, h0, h1]
  · simp only [dtCandidate, Dbl.div, Dbl.mul, hx, if_false, mul_one_div]

/-- With a non-zero quotient, `h_min` is the quotient of the rationals. -/
theorem hMin_fin {σ : Type} (H : Hydro σ) (lib : Lib) (Jpr : DenseMatrix)
    (h : lib.CalcSingularvalue H.dim Jpr (H.dim - 1) / H.order ≠ 0) :
    hMin H lib Jpr = .fin (lib.CalcSingularvalue H.dim Jpr (H.dim - 1) / H.order) := by
  have ho : H.order ≠ 0 := fun e => h (by rw [e, div_zero])
  simp only [hMin, Dbl.div, ho, if_false]

/-- With a density and an `h_min` that are not zero, `inv_dt` is the value of its
formula over the rationals. -/
theorem invDt_fin {σ : Type} (H : Hydro σ) (lib : Lib) (S : σ) (qd : QuadratureData)
    (Jpr : DenseMatrix) (rho cs : ℚ) (z q : Nat) (hrho : rho ≠ 0)
    (h : lib.CalcSingularvalue H.dim Jpr (H.dim - 1) / H.order ≠ 0) :
    invDt H lib S qd Jpr rho cs z q =
      .fin (cs / (lib.CalcSingularvalue H.dim Jpr (H.dim - 1) / H.order) +
        (5 / 2) * viscCoeff H lib S qd Jpr rho cs z q / rho /
          (lib.CalcSingularvalue H.dim Jpr (H.dim - 1) / H.order) /
          (lib.CalcSingularvalue H.dim Jpr (H.dim - 1) / H.order)) := by
  unfold invDt
  rw [hMin_fin H lib Jpr h]
  simp only [Dbl.div, Dbl.mul, Dbl.add, hrho, h, if_false]

/-- The candidate of a point whose density and `h_min` are not zero: `inv_dt` is the
value of its formula over the rationals, and the candidate is `cfl / inv_dt`, or
`+∞` (NaN for `cfl = 0`) when `inv_dt = 0`. -/
theorem candAt_regular {σ : Type} (H : Hydro σ) (lib : Lib) (S : σ) (qd : QuadratureData)
    (z q : Nat) (hrho : rhoAt H lib S qd.rho0DetJ0w z q ≠ 0)
    (hh : lib.CalcSingularvalue H.dim (JprAt H S z q) (H.dim - 1) / H.order ≠ 0) :
    candAt H lib S qd z q =
      if csAt H lib S qd.rho0DetJ0w z q /
            (lib.CalcSingularvalue H.dim (JprAt H S z q) (H.dim - 1) / H.order) +
          (5 / 2) * viscCoeff H lib S qd (JprAt H S z q) (rhoAt H lib S qd.rho0DetJ0w z q)
              (csAt H lib S qd.rho0DetJ0w z q) z q /
            (rhoAt H lib S qd.rho0DetJ0w z q *
              (lib.CalcSingularvalue H.dim (JprAt H S z q) (H.dim - 1) / H.order) ^ 2) = 0
      then ⊤
      else ((H.cfl /
        (csAt H lib S qd.rho0DetJ0w z q /
            (lib.CalcSingularvalue H.dim (JprAt H S z q) (H.dim - 1) / H.order) +
          (5 / 2) * viscCoeff H lib S qd (JprAt H S z q) (rhoAt H lib S qd.rho0DetJ0w z q)
              (csAt H lib S qd.rho0DetJ0w z q) z q /
            (rhoAt H lib S qd.rho0DetJ0w z q *
              (lib.CalcSingularvalue H.dim (JprAt H S z q) (H.dim - 1) / H.order) ^ 2)) : ℚ)
        : WithTop ℚ) := by
  unfold candAt
  rw [invDt_fin H lib S qd _ _ _ _ _ hrho hh, dtCandidate_fin]
  have e : ∀ a b c d : ℚ, a / d + 5 / 2 * b / c / d / d = a / d + 5 / 2 * b / (c * d ^ 2) := by
    intro a b c d
    rw [div_div, div_div]
    congr 2
    ring
  rw [e]

theorem minPoints_neg_iff (d : Nat → ℚ) (m0 : WithTop ℚ) (j : Nat) :
    forLoop j (fun q m => min m ((d q : ℚ) : WithTop ℚ)) m0 < 0 ↔
      m0 < 0 ∨ ∃ q, q < j ∧ d q < 0 := by
  induction j with
  | zero => simp [forLoop]
  | succ j ih =>
    rw [forLoop_succ, min_lt_iff, ih]
    constructor
    · rintro ((h | ⟨q, hq, h⟩) | h)
      · exact Or.inl h
      · exact Or.inr ⟨q, by omega, h⟩
      · exact Or.inr ⟨j, by omega, by exact_mod_cast h⟩
    · rintro (h | ⟨q, hq, h⟩)
      · exact Or.inl (Or.inl h)
      · by_cases e : q = j
        · subst e; exact Or.inr (by exact_mod_cast h)
        · exact Or.inl (Or.inr ⟨q, by omega, h⟩)

/-- The minimum determinant of a batch is negative exactly when some point of some
zone of the batch has a negative determinant. -/
theorem minDetJ_neg_iff {σ : Type} (H : Hydro σ) (lib : Lib) (S : σ) (z0 nb : Nat) :
    minDetJ H lib S z0 nb < 0 ↔
      ∃ z, z < nb ∧ ∃ q, q < H.nqp ∧ detJAt H lib S (z0 + z) q < 0 := by
  unfold minDetJ
  induction nb with
  | zero => simp [forLoop]
  | succ nb ih =>
    rw [forLoop_succ, minPoints_neg_iff, ih]
    constructor
    · rintro (⟨z, hz, h⟩ | h)
      · exact ⟨z, by omega, h⟩
      · exact ⟨nb, by omega, h⟩
    · rintro ⟨z, hz, h⟩
      by_cases e : z = nb
      · subst e; exact Or.inr h
      · exact Or.inl ⟨z, by omega, h⟩

/-- A zone with a point of negative determinant lies in a batch whose minimum
determinant is negative, for every batch size. -/
theorem zoneMinDetJ_neg {σ : Type} (H : Hydro σ) (lib : Lib) (S : σ) (B : Nat) (hB : 0 < B)
    (z q : Nat) (hz : z < H.nzones) (hq : q < H.nqp) (hneg : detJAt H lib S z q < 0) :
    zoneMinDetJ H lib S B z < 0 := by
  unfold zoneMinDetJ
  rw [minDetJ_neg_iff]
  have h1 : z / B * B ≤ z := Nat.div_mul_le_self _ _
  have h2 : z < z / B * B + B := Nat.lt_div_mul_add hB
  refine ⟨z - z / B * B, ?_, q, hq, ?_⟩
  · rw [Nat.lt_min]; omega
  · rw [Nat.add_sub_cancel' h1]; exact hneg

/-- Without any negative determinant, no batch has a negative minimum. -/
theorem zoneMinDetJ_not_neg {σ : Type} (H : Hydro σ) (lib : Lib) (S : σ) (B : Nat)
    (h : ∀ z, z < H.nzones → ∀ q, q < H.nqp → ¬ detJAt H lib S z q < 0) (z : Nat) :
    ¬ zoneMinDetJ H lib S B z < 0 := by
  unfold zoneMinDetJ
  rw [minDetJ_neg_iff]
  rintro ⟨z', hz', q, hq, hneg⟩
  rw [Nat.lt_min] at hz'
  exact h (z / B * B + z') (by omega) q hq hneg

/-! ### The running minimum `dt_est` -/

/-- One point: from a non-negative `dt_est` and a non-negative candidate, the new
`dt_est` is non-negative and not larger. -/
theorem dtPoint_bounds (m dt : WithTop ℚ) (c : WithTop ℚ) (hc : 0 ≤ c) (hdt : 0 ≤ dt) :
    0 ≤ (if m < 0 then 0 else min dt c) ∧
    (if m < 0 then 0 else min dt c) ≤ dt := by
  by_cases hm : m < 0
  · simp only [hm, if_true]
    exact ⟨le_refl _, hdt⟩
  · simp only [hm, if_false]
    exact ⟨le_min hdt hc, min_le_left _ _⟩

theorem dtPoints_bounds (m : WithTop ℚ) (c : Nat → WithTop ℚ) (hc : ∀ q, 0 ≤ c q) (j : Nat)
    (dt : WithTop ℚ) (hdt : 0 ≤ dt) :
    0 ≤ forLoop j (fun q dt => if m < 0 then 0 else min dt (c q)) dt ∧
    forLoop j (fun q dt => if m < 0 then 0 else min dt (c q)) dt ≤ dt := by
  induction j with
  | zero => exact ⟨hdt, le_refl _⟩
  | succ j ih =>
    rw [forLoop_succ]
    obtain ⟨h1, h2⟩ := dtPoint_bounds m _ (c j) (hc j) ih.1
    exact ⟨h1, le_trans h2 ih.2⟩

theorem dtPoints_neg (m : WithTop ℚ) (hm : m < 0) (c : Nat → WithTop ℚ) (j : Nat)
    (hj : 0 < j) (dt : WithTop ℚ) :
    forLoop j (fun q dt => if m < 0 then 0 else min dt (c q)) dt = 0 := by
  cases j with
  | zero => omega
  | succ j => rw [forLoop_succ]; simp only [hm, if_true]

theorem dtZones_succ (nqp : Nat) (m : Nat → WithTop ℚ) (c : Nat → Nat → WithTop ℚ) (z0 n : Nat)
    (dt : WithTop ℚ) :
    dtZones nqp m c z0 (n + 1) dt =
      forLoop nqp (fun q dt =>
        if m (z0 + n) < 0 then 0 else min dt (c (z0 + n) q))
        (dtZones nqp m c z0 n dt) := rfl

theorem dtZones_bounds (nqp : Nat) (m : Nat → WithTop ℚ) (c : Nat → Nat → WithTop ℚ)
    (hc : ∀ z q, 0 ≤ c z q) (z0 n : Nat) (dt : WithTop ℚ) (hdt : 0 ≤ dt) :
    0 ≤ dtZones nqp m c z0 n dt ∧ dtZones nqp m c z0 n dt ≤ dt := by
  induction n with
  | zero => exact ⟨hdt, le_refl _⟩
  | succ n ih =>
    rw [dtZones_succ]
    obtain ⟨h1, h2⟩ := dtPoints_bounds (m (z0 + n)) (c (z0 + n)) (hc _) nqp _ ih.1
    exact ⟨h1, le_trans h2 ih.2⟩

/-- A zone whose batch has a negative minimum determinant leaves `dt_est = 0`, and
non-negative candidates keep it there. -/
theorem dtZones_neg (nqp : Nat) (hq : 0 < nqp) (m : Nat → WithTop ℚ) (c : Nat → Nat → WithTop ℚ)
    (hc : ∀ z q, 0 ≤ c z q) (z0 n : Nat) (dt : WithTop ℚ)
    (zb : Nat) (hzb : zb < n) (hm : m (z0 + zb) < 0) :
    dtZones nqp m c z0 n dt = 0 := by
  induction n with
  | zero => omega
  | succ n ih =>
    rw [dtZones_succ]
    by_cases e : zb = n
    · subst e
      exact dtPoints_neg _ hm _ nqp hq _
    · rw [ih (by omega)]
      obtain ⟨h1, h2⟩ := dtPoints_bounds (m (z0 + n)) (c (z0 + n)) (hc _) nqp 0 (le_refl _)
      exact le_antisymm h2 h1

/-- Without a negative minimum determinant, `dt_est` does not depend on the batches. -/
theorem dtZones_congr (nqp : Nat) (m m' : Nat → WithTop ℚ) (c : Nat → Nat → WithTop ℚ)
    (z0 n : Nat) (dt : WithTop ℚ)
    (hm : ∀ z, ¬ m z < 0) (hm' : ∀ z, ¬ m' z < 0) :
    dtZones nqp m c z0 n dt = dtZones nqp m' c z0 n dt := by
  unfold dtZones
  refine forLoop_congr n _ _ dt (fun z _ x => ?_)
  refine forLoop_congr nqp _ _ x (fun q _ y => ?_)
  simp only [hm, hm', if_false]

/-! ### The whole update -/

/-- The quadrature data left by a run of the update: every zone updated once, in
order, each with the minimum determinant of its batch. -/
theorem UpdateQuadratureDataB_eq {σ : Type} (H : Hydro σ) (lib : Lib) (B : Nat) (hB : 0 < B)
    (S : σ) (st : HydroState) (hfresh : st.quad_data_is_current = false) :
    UpdateQuadratureDataB H lib B S st =
      { quad_data := refZones H lib S st.quad_data.rho0DetJ0w (zoneMinDetJ H lib S B) 0
          H.nzones st.quad_data
        quad_data_is_current := true } := by
  unfold UpdateQuadratureDataB
  simp only [hfresh, Bool.false_eq_true, if_false]
  rw [← passAfter_all H lib S B st.quad_data hB]
  rfl

theorem UpdateQuadratureData_frame {σ : Type} (H : Hydro σ) (lib : Lib) (S : σ)
    (st : HydroState) :
    (UpdateQuadratureData H lib S st).quad_data.Jac0inv = st.quad_data.Jac0inv ∧
    (UpdateQuadratureData H lib S st).quad_data.rho0DetJ0w = st.quad_data.rho0DetJ0w ∧
    (UpdateQuadratureData H lib S st).quad_data.h0 = st.quad_data.h0 := by
  unfold UpdateQuadratureData
  by_cases hf : st.quad_data_is_current = true
  · simp [UpdateQuadratureDataB, hf]
  · rw [UpdateQuadratureDataB_eq H lib 3 (by norm_num) S st (by simpa using hf)]
    exact refZones_frame H lib S _ _ 0 H.nzones st.quad_data

theorem Call_run_frame {σ : Type} (H : Hydro σ) (lib : Lib) (c : Call σ) (st : HydroState) :
    (c.run H lib st).quad_data.Jac0inv = st.quad_data.Jac0inv ∧
    (c.run H lib st).quad_data.rho0DetJ0w = st.quad_data.rho0DetJ0w ∧
    (c.run H lib st).quad_data.h0 = st.quad_data.h0 := by
  cases c with
  | update S => exact UpdateQuadratureData_frame H lib S st
  | mult S => exact UpdateQuadratureData_frame H lib S st
  | estimate S others => exact UpdateQuadratureData_frame H lib S st
  | reset => exact ⟨rfl, rfl, rfl⟩

theorem runCalls_frame {σ : Type} (H : Hydro σ) (lib : Lib) (calls : List (Call σ))
    (st : HydroState) :
    (runCalls H lib calls st).quad_data.Jac0inv = st.quad_data.Jac0inv ∧
    (runCalls H lib calls st).quad_data.rho0DetJ0w = st.quad_data.rho0DetJ0w ∧
    (runCalls H lib calls st).quad_data.h0 = st.quad_data.h0 := by
  unfold runCalls
  induction calls generalizing st with
  | nil => exact ⟨rfl, rfl, rfl⟩
  | cons c cs ih =>
    rw [List.foldl_cons]
    obtain ⟨h1, h2, h3⟩ := ih (c.run H lib st)
    obtain ⟨c1, c2, c3⟩ := Call_run_frame H lib c st
    exact ⟨h1.trans c1, h2.trans c2, h3.trans c3⟩

/-- C10: `UpdateQuadratureData`, and therefore `Mult` and `GetTimeStepEstimate`,
leave every entry of `rho0DetJ0w` and `Jac0inv` and the scalar `h0` as they were;
after any number of calls the sum of `rho0DetJ0w` over each zone is unchanged. -/
theorem reference_configuration_unchanged {σ : Type} (H : Hydro σ) (lib : Lib) (S : σ)
    (st : HydroState) :
    ((UpdateQuadratureData H lib S st).quad_data.Jac0inv = st.quad_data.Jac0inv ∧
     (UpdateQuadratureData H lib S st).quad_data.rho0DetJ0w = st.quad_data.rho0DetJ0w ∧
     (UpdateQuadratureData H lib S st).quad_data.h0 = st.quad_data.h0) ∧
    ((MultQuadData H lib S st).quad_data.Jac0inv = st.quad_data.Jac0inv ∧
     (MultQuadData H lib S st).quad_data.rho0DetJ0w = st.quad_data.rho0DetJ0w ∧
     (MultQuadData H lib S st).quad_data.h0 = st.quad_data.h0) ∧
    (∀ others : List (WithTop ℚ),
     (GetTimeStepEstimate H lib S others st).1.quad_data.Jac0inv = st.quad_data.Jac0inv ∧
     (GetTimeStepEstimate H lib S others st).1.quad_data.rho0DetJ0w
       = st.quad_data.rho0DetJ0w ∧
     (GetTimeStepEstimate H lib S others st).1.quad_data.h0 = st.quad_data.h0) ∧
    (∀ calls : List (Call σ),
     (runCalls H lib calls st).quad_data.Jac0inv = st.quad_data.Jac0inv ∧
     (runCalls H lib calls st).quad_data.rho0DetJ0w = st.quad_data.rho0DetJ0w ∧
     (runCalls H lib calls st).quad_data.h0 = st.quad_data.h0 ∧
     ∀ z, zoneMass H.nqp (runCalls H lib calls st).quad_data z
       = zoneMass H.nqp st.quad_data z) := by
  refine ⟨UpdateQuadratureData_frame H lib S st, UpdateQuadratureData_frame H lib S st,
    fun _ => UpdateQuadratureData_frame H lib S st, fun calls => ?_⟩
  obtain ⟨h1, h2, h3⟩ := runCalls_frame H lib calls st
  refine ⟨h1, h2, h3, fun z => ?_⟩
  unfold zoneMass
  rw [h2]

/-- The final `dt_est` is zero as soon as one point has a negative determinant. -/
theorem UpdateQuadratureDataB_dt_zero {σ : Type} (H : Hydro σ) (lib : Lib) (B : Nat)
    (hB : 0 < B) (S : σ) (st : HydroState) (hC : Contracts H lib st.quad_data)
    (hfresh : st.quad_data_is_current = false)
    (z q : Nat) (hz : z < H.nzones) (hq : q < H.nqp) (hneg : detJAt H lib S z q < 0) :
    (UpdateQuadratureDataB H lib B S st).quad_data.dt_est = 0 := by
  rw [UpdateQuadratureDataB_eq H lib B hB S st hfresh]
  simp only
  rw [(refZones_spec H lib S st.quad_data _ H.nzones).2]
  refine dtZones_neg H.nqp (by omega) _ _ (fun z q => candAt_nonneg H lib S _ hC z q)
    0 H.nzones _ z hz ?_
  rw [Nat.zero_add]
  exact zoneMinDetJ_neg H lib S B hB z q hz hq hneg

theorem foldl_min_zero (others : List (WithTop ℚ)) (h : ∀ o ∈ others, 0 ≤ o) :
    others.foldl min 0 = 0 := by
  induction others with
  | nil => rfl
  | cons o os ih =>
    rw [List.foldl_cons, min_eq_left (h o (List.mem_cons_self _ _))]
    exact ih (fun o' ho' => h o' (List.mem_cons_of_mem _ ho'))

/-- C2: when at least one quadrature point of any zone has a negative Jacobian
determinant, the `dt_est` left by a run of `UpdateQuadratureData` is exactly 0,
whatever the other points and batches compute (their time-step candidates are
non-negative under the contracts of the collaborators); so is the minimum over the
ranks returned by `GetTimeStepEstimate`. -/
theorem negative_detJ_forces_zero_dt_est {σ : Type} (H : Hydro σ) (lib : Lib) (S : σ)
    (st : HydroState) (hC : Contracts H lib st.quad_data)
    (hfresh : st.quad_data_is_current = false)
    (z q : Nat) (hz : z < H.nzones) (hq : q < H.nqp) (hneg : detJAt H lib S z q < 0) :
    (UpdateQuadratureData H lib S st).quad_data.dt_est = 0 ∧
    ∀ others : List (WithTop ℚ), (∀ o ∈ others, 0 ≤ o) →
      (GetTimeStepEstimate H lib S others st).2 = 0 := by
  have h0 := UpdateQuadratureDataB_dt_zero H lib 3 (by norm_num) S st hC hfresh z q hz hq hneg
  refine ⟨h0, fun others ho => ?_⟩
  unfold GetTimeStepEstimate UpdateQuadratureData
  simp only [h0]
  exact foldl_min_zero others ho

/-- C4: for every two batch sizes `B1, B2 ≥ 1` in place of the constant
`nzones_batch = 3`, the update produces the same `stressJinvT` at every (zone,
point) and the same final `dt_est`: the whole resulting state is the same. -/
theorem batch_size_invariance {σ : Type} (H : Hydro σ) (lib : Lib) (S : σ)
    (st : HydroState) (hC : Contracts H lib st.quad_data)
    (B1 B2 : Nat) (h1 : 1 ≤ B1) (h2 : 1 ≤ B2) :
    UpdateQuadratureDataB H lib B1 S st = UpdateQuadratureDataB H lib B2 S st := by
  by_cases hf : st.quad_data_is_current = true
  · simp [UpdateQuadratureDataB, hf]
  · have hfresh : st.quad_data_is_current = false := by simpa using hf
    have hdt : (UpdateQuadratureDataB H lib B1 S st).quad_data.dt_est
        = (UpdateQuadratureDataB H lib B2 S st).quad_data.dt_est := by
      by_cases hbad : ∃ z, z < H.nzones ∧ ∃ q, q < H.nqp ∧ detJAt H lib S z q < 0
      · obtain ⟨z, hz, q, hq, hneg⟩ := hbad
        rw [UpdateQuadratureDataB_dt_zero H lib B1 h1 S st hC hfresh z q hz hq hneg,
          UpdateQuadratureDataB_dt_zero H lib B2 h2 S st hC hfresh z q hz hq hneg]
      · have hgood : ∀ z, z < H.nzones → ∀ q, q < H.nqp → ¬ detJAt H lib S z q < 0 :=
          fun z hz q hq hneg => hbad ⟨z, hz, q, hq, hneg⟩
        rw [UpdateQuadratureDataB_eq H lib B1 h1 S st hfresh,
          UpdateQuadratureDataB_eq H lib B2 h2 S st hfresh]
        simp only
        rw [(refZones_spec H lib S st.quad_data _ H.nzones).2,
          (refZones_spec H lib S st.quad_data _ H.nzones).2]
        exact dtZones_congr H.nqp _ _ _ 0 H.nzones _
          (zoneMinDetJ_not_neg H lib S B1 hgood) (zoneMinDetJ_not_neg H lib S B2 hgood)
    rw [UpdateQuadratureDataB_eq H lib B1 h1 S st hfresh,
      UpdateQuadratureDataB_eq H lib B2 h2 S st hfresh] at hdt ⊢
    simp only at hdt
    obtain ⟨a1, a2, a3⟩ := refZones_frame H lib S st.quad_data.rho0DetJ0w
      (zoneMinDetJ H lib S B1) 0 H.nzones st.quad_data
    obtain ⟨b1, b2, b3⟩ := refZones_frame H lib S st.quad_data.rho0DetJ0w
      (zoneMinDetJ H lib S B2) 0 H.nzones st.quad_data
    have hs : (refZones H lib S st.quad_data.rho0DetJ0w (zoneMinDetJ H lib S B1) 0
          H.nzones st.quad_data).stressJinvT
        = (refZones H lib S st.quad_data.rho0DetJ0w (zoneMinDetJ H lib S B2) 0
          H.nzones st.quad_data).stressJinvT := by
      funext ⟨a, b, c⟩
      rw [(refZones_spec H lib S st.quad_data _ H.nzones).1,
        (refZones_spec H lib S st.quad_data _ H.nzones).1]
    generalize refZones H lib S st.quad_data.rho0DetJ0w (zoneMinDetJ H lib S B1) 0
      H.nzones st.quad_data = x at *
    generalize refZones H lib S st.quad_data.rho0DetJ0w (zoneMinDetJ H lib S B2) 0
      H.nzones st.quad_data = y at *
    cases x; cases y
    simp only at a1 a2 a3 b1 b2 b3 hs hdt
    simp only [a1, a2, a3, b1, b2, b3, hs, hdt]

/-! ### The stored stress -/

/-- The entry of `stressJinvT` left by a run of the update for the zone `z`, the
point `q` and the components `vd`, `gd`. -/
theorem UpdateQuadratureData_stressJinvT {σ : Type} (H : Hydro σ) (lib : Lib) (S : σ)
    (st : HydroState) (hfresh : st.quad_data_is_current = false)
    (z q vd gd : Nat) (hz : z < H.nzones) (hq : q < H.nqp) (hvd : vd < H.dim)
    (hgd : gd < H.dim) :
    (UpdateQuadratureData H lib S st).quad_data.stressJinvT (vd, z * H.nqp + q, gd)
      = stressJiTOf H lib S st.quad_data z q vd gd := by
  unfold UpdateQuadratureData
  rw [UpdateQuadratureDataB_eq H lib 3 (by norm_num) S st hfresh]
  simp only
  rw [(refZones_spec H lib S st.quad_data _ H.nzones).1]
  have hlt : z * H.nqp + q < H.nzones * H.nqp := by
    rw [Nat.mul_comm H.nzones]; exact idx_lt hz hq
  have hd : (z * H.nqp + q) / H.nqp = z :=
    Nat.div_eq_of_lt_le (by omega) (by rw [Nat.add_mul, Nat.one_mul]; omega)
  have hm : (z * H.nqp + q) % H.nqp = q := by
    rw [Nat.mul_comm, Nat.mul_add_mod]; exact Nat.mod_eq_of_lt hq
  rw [if_pos ⟨hvd, hgd, hlt⟩, hd, hm]

/-- The value of `dt_est` and the frame after the zones `z0 .. z0 + n - 1`, from a
state with the frame of `qd`. -/
theorem refZones_dt {σ : Type} (H : Hydro σ) (lib : Lib) (S : σ) (qd : QuadratureData)
    (m : Nat → WithTop ℚ) (z0 n : Nat) (x : QuadratureData)
    (h1 : x.Jac0inv = qd.Jac0inv) (h2 : x.h0 = qd.h0) (h3 : x.rho0DetJ0w = qd.rho0DetJ0w) :
    (refZones H lib S qd.rho0DetJ0w m z0 n x).Jac0inv = qd.Jac0inv ∧
    (refZones H lib S qd.rho0DetJ0w m z0 n x).h0 = qd.h0 ∧
    (refZones H lib S qd.rho0DetJ0w m z0 n x).rho0DetJ0w = qd.rho0DetJ0w ∧
    (refZones H lib S qd.rho0DetJ0w m z0 n x).dt_est
      = dtZones H.nqp m (candAt H lib S qd) z0 n x.dt_est := by
  induction n with
  | zero => exact ⟨h1, h2, h3, rfl⟩
  | succ n ih =>
    obtain ⟨i1, i2, i3, i4⟩ := ih
    have e : refZones H lib S qd.rho0DetJ0w m z0 (n + 1) x
        = forLoop H.nqp (fun q y => refPoint H lib S qd.rho0DetJ0w (m (z0 + n)) (z0 + n) q y)
            (refZones H lib S qd.rho0DetJ0w m z0 n x) := rfl
    obtain ⟨s1, s2, s3, _, s5⟩ := refPoints_spec H lib S qd (m (z0 + n)) (z0 + n)
      (refZones H lib S qd.rho0DetJ0w m z0 n x) i1 i2 i3 H.nqp (le_refl _)
    rw [e]
    refine ⟨s1, s2, s3, ?_⟩
    rw [s5, i4]
    rfl

/-- What `batchHead` returns when the batch is run. -/
theorem batchHead_some {σ : Type} (H : Hydro σ) (b : Nat) (P : Pass) (z0 : Nat) (st' : Pass)
    (hn : P.nqp_batch = H.nqp * P.nzones_batch)
    (hh : batchHead H b P = some (z0, st')) :
    st'.qd = P.qd ∧ st'.nqp_batch = H.nqp * st'.nzones_batch ∧ st'.broke = P.broke := by
  unfold batchHead at hh
  simp only at hh
  split_ifs at hh with h1 h2
  · simp only [Option.some.injEq, Prod.mk.injEq] at hh
    obtain ⟨_, rfl⟩ := hh
    exact ⟨rfl, rfl, rfl⟩
  · simp only [Option.some.injEq, Prod.mk.injEq] at hh
    obtain ⟨_, rfl⟩ := hh
    exact ⟨rfl, hn, rfl⟩

/-- The value of `dt_est` in the second zone loop of a batch that is run, after `z`
zones and `q` points: the running minimum from the value at the start of the batch. -/
theorem batchUpdate_dt {σ : Type} (H : Hydro σ) (lib : Lib) (S : σ) (qd0 : QuadratureData)
    (B : Nat) (hB : 0 < B) (b : Nat) (hb : b < H.nzones / B + 1) (z0 : Nat) (st' : Pass)
    (hh : batchHead H b (passAfter H lib B S qd0 b) = some (z0, st'))
    (z q : Nat) (hz : z < st'.nzones_batch) (hq : q ≤ H.nqp) :
    (batchUpdate H lib S z0 st' z q).qd.dt_est
      = forLoop q (fun q dt =>
          if (batchGather H lib S z0 st').min_detJ < 0 then 0
          else min dt (candAt H lib S qd0 (z0 + z) q))
          (dtZones H.nqp (fun _ => (batchGather H lib S z0 st').min_detJ)
            (candAt H lib S qd0) z0 z (passAfter H lib B S qd0 b).qd.dt_est) := by
  obtain ⟨_, p2, p3, p4⟩ := passAfter_full H lib S B qd0 hB b (by omega)
  obtain ⟨e1, e2, _⟩ := batchHead_some H b _ z0 st' (by rw [p3, p2]) hh
  obtain ⟨f1, f2, f3⟩ := refZones_frame H lib S qd0.rho0DetJ0w (zoneMinDetJ H lib S B) 0
    (b * B) qd0
  rw [← p4, ← e1] at f1 f2 f3
  rw [batchUpdate_eq H lib S z0 st' e2 z q (Or.inl hz) hq, (batchGather_spec H lib S z0 st').2.1]
  simp only
  rw [f2]
  obtain ⟨g1, g2, g3, g4⟩ := refZones_dt H lib S qd0
    (fun _ => minDetJ H lib S z0 st'.nzones_batch) z0 z st'.qd f1 f3 f2
  obtain ⟨_, _, _, _, s5⟩ := refPoints_spec H lib S qd0 (minDetJ H lib S z0 st'.nzones_batch)
    (z0 + z) _ g1 g2 g3 q hq
  rw [s5, g4, e1]

/-- The value of `dt_est` before any point of a pass started from a non-negative
value is non-negative. -/
theorem batchUpdate_dt_nonneg {σ : Type} (H : Hydro σ) (lib : Lib) (S : σ)
    (qd0 : QuadratureData) (hC : Contracts H lib qd0) (hdt : 0 ≤ qd0.dt_est)
    (B : Nat) (hB : 0 < B) (b : Nat) (hb : b < H.nzones / B + 1) (z0 : Nat) (st' : Pass)
    (hh : batchHead H b (passAfter H lib B S qd0 b) = some (z0, st'))
    (z q : Nat) (hz : z < st'.nzones_batch) (hq : q ≤ H.nqp) :
    0 ≤ (passAfter H lib B S qd0 b).qd.dt_est ∧
    0 ≤ (batchUpdate H lib S z0 st' z q).qd.dt_est := by
  obtain ⟨_, _, _, p4⟩ := passAfter_full H lib S B qd0 hB b (by omega)
  have hc := fun z q => candAt_nonneg H lib S qd0 hC z q
  have hP : 0 ≤ (passAfter H lib B S qd0 b).qd.dt_est := by
    rw [p4, (refZones_spec H lib S qd0 _ (b * B)).2]
    exact (dtZones_bounds H.nqp _ _ hc 0 (b * B) _ hdt).1
  refine ⟨hP, ?_⟩
  rw [batchUpdate_dt H lib S qd0 B hB b hb z0 st' hh z q hz hq]
  exact (dtPoints_bounds _ _ (fun q => hc (z0 + z) q) q _
    (dtZones_bounds H.nqp _ _ hc z0 z _ hP).1).1

/-- C3: within one pass of `UpdateQuadratureData` that starts from `dt_est` reset to
`+∞` by `ResetTimeStepEstimate`, the value of `dt_est` after every processed point
(the state `batchUpdate .. z (q + 1)` is the point update of `batchUpdate .. z q`) is
at most its value before that point, and its value after every batch is at most
its value before that batch. -/
theorem dt_est_never_increases {σ : Type} (H : Hydro σ) (lib : Lib) (S : σ)
    (st : HydroState) (hC : Contracts H lib st.quad_data)
    (b : Nat) (hb : b < H.nzones / 3 + 1) (z0 : Nat) (st' : Pass)
    (hh : batchHead H b (passAfter H lib 3 S (ResetTimeStepEstimate st).quad_data b)
      = some (z0, st'))
    (z q : Nat) (hz : z < st'.nzones_batch) (hq : q < H.nqp) :
    (batchUpdate H lib S z0 st' z (q + 1)).qd.dt_est
      ≤ (batchUpdate H lib S z0 st' z q).qd.dt_est ∧
    (passAfter H lib 3 S (ResetTimeStepEstimate st).quad_data (b + 1)).qd.dt_est
      ≤ (passAfter H lib 3 S (ResetTimeStepEstimate st).quad_data b).qd.dt_est := by
  have hC' : Contracts H lib (ResetTimeStepEstimate st).quad_data :=
    ⟨hC.cfl_nonneg, hC.order_nonneg, hC.h0_nonneg, hC.sound_speed_nonneg,
      hC.singular_nonneg, hC.norm_nonneg⟩
  have hc := fun z q => candAt_nonneg H lib S _ hC' z q
  have h0 : (0 : WithTop ℚ) ≤ (ResetTimeStepEstimate st).quad_data.dt_est := le_top
  obtain ⟨hP, hq0⟩ := batchUpdate_dt_nonneg H lib S _ hC' h0 3 (by norm_num) b hb z0 st' hh
    z q hz (by omega)
  refine ⟨?_, ?_⟩
  · rw [batchUpdate_dt H lib S _ 3 (by norm_num) b hb z0 st' hh z (q + 1) hz (by omega),
      forLoop_succ,
      ← batchUpdate_dt H lib S _ 3 (by norm_num) b hb z0 st' hh z q hz (by omega)]
    exact (dtPoint_bounds _ _ _ (hc (z0 + z) q) hq0).2
  · obtain ⟨p1, p2, p3, p4⟩ := passAfter_full H lib S 3 (ResetTimeStepEstimate st).quad_data
      (by norm_num) b (by omega)
    obtain ⟨e1, e2, _⟩ := batchHead_some H b _ z0 st' (by rw [p3, p2]) hh
    obtain ⟨f1, f2, f3⟩ := refZones_frame H lib S (ResetTimeStepEstimate st).quad_data.rho0DetJ0w
      (zoneMinDetJ H lib S 3) 0 (b * 3) (ResetTimeStepEstimate st).quad_data
    rw [← p4, ← e1] at f1 f2 f3
    have e : (passAfter H lib 3 S (ResetTimeStepEstimate st).quad_data (b + 1)).qd
        = (batchUpdate H lib S z0 st' st'.nzones_batch 0).qd := by
      show (batchBody H lib S b (passAfter H lib 3 S (ResetTimeStepEstimate st).quad_data b)).qd
        = _
      unfold batchBody
      simp only [p1, hh, Bool.false_eq_true, if_false]
    rw [e, batchUpdate_eq H lib S z0 st' e2 _ 0 (Or.inr ⟨rfl, rfl⟩) (Nat.zero_le _)]
    simp only [forLoop_zero]
    rw [f2]
    obtain ⟨_, _, _, g4⟩ := refZones_dt H lib S (ResetTimeStepEstimate st).quad_data
      (fun _ => minDetJ H lib S z0 st'.nzones_batch) z0 st'.nzones_batch st'.qd f1 f3 f2
    rw [g4, e1]
    exact (dtZones_bounds H.nqp _ _ hc z0 _ _ hP).2

/-- C6: at every quadrature point of a batch whose minimum determinant is not
negative, the update replaces `dt_est` by `min(dt_est, cfl / inv_dt)` with
`inv_dt = soundSpeed/h_min + 2.5*visc/(rho*h_min^2)`; with the viscosity disabled
the candidate is `cfl*h_min/soundSpeed`. The point has a density and an `h_min`
that are not zero and, with the viscosity, a compression direction of non-zero
norm, so that every divisor on the way to `inv_dt` is not zero. Where `inv_dt`
itself is zero the candidate `cfl * (1.0 / inv_dt)` is `+∞` (NaN for `cfl = 0`)
and `dt_est` keeps its value. -/
theorem dt_est_point_update {σ : Type} (H : Hydro σ) (lib : Lib) (S : σ)
    (st : HydroState) (b : Nat) (hb : b < H.nzones / 3 + 1) (z0 : Nat) (st' : Pass)
    (hh : batchHead H b (passAfter H lib 3 S st.quad_data b) = some (z0, st'))
    (z q : Nat) (hz : z < st'.nzones_batch) (hq : q < H.nqp)
    (hm : ¬ (batchGather H lib S z0 st').min_detJ < 0)
    (hrho : rhoAt H lib S st.quad_data.rho0DetJ0w (z0 + z) q ≠ 0)
    (hh_min : lib.CalcSingularvalue H.dim (JprAt H S (z0 + z) q) (H.dim - 1) / H.order ≠ 0)
    (_hdir : H.use_viscosity = true →
      lib.Norml2 H.dim (eigenData H lib
        (sgradV H S (lib.CalcInverse H.dim (JprAt H S (z0 + z) q)) (z0 + z) q)).2 ≠ 0) :
    let rho := rhoAt H lib S st.quad_data.rho0DetJ0w (z0 + z) q
    let sound_speed := csAt H lib S st.quad_data.rho0DetJ0w (z0 + z) q
    let h_min : ℚ :=
      lib.CalcSingularvalue H.dim (JprAt H S (z0 + z) q) (H.dim - 1) / H.order
    let visc := viscCoeff H lib S st.quad_data (JprAt H S (z0 + z) q) rho sound_speed
      (z0 + z) q
    let inv_dt : ℚ := sound_speed / h_min + (5 / 2) * visc / (rho * h_min ^ 2)
    (batchUpdate H lib S z0 st' z (q + 1)).qd.dt_est
      = min (batchUpdate H lib S z0 st' z q).qd.dt_est
          (if inv_dt = 0 then ⊤ else ((H.cfl / inv_dt : ℚ) : WithTop ℚ)) ∧
    (H.use_viscosity = false →
      (batchUpdate H lib S z0 st' z (q + 1)).qd.dt_est
        = min (batchUpdate H lib S z0 st' z q).qd.dt_est
            (if sound_speed = 0 then ⊤
             else ((H.cfl * h_min / sound_speed : ℚ) : WithTop ℚ))) := by
  intro rho sound_speed h_min visc inv_dt
  have key : (batchUpdate H lib S z0 st' z (q + 1)).qd.dt_est
      = min (batchUpdate H lib S z0 st' z q).qd.dt_est
          (candAt H lib S st.quad_data (z0 + z) q) := by
    rw [batchUpdate_dt H lib S _ 3 (by norm_num) b hb z0 st' hh z (q + 1) hz (by omega),
      forLoop_succ,
      ← batchUpdate_dt H lib S _ 3 (by norm_num) b hb z0 st' hh z q hz (by omega)]
    simp only [hm, if_false]
  have hc : candAt H lib S st.quad_data (z0 + z) q
      = if inv_dt = 0 then ⊤ else ((H.cfl / inv_dt : ℚ) : WithTop ℚ) :=
    candAt_regular H lib S st.quad_data (z0 + z) q hrho hh_min
  refine ⟨?_, ?_⟩
  · rw [key, hc]
  · intro hv
    rw [key, hc]
    have hvisc : visc = 0 := by
      show viscCoeff H lib S st.quad_data _ _ _ _ _ = 0
      simp [viscCoeff, hv]
    have e : inv_dt = sound_speed / h_min := by
      show sound_speed / h_min + (5 / 2) * visc / (rho * h_min ^ 2) = _
      rw [hvisc]
      simp
    have hz0 : inv_dt = 0 ↔ sound_speed = 0 := by
      rw [e, div_eq_zero_iff]
      exact ⟨fun h => h.resolve_right hh_min, Or.inl⟩
    by_cases hs : sound_speed = 0
    · rw [if_pos (hz0.mpr hs), if_pos hs]
    · rw [if_neg (fun h => hs (hz0.mp h)), if_neg hs, e, div_div_eq_mul_div]

/-! ### The sample operator -/

theorem exLib_contracts (H : Hydro Unit) (hcfl : 0 ≤ H.cfl) (hord : 0 ≤ H.order)
    (heos : ∀ gamma rho e, 0 ≤ (H.eos gamma rho e).2) : Contracts H exLib exQuadData where
  cfl_nonneg := hcfl
  order_nonneg := hord
  h0_nonneg := by simp [exQuadData]
  sound_speed_nonneg := heos
  singular_nonneg := by
    intro n A i
    simp only [exLib]
    split_ifs
    · exact le_max_of_le_left (abs_nonneg _)
    · exact le_min (abs_nonneg _) (abs_nonneg _)
  norm_nonneg := by
    intro n v
    simp only [exLib]
    exact Finset.sum_nonneg (fun i _ => abs_nonneg _)

theorem exHydro_contracts : Contracts exHydro exLib exState.quad_data :=
  exLib_contracts exHydro (by norm_num [exHydro]) (by norm_num [exHydro])
    (fun _ _ e => div_nonneg (abs_nonneg e) (by norm_num))

theorem exHydroGood_contracts : Contracts exHydroGood exLib exState.quad_data :=
  exLib_contracts exHydroGood (by norm_num [exHydroGood, exHydro])
    (by norm_num [exHydroGood, exHydro])
    (fun _ _ e => div_nonneg (abs_nonneg e) (by norm_num))

theorem exHydro_detJ_neg : detJAt exHydro exLib () 1 0 < 0 := by
  norm_num [detJAt, JprAt, exHydro, exLib]

/-- Witness for C2: the zone 1 of the sample operator is inverted. -/
theorem negative_detJ_forces_zero_dt_est_witness :
    detJAt exHydro exLib () 1 0 < 0 ∧
    (UpdateQuadratureData exHydro exLib () exState).quad_data.dt_est = 0 :=
  ⟨exHydro_detJ_neg,
   (negative_detJ_forces_zero_dt_est exHydro exLib () exState exHydro_contracts rfl 1 0
      (by decide) (by decide) exHydro_detJ_neg).1⟩

/-- Witness for C4: the batch sizes 2 and 3 on the sample operator. -/
theorem batch_size_invariance_witness :
    ((1 : Nat) ≤ 2 ∧ (1 : Nat) ≤ 3) ∧
    UpdateQuadratureDataB exHydro exLib 2 () exState
      = UpdateQuadratureDataB exHydro exLib 3 () exState :=
  ⟨⟨by decide, by decide⟩,
   batch_size_invariance exHydro exLib () exState exHydro_contracts 2 3 (by decide)
    (by decide)⟩

/-- Witness for C3: the second point of the inverted zone 1, in the first batch. -/
theorem dt_est_never_increases_witness :
    (batchUpdate exHydro exLib () 0
        (passInit exHydro exLib 3 (ResetTimeStepEstimate exState).quad_data) 1 2).qd.dt_est
      ≤ (batchUpdate exHydro exLib () 0
        (passInit exHydro exLib 3 (ResetTimeStepEstimate exState).quad_data) 1 1).qd.dt_est ∧
    (passAfter exHydro exLib 3 () (ResetTimeStepEstimate exState).quad_data 1).qd.dt_est
      ≤ (passAfter exHydro exLib 3 () (ResetTimeStepEstimate exState).quad_data 0).qd.dt_est :=
  dt_est_never_increases exHydro exLib () exState exHydro_contracts 0 (by decide) 0
    (passInit exHydro exLib 3 (ResetTimeStepEstimate exState).quad_data) rfl 1 1
    (by decide) (by decide)

theorem exHydroGood_min_detJ :
    ¬ (batchGather exHydroGood exLib () 0
        (passInit exHydroGood exLib 3 exState.quad_data)).min_detJ < 0 := by
  rw [(batchGather_spec exHydroGood exLib () 0 _).2.1, minDetJ_neg_iff]
  rintro ⟨z, _, q, _, h⟩
  norm_num [detJAt, JprAt, exHydroGood, exHydro, exLib] at h

theorem exHydroGood_regular_point :
    rhoAt exHydroGood exLib () exState.quad_data.rho0DetJ0w (0 + 1) 0 ≠ 0 ∧
    exLib.CalcSingularvalue exHydroGood.dim (JprAt exHydroGood () (0 + 1) 0)
      (exHydroGood.dim - 1) / exHydroGood.order ≠ 0 ∧
    exLib.Norml2 exHydroGood.dim (eigenData exHydroGood exLib
      (sgradV exHydroGood () (exLib.CalcInverse exHydroGood.dim
        (JprAt exHydroGood () (0 + 1) 0)) (0 + 1) 0)).2 ≠ 0 := by
  refine ⟨?_, ?_, ?_⟩
  · norm_num [rhoAt, detJAt, JprAt, exHydroGood, exHydro, exLib, exState, exQuadData]
  · norm_num [JprAt, exHydroGood, exHydro, exLib]
  · norm_num [eigenData, sgradV, Symmetrize, JprAt, exHydroGood, exHydro, exLib,
      Finset.sum_range_succ]

/-- Witness for C6: the first point of the zone 1 of the operator without inverted
zone, in the first batch. -/
theorem dt_est_point_update_witness :
    (¬ (batchGather exHydroGood exLib () 0
        (passInit exHydroGood exLib 3 exState.quad_data)).min_detJ < 0) ∧
    (let rho := rhoAt exHydroGood exLib () exState.quad_data.rho0DetJ0w (0 + 1) 0
     let sound_speed := csAt exHydroGood exLib () exState.quad_data.rho0DetJ0w (0 + 1) 0
     let h_min : ℚ :=
       exLib.CalcSingularvalue exHydroGood.dim (JprAt exHydroGood () (0 + 1) 0)
         (exHydroGood.dim - 1) / exHydroGood.order
     let visc := viscCoeff exHydroGood exLib () exState.quad_data
       (JprAt exHydroGood () (0 + 1) 0) rho sound_speed (0 + 1) 0
     let inv_dt : ℚ := sound_speed / h_min + (5 / 2) * visc / (rho * h_min ^ 2)
     (batchUpdate exHydroGood exLib () 0
          (passInit exHydroGood exLib 3 exState.quad_data) 1 (0 + 1)).qd.dt_est
        = min (batchUpdate exHydroGood exLib () 0
            (passInit exHydroGood exLib 3 exState.quad_data) 1 0).qd.dt_est
            (if inv_dt = 0 then ⊤ else ((exHydroGood.cfl / inv_dt : ℚ) : WithTop ℚ))) :=
  ⟨exHydroGood_min_detJ,
   (dt_est_point_update exHydroGood exLib () exState 0 (by decide) 0
      (passInit exHydroGood exLib 3 exState.quad_data) rfl 1 0 (by decide) (by decide)
      exHydroGood_min_detJ exHydroGood_regular_point.1 exHydroGood_regular_point.2.1
      (fun _ => exHydroGood_regular_point.2.2)).1⟩

theorem sum_comm_inner (s t r : Finset Nat) (f : Nat → Nat → Nat → ℚ) :
    ∑ a in s, ∑ b in t, ∑ c in r, f a b c = ∑ a in s, ∑ c in r, ∑ b in t, f a b c :=
  Finset.sum_congr rfl (fun _ _ => Finset.sum_comm)

theorem sum_reverse (s t r : Finset Nat) (f : Nat → Nat → Nat → ℚ) :
    ∑ a in s, ∑ b in t, ∑ c in r, f a b c = ∑ c in r, ∑ b in t, ∑ a in s, f a b c := by
  rw [sum_comm_inner, Finset.sum_comm, sum_comm_inner]

theorem contractX_adjoint (A B n : Nat) (T : Nat → Nat → ℚ) (u w : Nat → Nat → ℚ) :
    ip2 A B (contractX n T u) w = ip2 n B u (contractX A (fun d a => T a d) w) := by
  unfold ip2 contractX
  simp only [Finset.sum_mul, Finset.mul_sum]
  rw [sum_reverse]
  refine Finset.sum_congr rfl (fun d _ => Finset.sum_congr rfl (fun j _ =>
    Finset.sum_congr rfl (fun a _ => ?_)))
  ring

theorem contractY_adjoint (A B n : Nat) (T : Nat → Nat → ℚ) (u w : Nat → Nat → ℚ) :
    ip2 A B (contractY n T u) w = ip2 A n u (contractY B (fun d b => T b d) w) := by
  unfold ip2 contractY
  simp only [Finset.sum_mul, Finset.mul_sum]
  rw [sum_comm_inner]
  refine Finset.sum_congr rfl (fun i _ => Finset.sum_congr rfl (fun d _ =>
    Finset.sum_congr rfl (fun b _ => ?_)))
  ring

theorem ip2_mul_left (A B : Nat) (s u w : Nat → Nat → ℚ) :
    ip2 A B (fun i j => s i j * u i j) w = ip2 A B u (fun i j => s i j * w i j) := by
  unfold ip2
  refine Finset.sum_congr rfl (fun i _ => Finset.sum_congr rfl (fun j _ => ?_))
  ring

theorem ip2_add_left (A B : Nat) (u v w : Nat → Nat → ℚ) :
    ip2 A B (fun i j => u i j + v i j) w = ip2 A B u w + ip2 A B v w := by
  unfold ip2
  simp only [add_mul, Finset.sum_add_distrib]

theorem ip2_add_right (A B : Nat) (u v w : Nat → Nat → ℚ) :
    ip2 A B u (fun i j => v i j + w i j) = ip2 A B u v + ip2 A B u w := by
  unfold ip2
  simp only [mul_add, Finset.sum_add_distrib]

theorem ip2_sum_right (A B n : Nat) (u : Nat → Nat → ℚ) (w : Nat → Nat → Nat → ℚ) :
    ip2 A B u (fun i j => ∑ c in Finset.range n, w c i j)
      = ∑ c in Finset.range n, ip2 A B u (w c) := by
  unfold ip2
  simp only [Finset.mul_sum]
  rw [sum_comm_inner, Finset.sum_comm]

/-- One gradient term of the 2D kernels: the forward contractions moved onto the
velocity. -/
theorem force2D_term (Q D : Nat) (T1 T2 : Nat → Nat → ℚ) (sg eq yc : Nat → Nat → ℚ) :
    ip2 D D (contractY Q (fun d q => T2 q d)
        (contractX Q (fun d q => T1 q d) (fun qx qy => sg qx qy * eq qx qy))) yc
      = ip2 Q Q eq (fun qx qy => sg qx qy * contractX D T1 (contractY D T2 yc) qx qy) := by
  rw [contractY_adjoint, contractX_adjoint]
  exact ip2_mul_left Q Q sg eq _

/-- The 2D kernels are adjoint on each zone when the tables of the transpose kernel
are the tables of the forward kernel with the indices exchanged. -/
theorem rForceMult2D_adjoint (ND NDOF Q L D nz : Nat) (Bl Bd dBd : Nat → Nat → ℚ)
    (stress : Nat × Nat × Nat → ℚ) (e y : LocalVec) (z : Nat) :
    ∑ c in Finset.range 2, ip2 D D
        (fun dx dy => rForceMult2D ND NDOF Q L D nz Bl (fun d q => Bd q d)
          (fun d q => dBd q d) stress e c dx dy 0 z)
        (fun dx dy => y c dx dy 0 z)
      = ip2 L L (fun ex ey => e 0 ex ey 0 z)
          (fun ex ey => rForceMultTranspose2D ND NDOF Q L D nz (fun d q => Bl q d) Bd dBd
            stress y 0 ex ey 0 z) := by
  unfold rForceMult2D rForceMultTranspose2D
  simp only
  have hx := contractX_adjoint Q L L Bl (fun ex ey => e 0 ex ey 0 z)
  have hy := contractY_adjoint Q Q L Bl (contractX L Bl (fun ex ey => e 0 ex ey 0 z))
  refine Eq.trans ?_ (hx _)
  refine Eq.trans ?_ (hy _)
  rw [ip2_sum_right]
  refine Finset.sum_congr rfl (fun c _ => ?_)
  rw [ip2_add_left, ip2_add_right]
  congr 1
  · exact force2D_term Q D dBd Bd _ _ _
  · exact force2D_term Q D Bd dBd _ _ _

theorem sum4_swap12 (s t r q : Finset Nat) (f : Nat → Nat → Nat → Nat → ℚ) :
    ∑ a in s, ∑ b in t, ∑ c in r, ∑ d in q, f a b c d
      = ∑ a in s, ∑ c in r, ∑ b in t, ∑ d in q, f a b c d :=
  Finset.sum_congr rfl (fun _ _ => Finset.sum_comm)

theorem sum4_swap23 (s t r q : Finset Nat) (f : Nat → Nat → Nat → Nat → ℚ) :
    ∑ a in s, ∑ b in t, ∑ c in r, ∑ d in q, f a b c d
      = ∑ a in s, ∑ b in t, ∑ d in q, ∑ c in r, f a b c d :=
  Finset.sum_congr rfl (fun _ _ => Finset.sum_congr rfl (fun _ _ => Finset.sum_comm))

theorem contractX3_adjoint (A B C n : Nat) (T : Nat → Nat → ℚ)
    (u w : Nat → Nat → Nat → ℚ) :
    ip3 A B C (contractX3 n T u) w = ip3 n B C u (contractX3 A (fun d a => T a d) w) := by
  unfold ip3 contractX3
  simp only [Finset.sum_mul, Finset.mul_sum]
  rw [sum4_swap23, sum4_swap12, Finset.sum_comm, sum4_swap12, sum4_swap23]
  refine Finset.sum_congr rfl (fun d _ => Finset.sum_congr rfl (fun j _ =>
    Finset.sum_congr rfl (fun k _ => Finset.sum_congr rfl (fun a _ => ?_))))
  ring

theorem contractY3_adjoint (A B C n : Nat) (T : Nat → Nat → ℚ)
    (u w : Nat → Nat → Nat → ℚ) :
    ip3 A B C (contractY3 n T u) w = ip3 A n C u (contractY3 B (fun d b => T b d) w) := by
  unfold ip3 contractY3
  simp only [Finset.sum_mul, Finset.mul_sum]
  rw [sum4_swap23, sum4_swap12, sum4_swap23]
  refine Finset.sum_congr rfl (fun i _ => Finset.sum_congr rfl (fun d _ =>
    Finset.sum_congr rfl (fun k _ => Finset.sum_congr rfl (fun b _ => ?_))))
  ring

theorem contractZ3_adjoint (A B C n : Nat) (T : Nat → Nat → ℚ)
    (u w : Nat → Nat → Nat → ℚ) :
    ip3 A B C (contractZ3 n T u) w = ip3 A B n u (contractZ3 C (fun d c => T c d) w) := by
  unfold ip3 contractZ3
  simp only [Finset.sum_mul, Finset.mul_sum]
  rw [sum4_swap23]
  refine Finset.sum_congr rfl (fun i _ => Finset.sum_congr rfl (fun j _ =>
    Finset.sum_congr rfl (fun d _ => Finset.sum_congr rfl (fun c _ => ?_))))
  ring

theorem ip3_mul_left (A B C : Nat) (s u w : Nat → Nat → Nat → ℚ) :
    ip3 A B C (fun i j k => s i j k * u i j k) w
      = ip3 A B C u (fun i j k => s i j k * w i j k) := by
  unfold ip3
  refine Finset.sum_congr rfl (fun i _ => Finset.sum_congr rfl (fun j _ =>
    Finset.sum_congr rfl (fun k _ => ?_)))
  ring

theorem ip3_add_left (A B C : Nat) (u v w : Nat → Nat → Nat → ℚ) :
    ip3 A B C (fun i j k => u i j k + v i j k) w = ip3 A B C u w + ip3 A B C v w := by
  unfold ip3
  simp only [add_mul, Finset.sum_add_distrib]

theorem ip3_add_right (A B C : Nat) (u v w : Nat → Nat → Nat → ℚ) :
    ip3 A B C u (fun i j k => v i j k + w i j k) = ip3 A B C u v + ip3 A B C u w := by
  unfold ip3
  simp only [mul_add, Finset.sum_add_distrib]

theorem ip3_sum_right (A B C n : Nat) (u : Nat → Nat → Nat → ℚ)
    (w : Nat → Nat → Nat → Nat → ℚ) :
    ip3 A B C u (fun i j k => ∑ c in Finset.range n, w c i j k)
      = ∑ c in Finset.range n, ip3 A B C u (w c) := by
  unfold ip3
  simp only [Finset.mul_sum]
  rw [sum4_swap23, sum4_swap12, Finset.sum_comm]

/-- One gradient term of the 3D kernels: the forward contractions moved onto the
velocity. -/
theorem force3D_term (Q D : Nat) (T1 T2 T3 : Nat → Nat → ℚ)
    (sg eq yc : Nat → Nat → Nat → ℚ) :
    ip3 D D D (contractZ3 Q (fun d q => T3 q d) (contractY3 Q (fun d q => T2 q d)
        (contractX3 Q (fun d q => T1 q d) (fun qx qy qz => sg qx qy qz * eq qx qy qz)))) yc
      = ip3 Q Q Q eq (fun qx qy qz => sg qx qy qz *
          contractX3 D T1 (contractY3 D T2 (contractZ3 D T3 yc)) qx qy qz) := by
  rw [contractZ3_adjoint, contractY3_adjoint, contractX3_adjoint]
  exact ip3_mul_left Q Q Q sg eq _

/-- The 3D kernels are adjoint on each zone when the tables of the transpose kernel
are the tables of the forward kernel with the indices exchanged. -/
theorem rForceMult3D_adjoint (ND NDOF Q L D nz : Nat) (Bl Bd dBd : Nat → Nat → ℚ)
    (stress : Nat × Nat × Nat → ℚ) (e y : LocalVec) (z : Nat) :
    ∑ c in Finset.range 3, ip3 D D D
        (fun dx dy dz => rForceMult3D ND NDOF Q L D nz Bl (fun d q => Bd q d)
          (fun d q => dBd q d) stress e c dx dy dz z)
        (fun dx dy dz => y c dx dy dz z)
      = ip3 L L L (fun ex ey ez => e 0 ex ey ez z)
          (fun ex ey ez => rForceMultTranspose3D ND NDOF Q L D nz (fun d q => Bl q d) Bd dBd
            stress y 0 ex ey ez z) := by
  unfold rForceMult3D rForceMultTranspose3D
  simp only
  have hx := contractX3_adjoint Q L L L Bl (fun ex ey ez => e 0 ex ey ez z)
  have hy := contractY3_adjoint Q Q L L Bl
    (contractX3 L Bl (fun ex ey ez => e 0 ex ey ez z))
  have hz := contractZ3_adjoint Q Q Q L Bl
    (contractY3 L Bl (contractX3 L Bl (fun ex ey ez => e 0 ex ey ez z)))
  refine Eq.trans ?_ (hx _)
  refine Eq.trans ?_ (hy _)
  refine Eq.trans ?_ (hz _)
  rw [ip3_sum_right]
  refine Finset.sum_congr rfl (fun c _ => ?_)
  rw [ip3_add_left, ip3_add_left, ip3_add_right, ip3_add_right]
  congr 1
  · congr 1
    · exact force3D_term Q D dBd Bd Bd _ _ _
    · exact force3D_term Q D Bd dBd Bd _ _ _
  · exact force3D_term Q D Bd Bd dBd _ _ _

/-! ### Element-local and global inner products -/

theorem sum_localSum (dim vdim D nz : Nat) (s : Finset Nat)
    (g : Nat → Nat → Nat → Nat → Nat → Nat → ℚ) :
    ∑ j in s, localSum dim vdim D nz (g j)
      = localSum dim vdim D nz (fun c dx dy dz z => ∑ j in s, g j c dx dy dz z) := by
  unfold localSum
  generalize (if dim = 3 then D else 1) = Dz
  rw [Finset.sum_comm]
  refine Finset.sum_congr rfl (fun z _ => ?_)
  rw [Finset.sum_comm]
  refine Finset.sum_congr rfl (fun c _ => ?_)
  rw [Finset.sum_comm]
  refine Finset.sum_congr rfl (fun dx _ => ?_)
  rw [Finset.sum_comm]
  refine Finset.sum_congr rfl (fun dy _ => ?_)
  rw [Finset.sum_comm]

theorem localSum_mul (dim vdim D nz : Nat) (f : Nat → Nat → Nat → Nat → Nat → ℚ) (a : ℚ) :
    localSum dim vdim D nz f * a
      = localSum dim vdim D nz (fun c dx dy dz z => f c dx dy dz z * a) := by
  unfold localSum
  simp only [Finset.sum_mul]

theorem localSum_congr (dim vdim D nz : Nat) (f g : Nat → Nat → Nat → Nat → Nat → ℚ)
    (h : ∀ c dx dy dz z, c < vdim → dx < D → dy < D → dz < (if dim = 3 then D else 1) →
      z < nz → f c dx dy dz z = g c dx dy dz z) :
    localSum dim vdim D nz f = localSum dim vdim D nz g := by
  unfold localSum
  refine Finset.sum_congr rfl (fun z hz => Finset.sum_congr rfl (fun c hc =>
    Finset.sum_congr rfl (fun dx hdx => Finset.sum_congr rfl (fun dy hdy =>
      Finset.sum_congr rfl (fun dz hdz => ?_)))))
  exact h c dx dy dz z (Finset.mem_range.mp hc) (Finset.mem_range.mp hdx)
    (Finset.mem_range.mp hdy) (Finset.mem_range.mp hdz) (Finset.mem_range.mp hz)

/-- The inner product with a vector assembled from element-local entries is the sum
over the element-local entries. -/
theorem dot_LocalToGlobal (dim vdim D nz n : Nat) (dofs : Nat → Nat → Nat → Nat → Nat → Nat)
    (hr : ∀ c dx dy dz z, c < vdim → dx < D → dy < D → dz < (if dim = 3 then D else 1) →
      z < nz → dofs c dx dy dz z < n) (l : LocalVec) (y : Buf) :
    dot n (LocalToGlobal dim vdim D nz dofs l) y
      = localSum dim vdim D nz (fun c dx dy dz z => l c dx dy dz z * y (dofs c dx dy dz z)) := by
  unfold dot LocalToGlobal
  simp only [localSum_mul]
  rw [sum_localSum]
  refine localSum_congr _ _ _ _ _ _ (fun c dx dy dz z hc hdx hdy hdz hz => ?_)
  simp only [ite_mul, zero_mul]
  rw [Finset.sum_ite_eq, if_pos (Finset.mem_range.mpr (hr c dx dy dz z hc hdx hdy hdz hz))]

theorem dot_comm (n : Nat) (u w : Buf) : dot n u w = dot n w u := by
  unfold dot
  exact Finset.sum_congr rfl (fun i _ => mul_comm _ _)

theorem localSum_two (vdim D nz : Nat) (f : Nat → Nat → Nat → Nat → Nat → ℚ) :
    localSum 2 vdim D nz f = ∑ z in Finset.range nz, ∑ c in Finset.range vdim,
      ip2 D D (fun _ _ => 1) (fun dx dy => f c dx dy 0 z) := by
  unfold localSum ip2
  simp

theorem localSum_three (vdim D nz : Nat) (f : Nat → Nat → Nat → Nat → Nat → ℚ) :
    localSum 3 vdim D nz f = ∑ z in Finset.range nz, ∑ c in Finset.range vdim,
      ip3 D D D (fun _ _ _ => 1) (fun dx dy dz => f c dx dy dz z) := by
  unfold localSum ip3
  simp

theorem ip2_one (A B : Nat) (u w : Nat → Nat → ℚ) :
    ip2 A B (fun _ _ => 1) (fun i j => u i j * w i j) = ip2 A B u w := by
  unfold ip2
  simp

theorem ip3_one (A B C : Nat) (u w : Nat → Nat → Nat → ℚ) :
    ip3 A B C (fun _ _ _ => 1) (fun i j k => u i j k * w i j k) = ip3 A B C u w := by
  unfold ip3
  simp

theorem DofQuadMaps.Transposed.quadToDof_eq {m : DofQuadMaps} (h : m.Transposed) :
    m.quadToDof = fun d q => m.dofToQuad q d := by
  funext d q; exact (h q d).1

theorem DofQuadMaps.Transposed.quadToDofD_eq {m : DofQuadMaps} (h : m.Transposed) :
    m.quadToDofD = fun d q => m.dofToQuadD q d := by
  funext d q; exact (h q d).2

theorem Mult_two (op : kForcePAOperator) (hd : op.dim = 2)
    (stressJinvT : Nat × Nat × Nat → ℚ) (gVecH1 : LocalVec) (x : Buf) :
    op.Mult stressJinvT gVecH1 x = some (stressJinvT,
      LocalToGlobal 2 2 op.H1_DOFS_1D op.nzones op.h1dofs
        (rForceMult2D 2 op.NUM_DOFS_1D op.NUM_QUAD_1D op.L2_DOFS_1D op.H1_DOFS_1D op.nzones
          op.l2D2Q.dofToQuad op.h1D2Q.quadToDof op.h1D2Q.quadToDofD stressJinvT
          (GlobalToLocal op.l2dofs x))) := by
  simp [kForcePAOperator.Mult, rForceMult, hd]

theorem MultTranspose_two (op : kForcePAOperator) (hd : op.dim = 2)
    (d_stressJinvT : Nat × Nat × Nat → ℚ) (gVecL2 : LocalVec) (y : Buf) :
    op.MultTranspose d_stressJinvT gVecL2 y = some
      (LocalToGlobal 2 1 op.L2_DOFS_1D op.nzones op.l2dofs
        (rForceMultTranspose2D 2 op.NUM_DOFS_1D op.NUM_QUAD_1D op.L2_DOFS_1D op.H1_DOFS_1D
          op.nzones op.l2D2Q.quadToDof op.h1D2Q.dofToQuad op.h1D2Q.dofToQuadD d_stressJinvT
          (GlobalToLocal op.h1dofs y))) := by
  simp [kForcePAOperator.MultTranspose, rForceMultTranspose, hd]

theorem Mult_three (op : kForcePAOperator) (hd : op.dim = 3)
    (stressJinvT : Nat × Nat × Nat → ℚ) (gVecH1 : LocalVec) (x : Buf) :
    op.Mult stressJinvT gVecH1 x = some (stressJinvT,
      LocalToGlobal 3 3 op.H1_DOFS_1D op.nzones op.h1dofs
        (rForceMult3D 3 op.NUM_DOFS_1D op.NUM_QUAD_1D op.L2_DOFS_1D op.H1_DOFS_1D op.nzones
          op.l2D2Q.dofToQuad op.h1D2Q.quadToDof op.h1D2Q.quadToDofD stressJinvT
          (GlobalToLocal op.l2dofs x))) := by
  simp [kForcePAOperator.Mult, rForceMult, hd]

theorem MultTranspose_three (op : kForcePAOperator) (hd : op.dim = 3)
    (d_stressJinvT : Nat × Nat × Nat → ℚ) (gVecL2 : LocalVec) (y : Buf) :
    op.MultTranspose d_stressJinvT gVecL2 y = some
      (LocalToGlobal 3 1 op.L2_DOFS_1D op.nzones op.l2dofs
        (rForceMultTranspose3D 3 op.NUM_DOFS_1D op.NUM_QUAD_1D op.L2_DOFS_1D op.H1_DOFS_1D
          op.nzones op.l2D2Q.quadToDof op.h1D2Q.dofToQuad op.h1D2Q.dofToQuadD d_stressJinvT
          (GlobalToLocal op.h1dofs y))) := by
  simp [kForcePAOperator.MultTranspose, rForceMultTranspose, hd]

/-- C1: for every energy-space vector `x` and velocity-space vector `y`, with the
same `stressJinvT` data (the device copy made by `Mult`), the inner product of
`kForcePAOperator::Mult(x)` with `y` equals the inner product of `x` with
`kForcePAOperator::MultTranspose(y)`, for the 2D and for the 3D kernel. -/
theorem force_operator_adjoint (op : kForcePAOperator) (hd : op.dim = 2 ∨ op.dim = 3)
    (hl2 : op.l2D2Q.Transposed) (hh1 : op.h1D2Q.Transposed) (hr : op.DofsInRange)
    (stressJinvT : Nat × Nat × Nat → ℚ) (gVecH1 gVecL2 : LocalVec) (x y : Buf) :
    ∃ d_stressJinvT u w,
      op.Mult stressJinvT gVecH1 x = some (d_stressJinvT, u) ∧
      op.MultTranspose d_stressJinvT gVecL2 y = some w ∧
      dot op.VsizeH1 u y = dot op.VsizeL2 x w := by
  rcases hd with hd | hd
  · refine ⟨_, _, _, Mult_two op hd stressJinvT gVecH1 x,
      MultTranspose_two op hd stressJinvT gVecL2 y, ?_⟩
    have hr1 : ∀ c dx dy dz z, c < 1 → dx < op.L2_DOFS_1D → dy < op.L2_DOFS_1D →
        dz < (if 2 = 3 then op.L2_DOFS_1D else 1) → z < op.nzones →
        op.l2dofs c dx dy dz z < op.VsizeL2 := by
      intro c dx dy dz z hc
      obtain rfl : c = 0 := by omega
      have := hr.1 dx dy dz z
      rw [hd] at this
      exact this
    have hr2 : ∀ c dx dy dz z, c < 2 → dx < op.H1_DOFS_1D → dy < op.H1_DOFS_1D →
        dz < (if 2 = 3 then op.H1_DOFS_1D else 1) → z < op.nzones →
        op.h1dofs c dx dy dz z < op.VsizeH1 := by
      have := hr.2
      rw [hd] at this
      exact this
    rw [dot_LocalToGlobal _ _ _ _ _ _ hr2, dot_comm, dot_LocalToGlobal _ _ _ _ _ _ hr1,
      localSum_two, localSum_two, hl2.quadToDof_eq, hh1.quadToDof_eq, hh1.quadToDofD_eq]
    refine Finset.sum_congr rfl (fun z _ => ?_)
    simp only [ip2_one, Finset.sum_range_one]
    have := rForceMult2D_adjoint 2 op.NUM_DOFS_1D op.NUM_QUAD_1D op.L2_DOFS_1D
      op.H1_DOFS_1D op.nzones op.l2D2Q.dofToQuad op.h1D2Q.dofToQuad op.h1D2Q.dofToQuadD
      stressJinvT (GlobalToLocal op.l2dofs x) (GlobalToLocal op.h1dofs y) z
    unfold GlobalToLocal at this ⊢
    rw [this]
    unfold ip2
    refine Finset.sum_congr rfl (fun i _ => Finset.sum_congr rfl (fun j _ => ?_))
    ring
  · refine ⟨_, _, _, Mult_three op hd stressJinvT gVecH1 x,
      MultTranspose_three op hd stressJinvT gVecL2 y, ?_⟩
    have hr1 : ∀ c dx dy dz z, c < 1 → dx < op.L2_DOFS_1D → dy < op.L2_DOFS_1D →
        dz < (if 3 = 3 then op.L2_DOFS_1D else 1) → z < op.nzones →
        op.l2dofs c dx dy dz z < op.VsizeL2 := by
      intro c dx dy dz z hc
      obtain rfl : c = 0 := by omega
      have := hr.1 dx dy dz z
      rw [hd] at this
      exact this
    have hr2 : ∀ c dx dy dz z, c < 3 → dx < op.H1_DOFS_1D → dy < op.H1_DOFS_1D →
        dz < (if 3 = 3 then op.H1_DOFS_1D else 1) → z < op.nzones →
        op.h1dofs c dx dy dz z < op.VsizeH1 := by
      have := hr.2
      rw [hd] at this
      exact this
    rw [dot_LocalToGlobal _ _ _ _ _ _ hr2, dot_comm, dot_LocalToGlobal _ _ _ _ _ _ hr1,
      localSum_three, localSum_three, hl2.quadToDof_eq, hh1.quadToDof_eq,
      hh1.quadToDofD_eq]
    refine Finset.sum_congr rfl (fun z _ => ?_)
    simp only [ip3_one, Finset.sum_range_one]
    have := rForceMult3D_adjoint 3 op.NUM_DOFS_1D op.NUM_QUAD_1D op.L2_DOFS_1D
      op.H1_DOFS_1D op.nzones op.l2D2Q.dofToQuad op.h1D2Q.dofToQuad op.h1D2Q.dofToQuadD
      stressJinvT (GlobalToLocal op.l2dofs x) (GlobalToLocal op.h1dofs y) z
    unfold GlobalToLocal at this ⊢
    rw [this]
    unfold ip3
    refine Finset.sum_congr rfl (fun i _ => Finset.sum_congr rfl (fun j _ =>
      Finset.sum_congr rfl (fun k _ => ?_)))
    ring

theorem exForce_transposed : exForce.l2D2Q.Transposed ∧ exForce.h1D2Q.Transposed := by
  constructor <;> intro q d <;> simp [exForce]

theorem exForce_dofs : exForce.DofsInRange := by
  constructor
  · intro dx dy dz z _ _ _ hz
    simpa [exForce] using hz
  · intro c dx dy dz z hc hdx hdy _ hz
    simp only [exForce] at hc hdx hdy hz ⊢
    omega

theorem exForce3_dofs : exForce3.DofsInRange := by
  constructor
  · intro dx dy dz z _ _ _ _
    simp [exForce3]
  · intro c dx dy dz z hc hdx hdy hdz _
    simp only [exForce3, exForce, if_true] at hc hdx hdy hdz ⊢
    omega

/-- Witness for C1: the sample operators in two and in three dimensions, with a
stress that varies with the component and the point. -/
theorem force_operator_adjoint_witness :
    (∃ d_stressJinvT u w,
      exForce.Mult (fun k => (k.1 : ℚ) + 2 * k.2.1 - k.2.2) (fun _ _ _ _ _ => 0)
          (fun j => (j : ℚ) + 1) = some (d_stressJinvT, u) ∧
      exForce.MultTranspose d_stressJinvT (fun _ _ _ _ _ => 0) (fun i => (i : ℚ) * i - 3)
          = some w ∧
      dot exForce.VsizeH1 u (fun i => (i : ℚ) * i - 3)
        = dot exForce.VsizeL2 (fun j => (j : ℚ) + 1) w) ∧
    (∃ d_stressJinvT u w,
      exForce3.Mult (fun k => (k.1 : ℚ) + 2 * k.2.1 - k.2.2) (fun _ _ _ _ _ => 0)
          (fun j => (j : ℚ) + 1) = some (d_stressJinvT, u) ∧
      exForce3.MultTranspose d_stressJinvT (fun _ _ _ _ _ => 0) (fun i => (i : ℚ) * i - 3)
          = some w ∧
      dot exForce3.VsizeH1 u (fun i => (i : ℚ) * i - 3)
        = dot exForce3.VsizeL2 (fun j => (j : ℚ) + 1) w) :=
  ⟨force_operator_adjoint exForce (Or.inl rfl) exForce_transposed.1 exForce_transposed.2
      exForce_dofs _ _ _ _ _,
   force_operator_adjoint exForce3 (Or.inr rfl) exForce_transposed.1 exForce_transposed.2
      exForce3_dofs _ _ _ _ _⟩
/-! ## Theorems: construction, freshness flag and time derivative -/

/-! ### The reference data stored by the constructor -/

/-- The inner loop of the constructor over the points of the zone `i`: the entries
of the zone are stored, the others are kept. -/
theorem initReferenceData_zone {σ : Type} (H : Hydro σ) (M : InitialMesh) (i k : Nat)
    (hk : k ≤ H.nqp) (qd : QuadratureData) (z q : Nat) (hq : q < H.nqp) :
    (forLoop k (fun q (qd : QuadratureData) =>
      let rho0DetJ0 := M.T_Weight i q * M.rho0_GetValues i q
      { qd with
        Jac0inv := Function.update qd.Jac0inv (i * H.nqp + q)
          (M.GetInverseMatrix (M.T_Jacobian i q))
        rho0DetJ0w := Function.update qd.rho0DetJ0w (i * H.nqp + q)
          (rho0DetJ0 * H.weight q) }) qd).rho0DetJ0w (z * H.nqp + q)
      = if z = i ∧ q < k then M.T_Weight i q * M.rho0_GetValues i q * H.weight q
        else qd.rho0DetJ0w (z * H.nqp + q) := by
  induction k with
  | zero => simp [forLoop]
  | succ k ih =>
    rw [forLoop_succ]
    simp only
    rw [Function.update_apply, ih (by omega)]
    simp only [idx_eq_iff hq (show k < H.nqp by omega)]
    by_cases h1 : z = i <;> by_cases h2 : q = k
    · subst h2; simp [h1]
    · have : q < k + 1 ↔ q < k := by omega
      simp [h1, h2, this]
    · simp [h1]
    · simp [h1]

/-- The entries of `rho0DetJ0w` after the constructor's loop over the zones. -/
theorem initReferenceData_rho {σ : Type} (H : Hydro σ) (M : InitialMesh)
    (qd : QuadratureData) (z q : Nat) (hz : z < H.nzones) (hq : q < H.nqp) :
    (initReferenceData H M qd).rho0DetJ0w (z * H.nqp + q)
      = M.T_Weight z q * M.rho0_GetValues z q * H.weight q := by
  have key : ∀ n, (forLoop n (fun i qd =>
      let rho_vals := M.rho0_GetValues i
      forLoop H.nqp (fun q (qd : QuadratureData) =>
        let rho0DetJ0 := M.T_Weight i q * rho_vals q
        { qd with
          Jac0inv := Function.update qd.Jac0inv (i * H.nqp + q)
            (M.GetInverseMatrix (M.T_Jacobian i q))
          rho0DetJ0w := Function.update qd.rho0DetJ0w (i * H.nqp + q)
            (rho0DetJ0 * H.weight q) }) qd) qd).rho0DetJ0w (z * H.nqp + q)
      = if z < n then M.T_Weight z q * M.rho0_GetValues z q * H.weight q
        else qd.rho0DetJ0w (z * H.nqp + q) := by
    intro n
    induction n with
    | zero => simp [forLoop]
    | succ n ih =>
      rw [forLoop_succ]
      simp only
      rw [initReferenceData_zone H M n H.nqp (le_refl _) _ z q hq, ih]
      by_cases h1 : z = n
      · subst h1; simp [hq]
      · have : z < n + 1 ↔ z < n := by omega
        simp [h1, this]
  unfold initReferenceData
  rw [key H.nzones, if_pos hz]

/-- The constructor keeps the reference data of its loop: only `h0` is set after it. -/
theorem LagrangianHydroOperator_rho {σ : Type} (H : Hydro σ) (M : InitialMesh)
    (others : List (ℚ × Nat)) (qd0 : QuadratureData) (st0 : HydroState)
    (hc : LagrangianHydroOperator H M others qd0 = some st0) :
    st0.quad_data.rho0DetJ0w = (initReferenceData H M qd0).rho0DetJ0w ∧
    st0.quad_data_is_current = false := by
  unfold LagrangianHydroOperator at hc
  simp only at hc
  split at hc
  · exact absurd hc (by simp)
  · simp only [Option.some.injEq] at hc
    subst hc
    exact ⟨rfl, rfl⟩

/-- The first zone and the size of a batch that is run, for the batch constant `B`. -/
theorem batchHead_range {σ : Type} (H : Hydro σ) (b : Nat) (P : Pass) (z0 : Nat) (st' : Pass)
    (hh : batchHead H b P = some (z0, st')) (hP : b * P.nzones_batch ≤ H.nzones) :
    z0 = b * P.nzones_batch ∧ z0 + st'.nzones_batch ≤ H.nzones := by
  unfold batchHead at hh
  simp only at hh
  split_ifs at hh with h1 h2
  · simp only [Option.some.injEq, Prod.mk.injEq] at hh
    obtain ⟨rfl, rfl⟩ := hh
    refine ⟨rfl, ?_⟩
    simp only
    omega
  · simp only [Option.some.injEq, Prod.mk.injEq] at hh
    obtain ⟨rfl, rfl⟩ := hh
    refine ⟨rfl, ?_⟩
    omega

/-- C11: the constructor stores `rho0DetJ0w(z*nqp+q) = rho0(z,q) * detJ0(z,q) *
weight_q`; and when `UpdateQuadratureData` runs on the initial configuration (the
current `detJ` equal to the non-zero `detJ0`, the weight non-zero), the density
`rho0DetJ0w / detJ / weight` that the first zone loop of a batch stores in `rho_b`
is the initial density `rho0(z,q)`. -/
theorem initial_density_recovered {σ : Type} (H : Hydro σ) (lib : Lib) (M : InitialMesh)
    (others : List (ℚ × Nat)) (qd0 : QuadratureData) (st0 : HydroState)
    (hc : LagrangianHydroOperator H M others qd0 = some st0) :
    (∀ z q, z < H.nzones → q < H.nqp →
      st0.quad_data.rho0DetJ0w (z * H.nqp + q)
        = M.rho0_GetValues z q * M.T_Weight z q * H.weight q) ∧
    (∀ (S : σ) (b z0 : Nat) (st' : Pass), b < H.nzones / 3 + 1 →
      batchHead H b (passAfter H lib 3 S st0.quad_data b) = some (z0, st') →
      ∀ z q, z < st'.nzones_batch → q < H.nqp →
        detJAt H lib S (z0 + z) q = M.T_Weight (z0 + z) q →
        M.T_Weight (z0 + z) q ≠ 0 → H.weight q ≠ 0 →
        (batchGather H lib S z0 st').rho_b (z * H.nqp + q)
          = M.rho0_GetValues (z0 + z) q) := by
  obtain ⟨hr, _⟩ := LagrangianHydroOperator_rho H M others qd0 st0 hc
  have h1 : ∀ z q, z < H.nzones → q < H.nqp →
      st0.quad_data.rho0DetJ0w (z * H.nqp + q)
        = M.rho0_GetValues z q * M.T_Weight z q * H.weight q := by
    intro z q hz hq
    rw [hr, initReferenceData_rho H M qd0 z q hz hq, mul_comm (M.T_Weight z q)]
  refine ⟨h1, ?_⟩
  intro S b z0 st' hb hh z q hz hq hdet hW hw
  obtain ⟨_, p2, p3, p4⟩ := passAfter_full H lib S 3 st0.quad_data (by norm_num) b (by omega)
  obtain ⟨e1, _, _⟩ := batchHead_some H b _ z0 st' (by rw [p3, p2]) hh
  obtain ⟨r1, r2⟩ := batchHead_range H b _ z0 st' hh (by
    rw [p2]
    have := Nat.div_mul_le_self H.nzones 3
    have : b * 3 ≤ H.nzones / 3 * 3 := Nat.mul_le_mul_right 3 (by omega)
    omega)
  obtain ⟨_, f2, _⟩ := refZones_frame H lib S st0.quad_data.rho0DetJ0w
    (zoneMinDetJ H lib S 3) 0 (b * 3) st0.quad_data
  rw [← p4, ← e1] at f2
  obtain ⟨_, g2, _, _⟩ := (batchGather_spec H lib S z0 st').2.2 z hz q hq
  rw [g2, f2]
  unfold rhoAt
  rw [h1 (z0 + z) q (by omega) hq, hdet]
  field_simp
  ring

/-! ### The initial mesh size -/

theorem foldl_add_fst (others : List (ℚ × Nat)) (a : ℚ) :
    others.foldl (fun a o => a + o.1) a = a + (others.map Prod.fst).sum := by
  induction others generalizing a with
  | nil => simp
  | cons o os ih => simp [List.foldl_cons, ih, add_assoc]

theorem foldl_add_snd (others : List (ℚ × Nat)) (n : Nat) :
    others.foldl (fun n o => n + o.2) n = n + (others.map Prod.snd).sum := by
  induction others generalizing n with
  | nil => simp
  | cons o os ih => simp [List.foldl_cons, ih, Nat.add_assoc]

theorem locArea_eq_sum {σ : Type} (H : Hydro σ) (M : InitialMesh) :
    locArea H M = ∑ i in Finset.range H.nzones, M.GetElementVolume i := by
  unfold locArea
  induction H.nzones with
  | zero => simp [forLoop]
  | succ n ih => rw [forLoop_succ, ih, Finset.sum_range_succ]

/-- The initial mesh size in closed form. -/
theorem initialMeshSize_eq {σ : Type} (H : Hydro σ) (M : InitialMesh)
    (others : List (ℚ × Nat)) :
    initialMeshSize H M others
      = match M.GetElementBaseGeometry with
        | .SEGMENT =>
          some (globalVolume H M others / globalZoneCount H others / H.order)
        | .SQUARE =>
          some (M.sqrt (globalVolume H M others / globalZoneCount H others) / H.order)
        | .TRIANGLE =>
          some (M.sqrt (2 * globalVolume H M others / globalZoneCount H others) / H.order)
        | .CUBE =>
          some (M.pow (globalVolume H M others / globalZoneCount H others) (1 / 3)
            / H.order)
        | .TETRAHEDRON =>
          some (M.pow (6 * globalVolume H M others / globalZoneCount H others) (1 / 3)
            / H.order)
        | .OTHER => none := by
  unfold initialMeshSize globalVolume globalZoneCount
  simp only [foldl_add_fst, foldl_add_snd, locArea_eq_sum]
  cases M.GetElementBaseGeometry <;> simp

/-- C19, as the code has it: after construction `h0` is the shape's power law
applied to `V/N`, divided by the polynomial order of the velocity space: `V/N` for
segments, `sqrt(V/N)` for quadrilaterals, `sqrt(2*V/N)` for triangles,
`(V/N)^(1/3)` for cubes and `(6*V/N)^(1/3)` for tetrahedra, each divided by the
order; any other zone shape aborts. -/
theorem h0_power_law_over_order {σ : Type} (H : Hydro σ) (M : InitialMesh)
    (others : List (ℚ × Nat)) (qd0 : QuadratureData) :
    (LagrangianHydroOperator H M others qd0).map (fun st => st.quad_data.h0)
      = match M.GetElementBaseGeometry with
        | .SEGMENT =>
          some (globalVolume H M others / globalZoneCount H others / H.order)
        | .SQUARE =>
          some (M.sqrt (globalVolume H M others / globalZoneCount H others) / H.order)
        | .TRIANGLE =>
          some (M.sqrt (2 * globalVolume H M others / globalZoneCount H others) / H.order)
        | .CUBE =>
          some (M.pow (globalVolume H M others / globalZoneCount H others) (1 / 3)
            / H.order)
        | .TETRAHEDRON =>
          some (M.pow (6 * globalVolume H M others / globalZoneCount H others) (1 / 3)
            / H.order)
        | .OTHER => none := by
  unfold LagrangianHydroOperator
  simp only [initialMeshSize_eq]
  cases M.GetElementBaseGeometry <;> simp

/-- The constructor on the sample mesh: `V = 16`, `N = 4`, `sqrt (V/N) = 2`. -/
theorem exMesh_size (H : Hydro Unit) (hn : H.nzones = 4) :
    exMesh.sqrt (globalVolume H exMesh [] / globalZoneCount H []) = 2 ∧
    initialMeshSize H exMesh [] = some (2 / H.order) := by
  have hV : globalVolume H exMesh [] = 16 := by
    simp [globalVolume, hn, exMesh, Finset.sum_range_succ]
    norm_num
  have hN : globalZoneCount H [] = 4 := by
    simp [globalZoneCount, hn]
  have hs : exMesh.sqrt (16 / ((4 : Nat) : ℚ)) = 2 := by
    have h4 : (16 / ((4 : Nat) : ℚ)) = ((4 : Nat) : ℚ) := by norm_num
    rw [h4]
    show ((Nat.sqrt ((4 : Nat) : ℚ).num.toNat : ℚ)) / (Nat.sqrt ((4 : Nat) : ℚ).den : ℚ) = 2
    rw [Rat.num_natCast, Rat.den_natCast, Int.toNat_natCast, show (4 : Nat) = 2 * 2 from rfl,
      Nat.sqrt_eq, show (1 : Nat) = 1 * 1 from rfl, Nat.sqrt_eq]
    norm_num
  have hg : exMesh.GetElementBaseGeometry = Geometry.SQUARE := rfl
  refine ⟨by rw [hV, hN, hs], ?_⟩
  rw [initialMeshSize_eq]
  simp only [hg, hV, hN, hs]

/-- Counterexample to C19 as stated: on the sample mesh of four squares of volume 4
with elements of order 2, `sqrt(V/N) = 2` but the constructor leaves `h0 = 1`. -/
theorem h0_power_law_counterexample :
    exMesh.GetElementBaseGeometry = Geometry.SQUARE ∧
    exMesh.sqrt (globalVolume exHydroP2 exMesh [] / globalZoneCount exHydroP2 []) = 2 ∧
    (LagrangianHydroOperator exHydroP2 exMesh [] exQuadData).map
      (fun st => st.quad_data.h0) = some 1 := by
  refine ⟨rfl, (exMesh_size exHydroP2 rfl).1, ?_⟩
  unfold LagrangianHydroOperator
  rw [(exMesh_size exHydroP2 rfl).2]
  simp [exHydroP2]

/-- Witness for C11: the zone 1 and the point 1 of the sample operator built on the
sample mesh. -/
theorem initial_density_recovered_witness :
    LagrangianHydroOperator exHydroGood exMesh [] exQuadData
      = some ⟨{ initReferenceData exHydroGood exMesh exQuadData with h0 := 2 }, false⟩ ∧
    (batchGather exHydroGood exLib () 0
        (passInit exHydroGood exLib 3
          { initReferenceData exHydroGood exMesh exQuadData with h0 := 2 })).rho_b
        (1 * exHydroGood.nqp + 1)
      = exMesh.rho0_GetValues (0 + 1) 1 :=
  have hc : LagrangianHydroOperator exHydroGood exMesh [] exQuadData
      = some ⟨{ initReferenceData exHydroGood exMesh exQuadData with h0 := 2 }, false⟩ := by
    unfold LagrangianHydroOperator
    rw [(exMesh_size exHydroGood rfl).2]
    simp [exHydroGood, exHydro]
  ⟨hc,
   (initial_density_recovered exHydroGood exLib exMesh [] exQuadData _ hc).2 () 0 0
      (passInit exHydroGood exLib 3
        { initReferenceData exHydroGood exMesh exQuadData with h0 := 2 })
      (by decide) rfl 1 1 (by decide) (by decide)
      (by norm_num [detJAt, JprAt, exHydroGood, exHydro, exLib, exMesh])
      (by norm_num [exMesh]) (by norm_num [exHydroGood, exHydro])⟩

/-! ### The freshness flag -/

/-- C12: when the flag `quad_data_is_current` is true, `UpdateQuadratureData`
returns without changing `stressJinvT`, `dt_est` or the flag (nothing changes at
all), for every `S`; when it is false the call ends with the flag true. -/
theorem fresh_flag_skips_update {σ : Type} (H : Hydro σ) (lib : Lib) (S : σ)
    (qd : QuadratureData) :
    UpdateQuadratureData H lib S ⟨qd, true⟩ = ⟨qd, true⟩ ∧
    (UpdateQuadratureData H lib S ⟨qd, false⟩).quad_data_is_current = true :=
  ⟨rfl, rfl⟩

/-- After an update the flag is true, whatever it was. -/
theorem UpdateQuadratureData_flag {σ : Type} (H : Hydro σ) (lib : Lib) (S : σ)
    (st : HydroState) : (UpdateQuadratureData H lib S st).quad_data_is_current = true := by
  unfold UpdateQuadratureData UpdateQuadratureDataB
  by_cases h : st.quad_data_is_current
  · simp only [h, if_true]
  · simp only [h, Bool.false_eq_true, if_false]

/-- An update on a fresh flag changes nothing. -/
theorem UpdateQuadratureData_fresh {σ : Type} (H : Hydro σ) (lib : Lib) (S : σ)
    (st : HydroState) (h : st.quad_data_is_current = true) :
    UpdateQuadratureData H lib S st = st := by
  unfold UpdateQuadratureData UpdateQuadratureDataB
  simp only [h, if_true]

/-- The `dt_est` left by an update that runs: the running minimum over the zones. -/
theorem UpdateQuadratureData_dt {σ : Type} (H : Hydro σ) (lib : Lib) (S : σ)
    (st : HydroState) (hfresh : st.quad_data_is_current = false) :
    (UpdateQuadratureData H lib S st).quad_data.dt_est
      = dtZones H.nqp (zoneMinDetJ H lib S 3) (candAt H lib S st.quad_data) 0 H.nzones
          st.quad_data.dt_est := by
  unfold UpdateQuadratureData
  rw [UpdateQuadratureDataB_eq H lib 3 (by norm_num) S st hfresh]
  exact (refZones_spec H lib S st.quad_data _ H.nzones).2

/-- C13, as the code has it: the update follows the flag, not the state vector.
After `Mult (S1)`, which clears the flag, a call that consumes quadrature data for
`S2` recomputes `stressJinvT` and `dt_est` from `S2`; after
`GetTimeStepEstimate (S1)` the flag is true, and a following
`GetTimeStepEstimate (S2)` or `Mult (S2)` keeps the stored data, whatever `S2` is. -/
theorem update_follows_flag {σ : Type} (H : Hydro σ) (lib : Lib) (S1 S2 : σ)
    (others others2 : List (WithTop ℚ)) (st : HydroState) :
    ((MultQuadData H lib S1 st).quad_data_is_current = false ∧
     (∀ z q vd gd, z < H.nzones → q < H.nqp → vd < H.dim → gd < H.dim →
       (GetTimeStepEstimate H lib S2 others2 (MultQuadData H lib S1 st)).1.quad_data.stressJinvT
           (vd, z * H.nqp + q, gd)
         = stressJiTOf H lib S2 (MultQuadData H lib S1 st).quad_data z q vd gd ∧
       (MultQuadData H lib S2 (MultQuadData H lib S1 st)).quad_data.stressJinvT
           (vd, z * H.nqp + q, gd)
         = stressJiTOf H lib S2 (MultQuadData H lib S1 st).quad_data z q vd gd) ∧
     (GetTimeStepEstimate H lib S2 others2 (MultQuadData H lib S1 st)).1.quad_data.dt_est
       = dtZones H.nqp (zoneMinDetJ H lib S2 3)
           (candAt H lib S2 (MultQuadData H lib S1 st).quad_data) 0 H.nzones
           (MultQuadData H lib S1 st).quad_data.dt_est) ∧
    ((GetTimeStepEstimate H lib S1 others st).1.quad_data_is_current = true ∧
     (GetTimeStepEstimate H lib S2 others2 (GetTimeStepEstimate H lib S1 others st).1).1
       = (GetTimeStepEstimate H lib S1 others st).1 ∧
     (MultQuadData H lib S2 (GetTimeStepEstimate H lib S1 others st).1).quad_data
       = (GetTimeStepEstimate H lib S1 others st).1.quad_data) := by
  have hm : (MultQuadData H lib S1 st).quad_data_is_current = false := rfl
  have hg : (GetTimeStepEstimate H lib S1 others st).1.quad_data_is_current = true :=
    UpdateQuadratureData_flag H lib S1 st
  refine ⟨⟨hm, ?_, ?_⟩, hg, ?_, ?_⟩
  · intro z q vd gd hz hq hvd hgd
    exact ⟨UpdateQuadratureData_stressJinvT H lib S2 _ hm z q vd gd hz hq hvd hgd,
      UpdateQuadratureData_stressJinvT H lib S2 _ hm z q vd gd hz hq hvd hgd⟩
  · exact UpdateQuadratureData_dt H lib S2 _ hm
  · exact UpdateQuadratureData_fresh H lib S2 _ hg
  · show (UpdateQuadratureData H lib S2 _).quad_data = _
    rw [UpdateQuadratureData_fresh H lib S2 _ hg]

theorem dtPoints_const (m : WithTop ℚ) (hm : ¬ m < 0) (c0 : WithTop ℚ) (j : Nat)
    (hj : 0 < j) (dt : WithTop ℚ) :
    forLoop j (fun _ dt => if m < 0 then 0 else min dt c0) dt = min dt c0 := by
  induction j with
  | zero => omega
  | succ j ih =>
    rw [forLoop_succ]
    simp only [hm, if_false]
    by_cases h : j = 0
    · subst h; rfl
    · have := ih (by omega)
      simp only [hm, if_false] at this
      rw [this, min_assoc, min_self]

/-- Without a negative minimum determinant and with one candidate value `c0` at all
points, the running minimum is `min dt c0`. -/
theorem dtZones_const (nqp : Nat) (hq : 0 < nqp) (m : Nat → WithTop ℚ)
    (c : Nat → Nat → WithTop ℚ) (c0 : WithTop ℚ) (hm : ∀ z, ¬ m z < 0)
    (hc : ∀ z q, c z q = c0) (z0 n : Nat) (hn : 0 < n) (dt : WithTop ℚ) :
    dtZones nqp m c z0 n dt = min dt c0 := by
  induction n with
  | zero => omega
  | succ n ih =>
    rw [dtZones_succ]
    simp only [hc]
    rw [dtPoints_const _ (hm _) c0 nqp hq]
    by_cases h : n = 0
    · subst h; rfl
    · rw [ih (by omega), min_assoc, min_self]

theorem exHydroS_detJ (s : ℚ) (z q : Nat) : detJAt exHydroS exLib s z q = s * s := by
  simp [detJAt, JprAt, exHydroS, exLib]

theorem exHydroS_cand (s : ℚ) (hs : 0 < s) (qd : QuadratureData)
    (hqd : qd.rho0DetJ0w = exQuadData.rho0DetJ0w) (z q : Nat) :
    candAt exHydroS exLib s qd z q = ((3 * s / 20 : ℚ) : WithTop ℚ) := by
  have hs' : s ≠ 0 := ne_of_gt hs
  have hrho : rhoAt exHydroS exLib s qd.rho0DetJ0w z q ≠ 0 := by
    simp [hqd, rhoAt, detJAt, JprAt, exHydroS, exLib, exQuadData, hs']
  have hh : exLib.CalcSingularvalue exHydroS.dim (JprAt exHydroS s z q)
      (exHydroS.dim - 1) / exHydroS.order ≠ 0 := by
    simp [JprAt, exHydroS, exLib, hs']
  rw [candAt_regular exHydroS exLib s qd z q hrho hh]
  have hi : csAt exHydroS exLib s qd.rho0DetJ0w z q /
        (exLib.CalcSingularvalue exHydroS.dim (JprAt exHydroS s z q)
          (exHydroS.dim - 1) / exHydroS.order) +
      (5 / 2) * viscCoeff exHydroS exLib s qd (JprAt exHydroS s z q)
          (rhoAt exHydroS exLib s qd.rho0DetJ0w z q)
          (csAt exHydroS exLib s qd.rho0DetJ0w z q) z q /
        (rhoAt exHydroS exLib s qd.rho0DetJ0w z q *
          (exLib.CalcSingularvalue exHydroS.dim (JprAt exHydroS s z q)
            (exHydroS.dim - 1) / exHydroS.order) ^ 2) = 10 / (3 * s) := by
    simp [viscCoeff, JprAt, csAt, eAt, gammaAt, exHydroS, exLib, abs_of_pos hs]
    field_simp
  rw [hi, if_neg (by positivity)]
  congr 1
  show (1 / 2 : ℚ) / (10 / (3 * s)) = _
  field_simp
  ring

/-- Counterexample to C13 as stated: on the sample operator the data is updated for
the state `S1 = 4`; the estimate then asked for `S2 = 2` changes nothing and
returns the value `3/5` computed from `S1`, while the update run for `S2` on the
same data gives `3/10`. -/
theorem stale_data_reused_counterexample :
    (4 : ℚ) ≠ 2 ∧
    (GetTimeStepEstimate exHydroS exLib 2 []
        (GetTimeStepEstimate exHydroS exLib 4 [] exState).1).1
      = (GetTimeStepEstimate exHydroS exLib 4 [] exState).1 ∧
    (GetTimeStepEstimate exHydroS exLib 2 []
        (GetTimeStepEstimate exHydroS exLib 4 [] exState).1).2
      = ((3 / 5 : ℚ) : WithTop ℚ) ∧
    (GetTimeStepEstimate exHydroS exLib 2 []
        { (GetTimeStepEstimate exHydroS exLib 4 [] exState).1 with
          quad_data_is_current := false }).2
      = ((3 / 10 : ℚ) : WithTop ℚ) := by
  have hm : ∀ s : ℚ, ∀ z, ¬ zoneMinDetJ exHydroS exLib s 3 z < 0 := by
    intro s z
    refine zoneMinDetJ_not_neg exHydroS exLib s 3 (fun z _ q _ => ?_) z
    rw [exHydroS_detJ, not_lt]
    exact mul_self_nonneg s
  have h4 : (UpdateQuadratureData exHydroS exLib 4 exState).quad_data.dt_est
      = ((3 / 5 : ℚ) : WithTop ℚ) := by
    rw [UpdateQuadratureData_dt exHydroS exLib 4 exState rfl]
    refine (dtZones_const exHydroS.nqp (by decide) _ _ ((3 * 4 / 20 : ℚ) : WithTop ℚ) (hm 4)
      (fun z q => exHydroS_cand 4 (by norm_num) exState.quad_data rfl z q)
      0 exHydroS.nzones (by decide) _).trans ?_
    show min (⊤ : WithTop ℚ) _ = _
    rw [min_eq_right le_top]
    norm_num
  have hf := UpdateQuadratureData_flag exHydroS exLib 4 exState
  refine ⟨by norm_num, ?_, ?_, ?_⟩
  · exact UpdateQuadratureData_fresh exHydroS exLib 2 _ hf
  · show (UpdateQuadratureData exHydroS exLib 2
      (UpdateQuadratureData exHydroS exLib 4 exState)).quad_data.dt_est = _
    rw [UpdateQuadratureData_fresh exHydroS exLib 2 _ hf, h4]
  · show (UpdateQuadratureData exHydroS exLib 2 _).quad_data.dt_est = _
    rw [UpdateQuadratureData_dt exHydroS exLib 2 _ rfl]
    refine (dtZones_const exHydroS.nqp (by decide) _ _ ((3 * 2 / 20 : ℚ) : WithTop ℚ) (hm 2)
      (fun z q => exHydroS_cand 2 (by norm_num)
        (UpdateQuadratureData exHydroS exLib 4 exState).quad_data
        (UpdateQuadratureData_frame exHydroS exLib 4 exState).2.1 z q)
      0 exHydroS.nzones (by decide) _).trans ?_
    show min (UpdateQuadratureData exHydroS exLib 4 exState).quad_data.dt_est _ = _
    rw [h4, ← WithTop.coe_min]
    norm_num

/-- Witness for C13: the states 4 and 2 of the sample operator. -/
theorem update_follows_flag_witness :
    (MultQuadData exHydroS exLib 4 exState).quad_data_is_current = false ∧
    (GetTimeStepEstimate exHydroS exLib 2 []
        (GetTimeStepEstimate exHydroS exLib 4 [] exState).1).1
      = (GetTimeStepEstimate exHydroS exLib 4 [] exState).1 :=
  ⟨(update_follows_flag exHydroS exLib 4 2 [] [] exState).1.1,
   (update_follows_flag exHydroS exLib 4 2 [] [] exState).2.2.1⟩

/-! ### A zero determinant -/

theorem assignBlock_apply (dst : Buf) (off n : Nat) (src : Buf) (j : Nat) :
    assignBlock dst off n src j
      = if off ≤ j ∧ j < off + n then src (j - off) else dst j := by
  unfold assignBlock
  induction n with
  | zero =>
    have : ¬ (off ≤ j ∧ j < off + 0) := by omega
    simp only [forLoop, this, if_false]
  | succ n ih =>
    rw [forLoop_succ, Function.update_apply, ih]
    by_cases h : j = off + n
    · subst h
      have : off ≤ off + n ∧ off + n < off + (n + 1) := by omega
      simp only [this, and_self, if_true, Nat.add_sub_cancel_left]
    · have : (off ≤ j ∧ j < off + (n + 1)) ↔ (off ≤ j ∧ j < off + n) := by omega
      simp only [h, if_false, this]

/-- The velocity solve writes at and above the offset `VsizeH1` only. -/
theorem solveVelocity_frame {σ : Type} (H : Hydro σ) (E : MultEnv σ) (S : σ)
    (qd : QuadratureData) (dS_dt : Buf) (i : Nat) (hi : i < E.VsizeH1) :
    solveVelocity H E S qd dS_dt i = dS_dt i := by
  unfold solveVelocity
  split_ifs
  · rw [assignBlock_apply, if_neg (by omega)]
  · refine forLoop_preserve (fun d => d i = dS_dt i) _ H.dim ?_ dS_dt rfl
    intro c _ d hd
    rw [assignBlock_apply, if_neg (by omega)]
    exact hd
  · rw [assignBlock_apply, if_neg (by omega)]

/-- The energy solve writes at and above the offset `2 * VsizeH1` only. -/
theorem solveEnergy_frame {σ : Type} (H : Hydro σ) (E : MultEnv σ) (S : σ)
    (qd : QuadratureData) (dS_dt : Buf) (i : Nat) (hi : i < E.VsizeH1) :
    solveEnergy H E S qd dS_dt i = dS_dt i := by
  unfold solveEnergy
  refine forLoop_preserve (fun d => d i = dS_dt i) _ H.nzones ?_ dS_dt rfl
  intro z _ d hd
  refine forLoop_preserve (fun d => d i = dS_dt i) _ E.l2dofs_cnt ?_ d hd
  intro k _ d hd
  rw [Function.update_apply, if_neg (by omega)]
  exact hd

/-- C20: for every state `S = (x, v, e)`, the position block of the derivative
`dS_dt` returned by `Mult` is the velocity block `v` of `S`: the entry `i` of
`dS_dt` is the entry `VsizeH1 + i` of `S` for every `i < VsizeH1`, in every
assembly mode (partial assembly or not, engine or not). -/
theorem position_derivative_is_velocity {σ : Type} (H : Hydro σ) (lib : Lib)
    (E : MultEnv σ) (S : σ) (dS_dt : Buf) (st : HydroState) (i : Nat)
    (hi : i < E.VsizeH1) :
    (LagrangianHydroOperator.Mult H lib E S dS_dt st).1 i = E.data S (E.VsizeH1 + i) := by
  unfold LagrangianHydroOperator.Mult
  simp only
  rw [solveEnergy_frame H E S _ _ i hi, solveVelocity_frame H E S _ _ i hi, assignBlock_apply,
    if_pos (by omega)]
  simp

/-- Witness for C20: the entry 4 of the sample environment. -/
theorem position_derivative_is_velocity_witness :
    (4 : Nat) < exMultEnv.VsizeH1 ∧
    (LagrangianHydroOperator.Mult exHydroS exLib exMultEnv 2 (fun _ => 1) exState).1 4
      = exMultEnv.data 2 (exMultEnv.VsizeH1 + 4) :=
  ⟨by decide,
   position_derivative_is_velocity exHydroS exLib exMultEnv 2 (fun _ => 1) exState 4
    (by decide)⟩

/-! ## Theorems: the dof-to-quadrature maps -/

/-! ### Decimal rendering -/

theorem toDigitsCore_append (fuel n : Nat) (hf : n < fuel) (ds : List Char) :
    Nat.toDigitsCore 10 fuel n ds = Nat.toDigitsCore 10 (n + 1) n [] ++ ds := by
  induction n using Nat.strong_induction_on generalizing fuel ds with
  | _ n ih =>
    obtain ⟨f, rfl⟩ : ∃ f, fuel = f + 1 := ⟨fuel - 1, by omega⟩
    rw [Nat.toDigitsCore, Nat.toDigitsCore]
    by_cases h : n / 10 = 0
    · simp [h]
    · simp only [h, if_false]
      have hlt : n / 10 < n := Nat.div_lt_self (by omega) (by norm_num)
      rw [ih (n / 10) hlt f (by omega), ih (n / 10) hlt n (by omega) [_]]
      simp

/-- The decimal digits of `n`, most significant first: the digits of `n / 10`
followed by the digit `n % 10`. -/
theorem toDigits_step (n : Nat) :
    Nat.toDigits 10 n
      = if n / 10 = 0 then [Nat.digitChar (n % 10)]
        else Nat.toDigits 10 (n / 10) ++ [Nat.digitChar (n % 10)] := by
  unfold Nat.toDigits
  rw [Nat.toDigitsCore]
  by_cases h : n / 10 = 0
  · simp [h]
  · simp only [h, if_false]
    have hlt : n / 10 < n := Nat.div_lt_self (by omega) (by norm_num)
    rw [toDigitsCore_append n (n / 10) hlt]

theorem digitChar_ne_space (k : Nat) (hk : k < 10) : Nat.digitChar k ≠ ' ' := by
  interval_cases k <;> decide

theorem digitChar_inj (a b : Nat) (ha : a < 10) (hb : b < 10)
    (h : Nat.digitChar a = Nat.digitChar b) : a = b := by
  interval_cases a <;> interval_cases b <;> first | rfl | (exact absurd h (by decide))

theorem toDigits_ne_nil (n : Nat) : Nat.toDigits 10 n ≠ [] := by
  rw [toDigits_step]
  split_ifs <;> simp

theorem space_not_mem_toDigits (n : Nat) : ' ' ∉ Nat.toDigits 10 n := by
  induction n using Nat.strong_induction_on with
  | _ n ih =>
    rw [toDigits_step]
    have hd := digitChar_ne_space (n % 10) (Nat.mod_lt _ (by norm_num))
    split_ifs with h
    · simp [hd.symm]
    · have hlt : n / 10 < n := Nat.div_lt_self (by omega) (by norm_num)
      simp [ih (n / 10) hlt, hd.symm]

theorem toDigits_inj (n m : Nat) (h : Nat.toDigits 10 n = Nat.toDigits 10 m) : n = m := by
  induction n using Nat.strong_induction_on generalizing m with
  | _ n ih =>
    rw [toDigits_step n, toDigits_step m] at h
    have hn := Nat.mod_lt n (show 10 > 0 by norm_num)
    have hm := Nat.mod_lt m (show 10 > 0 by norm_num)
    by_cases h1 : n / 10 = 0 <;> by_cases h2 : m / 10 = 0
    · simp only [h1, h2, if_true, List.cons.injEq, and_true] at h
      have := digitChar_inj _ _ hn hm h
      omega
    · simp only [h1, h2, if_true, if_false] at h
      have := congrArg List.length h
      have hl := List.length_pos.mpr (toDigits_ne_nil (m / 10))
      simp only [List.length_append, List.length_cons, List.length_nil] at this
      omega
    · simp only [h1, h2, if_true, if_false] at h
      have := congrArg List.length h
      have hl := List.length_pos.mpr (toDigits_ne_nil (n / 10))
      simp only [List.length_append, List.length_cons, List.length_nil] at this
      omega
    · simp only [h1, h2, if_false] at h
      obtain ⟨e1, e2⟩ := List.append_inj' h rfl
      have hlt : n / 10 < n := Nat.div_lt_self (by omega) (by norm_num)
      have := ih (n / 10) hlt (m / 10) e1
      simp only [List.cons.injEq, and_true] at e2
      have := digitChar_inj _ _ hn hm e2
      omega

/-- Two lists without the separator, each followed by the separator, agree when
the concatenations agree. -/
theorem append_sep_inj (sep : Char) (l1 l2 r1 r2 : List Char)
    (h1 : sep ∉ l1) (h2 : sep ∉ l2) (h : l1 ++ sep :: r1 = l2 ++ sep :: r2) :
    l1 = l2 ∧ r1 = r2 := by
  induction l1 generalizing l2 with
  | nil =>
    cases l2 with
    | nil => simpa using h
    | cons b l2 =>
      simp only [List.nil_append, List.cons_append, List.cons.injEq] at h
      exact absurd h.1 (by
        intro e; apply h2; rw [e]; exact List.mem_cons_self _ _)
  | cons a l1 ih =>
    cases l2 with
    | nil =>
      simp only [List.nil_append, List.cons_append, List.cons.injEq] at h
      exact absurd h.1 (by
        intro e; apply h1; rw [← e]; exact List.mem_cons_self _ _)
    | cons b l2 =>
      simp only [List.cons_append, List.cons.injEq] at h
      obtain ⟨e, r⟩ := ih l2 (fun hm => h1 (List.mem_cons_of_mem _ hm))
        (fun hm => h2 (List.mem_cons_of_mem _ hm)) h.2
      exact ⟨by rw [h.1, e], r⟩

theorem toString_data (n : Nat) : (toString n).data = Nat.toDigits 10 n := rfl

/-- The key of `GetTensorMaps` determines the five numbers it is written from. -/
theorem TensorMapHash_inj (a b c d e a' b' c' d' e' : Nat)
    (h : TensorMapHash a b c d e = TensorMapHash a' b' c' d' e') :
    a = a' ∧ b = b' ∧ c = c' ∧ d = d' ∧ e = e' := by
  have h := congrArg String.data h
  simp only [TensorMapHash, String.data_append, toString_data, List.append_assoc] at h
  have h := List.append_cancel_left h
  have h := List.append_cancel_left h
  obtain ⟨ha, h⟩ := append_sep_inj ' ' _ _ _ _ (space_not_mem_toDigits a)
    (space_not_mem_toDigits a') h
  have h := @List.append_cancel_left _ ['O', '2', ':'] _ _ h
  obtain ⟨hb, h⟩ := append_sep_inj ' ' _ _ _ _ (space_not_mem_toDigits b)
    (space_not_mem_toDigits b') h
  have h := @List.append_cancel_left _ ['B', 'T', '1', ':'] _ _ h
  obtain ⟨hc, h⟩ := append_sep_inj ' ' _ _ _ _ (space_not_mem_toDigits c)
    (space_not_mem_toDigits c') h
  have h := @List.append_cancel_left _ ['B', 'T', '2', ':'] _ _ h
  obtain ⟨hd, h⟩ := append_sep_inj ' ' _ _ _ _ (space_not_mem_toDigits d)
    (space_not_mem_toDigits d') h
  have h := @List.append_cancel_left _ ['Q', ':'] _ _ h
  exact ⟨toDigits_inj _ _ ha, toDigits_inj _ _ hb, toDigits_inj _ _ hc, toDigits_inj _ _ hd,
    toDigits_inj _ _ h⟩

/-! ### The registry -/

@[simp] theorem Registry.modify_map (reg : Registry) (p : Nat)
    (f : qDofQuadMaps → qDofQuadMaps) :
    (reg.modify p f).AllDofQuadMaps = reg.AllDofQuadMaps := rfl

@[simp] theorem Registry.new_map (E : MapsEnv) (reg : Registry) :
    (reg.new E).2.AllDofQuadMaps = reg.AllDofQuadMaps := rfl

@[simp] theorem Registry.new_fst (E : MapsEnv) (reg : Registry) :
    (reg.new E).1 = reg.count := rfl

@[simp] theorem Registry.insert_map (reg : Registry) (hash : String) (p : Nat) :
    (reg.insert hash p).AllDofQuadMaps = Function.update reg.AllDofQuadMaps hash (some p) :=
  rfl

@[simp] theorem Registry.ite_modify_map (c : Bool) (reg : Registry) (p : Nat)
    (f : qDofQuadMaps → qDofQuadMaps) :
    (if c = true then reg.modify p f else reg).AllDofQuadMaps = reg.AllDofQuadMaps := by
  cases c <;> rfl

/-- A key that is free stays bound to the inserted pointer, and bound keys keep
their pointers. -/
theorem update_extends (m : String → Option Nat) (hash : String) (p : Nat)
    (hfree : m hash = none) :
    Function.update m hash (some p) hash = some p ∧
    ∀ k q, m k = some q → Function.update m hash (some p) k = some q := by
  refine ⟨Function.update_same _ _ _, fun k q hk => ?_⟩
  rw [Function.update_noteq]
  · exact hk
  · rintro rfl
    rw [hfree] at hk
    exact absurd hk (by simp)

/-- What a call of `GetD2QTensorMaps` that returns does to the registry map: the
key of the request is bound to the returned pointer and no binding is changed. -/
theorem GetD2QTensorMaps_map (E : MapsEnv) (fe : FiniteElement) (ir : IntegrationRule)
    (transpose : Bool) (reg : Registry) (p : Nat) (reg' : Registry)
    (h : GetD2QTensorMaps E fe ir transpose reg = some (p, reg')) :
    reg'.AllDofQuadMaps (D2QTensorMapHash fe.GetOrder (fe.GetOrder + 1) fe.GetDim
      (E.IntRules_Get_SEGMENT ir.GetOrder).GetNPoints transpose) = some p ∧
    ∀ k q, reg.AllDofQuadMaps k = some q → reg'.AllDofQuadMaps k = some q := by
  unfold GetD2QTensorMaps at h
  cases ht : fe.tensor with
  | none => rw [ht] at h; exact absurd h (by simp)
  | some tfe =>
    rw [ht] at h
    simp only at h
    cases hl : reg.AllDofQuadMaps (D2QTensorMapHash fe.GetOrder (fe.GetOrder + 1) fe.GetDim
      (E.IntRules_Get_SEGMENT ir.GetOrder).GetNPoints transpose) with
    | some maps =>
      rw [hl] at h
      simp only [Option.some.injEq, Prod.mk.injEq] at h
      obtain ⟨rfl, rfl⟩ := h
      exact ⟨hl, fun k q hk => hk⟩
    | none =>
      rw [hl] at h
      simp only [Option.some.injEq, Prod.mk.injEq] at h
      obtain ⟨rfl, rfl⟩ := h
      simp only [Registry.modify_map, Registry.ite_modify_map, Registry.insert_map,
        Registry.new_map]
      exact update_extends _ _ _ hl

/-- A second call of `GetD2QTensorMaps` returns what the first returned. -/
theorem GetD2QTensorMaps_again (E : MapsEnv) (fe : FiniteElement) (ir : IntegrationRule)
    (transpose : Bool) (reg : Registry) (p : Nat) (reg' : Registry)
    (h : GetD2QTensorMaps E fe ir transpose reg = some (p, reg')) :
    GetD2QTensorMaps E fe ir transpose reg' = some (p, reg') := by
  obtain ⟨hb, _⟩ := GetD2QTensorMaps_map E fe ir transpose reg p reg' h
  unfold GetD2QTensorMaps at h ⊢
  cases ht : fe.tensor with
  | none => rw [ht] at h; exact absurd h (by simp)
  | some tfe => simp only [hb]

theorem GetD2QTensorMaps_isSome (E : MapsEnv) (fe : FiniteElement) (ir : IntegrationRule)
    (transpose : Bool) (reg : Registry) (ht : fe.tensor.isSome) :
    (GetD2QTensorMaps E fe ir transpose reg).isSome := by
  unfold GetD2QTensorMaps
  cases h : fe.tensor with
  | none => rw [h] at ht; exact absurd ht (by simp)
  | some tfe =>
    simp only
    split <;> rfl

/-- What a call of `GetTensorMaps` that returns does to the registry map. -/
theorem GetTensorMaps_map (E : MapsEnv) (trialFE testFE : FiniteElement)
    (ir : IntegrationRule) (transpose : Bool) (reg : Registry) (p : Nat) (reg' : Registry)
    (trialTFE testTFE : TensorBasisElement)
    (h1 : trialFE.tensor = some trialTFE) (h2 : testFE.tensor = some testTFE)
    (h : GetTensorMaps E trialFE testFE ir transpose reg = some (p, reg')) :
    reg'.AllDofQuadMaps (TensorMapHash trialFE.GetOrder testFE.GetOrder
      trialTFE.GetBasisType testTFE.GetBasisType ir.GetNPoints) = some p ∧
    ∀ k q, reg.AllDofQuadMaps k = some q → reg'.AllDofQuadMaps k = some q := by
  unfold GetTensorMaps at h
  rw [h1, h2] at h
  simp only at h
  cases hl : reg.AllDofQuadMaps (TensorMapHash trialFE.GetOrder testFE.GetOrder
      trialTFE.GetBasisType testTFE.GetBasisType ir.GetNPoints) with
  | some maps =>
    rw [hl] at h
    simp only [Option.some.injEq, Prod.mk.injEq] at h
    obtain ⟨rfl, rfl⟩ := h
    exact ⟨hl, fun k q hk => hk⟩
  | none =>
    rw [hl] at h
    simp only at h
    split at h
    · exact absurd h (by simp)
    · rename_i trialMaps regA hA
      split at h
      · exact absurd h (by simp)
      · rename_i testMaps regB hB
        simp only [Option.some.injEq, Prod.mk.injEq] at h
        obtain ⟨rfl, rfl⟩ := h
        obtain ⟨_, eA⟩ := GetD2QTensorMaps_map E trialFE ir false _ _ _ hA
        obtain ⟨_, eB⟩ := GetD2QTensorMaps_map E testFE ir true _ _ _ hB
        obtain ⟨u1, u2⟩ := update_extends reg.AllDofQuadMaps _ reg.count hl
        simp only [Registry.modify_map, Registry.insert_map, Registry.new_map,
          Registry.new_fst] at eA ⊢
        exact ⟨eB _ _ (eA _ _ u1), fun k q hk => eB _ _ (eA _ _ (u2 k q hk))⟩

/-- A second call of `GetTensorMaps` returns what the first returned. -/
theorem GetTensorMaps_again (E : MapsEnv) (trialFE testFE : FiniteElement)
    (ir : IntegrationRule) (transpose transpose2 : Bool) (reg : Registry) (p : Nat)
    (reg' : Registry)
    (h : GetTensorMaps E trialFE testFE ir transpose reg = some (p, reg')) :
    GetTensorMaps E trialFE testFE ir transpose2 reg' = some (p, reg') := by
  cases h1 : trialFE.tensor with
  | none => unfold GetTensorMaps at h; rw [h1] at h; exact absurd h (by simp)
  | some trialTFE =>
    cases h2 : testFE.tensor with
    | none => unfold GetTensorMaps at h; rw [h1, h2] at h; exact absurd h (by simp)
    | some testTFE =>
      obtain ⟨hb, _⟩ := GetTensorMaps_map E trialFE testFE ir transpose reg p reg' _ _ h1 h2 h
      unfold GetTensorMaps
      rw [h1, h2]
      simp only [hb]

theorem GetTensorMaps_isSome (E : MapsEnv) (trialFE testFE : FiniteElement)
    (ir : IntegrationRule) (transpose : Bool) (reg : Registry)
    (h1 : trialFE.tensor.isSome) (h2 : testFE.tensor.isSome) :
    (GetTensorMaps E trialFE testFE ir transpose reg).isSome := by
  unfold GetTensorMaps
  cases e1 : trialFE.tensor with
  | none => rw [e1] at h1; exact absurd h1 (by simp)
  | some trialTFE =>
    cases e2 : testFE.tensor with
    | none => rw [e2] at h2; exact absurd h2 (by simp)
    | some testTFE =>
      have key : ∀ (fe : FiniteElement) (t : Bool) (r : Registry), fe.tensor.isSome →
          GetD2QTensorMaps E fe ir t r ≠ none := by
        intro fe t r hfe hr
        have := GetD2QTensorMaps_isSome E fe ir t r hfe
        rw [hr] at this
        exact absurd this (by simp)
      simp only
      split
      · rfl
      · split
        · rename_i hA
          exact absurd hA (key _ _ _ h1)
        · split
          · rename_i hB
            exact absurd hB (key _ _ _ h2)
          · rfl

/-- What a call of `GetD2QSimplexMaps` does to the registry map. -/
theorem GetD2QSimplexMaps_map (E : MapsEnv) (fe : FiniteElement) (ir : IntegrationRule)
    (transpose : Bool) (reg : Registry) :
    (GetD2QSimplexMaps E fe ir transpose reg).2.AllDofQuadMaps
        (D2QSimplexMapHash fe.GetDim fe.GetDof ir.GetNPoints transpose)
      = some (GetD2QSimplexMaps E fe ir transpose reg).1 ∧
    ∀ k q, reg.AllDofQuadMaps k = some q →
      (GetD2QSimplexMaps E fe ir transpose reg).2.AllDofQuadMaps k = some q := by
  unfold GetD2QSimplexMaps
  simp only
  cases hl : reg.AllDofQuadMaps (D2QSimplexMapHash fe.GetDim fe.GetDof ir.GetNPoints
      transpose) with
  | some maps => exact ⟨hl, fun k q hk => hk⟩
  | none =>
    simp only [Registry.modify_map, Registry.ite_modify_map, Registry.insert_map,
      Registry.new_map]
    exact update_extends _ _ _ hl

/-- A second call of `GetD2QSimplexMaps` returns what the first returned. -/
theorem GetD2QSimplexMaps_again (E : MapsEnv) (fe : FiniteElement) (ir : IntegrationRule)
    (transpose : Bool) (reg : Registry) :
    GetD2QSimplexMaps E fe ir transpose (GetD2QSimplexMaps E fe ir transpose reg).2
      = GetD2QSimplexMaps E fe ir transpose reg := by
  obtain ⟨hb, _⟩ := GetD2QSimplexMaps_map E fe ir transpose reg
  generalize GetD2QSimplexMaps E fe ir transpose reg = r at hb ⊢
  unfold GetD2QSimplexMaps
  simp only [hb]

/-- What a call of `GetSimplexMaps` does to the registry map. -/
theorem GetSimplexMaps_map (E : MapsEnv) (trialFE testFE : FiniteElement)
    (ir : IntegrationRule) (transpose : Bool) (reg : Registry) :
    (GetSimplexMaps E trialFE testFE ir transpose reg).2.AllDofQuadMaps
        (SimplexMapHash trialFE.GetOrder testFE.GetOrder ir.GetNPoints)
      = some (GetSimplexMaps E trialFE testFE ir transpose reg).1 ∧
    ∀ k q, reg.AllDofQuadMaps k = some q →
      (GetSimplexMaps E trialFE testFE ir transpose reg).2.AllDofQuadMaps k = some q := by
  unfold GetSimplexMaps
  simp only
  cases hl : reg.AllDofQuadMaps (SimplexMapHash trialFE.GetOrder testFE.GetOrder
      ir.GetNPoints) with
  | some maps => exact ⟨hl, fun k q hk => hk⟩
  | none =>
    simp only [Registry.modify_map]
    obtain ⟨u1, u2⟩ := update_extends reg.AllDofQuadMaps
      (SimplexMapHash trialFE.GetOrder testFE.GetOrder ir.GetNPoints) reg.count hl
    have eB := fun r => (GetD2QSimplexMaps_map E testFE ir true r).2
    generalize hr : ((reg.new E).2.insert (SimplexMapHash trialFE.GetOrder testFE.GetOrder
      ir.GetNPoints) (reg.new E).1).modify (reg.new E).1 _ = r0
    have hr0 : r0.AllDofQuadMaps = Function.update reg.AllDofQuadMaps
        (SimplexMapHash trialFE.GetOrder testFE.GetOrder ir.GetNPoints) (some reg.count) := by
      rw [← hr]; rfl
    have eA := (GetD2QSimplexMaps_map E trialFE ir false r0).2
    rw [hr0] at eA
    exact ⟨eB _ _ _ (eA _ _ u1), fun k q hk => eB _ _ _ (eA _ _ (u2 k q hk))⟩

/-- A second call of `GetSimplexMaps` returns what the first returned. -/
theorem GetSimplexMaps_again (E : MapsEnv) (trialFE testFE : FiniteElement)
    (ir : IntegrationRule) (transpose transpose2 : Bool) (reg : Registry) :
    GetSimplexMaps E trialFE testFE ir transpose2
        (GetSimplexMaps E trialFE testFE ir transpose reg).2
      = GetSimplexMaps E trialFE testFE ir transpose reg := by
  obtain ⟨hb, _⟩ := GetSimplexMaps_map E trialFE testFE ir transpose reg
  generalize GetSimplexMaps E trialFE testFE ir transpose reg = r at hb ⊢
  unfold GetSimplexMaps
  simp only [hb]

/-! ### Well-formed registries -/

theorem emptyRegistry_WF : emptyRegistry.WF :=
  ⟨fun k p h => absurd h (by simp [emptyRegistry]),
   fun k k2 p h => absurd h (by simp [emptyRegistry])⟩

/-- Registering a fresh object under a free key keeps the registry well formed. -/
theorem Registry.WF_update (reg reg' : Registry) (hash : String) (hw : reg.WF)
    (hm : reg'.AllDofQuadMaps = Function.update reg.AllDofQuadMaps hash (some reg.count))
    (hc : reg'.count = reg.count + 1) : reg'.WF := by
  obtain ⟨w1, w2⟩ := hw
  constructor
  · intro k p h
    rw [hm, Function.update_apply] at h
    rw [hc]
    split_ifs at h with e
    · simp only [Option.some.injEq] at h
      omega
    · have := w1 k p h
      omega
  · intro k k2 p h h2
    rw [hm, Function.update_apply] at h h2
    split_ifs at h h2 with e e2 e2
    · rw [e, e2]
    · simp only [Option.some.injEq] at h
      have := w1 k2 p h2
      omega
    · simp only [Option.some.injEq] at h2
      have := w1 k p h
      omega
    · exact w2 k k2 p h h2

/-- The map and the counter of the registry after `GetD2QTensorMaps`: nothing
changes when the key is bound, else a fresh object is registered under the key. -/
theorem GetD2QTensorMaps_shape (E : MapsEnv) (fe : FiniteElement) (ir : IntegrationRule)
    (transpose : Bool) (reg : Registry) (p : Nat) (reg' : Registry)
    (h : GetD2QTensorMaps E fe ir transpose reg = some (p, reg')) :
    reg' = reg ∨
    ∃ hash, reg'.AllDofQuadMaps = Function.update reg.AllDofQuadMaps hash (some reg.count) ∧
      reg'.count = reg.count + 1 := by
  unfold GetD2QTensorMaps at h
  cases ht : fe.tensor with
  | none => rw [ht] at h; exact absurd h (by simp)
  | some tfe =>
    rw [ht] at h
    simp only at h
    split at h
    · simp only [Option.some.injEq, Prod.mk.injEq] at h
      exact Or.inl h.2.symm
    · simp only [Option.some.injEq, Prod.mk.injEq] at h
      obtain ⟨_, rfl⟩ := h
      refine Or.inr ⟨D2QTensorMapHash fe.GetOrder (fe.GetOrder + 1) fe.GetDim
        (E.IntRules_Get_SEGMENT ir.GetOrder).GetNPoints transpose, ?_, ?_⟩
      · simp only [Registry.modify_map, Registry.ite_modify_map, Registry.insert_map,
          Registry.new_map, Registry.new_fst]
      · cases transpose <;> rfl

theorem GetD2QTensorMaps_WF (E : MapsEnv) (fe : FiniteElement) (ir : IntegrationRule)
    (transpose : Bool) (reg : Registry) (p : Nat) (reg' : Registry) (hw : reg.WF)
    (h : GetD2QTensorMaps E fe ir transpose reg = some (p, reg')) : reg'.WF := by
  rcases GetD2QTensorMaps_shape E fe ir transpose reg p reg' h with rfl | ⟨hash, hm, hc⟩
  · exact hw
  · exact Registry.WF_update reg reg' hash hw hm hc

theorem GetTensorMaps_WF (E : MapsEnv) (trialFE testFE : FiniteElement)
    (ir : IntegrationRule) (transpose : Bool) (reg : Registry) (p : Nat) (reg' : Registry)
    (hw : reg.WF) (h : GetTensorMaps E trialFE testFE ir transpose reg = some (p, reg')) :
    reg'.WF := by
  unfold GetTensorMaps at h
  cases h1 : trialFE.tensor with
  | none => rw [h1] at h; exact absurd h (by simp)
  | some trialTFE =>
    cases h2 : testFE.tensor with
    | none => rw [h1, h2] at h; exact absurd h (by simp)
    | some testTFE =>
      rw [h1, h2] at h
      simp only at h
      split at h
      · simp only [Option.some.injEq, Prod.mk.injEq] at h
        rw [← h.2]
        exact hw
      · generalize hr : ((reg.new E).2.insert (TensorMapHash trialFE.GetOrder testFE.GetOrder
          trialTFE.GetBasisType testTFE.GetBasisType ir.GetNPoints) (reg.new E).1).modify
          (reg.new E).1 _ = r0 at h
        have w0 : r0.WF := by
          refine Registry.WF_update reg r0 (TensorMapHash trialFE.GetOrder testFE.GetOrder
            trialTFE.GetBasisType testTFE.GetBasisType ir.GetNPoints) hw ?_ ?_
          · rw [← hr]; rfl
          · rw [← hr]; rfl
        split at h
        · exact absurd h (by simp)
        · rename_i trialMaps regA hA
          split at h
          · exact absurd h (by simp)
          · rename_i testMaps regB hB
            simp only [Option.some.injEq, Prod.mk.injEq] at h
            obtain ⟨_, rfl⟩ := h
            have wA := GetD2QTensorMaps_WF E trialFE ir false _ _ _ w0 hA
            have wB := GetD2QTensorMaps_WF E testFE ir true _ _ _ wA hB
            exact wB

/-! ### The claims on the registry -/

/-- C15: for every element, integration rule and transpose flag, a second call to
`GetTensorMaps`, `GetD2QTensorMaps`, `GetSimplexMaps` or `GetD2QSimplexMaps` with
the same arguments returns the pointer the first call returned and leaves the
registry and its objects as the first call left them: the same entry, the same
content, no new entry. The tensor functions return whenever the elements are
tensor-product elements. -/
theorem second_call_returns_same_entry (E : MapsEnv) (fe trialFE testFE : FiniteElement)
    (ir : IntegrationRule) (transpose : Bool) (reg : Registry) :
    ((GetTensorMaps E trialFE testFE ir transpose reg).bind
        (fun r => GetTensorMaps E trialFE testFE ir transpose r.2)
      = GetTensorMaps E trialFE testFE ir transpose reg) ∧
    ((GetD2QTensorMaps E fe ir transpose reg).bind
        (fun r => GetD2QTensorMaps E fe ir transpose r.2)
      = GetD2QTensorMaps E fe ir transpose reg) ∧
    (GetSimplexMaps E trialFE testFE ir transpose
        (GetSimplexMaps E trialFE testFE ir transpose reg).2
      = GetSimplexMaps E trialFE testFE ir transpose reg) ∧
    (GetD2QSimplexMaps E fe ir transpose (GetD2QSimplexMaps E fe ir transpose reg).2
      = GetD2QSimplexMaps E fe ir transpose reg) ∧
    (trialFE.tensor.isSome → testFE.tensor.isSome →
      (GetTensorMaps E trialFE testFE ir transpose reg).isSome) ∧
    (fe.tensor.isSome → (GetD2QTensorMaps E fe ir transpose reg).isSome) := by
  refine ⟨?_, ?_, GetSimplexMaps_again E trialFE testFE ir transpose transpose reg,
    GetD2QSimplexMaps_again E fe ir transpose reg,
    GetTensorMaps_isSome E trialFE testFE ir transpose reg,
    GetD2QTensorMaps_isSome E fe ir transpose reg⟩
  · cases h : GetTensorMaps E trialFE testFE ir transpose reg with
    | none => rfl
    | some r =>
      obtain ⟨p, reg'⟩ := r
      exact GetTensorMaps_again E trialFE testFE ir transpose transpose reg p reg' h
  · cases h : GetD2QTensorMaps E fe ir transpose reg with
    | none => rfl
    | some r =>
      obtain ⟨p, reg'⟩ := r
      exact GetD2QTensorMaps_again E fe ir transpose reg p reg' h

/-- Witness for C15: the sample element and rule on the empty registry. -/
theorem second_call_returns_same_entry_witness :
    (GetTensorMaps exMapsEnv exElement exElement exRule false emptyRegistry).isSome ∧
    (GetD2QTensorMaps exMapsEnv exElement exRule true emptyRegistry).isSome :=
  ⟨(second_call_returns_same_entry exMapsEnv exElement exElement exElement exRule false
      emptyRegistry).2.2.2.2.1 rfl rfl,
   (second_call_returns_same_entry exMapsEnv exElement exElement exElement exRule true
      emptyRegistry).2.2.2.2.2 rfl⟩

/-- C16, as the code has it: the registry key of a `GetTensorMaps` request is
written from the trial order, the test order, the two basis types and the number
of quadrature points, and two requests that differ in any of these are given
different keys; on a well-formed registry they receive different entries. The
transpose flag is not part of the key. -/
theorem tensor_map_keys_distinct (E : MapsEnv)
    (trialFE testFE trialFE2 testFE2 : FiniteElement)
    (ir ir2 : IntegrationRule) (transpose transpose2 : Bool)
    (trialTFE testTFE trialTFE2 testTFE2 : TensorBasisElement)
    (h1 : trialFE.tensor = some trialTFE) (h2 : testFE.tensor = some testTFE)
    (h3 : trialFE2.tensor = some trialTFE2) (h4 : testFE2.tensor = some testTFE2)
    (hne : ¬ (trialFE.GetOrder = trialFE2.GetOrder ∧ testFE.GetOrder = testFE2.GetOrder ∧
      trialTFE.GetBasisType = trialTFE2.GetBasisType ∧
      testTFE.GetBasisType = testTFE2.GetBasisType ∧ ir.GetNPoints = ir2.GetNPoints)) :
    TensorMapHash trialFE.GetOrder testFE.GetOrder trialTFE.GetBasisType
        testTFE.GetBasisType ir.GetNPoints
      ≠ TensorMapHash trialFE2.GetOrder testFE2.GetOrder trialTFE2.GetBasisType
        testTFE2.GetBasisType ir2.GetNPoints ∧
    ∀ (reg : Registry) (p p2 : Nat) (reg1 reg2 : Registry), reg.WF →
      GetTensorMaps E trialFE testFE ir transpose reg = some (p, reg1) →
      GetTensorMaps E trialFE2 testFE2 ir2 transpose2 reg1 = some (p2, reg2) →
      p ≠ p2 := by
  have hk : TensorMapHash trialFE.GetOrder testFE.GetOrder trialTFE.GetBasisType
        testTFE.GetBasisType ir.GetNPoints
      ≠ TensorMapHash trialFE2.GetOrder testFE2.GetOrder trialTFE2.GetBasisType
        testTFE2.GetBasisType ir2.GetNPoints :=
    fun e => hne (TensorMapHash_inj _ _ _ _ _ _ _ _ _ _ e)
  refine ⟨hk, ?_⟩
  intro reg p p2 reg1 reg2 hw hA hB hp
  subst hp
  obtain ⟨a1, _⟩ := GetTensorMaps_map E trialFE testFE ir transpose reg p reg1 _ _ h1 h2 hA
  obtain ⟨b1, b2⟩ :=
    GetTensorMaps_map E trialFE2 testFE2 ir2 transpose2 reg1 p reg2 _ _ h3 h4 hB
  have w1 := GetTensorMaps_WF E trialFE testFE ir transpose reg p reg1 hw hA
  have w2 := GetTensorMaps_WF E trialFE2 testFE2 ir2 transpose2 reg1 p reg2 w1 hB
  exact hk (w2.2 _ _ p (b2 _ _ a1) b1)

/-- Counterexample to C16 as stated: on the empty registry, the request for the
sample element and rule with `transpose = true` receives the entry created by the
same request with `transpose = false`, and creates none. -/
theorem transpose_shares_entry_counterexample :
    (GetTensorMaps exMapsEnv exElement exElement exRule false emptyRegistry).isSome ∧
    (GetTensorMaps exMapsEnv exElement exElement exRule false emptyRegistry).bind
        (fun r => GetTensorMaps exMapsEnv exElement exElement exRule true r.2)
      = GetTensorMaps exMapsEnv exElement exElement exRule false emptyRegistry := by
  refine ⟨GetTensorMaps_isSome _ _ _ _ _ _ rfl rfl, ?_⟩
  cases h : GetTensorMaps exMapsEnv exElement exElement exRule false emptyRegistry with
  | none => rfl
  | some r =>
    obtain ⟨p, reg'⟩ := r
    exact GetTensorMaps_again exMapsEnv exElement exElement exRule false true emptyRegistry
      p reg' h

/-- Witness for C16: the sample element of order 1 and the one of order 2. -/
theorem tensor_map_keys_distinct_witness :
    TensorMapHash 1 1 1 1 4 = "TensorMap: O1:1 O2:1 BT1:1 BT2:1 Q:4" ∧
    TensorMapHash exElement.GetOrder exElement.GetOrder 1 1 exRule.GetNPoints
      ≠ TensorMapHash exElement2.GetOrder exElement2.GetOrder 1 1 exRule.GetNPoints :=
  ⟨rfl,
   (tensor_map_keys_distinct exMapsEnv exElement exElement exElement2 exElement2 exRule exRule
      false false _ _ _ _ rfl rfl rfl rfl (by decide)).1⟩

/-! ## Theorems: kernel dispatch -/

theorem printf_rForceMultError : printf rForceMultError = 44 := by decide

theorem printf_rForceMultTransposeError : printf rForceMultTransposeError = 53 := by decide

/-- The shared body of the two dispatchers, case by case. -/
theorem forceDispatch_cases (k2 k3 : ForceKernel) (kernel2D kernel3D : ForceArgs → LocalVec)
    (text : String) (a : ForceArgs) :
    (a.NUM_DIM = 2 → forceDispatch k2 k3 kernel2D kernel3D text a
      = ⟨[(k2, a)], Outcome.returned (kernel2D a)⟩) ∧
    (a.NUM_DIM = 3 → forceDispatch k2 k3 kernel2D kernel3D text a
      = ⟨[(k3, a)], Outcome.returned (kernel3D a)⟩) ∧
    (a.NUM_DIM ≠ 2 → a.NUM_DIM ≠ 3 → forceDispatch k2 k3 kernel2D kernel3D text a
      = ⟨[], Outcome.exited (printf text) text⟩) := by
  rcases a with ⟨d, a2, a3, a4, a5, a6, a7, a8, a9, a10, a11, a12⟩
  refine ⟨fun h => ?_, fun h => ?_, fun h2 h3 => ?_⟩
  · simp only at h
    subst h
    simp [forceDispatch]
  · simp only at h
    subst h
    simp [forceDispatch]
  · simp only [ne_eq] at h2 h3
    simp [forceDispatch, h2, h3]

/-- The dispatch of `rForceMult` used for the adjointness of the force operator is
the run of the dispatcher on the modelled kernels. -/
theorem rForceMult_eq_run (NUM_DIM NUM_DOFS_1D NUM_QUAD_1D L2_DOFS_1D H1_DOFS_1D nzones : Nat)
    (L2QuadToDof H1DofToQuad H1DofToQuadD : Nat → Nat → ℚ)
    (stressJinvT : Nat × Nat × Nat → ℚ) (e v : LocalVec) :
    rForceMult NUM_DIM NUM_DOFS_1D NUM_QUAD_1D L2_DOFS_1D H1_DOFS_1D nzones
        L2QuadToDof H1DofToQuad H1DofToQuadD stressJinvT e v
      = match (rForceMultRun
          (fun a => rForceMult2D a.NUM_DIM.toNat a.NUM_DOFS_1D.toNat a.NUM_QUAD_1D.toNat
            a.L2_DOFS_1D.toNat a.H1_DOFS_1D.toNat a.nzones.toNat a.L2QuadToDof a.H1DofToQuad
            a.H1DofToQuadD a.stressJinvT a.src)
          (fun a => rForceMult3D a.NUM_DIM.toNat a.NUM_DOFS_1D.toNat a.NUM_QUAD_1D.toNat
            a.L2_DOFS_1D.toNat a.H1_DOFS_1D.toNat a.nzones.toNat a.L2QuadToDof a.H1DofToQuad
            a.H1DofToQuadD a.stressJinvT a.src)
          ⟨NUM_DIM, NUM_DOFS_1D, NUM_QUAD_1D, L2_DOFS_1D, H1_DOFS_1D, nzones, L2QuadToDof,
            H1DofToQuad, H1DofToQuadD, stressJinvT, e, v⟩).outcome with
        | Outcome.returned v => some v
        | _ => none := by
  unfold rForceMultRun
  by_cases h2 : NUM_DIM = 2
  · subst h2
    rw [(forceDispatch_cases _ _ _ _ _ _).1 rfl]
    simp [rForceMult]
  · by_cases h3 : NUM_DIM = 3
    · subst h3
      rw [(forceDispatch_cases _ _ _ _ _ _).2.1 rfl]
      simp [rForceMult]
    · rw [(forceDispatch_cases _ _ _ _ _ _).2.2
        (by show ¬ ((NUM_DIM : Int) = 2); exact_mod_cast h2)
        (by show ¬ ((NUM_DIM : Int) = 3); exact_mod_cast h3)]
      simp [rForceMult, h2, h3]

/-- C17: `rForceMult` and `rForceMultTranspose` call exactly the 2D kernel when
`NUM_DIM = 2` and exactly the 3D kernel when `NUM_DIM = 3`, with the arguments they
received; for every other `NUM_DIM` they call no kernel and end the process through
`exit` with a status that is not 0 (44 and 53, the lengths of the diagnostics they
print). -/
theorem force_dispatch_by_dimension (kernel2D kernel3D kernelT2D kernelT3D :
    ForceArgs → LocalVec) (a : ForceArgs) :
    (a.NUM_DIM = 2 →
      rForceMultRun kernel2D kernel3D a
        = ⟨[(ForceKernel.rForceMult2D, a)], Outcome.returned (kernel2D a)⟩ ∧
      rForceMultTransposeRun kernelT2D kernelT3D a
        = ⟨[(ForceKernel.rForceMultTranspose2D, a)], Outcome.returned (kernelT2D a)⟩) ∧
    (a.NUM_DIM = 3 →
      rForceMultRun kernel2D kernel3D a
        = ⟨[(ForceKernel.rForceMult3D, a)], Outcome.returned (kernel3D a)⟩ ∧
      rForceMultTransposeRun kernelT2D kernelT3D a
        = ⟨[(ForceKernel.rForceMultTranspose3D, a)], Outcome.returned (kernelT3D a)⟩) ∧
    (a.NUM_DIM ≠ 2 → a.NUM_DIM ≠ 3 →
      rForceMultRun kernel2D kernel3D a = ⟨[], Outcome.exited 44 rForceMultError⟩ ∧
      rForceMultTransposeRun kernelT2D kernelT3D a
        = ⟨[], Outcome.exited 53 rForceMultTransposeError⟩ ∧
      exitStatus 44 ≠ 0 ∧ exitStatus 53 ≠ 0 ∧
      rForceMultError ≠ "" ∧ rForceMultTransposeError ≠ "") := by
  unfold rForceMultRun rForceMultTransposeRun
  refine ⟨fun h => ⟨(forceDispatch_cases _ _ _ _ _ a).1 h, (forceDispatch_cases _ _ _ _ _ a).1 h⟩,
    fun h => ⟨(forceDispatch_cases _ _ _ _ _ a).2.1 h, (forceDispatch_cases _ _ _ _ _ a).2.1 h⟩,
    fun h2 h3 => ⟨?_, ?_, by decide, by decide, by decide, by decide⟩⟩
  · rw [(forceDispatch_cases _ _ _ _ _ a).2.2 h2 h3, printf_rForceMultError]
  · rw [(forceDispatch_cases _ _ _ _ _ a).2.2 h2 h3, printf_rForceMultTransposeError]

/-- Witness for C17: the dimensions 2 and 1 on the sample arguments. -/
theorem force_dispatch_by_dimension_witness :
    (rForceMultRun (fun a => a.src) (fun a => a.dst) (exForceArgs 2)).calls
      = [(ForceKernel.rForceMult2D, exForceArgs 2)] ∧
    (rForceMultRun (fun a => a.src) (fun a => a.dst) (exForceArgs 1)).calls = [] :=
  ⟨congrArg DispatchRun.calls
     ((force_dispatch_by_dimension (fun a => a.src) (fun a => a.dst) (fun a => a.src)
        (fun a => a.dst) (exForceArgs 2)).1 rfl).1,
   congrArg DispatchRun.calls
     ((force_dispatch_by_dimension (fun a => a.src) (fun a => a.dst) (fun a => a.src)
        (fun a => a.dst) (exForceArgs 1)).2.2 (by decide) (by decide)).1⟩

/-- The three cases of `rMassAssembleS`: it aborts for the dimensions 1 and 3, runs
the 2D kernel for the dimension 2, and returns with `oper` untouched otherwise. -/
theorem rMassAssembleS_cases (L : Layout) (A2_ELEMENT_BATCH A2_QUAD_BATCH : Nat) (dim : Int)
    (NUM_QUAD numElements : Nat) (quadWeights J : Buf) (COEFF : ℚ) (oper : Buf) :
    rMassAssembleS L A2_ELEMENT_BATCH A2_QUAD_BATCH dim NUM_QUAD numElements quadWeights J
        COEFF oper
      = if dim = 1 ∨ dim = 3 then Outcome.aborted
        else if dim = 2 then
          Outcome.returned (rMassAssemble2S L A2_ELEMENT_BATCH A2_QUAD_BATCH NUM_QUAD
            numElements COEFF quadWeights J oper)
        else Outcome.returned oper := by
  unfold rMassAssembleS
  by_cases h1 : dim = 1
  · simp [h1]
  · by_cases h3 : dim = 3
    · simp [h3]
    · by_cases h2 : dim = 2
      · simp [h2]
      · simp [h1, h2, h3]

/-- C18, the code at the failing input: for `dim = 4` (as for every `dim` outside
1, 2, 3) `rMassAssembleS` returns normally and `oper` is as it was. -/
theorem rMassAssembleS_dim4_returns (L : Layout) (A2_ELEMENT_BATCH A2_QUAD_BATCH : Nat)
    (NUM_QUAD numElements : Nat) (quadWeights J : Buf) (COEFF : ℚ) (oper : Buf) :
    rMassAssembleS L A2_ELEMENT_BATCH A2_QUAD_BATCH 4 NUM_QUAD numElements quadWeights J
        COEFF oper = Outcome.returned oper ∧
    rMassAssembleS L A2_ELEMENT_BATCH A2_QUAD_BATCH 0 NUM_QUAD numElements quadWeights J
        COEFF oper = Outcome.returned oper ∧
    rMassAssembleS L A2_ELEMENT_BATCH A2_QUAD_BATCH 1 NUM_QUAD numElements quadWeights J
        COEFF oper = Outcome.aborted ∧
    rMassAssembleS L A2_ELEMENT_BATCH A2_QUAD_BATCH 3 NUM_QUAD numElements quadWeights J
        COEFF oper = Outcome.aborted := by
  simp [rMassAssembleS_cases]

/-! ## Theorems: the order of the iterations -/

/-! ### The batch loop -/

theorem flatMap_range_succ {α : Type} (n : Nat) (f : Nat → List α) :
    (List.range (n + 1)).flatMap f = (List.range n).flatMap f ++ f n := by
  rw [List.range_succ, List.flatMap_append]
  simp

/-- The zones of a full batch. -/
theorem batchZones_full {σ : Type} (H : Hydro σ) (B b : Nat) (st : Pass) (hB : 0 < B)
    (hbr : st.broke = false) (hnb : st.nzones_batch = B) (hfull : b * B + B ≤ H.nzones) :
    batchZones H b st = (List.range B).map (fun z => b * B + z) := by
  have hh : batchHead H b st = some (b * B, st) := by
    unfold batchHead
    simp only [hnb]
    rw [if_neg (by omega), if_neg (by omega)]
  unfold batchZones
  simp only [hbr, hh, Bool.false_eq_true, if_false, hnb]

/-- The zones of the last iteration: those of a shortened batch, none at the `break`. -/
theorem batchZones_last {σ : Type} (H : Hydro σ) (B b : Nat) (st : Pass)
    (hbr : st.broke = false) (hnb : st.nzones_batch = B) (hlast : H.nzones < b * B + B) :
    batchZones H b st = (List.range (H.nzones - b * B)).map (fun z => b * B + z) := by
  by_cases he : b * B = H.nzones
  · have hh : batchHead H b st = none := by
      unfold batchHead
      simp only [hnb]
      rw [if_pos he]
    unfold batchZones
    simp only [hbr, hh, Bool.false_eq_true, if_false]
    rw [he, Nat.sub_self]
    rfl
  · have hh : batchHead H b st = some (b * B,
        { st with nzones_batch := H.nzones - b * B
                  nqp_batch := H.nqp * (H.nzones - b * B) }) := by
      unfold batchHead
      simp only [hnb]
      rw [if_neg he, if_pos (by omega)]
    unfold batchZones
    simp only [hbr, hh, Bool.false_eq_true, if_false]

/-- The zones processed by the full batches. -/
theorem zonesVisited_full {σ : Type} (H : Hydro σ) (lib : Lib) (S : σ) (B : Nat)
    (qd0 : QuadratureData) (hB : 0 < B) (b : Nat) (hb : b ≤ H.nzones / B) :
    zonesVisited H lib B S qd0 b = List.range (b * B) := by
  induction b with
  | zero => simp [zonesVisited]
  | succ b ih =>
    obtain ⟨i1, i2, _, _⟩ := passAfter_full H lib S B qd0 hB b (by omega)
    have hfull : b * B + B ≤ H.nzones := by
      have := (Nat.le_div_iff_mul_le hB).mp hb
      rw [Nat.add_mul, Nat.one_mul] at this
      exact this
    unfold zonesVisited at ih ⊢
    rw [flatMap_range_succ, ih (by omega), batchZones_full H B b _ hB i1 i2 hfull,
      Nat.add_mul, Nat.one_mul, List.range_add]

/-- The zones processed by the batch loop: every zone once, in increasing order. -/
theorem zonesVisited_all {σ : Type} (H : Hydro σ) (lib : Lib) (S : σ) (B : Nat)
    (qd0 : QuadratureData) (hB : 0 < B) :
    zonesVisited H lib B S qd0 (H.nzones / B + 1) = List.range H.nzones := by
  obtain ⟨i1, i2, _, _⟩ := passAfter_full H lib S B qd0 hB (H.nzones / B) (le_refl _)
  have h1 : H.nzones / B * B ≤ H.nzones := Nat.div_mul_le_self _ _
  have h2 : H.nzones < H.nzones / B * B + B := Nat.lt_div_mul_add hB
  have hf := zonesVisited_full H lib S B qd0 hB (H.nzones / B) (le_refl _)
  unfold zonesVisited at hf ⊢
  rw [flatMap_range_succ, hf, batchZones_last H B _ _ i1 i2 h2, ← List.range_add]
  congr 1
  omega

/-- The rows stored for the zones `0 .. n - 1` are the rows `0 .. n * nqp - 1`, in
increasing order. -/
theorem rowsStored_range (nqp n : Nat) :
    rowsStored nqp (List.range n) = List.range (n * nqp) := by
  unfold rowsStored pointsVisited
  induction n with
  | zero => simp
  | succ n ih =>
    rw [flatMap_range_succ, List.map_append, ih, Nat.add_mul, Nat.one_mul, List.range_add,
      List.map_map]
    rfl

/-- The size of a batch that is run, for the batch constant `B`. -/
theorem batchHead_size {σ : Type} (H : Hydro σ) (b : Nat) (P : Pass) (z0 : Nat) (st' : Pass)
    (hh : batchHead H b P = some (z0, st')) (hpos : 0 < P.nzones_batch)
    (hP : b * P.nzones_batch ≤ H.nzones) :
    1 ≤ st'.nzones_batch ∧ st'.nzones_batch ≤ P.nzones_batch := by
  unfold batchHead at hh
  simp only at hh
  split_ifs at hh with h1 h2
  · simp only [Option.some.injEq, Prod.mk.injEq] at hh
    obtain ⟨_, rfl⟩ := hh
    simp only
    omega
  · simp only [Option.some.injEq, Prod.mk.injEq] at hh
    obtain ⟨_, rfl⟩ := hh
    omega
/-! ## Theorems: dof-to-quadrature tables -/

/-! ### The tables built by `GetD2QTensorMaps` -/

/-- The inner loop over the dofs of the point `q0`: the cells of the point are
stored, the others are kept. -/
theorem d2qTensorLoop_dofs (d2q d2qD : Buf) (q0 Q dofs d0 d1 : Nat)
    (hinj : StridesInjective d0 d1 Q dofs) (hq0 : q0 < Q) (j : Nat) (hj : j ≤ dofs)
    (s : D2QLoop) :
    (forLoop j (fun d (s : D2QLoop) =>
      { s with
        dofToQuad := Function.update s.dofToQuad (d0 * q0 + d1 * d) (d2q d)
        dofToQuadD := Function.update s.dofToQuadD (d0 * q0 + d1 * d) (d2qD d) }) s).quadWeights1DData
      = s.quadWeights1DData ∧
    ∀ q d, q < Q → d < dofs →
      (forLoop j (fun d (s : D2QLoop) =>
        { s with
          dofToQuad := Function.update s.dofToQuad (d0 * q0 + d1 * d) (d2q d)
          dofToQuadD := Function.update s.dofToQuadD (d0 * q0 + d1 * d) (d2qD d) }) s).dofToQuad
          (d0 * q + d1 * d)
        = (if q = q0 ∧ d < j then d2q d else s.dofToQuad (d0 * q + d1 * d)) ∧
      (forLoop j (fun d (s : D2QLoop) =>
        { s with
          dofToQuad := Function.update s.dofToQuad (d0 * q0 + d1 * d) (d2q d)
          dofToQuadD := Function.update s.dofToQuadD (d0 * q0 + d1 * d) (d2qD d) }) s).dofToQuadD
          (d0 * q + d1 * d)
        = (if q = q0 ∧ d < j then d2qD d else s.dofToQuadD (d0 * q + d1 * d)) := by
  induction j with
  | zero => simp [forLoop]
  | succ j ih =>
    obtain ⟨i1, i2⟩ := ih (by omega)
    rw [forLoop_succ]
    refine ⟨i1, fun q d hq hd => ?_⟩
    obtain ⟨a1, a2⟩ := i2 q d hq hd
    simp only [Function.update_apply, a1, a2]
    have hiff : d0 * q + d1 * d = d0 * q0 + d1 * j ↔ q = q0 ∧ d = j :=
      ⟨fun h => hinj q q0 d j hq hq0 hd (by omega) h, fun h => by rw [h.1, h.2]⟩
    simp only [hiff]
    by_cases h1 : q = q0 <;> by_cases h2 : d = j
    · subst h2; simp [h1]
    · have : d < j + 1 ↔ d < j := by omega
      simp [h1, h2, this]
    · simp [h1]
    · simp [h1]

/-- The tables after the loop over the 1D points: the cell of the point `q` and
the dof `d` holds the value and the derivative of the basis function `d` at the
point `q`, and the weights of the points are stored when `transpose` is set. -/
theorem d2qTensorLoop_spec (tfe : TensorBasisElement) (ir1D : IntegrationRule)
    (Q dofs : Nat) (transpose : Bool) (d0 d1 : Nat) (hinj : StridesInjective d0 d1 Q dofs)
    (s : D2QLoop) :
    (∀ q d, q < Q → d < dofs →
      (d2qTensorLoop tfe ir1D Q dofs transpose d0 d1 s).dofToQuad (d0 * q + d1 * d)
        = (tfe.Eval (ir1D.IntPoint q).x).1 d ∧
      (d2qTensorLoop tfe ir1D Q dofs transpose d0 d1 s).dofToQuadD (d0 * q + d1 * d)
        = (tfe.Eval (ir1D.IntPoint q).x).2 d) ∧
    (transpose = true → ∀ q, q < Q →
      (d2qTensorLoop tfe ir1D Q dofs transpose d0 d1 s).quadWeights1DData q
        = (ir1D.IntPoint q).weight) := by
  have key : ∀ k, k ≤ Q →
      (∀ q d, q < Q → d < dofs →
        (d2qTensorLoop tfe ir1D k dofs transpose d0 d1 s).dofToQuad (d0 * q + d1 * d)
          = (if q < k then (tfe.Eval (ir1D.IntPoint q).x).1 d
             else s.dofToQuad (d0 * q + d1 * d)) ∧
        (d2qTensorLoop tfe ir1D k dofs transpose d0 d1 s).dofToQuadD (d0 * q + d1 * d)
          = (if q < k then (tfe.Eval (ir1D.IntPoint q).x).2 d
             else s.dofToQuadD (d0 * q + d1 * d))) ∧
      (∀ q, (d2qTensorLoop tfe ir1D k dofs transpose d0 d1 s).quadWeights1DData q
          = if transpose = true ∧ q < k then (ir1D.IntPoint q).weight
            else s.quadWeights1DData q) := by
    intro k
    induction k with
    | zero => intro _; simp [d2qTensorLoop, forLoop]
    | succ k ih =>
      intro hk
      obtain ⟨i1, i2⟩ := ih (by omega)
      unfold d2qTensorLoop at i1 i2 ⊢
      rw [forLoop_succ]
      simp only
      obtain ⟨f1, f2⟩ := d2qTensorLoop_dofs (tfe.Eval (ir1D.IntPoint k).x).1
        (tfe.Eval (ir1D.IntPoint k).x).2 k Q dofs d0 d1 hinj (by omega) dofs (le_refl _)
        (if transpose = true then
          { forLoop k _ s with
            quadWeights1DData :=
              Function.update (forLoop k _ s).quadWeights1DData k (ir1D.IntPoint k).weight }
         else forLoop k _ s)
      constructor
      · intro q d hq hd
        obtain ⟨g1, g2⟩ := f2 q d hq hd
        obtain ⟨j1, j2⟩ := i1 q d hq hd
        rw [g1, g2]
        have e1 : ∀ x : D2QLoop, (if transpose = true then
            { x with
              quadWeights1DData :=
                Function.update x.quadWeights1DData k (ir1D.IntPoint k).weight } else x).dofToQuad = x.dofToQuad := by
          intro x; split <;> rfl
        have e2 : ∀ x : D2QLoop, (if transpose = true then
            { x with
              quadWeights1DData :=
                Function.update x.quadWeights1DData k (ir1D.IntPoint k).weight } else x).dofToQuadD = x.dofToQuadD := by
          intro x; split <;> rfl
        rw [e1, e2, j1, j2]
        by_cases h : q = k
        · subst h; simp [hd]
        · have : q < k + 1 ↔ q < k := by omega
          simp [h, this]
      · intro q
        rw [f1]
        have e3 : ∀ x : D2QLoop, (if transpose = true then
            { x with
              quadWeights1DData :=
                Function.update x.quadWeights1DData k (ir1D.IntPoint k).weight } else x).quadWeights1DData
            = if transpose = true then
                Function.update x.quadWeights1DData k (ir1D.IntPoint k).weight
              else x.quadWeights1DData := by
          intro x; split <;> rfl
        rw [e3]
        have h2 := i2 q
        by_cases ht : transpose = true
        · rw [if_pos ht, Function.update_apply, h2]
          by_cases h : q = k
          · subst h; simp [ht]
          · have : q < k + 1 ↔ q < k := by omega
            simp [h, this]
        · rw [if_neg ht, h2]
          simp [ht]
  obtain ⟨k1, k2⟩ := key Q (le_refl _)
  refine ⟨fun q d hq hd => ?_, fun ht q hq => ?_⟩
  · obtain ⟨a, b⟩ := k1 q d hq hd
    rw [a, b, if_pos hq, if_pos hq]
    exact ⟨rfl, rfl⟩
  · rw [k2 q, if_pos ⟨ht, hq⟩]


/-- The loop over the dofs keeps the weights. -/
theorem d2qTensorLoop_dofs_weights (d2q d2qD : Buf) (q0 d0 d1 : Nat) (j : Nat) (s : D2QLoop) :
    (forLoop j (fun d (s : D2QLoop) =>
      { s with
        dofToQuad := Function.update s.dofToQuad (d0 * q0 + d1 * d) (d2q d)
        dofToQuadD := Function.update s.dofToQuadD (d0 * q0 + d1 * d) (d2qD d) }) s).quadWeights1DData
      = s.quadWeights1DData := by
  induction j with
  | zero => rfl
  | succ j ih => rw [forLoop_succ]; exact ih

/-- With `transpose` set, the loop over the 1D points stores the weight of every
point `q < Q`. -/
theorem d2qTensorLoop_weights (tfe : TensorBasisElement) (ir1D : IntegrationRule)
    (Q dofs d0 d1 : Nat) (s : D2QLoop) (q : Nat) :
    (d2qTensorLoop tfe ir1D Q dofs true d0 d1 s).quadWeights1DData q
      = if q < Q then (ir1D.IntPoint q).weight else s.quadWeights1DData q := by
  induction Q with
  | zero => simp [d2qTensorLoop, forLoop]
  | succ k ih =>
    unfold d2qTensorLoop at ih ⊢
    rw [forLoop_succ]
    simp only [if_true]
    rw [d2qTensorLoop_dofs_weights]
    simp only [Function.update_apply]
    by_cases h : q = k
    · subst h; simp
    · have e : (q < k + 1) = (q < k) := propext (by omega)
      simp only [if_neg h, e]
      exact ih

/-- The loop that fills `quadWeights`: the cell `q < quadPointsND` holds the
product of the 1D weights the source multiplies, the other cells are kept. -/
theorem d2qTensorWeights_spec (dims Q ND : Nat) (w1 w0 : Buf) (q : Nat) :
    d2qTensorWeights dims Q ND w1 w0 q
      = if q < ND then
          (if dims > 2 then
            (if dims > 1 then w1 (q % Q) * w1 ((q - q / (Q * Q) * (Q * Q)) / Q)
             else w1 (q % Q)) * w1 (q / (Q * Q))
           else
            (if dims > 1 then w1 (q % Q) * w1 ((q - q / (Q * Q) * (Q * Q)) / Q)
             else w1 (q % Q)))
        else w0 q := by
  induction ND with
  | zero => simp [d2qTensorWeights, forLoop]
  | succ k ih =>
    unfold d2qTensorWeights at ih ⊢
    rw [forLoop_succ]
    simp only [Function.update_apply]
    by_cases h : q = k
    · subst h; simp
    · have e : (q < k + 1) = (q < k) := propext (by omega)
      simp only [if_neg h, e]
      exact ih

/-- The decomposition of a point index used by the weights loop. -/
theorem point_index_decomposition (Q q : Nat) (hQ : 1 ≤ Q) :
    q = q % Q + (q - q / (Q * Q) * (Q * Q)) / Q * Q + q / (Q * Q) * (Q * Q) ∧
    q % Q < Q ∧ (q - q / (Q * Q) * (Q * Q)) / Q < Q := by
  have hr : q - q / (Q * Q) * (Q * Q) = q % (Q * Q) := by
    have := Nat.div_add_mod q (Q * Q)
    rw [Nat.mul_comm] at this
    omega
  have hm : q % (Q * Q) % Q = q % Q := Nat.mod_mul_right_mod q Q Q
  have hlt : q % (Q * Q) < Q * Q := Nat.mod_lt _ (Nat.mul_pos hQ hQ)
  refine ⟨?_, Nat.mod_lt _ hQ, ?_⟩
  · rw [hr]
    have h1 := Nat.div_add_mod (q % (Q * Q)) Q
    have h2 := Nat.div_add_mod q (Q * Q)
    rw [hm] at h1
    rw [Nat.mul_comm] at h1
    rw [Nat.mul_comm (Q * Q)] at h2
    omega
  · rw [hr]
    exact Nat.div_lt_of_lt_mul hlt


/-- A call of `GetD2QTensorMaps` whose key is free allocates one object, binds the
key to it and fills it with the tables synthesized from the element. -/
theorem GetD2QTensorMaps_fresh (E : MapsEnv) (fe : FiniteElement) (tfe : TensorBasisElement)
    (ir : IntegrationRule) (transpose : Bool) (reg : Registry)
    (ht : fe.tensor = some tfe)
    (hfree : reg.AllDofQuadMaps (D2QTensorMapHash fe.GetOrder (fe.GetOrder + 1) fe.GetDim
      (E.IntRules_Get_SEGMENT ir.GetOrder).GetNPoints transpose) = none) :
    GetD2QTensorMaps E fe ir transpose reg = some (reg.count,
      { AllDofQuadMaps := Function.update reg.AllDofQuadMaps
          (D2QTensorMapHash fe.GetOrder (fe.GetOrder + 1) fe.GetDim
            (E.IntRules_Get_SEGMENT ir.GetOrder).GetNPoints transpose) (some reg.count)
        objects := Function.update reg.objects reg.count
          (synthD2QTensorMaps E fe tfe ir transpose)
        count := reg.count + 1 }) := by
  unfold GetD2QTensorMaps
  rw [ht]
  simp only [hfree]
  cases transpose <;>
    simp [Registry.new, Registry.insert, Registry.modify, qarray.allocate,
      synthD2QTensorMaps, quadPointsND, mul_assoc]

/-- A call of `GetD2QTensorMaps` whose key is bound returns the bound pointer and
leaves the registry as it is. -/
theorem GetD2QTensorMaps_cached (E : MapsEnv) (fe : FiniteElement) (tfe : TensorBasisElement)
    (ir : IntegrationRule) (transpose : Bool) (reg : Registry) (p : Nat)
    (ht : fe.tensor = some tfe)
    (hit : reg.AllDofQuadMaps (D2QTensorMapHash fe.GetOrder (fe.GetOrder + 1) fe.GetDim
      (E.IntRules_Get_SEGMENT ir.GetOrder).GetNPoints transpose) = some p) :
    GetD2QTensorMaps E fe ir transpose reg = some (p, reg) := by
  unfold GetD2QTensorMaps
  rw [ht]
  simp only [hit]


/-- The strides of the sample environment address distinct cells. -/
theorem exMapsEnv_NoAlias (X Y : Nat) : exMapsEnv.NoAlias X Y := by
  intro t q q2 d d2 hq hq2 hd hd2 h
  cases t
  · have h2 : d * X + q = d2 * X + q2 := by
      simp only [exMapsEnv] at h
      simp only [Bool.false_eq_true, if_false, if_true, one_ne_zero] at h
      rw [Nat.mul_comm d X, Nat.mul_comm d2 X]
      omega
    have := idx_inj hq hq2 h2
    exact ⟨this.2, this.1⟩
  · have h2 : q * Y + d = q2 * Y + d2 := by
      simp only [exMapsEnv] at h
      simp only [if_true, one_ne_zero, if_false] at h
      rw [Nat.mul_comm q Y, Nat.mul_comm q2 Y]
      omega
    exact idx_inj hd hd2 h2

/-- The tables of a synthesized object: the entry of the point `q` and the dof `d`
is the value, and the derivative, of the 1D basis function `d` of the element at
the 1D point `q`. -/
theorem synthD2QTensorMaps_entry (E : MapsEnv) (fe : FiniteElement) (tfe : TensorBasisElement)
    (ir : IntegrationRule) (transpose : Bool)
    (hE : E.NoAlias (E.IntRules_Get_SEGMENT ir.GetOrder).GetNPoints (fe.GetOrder + 1))
    (q d : Nat) (hq : q < (E.IntRules_Get_SEGMENT ir.GetOrder).GetNPoints)
    (hd : d < fe.GetOrder + 1) :
    (synthD2QTensorMaps E fe tfe ir transpose).dofToQuad.entry q d
      = (tfe.Eval ((E.IntRules_Get_SEGMENT ir.GetOrder).IntPoint q).x).1 d ∧
    (synthD2QTensorMaps E fe tfe ir transpose).dofToQuadD.entry q d
      = (tfe.Eval ((E.IntRules_Get_SEGMENT ir.GetOrder).IntPoint q).x).2 d := by
  have := (d2qTensorLoop_spec tfe (E.IntRules_Get_SEGMENT ir.GetOrder)
    (E.IntRules_Get_SEGMENT ir.GetOrder).GetNPoints (fe.GetOrder + 1) transpose _ _
    (hE transpose) ⟨E.uninit, E.uninit, E.uninit⟩).1 q d hq hd
  exact this

/-- The weights of a synthesized object built with `transpose` set. -/
theorem synthD2QTensorMaps_weights (E : MapsEnv) (fe : FiniteElement)
    (tfe : TensorBasisElement) (ir : IntegrationRule) (q : Nat) :
    (synthD2QTensorMaps E fe tfe ir true).quadWeights.data q
      = d2qTensorWeights fe.GetDim (E.IntRules_Get_SEGMENT ir.GetOrder).GetNPoints
          (quadPointsND fe.GetDim (E.IntRules_Get_SEGMENT ir.GetOrder).GetNPoints)
          (fun i => if i < (E.IntRules_Get_SEGMENT ir.GetOrder).GetNPoints then
              ((E.IntRules_Get_SEGMENT ir.GetOrder).IntPoint i).weight else E.uninit i)
          E.uninit q := by
  have hw : (d2qTensorLoop tfe (E.IntRules_Get_SEGMENT ir.GetOrder)
      (E.IntRules_Get_SEGMENT ir.GetOrder).GetNPoints (fe.GetOrder + 1) true
      (E.allocate (E.IntRules_Get_SEGMENT ir.GetOrder).GetNPoints (fe.GetOrder + 1) 1 1 true 0)
      (E.allocate (E.IntRules_Get_SEGMENT ir.GetOrder).GetNPoints (fe.GetOrder + 1) 1 1 true 1)
      ⟨E.uninit, E.uninit, E.uninit⟩).quadWeights1DData
      = fun i => if i < (E.IntRules_Get_SEGMENT ir.GetOrder).GetNPoints then
          ((E.IntRules_Get_SEGMENT ir.GetOrder).IntPoint i).weight else E.uninit i := by
    funext i
    exact d2qTensorLoop_weights _ _ _ _ _ _ _ i
  simp only [synthD2QTensorMaps, if_true, hw]

/-- A key of `GetD2QTensorMaps` is not a key of `GetTensorMaps`. -/
theorem D2QTensorMapHash_ne_TensorMapHash (a b c d : Nat) (t : Bool) (e f g h i : Nat) :
    D2QTensorMapHash a b c d t ≠ TensorMapHash e f g h i := by
  intro hh
  have hh := congrArg String.data hh
  simp only [D2QTensorMapHash, TensorMapHash, String.data_append, List.append_assoc] at hh
  exact absurd hh (by simp)

/-- The keys of `GetD2QTensorMaps` with and without `transpose` differ. -/
theorem D2QTensorMapHash_transpose_ne (a b c d : Nat) :
    D2QTensorMapHash a b c d false ≠ D2QTensorMapHash a b c d true := by
  intro hh
  have hh := congrArg String.data hh
  simp only [D2QTensorMapHash, String.data_append, List.append_assoc] at hh
  simp at hh


/-- C22 (`GetD2QTensorMaps`, an entry cached for another basis), evaluated on the
sample elements of order 2 in two dimensions. The first call, for the element
with the nodal basis, builds the entry 0 on the empty registry. The second call,
for the element with the positive basis, writes the same key, returns the entry 0
and leaves the registry as it is: no check fails. The table it returns holds
`15 / 49` for the first basis function at the first 1D point, the value of the
nodal basis, where the table synthesized from the requested element holds
`25 / 49`. -/
theorem cached_tables_ignore_basis :
    ∃ reg1 : Registry,
      GetD2QTensorMaps exMapsEnv exElementNodal exRule false emptyRegistry = some (0, reg1) ∧
      GetD2QTensorMaps exMapsEnv exElementPositive exRule false reg1 = some (0, reg1) ∧
      (reg1.objects 0).dofToQuad.entry 0 0 = 15 / 49 ∧
      (synthD2QTensorMaps exMapsEnv exElementPositive exBasisPositive exRule
        false).dofToQuad.entry 0 0 = 25 / 49 := by
  refine ⟨_, GetD2QTensorMaps_fresh exMapsEnv exElementNodal exBasisNodal exRule false
    emptyRegistry rfl rfl, ?_, ?_, ?_⟩
  · refine GetD2QTensorMaps_cached exMapsEnv exElementPositive exBasisPositive exRule false _ 0
      rfl ?_
    have hs : ∀ (m : String → Option Nat) (k : String) (v : Option Nat),
        Function.update m k v k = v := fun m k v => Function.update_same k v m
    dsimp only [exElementPositive, exElementNodal, emptyRegistry]
    exact hs _ _ _
  · show (Function.update emptyRegistry.objects 0
      (synthD2QTensorMaps exMapsEnv exElementNodal exBasisNodal exRule false) 0).dofToQuad.entry
        0 0 = 15 / 49
    rw [Function.update_same]
    rw [(synthD2QTensorMaps_entry exMapsEnv exElementNodal exBasisNodal exRule false
      (exMapsEnv_NoAlias _ _) 0 0 (by decide) (by decide)).1]
    simp only [exBasisNodal, exMapsEnv, exRule]
    norm_num
  · rw [(synthD2QTensorMaps_entry exMapsEnv exElementPositive exBasisPositive exRule false
      (exMapsEnv_NoAlias _ _) 0 0 (by decide) (by decide)).1]
    simp only [exBasisPositive, exMapsEnv, exRule]
    norm_num

/-- C23 (`GetD2QTensorMaps` with `transpose` set, lines 176-197): on a call that
builds the entry, with `Q >= 1` one-dimensional points and `dims` in {1, 2, 3},
every `q < Q ^ dims` is decomposed into `qx = q % Q`, `qz = q / (Q * Q)` and
`qy = (q - qz * (Q * Q)) / Q` with `q = qx + qy * Q + qz * (Q * Q)`, the three
indices are below `Q`, and `quadWeights[q]` is the weight of the 1D point `qx`,
times that of `qy` when `dims > 1`, times that of `qz` when `dims > 2`. -/
theorem tensor_weights_are_products (E : MapsEnv) (fe : FiniteElement)
    (tfe : TensorBasisElement) (ir : IntegrationRule) (reg : Registry) (Q dims : Nat)
    (hQ : (E.IntRules_Get_SEGMENT ir.GetOrder).GetNPoints = Q) (hdims : fe.GetDim = dims)
    (ht : fe.tensor = some tfe)
    (hfree : reg.AllDofQuadMaps
      (D2QTensorMapHash fe.GetOrder (fe.GetOrder + 1) dims Q true) = none)
    (hQ1 : 1 ≤ Q) (hd : dims = 1 ∨ dims = 2 ∨ dims = 3) :
    ∃ (p : Nat) (reg' : Registry),
      GetD2QTensorMaps E fe ir true reg = some (p, reg') ∧
      ∀ q, q < Q ^ dims →
        q = q % Q + (q - q / (Q * Q) * (Q * Q)) / Q * Q + q / (Q * Q) * (Q * Q) ∧
        q % Q < Q ∧ (q - q / (Q * Q) * (Q * Q)) / Q < Q ∧ q / (Q * Q) < Q ∧
        (dims = 1 → (reg'.objects p).quadWeights.data q
          = ((E.IntRules_Get_SEGMENT ir.GetOrder).IntPoint (q % Q)).weight) ∧
        (dims = 2 → (reg'.objects p).quadWeights.data q
          = ((E.IntRules_Get_SEGMENT ir.GetOrder).IntPoint (q % Q)).weight
            * ((E.IntRules_Get_SEGMENT ir.GetOrder).IntPoint
                ((q - q / (Q * Q) * (Q * Q)) / Q)).weight) ∧
        (dims = 3 → (reg'.objects p).quadWeights.data q
          = ((E.IntRules_Get_SEGMENT ir.GetOrder).IntPoint (q % Q)).weight
            * ((E.IntRules_Get_SEGMENT ir.GetOrder).IntPoint
                ((q - q / (Q * Q) * (Q * Q)) / Q)).weight
            * ((E.IntRules_Get_SEGMENT ir.GetOrder).IntPoint (q / (Q * Q))).weight) := by
  subst hQ hdims
  refine ⟨_, _, GetD2QTensorMaps_fresh E fe tfe ir true reg ht hfree, fun q hq => ?_⟩
  obtain ⟨e1, e2, e3⟩ :=
    point_index_decomposition (E.IntRules_Get_SEGMENT ir.GetOrder).GetNPoints q hQ1
  have hq3 : q < (E.IntRules_Get_SEGMENT ir.GetOrder).GetNPoints
      * (E.IntRules_Get_SEGMENT ir.GetOrder).GetNPoints
      * (E.IntRules_Get_SEGMENT ir.GetOrder).GetNPoints := by
    have : (E.IntRules_Get_SEGMENT ir.GetOrder).GetNPoints ^ fe.GetDim
        ≤ (E.IntRules_Get_SEGMENT ir.GetOrder).GetNPoints ^ 3 :=
      Nat.pow_le_pow_right hQ1 (by omega)
    calc q < (E.IntRules_Get_SEGMENT ir.GetOrder).GetNPoints ^ fe.GetDim := hq
      _ ≤ (E.IntRules_Get_SEGMENT ir.GetOrder).GetNPoints ^ 3 := this
      _ = _ := by ring
  have e4 : q / ((E.IntRules_Get_SEGMENT ir.GetOrder).GetNPoints
      * (E.IntRules_Get_SEGMENT ir.GetOrder).GetNPoints)
      < (E.IntRules_Get_SEGMENT ir.GetOrder).GetNPoints :=
    Nat.div_lt_of_lt_mul hq3
  have hND : q < quadPointsND fe.GetDim (E.IntRules_Get_SEGMENT ir.GetOrder).GetNPoints := by
    unfold quadPointsND
    rcases hd with h | h | h <;> rw [h] at hq ⊢
    · rw [pow_one] at hq
      simpa using hq
    · simp only [show ¬ (2 = 1) by decide, if_false, if_true]
      rw [pow_two] at hq; exact hq
    · simp only [show ¬ (3 = 1) by decide, show ¬ (3 = 2) by decide, if_false]
      exact hq3
  have hv := synthD2QTensorMaps_weights E fe tfe ir q
  rw [d2qTensorWeights_spec, if_pos hND] at hv
  simp only [if_pos e2, if_pos e3, if_pos e4] at hv
  have hobj : ∀ (o : Nat → qDofQuadMaps) (k : Nat) (v : qDofQuadMaps),
      Function.update o k v k = v := fun o k v => Function.update_same k v o
  refine ⟨e1, e2, e3, e4, fun h => ?_, fun h => ?_, fun h => ?_⟩
  · show (Function.update reg.objects reg.count (synthD2QTensorMaps E fe tfe ir true)
      reg.count).quadWeights.data q = _
    rw [hobj, hv, h]; simp
  · show (Function.update reg.objects reg.count (synthD2QTensorMaps E fe tfe ir true)
      reg.count).quadWeights.data q = _
    rw [hobj, hv, h]; simp
  · show (Function.update reg.objects reg.count (synthD2QTensorMaps E fe tfe ir true)
      reg.count).quadWeights.data q = _
    rw [hobj, hv, h]; simp

/-- Witness for C23: the sample element of order 1 in two dimensions and the sample
rule, whose 1D rule has two points, on the empty registry. -/
theorem tensor_weights_are_products_witness :
    ∃ (p : Nat) (reg' : Registry),
      GetD2QTensorMaps exMapsEnv exElement exRule true emptyRegistry = some (p, reg') ∧
      ∀ q, q < 2 ^ 2 →
        q = q % 2 + (q - q / (2 * 2) * (2 * 2)) / 2 * 2 + q / (2 * 2) * (2 * 2) ∧
        q % 2 < 2 ∧ (q - q / (2 * 2) * (2 * 2)) / 2 < 2 ∧ q / (2 * 2) < 2 ∧
        (2 = 1 → (reg'.objects p).quadWeights.data q
          = ((exMapsEnv.IntRules_Get_SEGMENT exRule.GetOrder).IntPoint (q % 2)).weight) ∧
        (2 = 2 → (reg'.objects p).quadWeights.data q
          = ((exMapsEnv.IntRules_Get_SEGMENT exRule.GetOrder).IntPoint (q % 2)).weight
            * ((exMapsEnv.IntRules_Get_SEGMENT exRule.GetOrder).IntPoint
                ((q - q / (2 * 2) * (2 * 2)) / 2)).weight) ∧
        (2 = 3 → (reg'.objects p).quadWeights.data q
          = ((exMapsEnv.IntRules_Get_SEGMENT exRule.GetOrder).IntPoint (q % 2)).weight
            * ((exMapsEnv.IntRules_Get_SEGMENT exRule.GetOrder).IntPoint
                ((q - q / (2 * 2) * (2 * 2)) / 2)).weight
            * ((exMapsEnv.IntRules_Get_SEGMENT exRule.GetOrder).IntPoint (q / (2 * 2))).weight) :=
  tensor_weights_are_products exMapsEnv exElement _ exRule emptyRegistry 2 2 rfl rfl rfl rfl
    (by decide) (Or.inr (Or.inl rfl))


/-- A call of `GetTensorMaps` whose key is free: the new entry takes `dofToQuad`
and `dofToQuadD` from the entry that `GetD2QTensorMaps` returns for the trial
element, and `quadToDof`, `quadToDofD` and `quadWeights` from the entry it returns
for the test element with `transpose` set. -/
theorem GetTensorMaps_build (E : MapsEnv) (trialFE testFE : FiniteElement)
    (t1 t2 : TensorBasisElement) (ir : IntegrationRule) (transpose : Bool) (reg : Registry)
    (pt ps : Nat) (regA regB : Registry)
    (ht1 : trialFE.tensor = some t1) (ht2 : testFE.tensor = some t2)
    (h0 : reg.AllDofQuadMaps (TensorMapHash trialFE.GetOrder testFE.GetOrder t1.GetBasisType
      t2.GetBasisType ir.GetNPoints) = none)
    (hA : GetD2QTensorMaps E trialFE ir false
      { AllDofQuadMaps := Function.update reg.AllDofQuadMaps
          (TensorMapHash trialFE.GetOrder testFE.GetOrder t1.GetBasisType t2.GetBasisType
            ir.GetNPoints) (some reg.count)
        objects := Function.update reg.objects reg.count
          ⟨TensorMapHash trialFE.GetOrder testFE.GetOrder t1.GetBasisType t2.GetBasisType
            ir.GetNPoints, E.empty, E.empty, E.empty, E.empty, E.empty⟩
        count := reg.count + 1 } = some (pt, regA))
    (hB : GetD2QTensorMaps E testFE ir true regA = some (ps, regB))
    (hpt : pt ≠ reg.count) (hps : ps ≠ reg.count) :
    GetTensorMaps E trialFE testFE ir transpose reg = some (reg.count,
      { regB with
        objects := Function.update regB.objects reg.count
          { hash := (regB.objects reg.count).hash
            dofToQuad := (regB.objects pt).dofToQuad
            dofToQuadD := (regB.objects pt).dofToQuadD
            quadToDof := (regB.objects ps).dofToQuad
            quadToDofD := (regB.objects ps).dofToQuadD
            quadWeights := (regB.objects ps).quadWeights } }) := by
  have hA2 : GetD2QTensorMaps E trialFE ir false
      ((((reg.new E).2.insert (TensorMapHash trialFE.GetOrder testFE.GetOrder t1.GetBasisType
        t2.GetBasisType ir.GetNPoints) (reg.new E).1).modify (reg.new E).1
          (fun m => { m with hash := (TensorMapHash trialFE.GetOrder testFE.GetOrder
            t1.GetBasisType t2.GetBasisType ir.GetNPoints) }))) = some (pt, regA) := by
    rw [← hA]
    congr 1
    simp [Registry.new, Registry.insert, Registry.modify]
  unfold GetTensorMaps
  rw [ht1, ht2]
  simp only [h0, hA2, hB]
  simp [Registry.modify, Function.update_apply, hpt, hps, Ne.symm hpt, Ne.symm hps]


/-- The registry after a call of `GetD2QTensorMaps` whose key is free. -/
theorem GetD2QTensorMaps_fresh_ex (E : MapsEnv) (fe : FiniteElement) (tfe : TensorBasisElement)
    (ir : IntegrationRule) (transpose : Bool) (reg : Registry)
    (ht : fe.tensor = some tfe)
    (hfree : reg.AllDofQuadMaps (D2QTensorMapHash fe.GetOrder (fe.GetOrder + 1) fe.GetDim
      (E.IntRules_Get_SEGMENT ir.GetOrder).GetNPoints transpose) = none) :
    ∃ reg', GetD2QTensorMaps E fe ir transpose reg = some (reg.count, reg') ∧
      reg'.AllDofQuadMaps = Function.update reg.AllDofQuadMaps
        (D2QTensorMapHash fe.GetOrder (fe.GetOrder + 1) fe.GetDim
          (E.IntRules_Get_SEGMENT ir.GetOrder).GetNPoints transpose) (some reg.count) ∧
      reg'.objects = Function.update reg.objects reg.count
        (synthD2QTensorMaps E fe tfe ir transpose) ∧
      reg'.count = reg.count + 1 :=
  ⟨_, GetD2QTensorMaps_fresh E fe tfe ir transpose reg ht hfree, rfl, rfl, rfl⟩

/-- A key that is free stays free when another key is bound. -/
theorem update_free (m : String → Option Nat) (k k2 : String) (v : Option Nat)
    (hne : k2 ≠ k) (h : m k2 = none) : Function.update m k v k2 = none := by
  rw [Function.update_noteq hne]; exact h

/-- A call of `GetTensorMaps` with one element as trial and test, none of whose
three keys is bound: the tables of the new entry are built from the element, and
the entry of `quadToDof` for the point `q` and the dof `d` is the entry of
`dofToQuad` for them, the value of the basis function `d` at the 1D point `q`;
likewise for the derivatives. -/
theorem GetTensorMaps_fresh_transposed (E : MapsEnv) (fe : FiniteElement)
    (tfe : TensorBasisElement) (ir : IntegrationRule) (transpose : Bool) (reg : Registry)
    (ht : fe.tensor = some tfe)
    (hE : E.NoAlias (E.IntRules_Get_SEGMENT ir.GetOrder).GetNPoints (fe.GetOrder + 1))
    (h0 : reg.AllDofQuadMaps (TensorMapHash fe.GetOrder fe.GetOrder tfe.GetBasisType
      tfe.GetBasisType ir.GetNPoints) = none)
    (h1 : reg.AllDofQuadMaps (D2QTensorMapHash fe.GetOrder (fe.GetOrder + 1) fe.GetDim
      (E.IntRules_Get_SEGMENT ir.GetOrder).GetNPoints false) = none)
    (h2 : reg.AllDofQuadMaps (D2QTensorMapHash fe.GetOrder (fe.GetOrder + 1) fe.GetDim
      (E.IntRules_Get_SEGMENT ir.GetOrder).GetNPoints true) = none) :
    ∃ reg', GetTensorMaps E fe fe ir transpose reg = some (reg.count, reg') ∧
      ∀ q d, q < (E.IntRules_Get_SEGMENT ir.GetOrder).GetNPoints → d < fe.GetOrder + 1 →
        (reg'.objects reg.count).quadToDof.entry q d
          = (reg'.objects reg.count).dofToQuad.entry q d ∧
        (reg'.objects reg.count).quadToDofD.entry q d
          = (reg'.objects reg.count).dofToQuadD.entry q d ∧
        (reg'.objects reg.count).dofToQuad.entry q d
          = (tfe.Eval ((E.IntRules_Get_SEGMENT ir.GetOrder).IntPoint q).x).1 d ∧
        (reg'.objects reg.count).dofToQuadD.entry q d
          = (tfe.Eval ((E.IntRules_Get_SEGMENT ir.GetOrder).IntPoint q).x).2 d := by
  have f1 : Function.update reg.AllDofQuadMaps
      (TensorMapHash fe.GetOrder fe.GetOrder tfe.GetBasisType tfe.GetBasisType ir.GetNPoints)
      (some reg.count)
      (D2QTensorMapHash fe.GetOrder (fe.GetOrder + 1) fe.GetDim
        (E.IntRules_Get_SEGMENT ir.GetOrder).GetNPoints false) = none :=
    update_free _ _ _ _ (D2QTensorMapHash_ne_TensorMapHash _ _ _ _ _ _ _ _ _ _) h1
  obtain ⟨regA, hA, mA, oA, cA⟩ := GetD2QTensorMaps_fresh_ex E fe tfe ir false
    { AllDofQuadMaps := Function.update reg.AllDofQuadMaps
        (TensorMapHash fe.GetOrder fe.GetOrder tfe.GetBasisType tfe.GetBasisType
          ir.GetNPoints) (some reg.count)
      objects := Function.update reg.objects reg.count
        ⟨TensorMapHash fe.GetOrder fe.GetOrder tfe.GetBasisType tfe.GetBasisType
          ir.GetNPoints, E.empty, E.empty, E.empty, E.empty, E.empty⟩
      count := reg.count + 1 } ht f1
  dsimp only at mA oA cA hA
  obtain ⟨regB, hB, mB, oB, cB⟩ := GetD2QTensorMaps_fresh_ex E fe tfe ir true regA ht
    (by
      rw [mA]
      exact update_free _ _ _ _ (Ne.symm (D2QTensorMapHash_transpose_ne _ _ _ _))
        (update_free _ _ _ _ (D2QTensorMapHash_ne_TensorMapHash _ _ _ _ _ _ _ _ _ _) h2))
  have hC := GetTensorMaps_build E fe fe tfe tfe ir transpose reg _ _ _ _ ht ht h0 hA hB
    (by omega) (by omega)
  refine ⟨_, hC, fun q d hq hd => ?_⟩
  obtain ⟨a1, a2⟩ := synthD2QTensorMaps_entry E fe tfe ir false hE q d hq hd
  obtain ⟨b1, b2⟩ := synthD2QTensorMaps_entry E fe tfe ir true hE q d hq hd
  have hobj : ∀ (o : Nat → qDofQuadMaps) (k : Nat) (v : qDofQuadMaps),
      Function.update o k v k = v := fun o k v => Function.update_same k v o
  have eA : regB.objects (reg.count + 1) = synthD2QTensorMaps E fe tfe ir false := by
    rw [oB, oA, cA, Function.update_noteq (by omega), Function.update_same]
  have eB : regB.objects regA.count = synthD2QTensorMaps E fe tfe ir true := by
    rw [oB, Function.update_same]
  simp only [hobj, eA, eB]
  exact ⟨b1.trans a1.symm, b2.trans a2.symm, a1, a2⟩


/-- A key that was bound is found. -/
theorem update_bound (m : String → Option Nat) (k : String) (v : Option Nat) :
    Function.update m k v k = v := Function.update_same k v m

/-- The registry after a call of `GetTensorMaps` whose key is free. -/
theorem GetTensorMaps_build_ex (E : MapsEnv) (trialFE testFE : FiniteElement)
    (t1 t2 : TensorBasisElement) (ir : IntegrationRule) (transpose : Bool) (reg : Registry)
    (pt ps : Nat) (regA regB : Registry)
    (ht1 : trialFE.tensor = some t1) (ht2 : testFE.tensor = some t2)
    (h0 : reg.AllDofQuadMaps (TensorMapHash trialFE.GetOrder testFE.GetOrder t1.GetBasisType
      t2.GetBasisType ir.GetNPoints) = none)
    (hA : GetD2QTensorMaps E trialFE ir false
      { AllDofQuadMaps := Function.update reg.AllDofQuadMaps
          (TensorMapHash trialFE.GetOrder testFE.GetOrder t1.GetBasisType t2.GetBasisType
            ir.GetNPoints) (some reg.count)
        objects := Function.update reg.objects reg.count
          ⟨TensorMapHash trialFE.GetOrder testFE.GetOrder t1.GetBasisType t2.GetBasisType
            ir.GetNPoints, E.empty, E.empty, E.empty, E.empty, E.empty⟩
        count := reg.count + 1 } = some (pt, regA))
    (hB : GetD2QTensorMaps E testFE ir true regA = some (ps, regB))
    (hpt : pt ≠ reg.count) (hps : ps ≠ reg.count) :
    ∃ reg', GetTensorMaps E trialFE testFE ir transpose reg = some (reg.count, reg') ∧
      reg'.AllDofQuadMaps = regB.AllDofQuadMaps ∧ reg'.count = regB.count ∧
      reg'.objects = Function.update regB.objects reg.count
        { hash := (regB.objects reg.count).hash
          dofToQuad := (regB.objects pt).dofToQuad
          dofToQuadD := (regB.objects pt).dofToQuadD
          quadToDof := (regB.objects ps).dofToQuad
          quadToDofD := (regB.objects ps).dofToQuadD
          quadWeights := (regB.objects ps).quadWeights } :=
  ⟨_, GetTensorMaps_build E trialFE testFE t1 t2 ir transpose reg pt ps regA regB ht1 ht2 h0
    hA hB hpt hps, rfl, rfl, rfl⟩

/-- C24 (`GetTensorMaps` with one element as trial and test), evaluated on the
sample elements. The first request, with the nodal element of order 2 as trial
and the element of order 1 as test, builds the entry 0 on the empty registry and
with it the entry 1 for the nodal element without `transpose`. The second
request has the positive element of order 2 as trial and as test: its entry 3
takes `dofToQuad` from the entry 1, which has the key of the positive element,
and `quadToDof` from the entry 4 built for the positive element. For the first
point and the first dof `dofToQuad` holds `15 / 49`, the nodal value, and
`quadToDof` holds `25 / 49`, the positive value. -/
theorem stale_trial_table_breaks_transposition :
    ∃ (reg1 reg2 : Registry),
      GetTensorMaps exMapsEnv exElementNodal exElement exRule false emptyRegistry
        = some (0, reg1) ∧
      GetTensorMaps exMapsEnv exElementPositive exElementPositive exRule false reg1
        = some (3, reg2) ∧
      (reg2.objects 3).dofToQuad.entry 0 0 = 15 / 49 ∧
      (reg2.objects 3).quadToDof.entry 0 0 = 25 / 49 := by
  -- the first request
  obtain ⟨regA, hA, mA, oA, cA⟩ := GetD2QTensorMaps_fresh_ex exMapsEnv exElementNodal
    exBasisNodal exRule false
    { AllDofQuadMaps := Function.update emptyRegistry.AllDofQuadMaps
        (TensorMapHash 2 1 1 1 4) (some 0)
      objects := Function.update emptyRegistry.objects 0
        ⟨TensorMapHash 2 1 1 1 4, exMapsEnv.empty, exMapsEnv.empty, exMapsEnv.empty,
          exMapsEnv.empty, exMapsEnv.empty⟩
      count := 1 } rfl rfl
  dsimp only at hA mA oA cA
  obtain ⟨regB, hB, mB, oB, cB⟩ := GetD2QTensorMaps_fresh_ex exMapsEnv exElement _ exRule true
    regA rfl (by rw [mA]; rfl)
  obtain ⟨reg1, h1, m1, c1, o1⟩ := GetTensorMaps_build_ex exMapsEnv exElementNodal exElement
    exBasisNodal _ exRule false emptyRegistry _ _ _ _ rfl rfl rfl hA hB (by decide)
    (by rw [cA]; decide)
  -- the second request
  have hm : ∀ k, k ≠ TensorMapHash 2 1 1 1 4 → k ≠ D2QTensorMapHash 2 3 2 2 false →
      k ≠ D2QTensorMapHash 1 2 2 2 true → reg1.AllDofQuadMaps k = none := by
    intro k k1 k2 k3
    rw [m1, mB, mA]
    exact update_free _ _ _ _ k3 (update_free _ _ _ _ k2 (update_free _ _ _ _ k1 rfl))
  have hcount : reg1.count = 3 := by rw [c1, cB, cA]
  have hc : GetD2QTensorMaps exMapsEnv exElementPositive exRule false
      { AllDofQuadMaps := Function.update reg1.AllDofQuadMaps (TensorMapHash 2 2 2 2 4)
          (some reg1.count)
        objects := Function.update reg1.objects reg1.count
          ⟨TensorMapHash 2 2 2 2 4, exMapsEnv.empty, exMapsEnv.empty, exMapsEnv.empty,
            exMapsEnv.empty, exMapsEnv.empty⟩
        count := reg1.count + 1 } = some (1,
      { AllDofQuadMaps := Function.update reg1.AllDofQuadMaps (TensorMapHash 2 2 2 2 4)
          (some reg1.count)
        objects := Function.update reg1.objects reg1.count
          ⟨TensorMapHash 2 2 2 2 4, exMapsEnv.empty, exMapsEnv.empty, exMapsEnv.empty,
            exMapsEnv.empty, exMapsEnv.empty⟩
        count := reg1.count + 1 }) := by
    refine GetD2QTensorMaps_cached exMapsEnv exElementPositive exBasisPositive exRule false
      _ 1 rfl ?_
    show Function.update reg1.AllDofQuadMaps (TensorMapHash 2 2 2 2 4) (some reg1.count)
      (D2QTensorMapHash 2 3 2 2 false) = some 1
    rw [Function.update_noteq (by decide), m1, mB, Function.update_noteq (by decide), mA]
    exact update_bound _ _ _
  obtain ⟨regD, hD, mD, oD, cD⟩ := GetD2QTensorMaps_fresh_ex exMapsEnv exElementPositive
    exBasisPositive exRule true
    { AllDofQuadMaps := Function.update reg1.AllDofQuadMaps (TensorMapHash 2 2 2 2 4)
        (some reg1.count)
      objects := Function.update reg1.objects reg1.count
        ⟨TensorMapHash 2 2 2 2 4, exMapsEnv.empty, exMapsEnv.empty, exMapsEnv.empty,
          exMapsEnv.empty, exMapsEnv.empty⟩
      count := reg1.count + 1 } rfl
    (show Function.update reg1.AllDofQuadMaps (TensorMapHash 2 2 2 2 4) (some reg1.count)
      (D2QTensorMapHash 2 3 2 2 true) = none from
      update_free _ _ _ _ (by decide) (hm _ (by decide) (by decide) (by decide)))
  dsimp only at hD mD oD cD
  obtain ⟨reg2, h2, m2, c2, o2⟩ := GetTensorMaps_build_ex exMapsEnv exElementPositive
    exElementPositive exBasisPositive exBasisPositive exRule false reg1 _ _ _ _ rfl rfl
    (show reg1.AllDofQuadMaps (TensorMapHash 2 2 2 2 4) = none from
      hm _ (by decide) (by decide) (by decide)) hc hD
    (show 1 ≠ reg1.count by rw [hcount]; decide)
    (show reg1.count + 1 ≠ reg1.count by omega)
  rw [hcount] at h2 o2 oD
  have hobj : ∀ (o : Nat → qDofQuadMaps) (k : Nat) (v : qDofQuadMaps),
      Function.update o k v k = v := fun o k v => Function.update_same k v o
  have eN : regD.objects 1 = synthD2QTensorMaps exMapsEnv exElementNodal exBasisNodal exRule
      false := by
    rw [oD, Function.update_noteq (by decide), Function.update_noteq (by decide), o1,
      Function.update_noteq (by decide), oB, cA, Function.update_noteq (by decide), oA,
      Function.update_same]
  have eP : regD.objects (3 + 1) = synthD2QTensorMaps exMapsEnv exElementPositive
      exBasisPositive exRule true := by
    rw [oD, Function.update_same]
  refine ⟨reg1, reg2, h1, h2, ?_, ?_⟩
  · rw [o2, hobj]
    show (regD.objects 1).dofToQuad.entry 0 0 = 15 / 49
    rw [eN, (synthD2QTensorMaps_entry exMapsEnv exElementNodal exBasisNodal exRule false
      (exMapsEnv_NoAlias _ _) 0 0 (by decide) (by decide)).1]
    simp only [exBasisNodal, exMapsEnv, exRule]
    norm_num
  · rw [o2, hobj]
    show (regD.objects (3 + 1)).dofToQuad.entry 0 0 = 25 / 49
    rw [eP, (synthD2QTensorMaps_entry exMapsEnv exElementPositive exBasisPositive exRule true
      (exMapsEnv_NoAlias _ _) 0 0 (by decide) (by decide)).1]
    simp only [exBasisPositive, exMapsEnv, exRule]
    norm_num

/-! ## Theorems: the device stress and the work vectors -/

/-! ### The stress read by the two force applications -/

/-- The device array that `kForcePAOperator::Mult` leaves is the host array it was
called with. -/
theorem kForcePAOperator.Mult_device (op : kForcePAOperator)
    (stressJinvT : Nat × Nat × Nat → ℚ) (gVecH1 : LocalVec) (vecL2 : Buf)
    (d : Nat × Nat × Nat → ℚ) (r : Buf)
    (h : op.Mult stressJinvT gVecH1 vecL2 = some (d, r)) : d = stressJinvT := by
  unfold kForcePAOperator.Mult at h
  simp only at h
  split at h
  · exact absurd h (by simp)
  · simp only [Option.some.injEq, Prod.mk.injEq] at h
    exact h.1.symm

/-- The two kernels return for two and for three dimensions. -/
theorem kForcePAOperator.Mult_isSome (op : kForcePAOperator)
    (stressJinvT : Nat × Nat × Nat → ℚ) (gVecH1 gVecL2 : LocalVec) (vecL2 vecH1 : Buf)
    (hd : op.dim = 2 ∨ op.dim = 3) :
    (op.Mult stressJinvT gVecH1 vecL2).isSome ∧
    (op.MultTranspose stressJinvT gVecL2 vecH1).isSome := by
  unfold kForcePAOperator.Mult kForcePAOperator.MultTranspose rForceMult rForceMultTranspose
  rcases hd with h | h <;> simp [h]

/-- C25 (`kForcePAOperator::MultTranspose`, `LagrangianHydroOperator::Mult`).
`MultTranspose` leaves the host and the device stress array as they are, and its
result does not change when the host array is replaced. After a `Mult` the device
array holds the host array of that call, and a later `MultTranspose` computes from
these values whatever is written to the host array in between. In one evaluation
of `LagrangianHydroOperator::Mult` on the engine path the forward and the transpose
application both compute from the stress left by the single `UpdateQuadratureData`,
whatever the device array held before; both applications return in two and in
three dimensions. -/
theorem transpose_reads_stress_of_last_mult {σ : Type} (H : Hydro σ) (lib : Lib)
    (op : kForcePAOperator) (S : σ) (one kv vecH1 vecL2 : Buf) (gVecH1 gVecL2 : LocalVec)
    (st : HydroState) (s : StressMem) (host d0 : Nat × Nat × Nat → ℚ) :
    (∀ r s', op.MultTransposeStep vecH1 gVecL2 s = some (r, s') → s' = s) ∧
    ((op.MultTransposeStep vecH1 gVecL2 { s with stressJinvT := host }).map Prod.fst
      = (op.MultTransposeStep vecH1 gVecL2 s).map Prod.fst) ∧
    (∀ r s1, op.MultStep vecL2 gVecH1 s = some (r, s1) →
      s1.d_stressJinvT = s.stressJinvT ∧ s1.stressJinvT = s.stressJinvT ∧
      (op.MultTransposeStep vecH1 gVecL2 { s1 with stressJinvT := host }).map Prod.fst
        = op.MultTranspose s.stressJinvT gVecL2 vecH1) ∧
    (LagrangianHydroOperator.forceSteps H lib op S one kv gVecH1 gVecL2 st d0
      = (op.Mult (UpdateQuadratureData H lib S st).quad_data.stressJinvT gVecH1 one).bind
          (fun r =>
            (op.MultTranspose (UpdateQuadratureData H lib S st).quad_data.stressJinvT
              gVecL2 kv).map
              (fun e_rhs =>
                ((fun i => -1 * r.2 i + 0 * one i), e_rhs,
                  (⟨(UpdateQuadratureData H lib S st).quad_data.stressJinvT,
                    (UpdateQuadratureData H lib S st).quad_data.stressJinvT⟩ : StressMem),
                  UpdateQuadratureData H lib S st)))) ∧
    ((op.dim = 2 ∨ op.dim = 3) →
      (LagrangianHydroOperator.forceSteps H lib op S one kv gVecH1 gVecL2 st d0).isSome) := by
  have key : LagrangianHydroOperator.forceSteps H lib op S one kv gVecH1 gVecL2 st d0
      = (op.Mult (UpdateQuadratureData H lib S st).quad_data.stressJinvT gVecH1 one).bind
          (fun r =>
            (op.MultTranspose (UpdateQuadratureData H lib S st).quad_data.stressJinvT
              gVecL2 kv).map
              (fun e_rhs =>
                ((fun i => -1 * r.2 i + 0 * one i), e_rhs,
                  (⟨(UpdateQuadratureData H lib S st).quad_data.stressJinvT,
                    (UpdateQuadratureData H lib S st).quad_data.stressJinvT⟩ : StressMem),
                  UpdateQuadratureData H lib S st))) := by
    unfold LagrangianHydroOperator.forceSteps kForcePAOperator.MultStep
      kForcePAOperator.MultTransposeStep
    simp only
    cases hM : op.Mult (UpdateQuadratureData H lib S st).quad_data.stressJinvT gVecH1 one with
    | none => rfl
    | some dr =>
      obtain ⟨d, r⟩ := dr
      have hd := kForcePAOperator.Mult_device op _ _ _ d r hM
      subst hd
      simp only [Option.some_bind]
      cases hT : op.MultTranspose (UpdateQuadratureData H lib S st).quad_data.stressJinvT
          gVecL2 kv with
      | none => rfl
      | some e => rfl
  refine ⟨?_, ?_, ?_, key, ?_⟩
  · intro r s' h
    unfold kForcePAOperator.MultTransposeStep at h
    split at h
    · exact absurd h (by simp)
    · simp only [Option.some.injEq, Prod.mk.injEq] at h
      exact h.2.symm
  · unfold kForcePAOperator.MultTransposeStep
    simp only
    cases op.MultTranspose s.d_stressJinvT gVecL2 vecH1 <;> rfl
  · intro r s1 h
    unfold kForcePAOperator.MultStep at h
    cases hM : op.Mult s.stressJinvT gVecH1 vecL2 with
    | none => rw [hM] at h; exact absurd h (by simp)
    | some dr =>
      obtain ⟨d, r2⟩ := dr
      rw [hM] at h
      simp only [Option.some.injEq, Prod.mk.injEq] at h
      have hd := kForcePAOperator.Mult_device op _ _ _ d r2 hM
      obtain ⟨_, rfl⟩ := h
      refine ⟨hd, rfl, ?_⟩
      unfold kForcePAOperator.MultTransposeStep
      simp only [hd]
      cases op.MultTranspose s.stressJinvT gVecL2 vecH1 <;> rfl
  · intro hd
    rw [key]
    obtain ⟨h1, h2⟩ := kForcePAOperator.Mult_isSome op
      (UpdateQuadratureData H lib S st).quad_data.stressJinvT gVecH1 gVecL2 one kv hd
    obtain ⟨a, ha⟩ := Option.isSome_iff_exists.mp h1
    obtain ⟨b, hb⟩ := Option.isSome_iff_exists.mp h2
    rw [ha, hb]
    rfl

/-- Witness for C25: the sample operator in two dimensions. -/
theorem transpose_reads_stress_of_last_mult_witness :
    (exForce.dim = 2 ∨ exForce.dim = 3) ∧
    (LagrangianHydroOperator.forceSteps exHydro exLib exForce () (fun _ => 1) (fun _ => 1)
      (fun _ _ _ _ _ => 0) (fun _ _ _ _ _ => 0) exState (fun _ => 0)).isSome :=
  ⟨Or.inl rfl,
   (transpose_reads_stress_of_last_mult exHydro exLib exForce () (fun _ => 1) (fun _ => 1)
      (fun _ => 0) (fun _ => 0) (fun _ _ _ _ _ => 0) (fun _ _ _ _ _ => 0) exState
      ⟨fun _ => 0, fun _ => 0⟩ (fun _ => 0) (fun _ => 0)).2.2.2.2 (Or.inl rfl)⟩

/-! ### The work vectors after the constructor -/

theorem forLoop_eq_foldl {σ : Type} (n : Nat) (body : Nat → σ → σ) (s : σ) :
    forLoop n body s = (List.range n).foldl (fun s i => body i s) s := by
  induction n with
  | zero => rfl
  | succ n ih => rw [forLoop_succ, List.range_succ, List.foldl_append, ih]; rfl

theorem stridedLoop_eq_foldl {σ : Type} (stop step : Nat) (body : Nat → σ → σ) :
    ∀ (fuel d : Nat) (s : σ),
      stridedLoop stop step body fuel d s
        = (stridedVisits stop step fuel d).foldl (fun s i => body i s) s := by
  intro fuel
  induction fuel with
  | zero => intro d s; rfl
  | succ fuel ih =>
    intro d s
    unfold stridedLoop stridedVisits
    by_cases h : d < stop
    · rw [if_pos h, if_pos h, List.foldl_cons]; exact ih _ _
    · rw [if_neg h, if_neg h]; rfl

theorem foldl_flatMap {α β σ : Type} (l : List α) (f : α → List β) (g : σ → β → σ) (s : σ) :
    (l.flatMap f).foldl g s = l.foldl (fun s a => (f a).foldl g s) s := by
  induction l generalizing s with
  | nil => rfl
  | cons a l ih => rw [List.flatMap_cons, List.foldl_append, List.foldl_cons, ih]

/-- The indices visited by the strided loop lie between the start and the stop. -/
theorem stridedVisits_bounds (stop step : Nat) :
    ∀ (fuel d x : Nat), x ∈ stridedVisits stop step fuel d → d ≤ x ∧ x < stop := by
  intro fuel
  induction fuel with
  | zero => intro d x h; simp [stridedVisits] at h
  | succ fuel ih =>
    intro d x h
    unfold stridedVisits at h
    by_cases hd : d < stop
    · rw [if_pos hd] at h
      rcases List.mem_cons.mp h with h | h
      · subst h; exact ⟨le_refl _, hd⟩
      · have := ih _ _ h
        exact ⟨by omega, this.2⟩
    · rw [if_neg hd] at h; simp at h

/-- The indices visited by the strided loop are congruent to the start. -/
theorem stridedVisits_mod (stop step : Nat) :
    ∀ (fuel d x : Nat), x ∈ stridedVisits stop step fuel d → x % step = d % step := by
  intro fuel
  induction fuel with
  | zero => intro d x h; simp [stridedVisits] at h
  | succ fuel ih =>
    intro d x h
    unfold stridedVisits at h
    by_cases hd : d < stop
    · rw [if_pos hd] at h
      rcases List.mem_cons.mp h with h | h
      · subst h; rfl
      · rw [ih _ _ h, Nat.add_mod_right]
    · rw [if_neg hd] at h; simp at h

/-- With a positive step and enough fuel the strided loop visits every index below
the stop that is the start plus a multiple of the step. -/
theorem mem_stridedVisits (stop step : Nat) (hstep : 1 ≤ step) :
    ∀ (fuel d k : Nat), stop ≤ fuel + d → d + k * step < stop →
      d + k * step ∈ stridedVisits stop step fuel d := by
  intro fuel
  induction fuel with
  | zero => intro d k hf hk; omega
  | succ fuel ih =>
    intro d k hf hk
    unfold stridedVisits
    have hd : d < stop := lt_of_le_of_lt (Nat.le_add_right _ _) hk
    rw [if_pos hd]
    cases k with
    | zero => simp
    | succ k =>
      refine List.mem_cons_of_mem _ ?_
      have e : d + (k + 1) * step = (d + step) + k * step := by ring
      rw [e]
      exact ih _ _ (by omega) (by omega)

/-- With a positive step the strided loop visits no index twice. -/
theorem nodup_stridedVisits (stop step : Nat) (hstep : 1 ≤ step) :
    ∀ (fuel d : Nat), (stridedVisits stop step fuel d).Nodup := by
  intro fuel
  induction fuel with
  | zero => intro d; simp [stridedVisits]
  | succ fuel ih =>
    intro d
    unfold stridedVisits
    by_cases hd : d < stop
    · rw [if_pos hd]
      refine List.nodup_cons.mpr ⟨fun h => ?_, ih _⟩
      have := (stridedVisits_bounds stop step _ _ _ h).1
      omega
    · rw [if_neg hd]; exact List.nodup_nil

/-- With a positive step and `stop` iterations of fuel the strided loop leaves
through its condition. -/
theorem stridedFinished_of_fuel (stop step : Nat) (hstep : 1 ≤ step) :
    ∀ (fuel d : Nat), stop ≤ fuel + d → stridedFinished stop step fuel d = true := by
  intro fuel
  induction fuel with
  | zero => intro d h; simp only [stridedFinished, decide_eq_true_eq]; omega
  | succ fuel ih =>
    intro d h
    unfold stridedFinished
    by_cases hd : d < stop
    · rw [if_pos hd]; exact ih _ (by omega)
    · rw [if_neg hd]

/-- Once the fuel is enough, more fuel changes neither the visits nor the state. -/
theorem stridedVisits_fuel (stop step : Nat) (hstep : 1 ≤ step) :
    ∀ (fuel fuel2 d : Nat), stop ≤ fuel + d → fuel ≤ fuel2 →
      stridedVisits stop step fuel2 d = stridedVisits stop step fuel d := by
  intro fuel
  induction fuel with
  | zero =>
    intro fuel2 d h _
    cases fuel2 with
    | zero => rfl
    | succ f => unfold stridedVisits; rw [if_neg (by omega)]
  | succ fuel ih =>
    intro fuel2 d h h2
    cases fuel2 with
    | zero => omega
    | succ f =>
      unfold stridedVisits
      by_cases hd : d < stop
      · rw [if_pos hd, if_pos hd, ih f (d + step) (by omega) (by omega)]
      · rw [if_neg hd, if_neg hd]

/-- The strided loops started at the offsets `0 .. B - 1` with the step `B` visit
every index below `N` exactly once. -/
theorem strided_cover (N B : Nat) (hB : 1 ≤ B) :
    ((List.range B).flatMap (fun off => stridedVisits N B N off)).Nodup ∧
    ∀ x, x ∈ (List.range B).flatMap (fun off => stridedVisits N B N off) ↔ x < N := by
  constructor
  · rw [List.nodup_flatMap]
    refine ⟨fun off _ => nodup_stridedVisits N B hB _ _, ?_⟩
    refine (List.nodup_range B).pairwise_of_forall_ne ?_
    intro a ha b hb hab
    rw [List.mem_range] at ha hb
    show List.Disjoint _ _
    intro x hx1 hx2
    have h1 := stridedVisits_mod N B _ _ _ hx1
    have h2 := stridedVisits_mod N B _ _ _ hx2
    rw [Nat.mod_eq_of_lt ha] at h1
    rw [Nat.mod_eq_of_lt hb] at h2
    omega
  · intro x
    rw [List.mem_flatMap]
    constructor
    · rintro ⟨off, _, hx⟩
      exact (stridedVisits_bounds N B _ _ _ hx).2
    · intro hx
      refine ⟨x % B, List.mem_range.mpr (Nat.mod_lt _ hB), ?_⟩
      have e : x = x % B + x / B * B := by
        have := Nat.mod_add_div x B
        rw [Nat.mul_comm] at this
        omega
      have := mem_stridedVisits N B hB N (x % B) (x / B) (by omega) (by omega)
      rw [← e] at this
      exact this

/-! ### The strided gather of the geometry kernels -/

/-- The gather loop is the fold of its body over the visited dof indices. -/
theorem gather_eq_foldl (NUM_DOFS NUM_QUAD : Nat) (body : Nat → Buf → Buf) (s0 : Buf) :
    forLoop NUM_QUAD (fun q s => stridedLoop NUM_DOFS NUM_QUAD body NUM_DOFS q s) s0
      = (gatherVisits NUM_DOFS NUM_QUAD).foldl (fun s d => body d s) s0 := by
  unfold gatherVisits
  rw [forLoop_eq_foldl, foldl_flatMap]
  congr 1
  funext s q
  exact stridedLoop_eq_foldl _ _ _ _ _ _

/-- C30 (`kInitGeometryInfo1D/2D/3D`, the strided gather into `s_nodes`), for
`NUM_QUAD >= 1` and every `NUM_DOFS`. Each strided loop leaves through its
condition within `NUM_DOFS` iterations, and more iterations of fuel change neither
its visits nor its result. The dof indices at which the gather stores contain no
index twice and are exactly the indices below `NUM_DOFS`; the three gathers are
the folds of their stores over these indices. After the gather every component of
`s_nodes` of every dof below `NUM_DOFS` holds the node value of the element,
whatever the uninitialised content `s0` was. -/
theorem gather_visits_each_dof_once (L : Layout) (hL : L.Injective) (NUM_DOFS NUM_QUAD : Nat)
    (hQ : 1 ≤ NUM_QUAD) (nodes : Buf) (e : Nat) (s0 : Buf) :
    (∀ q fuel, q < NUM_QUAD → NUM_DOFS ≤ fuel →
      stridedFinished NUM_DOFS NUM_QUAD NUM_DOFS q = true ∧
      stridedVisits NUM_DOFS NUM_QUAD fuel q = stridedVisits NUM_DOFS NUM_QUAD NUM_DOFS q ∧
      ∀ (body : Nat → Buf → Buf) (s : Buf),
        stridedLoop NUM_DOFS NUM_QUAD body fuel q s
          = stridedLoop NUM_DOFS NUM_QUAD body NUM_DOFS q s) ∧
    (gatherVisits NUM_DOFS NUM_QUAD).Nodup ∧
    (∀ d, d ∈ gatherVisits NUM_DOFS NUM_QUAD ↔ d < NUM_DOFS) ∧
    gather1D L NUM_DOFS NUM_QUAD nodes e s0
      = (gatherVisits NUM_DOFS NUM_QUAD).foldl
          (fun s d => Function.update s d (nodes (L.ijkN 0 d e NUM_QUAD))) s0 ∧
    gather2D L NUM_DOFS NUM_QUAD nodes e s0
      = (gatherVisits NUM_DOFS NUM_QUAD).foldl
          (fun s d =>
            Function.update
              (Function.update s (L.ijN 0 d 2) (nodes (L.ijkNM 0 d e 2 NUM_DOFS)))
              (L.ijN 1 d 2) (nodes (L.ijkNM 1 d e 2 NUM_DOFS))) s0 ∧
    gather3D L NUM_DOFS NUM_QUAD nodes e s0
      = (gatherVisits NUM_DOFS NUM_QUAD).foldl
          (fun s d =>
            Function.update
              (Function.update
                (Function.update s (L.ijN 0 d 3) (nodes (L.ijkNM 0 d e 3 NUM_DOFS)))
                (L.ijN 1 d 3) (nodes (L.ijkNM 1 d e 3 NUM_DOFS)))
              (L.ijN 2 d 3) (nodes (L.ijkNM 2 d e 3 NUM_DOFS))) s0 ∧
    (∀ d, d < NUM_DOFS →
      gather1D L NUM_DOFS NUM_QUAD nodes e s0 d = nodes (L.ijkN 0 d e NUM_QUAD)) ∧
    (∀ d c, d < NUM_DOFS → c < 2 →
      gather2D L NUM_DOFS NUM_QUAD nodes e s0 (L.ijN c d 2)
        = nodes (L.ijkNM c d e 2 NUM_DOFS)) ∧
    (∀ d c, d < NUM_DOFS → c < 3 →
      gather3D L NUM_DOFS NUM_QUAD nodes e s0 (L.ijN c d 3)
        = nodes (L.ijkNM c d e 3 NUM_DOFS)) := by
  refine ⟨fun q fuel _ hf => ?_, (strided_cover NUM_DOFS NUM_QUAD hQ).1,
    (strided_cover NUM_DOFS NUM_QUAD hQ).2, gather_eq_foldl _ _ _ _, gather_eq_foldl _ _ _ _,
    gather_eq_foldl _ _ _ _,
    fun d hd => gather1D_spec L NUM_DOFS NUM_QUAD nodes e s0 hQ d hd,
    fun d c hd hc => gather2D_spec L hL NUM_DOFS NUM_QUAD nodes e s0 hQ d hd c hc,
    fun d c hd hc => gather3D_spec L hL NUM_DOFS NUM_QUAD nodes e s0 hQ d hd c hc⟩
  have hv := stridedVisits_fuel NUM_DOFS NUM_QUAD hQ NUM_DOFS fuel q (by omega) hf
  refine ⟨stridedFinished_of_fuel NUM_DOFS NUM_QUAD hQ _ _ (by omega), hv, fun body s => ?_⟩
  rw [stridedLoop_eq_foldl, stridedLoop_eq_foldl, hv]

/-- Witness for C30: three dofs and two points with the standard layout; the gather
stores at the dofs 0, 2, 1 in this order. -/
theorem gather_visits_each_dof_once_witness :
    1 ≤ 2 ∧ stdLayout.Injective ∧ gatherVisits 3 2 = [0, 2, 1] ∧
    (gatherVisits 3 2).Nodup ∧ (∀ d, d ∈ gatherVisits 3 2 ↔ d < 3) :=
  ⟨by decide, stdLayout_injective, by decide,
   (gather_visits_each_dof_once stdLayout stdLayout_injective 3 2 (by decide) (fun _ => 0) 0
      (fun _ => 0)).2.1,
   (gather_visits_each_dof_once stdLayout stdLayout_injective 3 2 (by decide) (fun _ => 0) 0
      (fun _ => 0)).2.2.1⟩


/-! ### The stores of `rMassAssemble2S` -/

/-- The kernel is the fold of its store over the visited pairs. -/
theorem rMassAssemble2S_eq_foldl (L : Layout) (EB QB N M : Nat) (COEFF : ℚ)
    (quadWeights J oper : Buf) :
    rMassAssemble2S L EB QB N M COEFF quadWeights J oper
      = (rMassAssemble2SVisits EB QB N M).foldl
          (fun oper p => rMassAssemble2SStore L N COEFF quadWeights J p.1 p.2 oper) oper := by
  unfold rMassAssemble2S rMassAssemble2SVisits
  rw [stridedLoop_eq_foldl, foldl_flatMap]
  congr 1
  funext oper eOff
  rw [forLoop_eq_foldl, foldl_flatMap]
  congr 1
  funext oper i
  simp only
  by_cases h : eOff + i < M
  · rw [if_pos h, if_pos h, forLoop_eq_foldl, foldl_flatMap]
    congr 1
    funext oper qOff
    rw [stridedLoop_eq_foldl, List.foldl_map]
    rfl
  · rw [if_neg h, if_neg h]
    rfl

/-- The visited pairs, element by element. -/
theorem rMassAssemble2SVisits_eq (EB QB N M : Nat) :
    rMassAssemble2SVisits EB QB N M
      = (rMassAssemble2SElements EB M).flatMap (fun e =>
          ((List.range QB).flatMap (fun qOff => stridedVisits N QB N qOff)).map
            (fun q => (q, e))) := by
  unfold rMassAssemble2SVisits rMassAssemble2SElements
  rw [List.flatMap_assoc]
  congr 1
  funext eOff
  rw [List.flatMap_assoc]
  congr 1
  funext i
  simp only
  by_cases h : eOff + i < M
  · rw [if_pos h, if_pos h, List.flatMap_singleton, List.map_flatMap]
  · rw [if_neg h, if_neg h]
    rfl

/-- The two outer loops pass every element below `numElements` exactly once. -/
theorem rMassAssemble2SElements_cover (EB M : Nat) (hEB : 1 ≤ EB) :
    (rMassAssemble2SElements EB M).Nodup ∧
    ∀ e, e ∈ rMassAssemble2SElements EB M ↔ e < M := by
  have hmem : ∀ eOff i e, e ∈ (if eOff + i < M then [eOff + i] else []) ↔
      e = eOff + i ∧ e < M := by
    intro eOff i e
    by_cases h : eOff + i < M
    · rw [if_pos h, List.mem_singleton]
      exact ⟨fun h1 => ⟨h1, h1 ▸ h⟩, fun h1 => h1.1⟩
    · rw [if_neg h]
      simp only [List.not_mem_nil, false_iff, not_and]
      intro h1; omega
  have hmem2 : ∀ eOff e, e ∈ (List.range EB).flatMap
      (fun i => if eOff + i < M then [eOff + i] else []) ↔
      ∃ i, i < EB ∧ e = eOff + i ∧ e < M := by
    intro eOff e
    rw [List.mem_flatMap]
    constructor
    · rintro ⟨i, hi, he⟩
      exact ⟨i, List.mem_range.mp hi, (hmem _ _ _).mp he⟩
    · rintro ⟨i, hi, he⟩
      exact ⟨i, List.mem_range.mpr hi, (hmem _ _ _).mpr he⟩
  unfold rMassAssemble2SElements
  constructor
  · rw [List.nodup_flatMap]
    constructor
    · intro eOff _
      rw [List.nodup_flatMap]
      constructor
      · intro i _
        by_cases h : eOff + i < M
        · rw [if_pos h]; exact List.nodup_singleton _
        · rw [if_neg h]; exact List.nodup_nil
      · refine (List.nodup_range EB).pairwise_of_forall_ne ?_
        intro a _ b _ hab
        show List.Disjoint _ _
        intro x hx1 hx2
        have h1 := (hmem _ _ _).mp hx1
        have h2 := (hmem _ _ _).mp hx2
        omega
    · refine (nodup_stridedVisits M EB hEB _ _).pairwise_of_forall_ne ?_
      intro a ha b hb hab
      show List.Disjoint _ _
      intro x hx1 hx2
      obtain ⟨i, hi, h1, _⟩ := (hmem2 _ _).mp hx1
      obtain ⟨j, hj, h2, _⟩ := (hmem2 _ _).mp hx2
      have ma := stridedVisits_mod M EB _ _ _ ha
      have mb := stridedVisits_mod M EB _ _ _ hb
      rw [Nat.zero_mod] at ma mb
      have ea := Nat.div_add_mod a EB
      have eb := Nat.div_add_mod b EB
      rw [ma] at ea
      rw [mb] at eb
      have hx : x / EB = a / EB := by
        rw [h1, ← ea, Nat.add_zero, Nat.mul_add_div (by omega), Nat.div_eq_of_lt hi]
        rw [Nat.mul_div_cancel_left _ (by omega : 0 < EB)]
        omega
      have hx2 : x / EB = b / EB := by
        rw [h2, ← eb, Nat.add_zero, Nat.mul_add_div (by omega), Nat.div_eq_of_lt hj]
        rw [Nat.mul_div_cancel_left _ (by omega : 0 < EB)]
        omega
      apply hab
      rw [← ea, ← eb, ← hx, ← hx2]
  · intro e
    rw [List.mem_flatMap]
    constructor
    · rintro ⟨eOff, _, he⟩
      obtain ⟨i, _, _, h⟩ := (hmem2 _ _).mp he
      exact h
    · intro he
      refine ⟨0 + e / EB * EB, ?_, (hmem2 _ _).mpr ⟨e % EB, Nat.mod_lt _ hEB, ?_, he⟩⟩
      · have hle : e / EB * EB ≤ e := Nat.div_mul_le_self e EB
        exact mem_stridedVisits M EB hEB M 0 (e / EB) (by omega) (by omega)
      · have := Nat.div_add_mod e EB
        rw [Nat.mul_comm] at this
        omega

/-- The visited pairs contain no pair twice and are the pairs of an element below
`numElements` and a point below `NUM_QUAD_2D`. -/
theorem rMassAssemble2SVisits_cover (EB QB N M : Nat) (hEB : 1 ≤ EB) (hQB : 1 ≤ QB) :
    (rMassAssemble2SVisits EB QB N M).Nodup ∧
    ∀ q e, (q, e) ∈ rMassAssemble2SVisits EB QB N M ↔ e < M ∧ q < N := by
  obtain ⟨n1, m1⟩ := rMassAssemble2SElements_cover EB M hEB
  obtain ⟨n2, m2⟩ := strided_cover N QB hQB
  rw [rMassAssemble2SVisits_eq]
  constructor
  · rw [List.nodup_flatMap]
    constructor
    · intro e _
      exact n2.map (fun a b h => (Prod.mk.inj h).1)
    · refine n1.pairwise_of_forall_ne ?_
      intro a _ b _ hab
      show List.Disjoint _ _
      intro x hx1 hx2
      obtain ⟨_, _, rfl⟩ := List.mem_map.mp hx1
      obtain ⟨_, _, h⟩ := List.mem_map.mp hx2
      exact hab (Prod.mk.inj h).2.symm
  · intro q e
    rw [List.mem_flatMap]
    constructor
    · rintro ⟨e2, he2, h⟩
      obtain ⟨q2, hq2, h⟩ := List.mem_map.mp h
      obtain ⟨rfl, rfl⟩ := Prod.mk.inj h
      exact ⟨(m1 _).mp he2, (m2 _).mp hq2⟩
    · rintro ⟨he, hq⟩
      exact ⟨e, (m1 e).mpr he, List.mem_map.mpr ⟨q, (m2 q).mpr hq, rfl⟩⟩


/-- The fold of the stores over a list of pairs with points below `NUM_QUAD_2D`:
the cell of every pair of the list holds the value of the pair, every other cell
is kept. -/
theorem rMassAssemble2SStore_foldl (L : Layout) (hL : L.Injective) (N : Nat) (COEFF : ℚ)
    (quadWeights J : Buf) :
    ∀ (l : List (Nat × Nat)) (oper : Buf), (∀ p ∈ l, p.1 < N) →
      (∀ p ∈ l,
        l.foldl (fun oper p => rMassAssemble2SStore L N COEFF quadWeights J p.1 p.2 oper) oper
            (L.ijN p.1 p.2 N)
          = quadWeights p.1 * COEFF *
              ((J (L.ijklNM 0 0 p.1 p.2 2 N) * J (L.ijklNM 1 1 p.1 p.2 2 N))
                - (J (L.ijklNM 0 1 p.1 p.2 2 N) * J (L.ijklNM 1 0 p.1 p.2 2 N)))) ∧
      (∀ x, (∀ p ∈ l, x ≠ L.ijN p.1 p.2 N) →
        l.foldl (fun oper p => rMassAssemble2SStore L N COEFF quadWeights J p.1 p.2 oper) oper x
          = oper x) := by
  intro l
  induction l with
  | nil => intro oper _; exact ⟨fun p hp => absurd hp (List.not_mem_nil _), fun x _ => rfl⟩
  | cons a l ih =>
    intro oper hl
    obtain ⟨i1, i2⟩ := ih (rMassAssemble2SStore L N COEFF quadWeights J a.1 a.2 oper)
      (fun p hp => hl p (List.mem_cons_of_mem _ hp))
    rw [List.foldl_cons]
    constructor
    · intro p hp
      by_cases hpl : p ∈ l
      · exact i1 p hpl
      · have hpa : p = a := by
          rcases List.mem_cons.mp hp with h | h
          · exact h
          · exact absurd h hpl
        subst hpa
        rw [i2]
        · unfold rMassAssemble2SStore
          simp only [Function.update_same]
        · intro p2 hp2 heq
          have := hL.ijN_inj N p.1 p.2 p2.1 p2.2 (hl p hp)
            (hl p2 (List.mem_cons_of_mem _ hp2)) heq
          apply hpl
          have e : p = p2 := Prod.ext this.1 this.2
          rw [e]; exact hp2
    · intro x hx
      rw [i2 x (fun p hp => hx p (List.mem_cons_of_mem _ hp))]
      unfold rMassAssemble2SStore
      exact Function.update_noteq (hx a (List.mem_cons_self _ _)) _ _

/-- C27 (`rMassAssemble2S`, lines 19-41), for positive batch constants and every
`numElements` and `NUM_QUAD_2D`. The loops leave through their conditions. The
kernel is the fold of its store over the visited pairs, which contain no pair
twice and are exactly the pairs of an element `e < numElements` and a point
`q < NUM_QUAD_2D`. The cell `oper[ijN (q, e)]` of such a pair holds
`quadWeights[q] * COEFF * (J11 * J22 - J21 * J12)`, every other cell is kept, and
the result is the same for any other positive batch constants. -/
theorem rMassAssemble2S_each_cell_once (L : Layout) (hL : L.Injective)
    (A2_ELEMENT_BATCH A2_QUAD_BATCH B2 Q2 NUM_QUAD_2D numElements : Nat)
    (hE : 1 ≤ A2_ELEMENT_BATCH) (hQ : 1 ≤ A2_QUAD_BATCH) (hB2 : 1 ≤ B2) (hQ2 : 1 ≤ Q2)
    (COEFF : ℚ) (quadWeights J oper : Buf) :
    stridedFinished numElements A2_ELEMENT_BATCH numElements 0 = true ∧
    (∀ qOff, stridedFinished NUM_QUAD_2D A2_QUAD_BATCH NUM_QUAD_2D qOff = true) ∧
    rMassAssemble2S L A2_ELEMENT_BATCH A2_QUAD_BATCH NUM_QUAD_2D numElements COEFF
        quadWeights J oper
      = (rMassAssemble2SVisits A2_ELEMENT_BATCH A2_QUAD_BATCH NUM_QUAD_2D numElements).foldl
          (fun oper p => rMassAssemble2SStore L NUM_QUAD_2D COEFF quadWeights J p.1 p.2 oper)
          oper ∧
    (rMassAssemble2SVisits A2_ELEMENT_BATCH A2_QUAD_BATCH NUM_QUAD_2D numElements).Nodup ∧
    (∀ q e, (q, e) ∈ rMassAssemble2SVisits A2_ELEMENT_BATCH A2_QUAD_BATCH NUM_QUAD_2D
        numElements ↔ e < numElements ∧ q < NUM_QUAD_2D) ∧
    (∀ q e, e < numElements → q < NUM_QUAD_2D →
      rMassAssemble2S L A2_ELEMENT_BATCH A2_QUAD_BATCH NUM_QUAD_2D numElements COEFF
          quadWeights J oper (L.ijN q e NUM_QUAD_2D)
        = quadWeights q * COEFF *
            ((J (L.ijklNM 0 0 q e 2 NUM_QUAD_2D) * J (L.ijklNM 1 1 q e 2 NUM_QUAD_2D))
              - (J (L.ijklNM 0 1 q e 2 NUM_QUAD_2D) * J (L.ijklNM 1 0 q e 2 NUM_QUAD_2D)))) ∧
    (∀ x, (∀ q e, e < numElements → q < NUM_QUAD_2D → x ≠ L.ijN q e NUM_QUAD_2D) →
      rMassAssemble2S L A2_ELEMENT_BATCH A2_QUAD_BATCH NUM_QUAD_2D numElements COEFF
          quadWeights J oper x = oper x) ∧
    rMassAssemble2S L A2_ELEMENT_BATCH A2_QUAD_BATCH NUM_QUAD_2D numElements COEFF
        quadWeights J oper
      = rMassAssemble2S L B2 Q2 NUM_QUAD_2D numElements COEFF quadWeights J oper := by
  have cell : ∀ EB QB, 1 ≤ EB → 1 ≤ QB →
      (∀ q e, e < numElements → q < NUM_QUAD_2D →
        rMassAssemble2S L EB QB NUM_QUAD_2D numElements COEFF quadWeights J oper
            (L.ijN q e NUM_QUAD_2D)
          = quadWeights q * COEFF *
              ((J (L.ijklNM 0 0 q e 2 NUM_QUAD_2D) * J (L.ijklNM 1 1 q e 2 NUM_QUAD_2D))
                - (J (L.ijklNM 0 1 q e 2 NUM_QUAD_2D)
                    * J (L.ijklNM 1 0 q e 2 NUM_QUAD_2D)))) ∧
      (∀ x, (∀ q e, e < numElements → q < NUM_QUAD_2D → x ≠ L.ijN q e NUM_QUAD_2D) →
        rMassAssemble2S L EB QB NUM_QUAD_2D numElements COEFF quadWeights J oper x
          = oper x) := by
    intro EB QB hEB hQB
    obtain ⟨_, hm⟩ := rMassAssemble2SVisits_cover EB QB NUM_QUAD_2D numElements hEB hQB
    obtain ⟨f1, f2⟩ := rMassAssemble2SStore_foldl L hL NUM_QUAD_2D COEFF quadWeights J
      (rMassAssemble2SVisits EB QB NUM_QUAD_2D numElements) oper
      (fun p hp => ((hm p.1 p.2).mp hp).2)
    rw [rMassAssemble2S_eq_foldl]
    constructor
    · intro q e he hq
      exact f1 (q, e) ((hm q e).mpr ⟨he, hq⟩)
    · intro x hx
      exact f2 x (fun p hp => hx p.1 p.2 ((hm p.1 p.2).mp hp).1 ((hm p.1 p.2).mp hp).2)
  obtain ⟨c1, c2⟩ := cell A2_ELEMENT_BATCH A2_QUAD_BATCH hE hQ
  obtain ⟨d1, d2⟩ := cell B2 Q2 hB2 hQ2
  obtain ⟨hn, hm⟩ := rMassAssemble2SVisits_cover A2_ELEMENT_BATCH A2_QUAD_BATCH NUM_QUAD_2D
    numElements hE hQ
  refine ⟨stridedFinished_of_fuel _ _ hE _ _ (by omega),
    fun qOff => stridedFinished_of_fuel _ _ hQ _ _ (by omega),
    rMassAssemble2S_eq_foldl _ _ _ _ _ _ _ _ _, hn, hm, c1, c2, ?_⟩
  funext x
  by_cases h : ∃ q e, e < numElements ∧ q < NUM_QUAD_2D ∧ x = L.ijN q e NUM_QUAD_2D
  · obtain ⟨q, e, he, hq, rfl⟩ := h
    rw [c1 q e he hq, d1 q e he hq]
  · have hx : ∀ q e, e < numElements → q < NUM_QUAD_2D → x ≠ L.ijN q e NUM_QUAD_2D :=
      fun q e he hq heq => h ⟨q, e, he, hq, heq⟩
    rw [c2 x hx, d2 x hx]

/-- Witness for C27: the standard layout, two elements of three points, batches
of 2 elements and 2 points against batches of 1 and 5. -/
theorem rMassAssemble2S_each_cell_once_witness :
    stdLayout.Injective ∧ 1 ≤ 2 ∧ 1 ≤ 5 ∧
    rMassAssemble2SVisits 2 2 3 2 = [(0, 0), (2, 0), (1, 0), (0, 1), (2, 1), (1, 1)] ∧
    rMassAssemble2S stdLayout 2 2 3 2 (1 / 2) (fun q => q + 1) (fun i => i) (fun _ => 0)
      = rMassAssemble2S stdLayout 1 5 3 2 (1 / 2) (fun q => q + 1) (fun i => i) (fun _ => 0) :=
  ⟨stdLayout_injective, by decide, by decide, by decide,
   (rMassAssemble2S_each_cell_once stdLayout stdLayout_injective 2 2 1 5 3 2 (by decide)
      (by decide) (by decide) (by decide) (1 / 2) (fun q => q + 1) (fun i => i)
      (fun _ => 0)).2.2.2.2.2.2.2⟩

/-! ## Theorems: the stores of the batch loop -/

/-- The second zone loops of all batches, as one fold of the point update over the
points of the zones `0 .. n - 1`. -/
theorem refZones_eq_foldl {σ : Type} (H : Hydro σ) (lib : Lib) (S : σ) (r0 : Buf)
    (m : Nat → WithTop ℚ) (n : Nat) (qd : QuadratureData) :
    refZones H lib S r0 m 0 n qd
      = (pointsVisited H.nqp (List.range n)).foldl
          (fun qd p => pointUpdate H lib S (m p.1) (JprAt H S p.1 p.2)
            (rhoAt H lib S r0 p.1 p.2) (pAt H lib S r0 p.1 p.2) (csAt H lib S r0 p.1 p.2)
            p.1 p.2 qd) qd := by
  unfold refZones pointsVisited
  rw [forLoop_eq_foldl, foldl_flatMap]
  refine List.foldl_ext _ _ _ (fun x z _ => ?_)
  rw [forLoop_eq_foldl, List.foldl_map, Nat.zero_add]
  rfl

/-- C21: for every zone count, the batch loop of `UpdateQuadratureData`
(`nzones / 3 + 1` iterations, the last batch shortened, `break` when
`z_id = nzones`) returns and processes the zones `0 .. nzones - 1`, each once and in
increasing order, in batches of 1 to 3 zones whose second loop runs `z_id` over
`z0, z0 + 1, ..`. The quadrature data it leaves is the fold of the point update
over the points of the zones visited, in order; the point update of the zone `z`
at the point `q` stores the `dim × dim` entries of the row `z * nqp + q` of
`stressJinvT` and no other entry; the rows of the points visited are the rows
`0 .. nzones * nqp - 1`, each once. So every entry of a row in the range holds
the value stored at its (zone, point), and every entry outside the range keeps
its value. -/
theorem batch_loop_covers_zones {σ : Type} (H : Hydro σ) (lib : Lib) (S : σ)
    (st : HydroState) (hfresh : st.quad_data_is_current = false) :
    zonesVisited H lib 3 S st.quad_data (H.nzones / 3 + 1) = List.range H.nzones ∧
    (∀ (b z0 : Nat) (st' : Pass), b < H.nzones / 3 + 1 →
      batchHead H b (passAfter H lib 3 S st.quad_data b) = some (z0, st') →
      z0 = b * 3 ∧ 1 ≤ st'.nzones_batch ∧ st'.nzones_batch ≤ 3 ∧
      z0 + st'.nzones_batch ≤ H.nzones ∧
      ∀ z, z ≤ st'.nzones_batch → (batchUpdate H lib S z0 st' z 0).z_id = z0 + z) ∧
    (UpdateQuadratureData H lib S st).quad_data
      = (pointsVisited H.nqp (zonesVisited H lib 3 S st.quad_data (H.nzones / 3 + 1))).foldl
          (fun qd p => pointUpdate H lib S (zoneMinDetJ H lib S 3 p.1) (JprAt H S p.1 p.2)
            (rhoAt H lib S st.quad_data.rho0DetJ0w p.1 p.2)
            (pAt H lib S st.quad_data.rho0DetJ0w p.1 p.2)
            (csAt H lib S st.quad_data.rho0DetJ0w p.1 p.2) p.1 p.2 qd) st.quad_data ∧
    (∀ (m : WithTop ℚ) (Jpr : DenseMatrix) (rho p cs : ℚ) (z q : Nat) (qd : QuadratureData)
        (a r c : Nat),
      (pointUpdate H lib S m Jpr rho p cs z q qd).stressJinvT (a, r, c)
        = if a < H.dim ∧ r = z * H.nqp + q ∧ c < H.dim then
            (∑ k in Finset.range H.dim,
              stressAt H lib S qd Jpr rho p cs z q a k * lib.CalcInverse H.dim Jpr c k) *
              (H.weight q * lib.Det H.dim Jpr)
          else qd.stressJinvT (a, r, c)) ∧
    rowsStored H.nqp (zonesVisited H lib 3 S st.quad_data (H.nzones / 3 + 1))
      = List.range (H.nzones * H.nqp) ∧
    (rowsStored H.nqp (zonesVisited H lib 3 S st.quad_data (H.nzones / 3 + 1))).Nodup ∧
    (∀ z q vd gd, z < H.nzones → q < H.nqp → vd < H.dim → gd < H.dim →
      (UpdateQuadratureData H lib S st).quad_data.stressJinvT (vd, z * H.nqp + q, gd)
        = (pointUpdate H lib S (zoneMinDetJ H lib S 3 z) (JprAt H S z q)
            (rhoAt H lib S st.quad_data.rho0DetJ0w z q)
            (pAt H lib S st.quad_data.rho0DetJ0w z q)
            (csAt H lib S st.quad_data.rho0DetJ0w z q) z q st.quad_data).stressJinvT
              (vd, z * H.nqp + q, gd)) ∧
    (∀ a r c, ¬ (a < H.dim ∧ c < H.dim ∧ r < H.nzones * H.nqp) →
      (UpdateQuadratureData H lib S st).quad_data.stressJinvT (a, r, c)
        = st.quad_data.stressJinvT (a, r, c)) := by
  have hv := zonesVisited_all H lib S 3 st.quad_data (by norm_num)
  have hU : (UpdateQuadratureData H lib S st).quad_data
      = refZones H lib S st.quad_data.rho0DetJ0w (zoneMinDetJ H lib S 3) 0 H.nzones
          st.quad_data := by
    unfold UpdateQuadratureData
    rw [UpdateQuadratureDataB_eq H lib 3 (by norm_num) S st hfresh]
  refine ⟨hv, ?_, ?_, ?_, by rw [hv, rowsStored_range],
    by rw [hv, rowsStored_range]; exact List.nodup_range _, ?_, ?_⟩
  · intro b z0 st' hb hh
    obtain ⟨_, p2, p3, _⟩ := passAfter_full H lib S 3 st.quad_data (by norm_num) b (by omega)
    have hle : b * 3 ≤ H.nzones := by
      have := Nat.div_mul_le_self H.nzones 3
      have : b * 3 ≤ H.nzones / 3 * 3 := Nat.mul_le_mul_right 3 (by omega)
      omega
    obtain ⟨_, e2, _⟩ := batchHead_some H b _ z0 st' (by rw [p3, p2]) hh
    obtain ⟨r1, r2⟩ := batchHead_range H b _ z0 st' hh (by rw [p2]; exact hle)
    obtain ⟨s1, s2⟩ := batchHead_size H b _ z0 st' hh (by rw [p2]; norm_num)
      (by rw [p2]; exact hle)
    rw [p2] at r1 s2
    refine ⟨r1, s1, s2, r2, ?_⟩
    intro z hz
    rw [batchUpdate_eq H lib S z0 st' e2 z 0 (by omega) (Nat.zero_le _)]
  · rw [hU, hv, refZones_eq_foldl]
  · intro m Jpr rho p cs z q qd a r c
    rw [pointUpdate_stressJinvT]
    rfl
  · intro z q vd gd hz hq hvd hgd
    rw [UpdateQuadratureData_stressJinvT H lib S st hfresh z q vd gd hz hq hvd hgd,
      pointUpdate_stressJinvT, if_pos ⟨hvd, rfl, hgd⟩]
    rfl
  · intro a r c hout
    rw [hU, (refZones_spec H lib S st.quad_data _ H.nzones).1, if_neg hout]

/-- Witness for C21: the sample operator with four zones of two points. -/
theorem batch_loop_covers_zones_witness :
    exState.quad_data_is_current = false ∧
    zonesVisited exHydro exLib 3 () exState.quad_data (exHydro.nzones / 3 + 1) = [0, 1, 2, 3] ∧
    rowsStored exHydro.nqp
        (zonesVisited exHydro exLib 3 () exState.quad_data (exHydro.nzones / 3 + 1))
      = [0, 1, 2, 3, 4, 5, 6, 7] :=
  ⟨rfl, (batch_loop_covers_zones exHydro exLib () exState rfl).1,
   (batch_loop_covers_zones exHydro exLib () exState rfl).2.2.2.2.1⟩
/-! ## Theorems: the compression length and the 1D point count -/

/-! ### The compression length on the initial configuration -/

/-- The product of a matrix that is the identity on the first `dim` indices with a
vector keeps the first `dim` entries of the vector. -/
theorem MultVec_identity (dim : Nat) (A : DenseMatrix) (x : Buf)
    (hid : ∀ i j, i < dim → j < dim → A i j = if i = j then 1 else 0)
    (i : Nat) (hi : i < dim) : MultVec dim A x i = x i := by
  unfold MultVec
  have : ∀ k ∈ Finset.range dim, A i k * x k = if i = k then x k else 0 := by
    intro k hk
    rw [hid i k hi (Finset.mem_range.mp hk)]
    split <;> simp
  rw [Finset.sum_congr rfl this, Finset.sum_ite_eq]
  simp [hi]

/-- C28 (`UpdateQuadratureData`, source lines 748-754). Where the product of the
current Jacobian `Jpr` and `Jac0inv` of the point is the identity, the compression
length `h = h0 * |Jpi * dir| / |dir|` is `h0` for every compression direction
whose norm is not zero, and with the viscosity enabled the coefficient of the
point is computed with `h0`. `Norml2` of a vector of size `dim` is taken to read
the first `dim` entries only. -/
theorem compression_length_on_initial_mesh {σ : Type} (H : Hydro σ) (lib : Lib) (S : σ)
    (qd : QuadratureData) (Jpr : DenseMatrix) (rho sound_speed : ℚ) (z_id q : Nat)
    (hnorm : ∀ v w : Buf, (∀ i, i < H.dim → v i = w i) →
      lib.Norml2 H.dim v = lib.Norml2 H.dim w)
    (hid : ∀ i j, i < H.dim → j < H.dim →
      Mult H.dim Jpr (qd.Jac0inv (z_id * H.nqp + q)) i j = if i = j then 1 else 0) :
    (∀ sgrad_v : DenseMatrix, lib.Norml2 H.dim (eigenData H lib sgrad_v).2 ≠ 0 →
      comprLength H lib qd Jpr sgrad_v z_id q = qd.h0) ∧
    (H.use_viscosity = true →
      lib.Norml2 H.dim
        (eigenData H lib (sgradV H S (lib.CalcInverse H.dim Jpr) z_id q)).2 ≠ 0 →
      viscCoeff H lib S qd Jpr rho sound_speed z_id q
        = if muAt H lib (sgradV H S (lib.CalcInverse H.dim Jpr) z_id q) < 0 then
            2 * rho * qd.h0 * qd.h0
                * |muAt H lib (sgradV H S (lib.CalcInverse H.dim Jpr) z_id q)|
              + (1 / 2) * rho * qd.h0 * sound_speed
          else
            2 * rho * qd.h0 * qd.h0
              * |muAt H lib (sgradV H S (lib.CalcInverse H.dim Jpr) z_id q)|) := by
  have key : ∀ sgrad_v : DenseMatrix, lib.Norml2 H.dim (eigenData H lib sgrad_v).2 ≠ 0 →
      comprLength H lib qd Jpr sgrad_v z_id q = qd.h0 := by
    intro sgrad_v hdir
    unfold comprLength
    simp only
    rw [hnorm _ (eigenData H lib sgrad_v).2
      (fun i hi => MultVec_identity H.dim _ _ hid i hi)]
    rw [mul_div_assoc, div_self hdir, mul_one]
  refine ⟨key, fun hv hdir => ?_⟩
  unfold viscCoeff
  rw [if_pos hv]
  simp only [key _ hdir]

/-- Witness for C28: the sample operator on its initial mesh (Jacobian twice the
identity, `Jac0inv` half the identity), with the compression direction `(1, 0)`. -/
theorem compression_length_on_initial_mesh_witness :
    comprLength exHydroGood exLib exQuadData (fun i j => if i = j then 2 else 0)
      (fun i j => if i = j then (if i = 0 then -1 else 1) else 0) 0 0 = exQuadData.h0 :=
  (compression_length_on_initial_mesh exHydroGood exLib () exQuadData
    (fun i j => if i = j then 2 else 0) 1 1 0 0
    (by
      intro v w h
      show (∑ i in Finset.range 2, |v i|) = ∑ i in Finset.range 2, |w i|
      exact Finset.sum_congr rfl (fun i hi => by rw [h i (Finset.mem_range.mp hi)]))
    (by
      intro i j hi hj
      have hi2 : i < 2 := hi
      have hj2 : j < 2 := hj
      show (∑ k in Finset.range 2, (if i = k then (2 : ℚ) else 0)
        * (if k = j then 1 / 2 else 0)) = _
      interval_cases i <;> interval_cases j <;> simp [Finset.sum_range_succ])).1
    (fun i j => if i = j then (if i = 0 then -1 else 1) else 0)
    (by
      show (∑ i in Finset.range 2,
        |(eigenData exHydroGood exLib
          (fun i j => if i = j then (if i = 0 then -1 else 1) else 0)).2 i|) ≠ 0
      simp [eigenData, exHydroGood, exHydro, exLib, Finset.sum_range_succ])

/-! ### The 1D point count of `Tensors1D` -/

/-- C29 (constructor, source lines 258-260): with `nqp = Q ^ dim` quadrature
points and `dim >= 1` the count `int (floor (0.7 + pow (nqp, 1.0 / dim)))` passed
to `Tensors1D` is `Q`. The library `pow` is taken to return the root of `nqp`, the
number `r >= 0` with `r ^ dim = nqp`, with an error of at most `0.7` downwards and
less than `0.3` upwards; an exact `pow` is one. -/
theorem tensors1D_point_count (pow : ℚ → ℚ → ℚ) (Q dim : Nat) (hdim : 1 ≤ dim) (r : ℚ)
    (hr0 : 0 ≤ r) (hr : r ^ dim = ((Q ^ dim : Nat) : ℚ))
    (hlo : r - 7 / 10 ≤ pow ((Q ^ dim : Nat) : ℚ) (1 / (dim : ℚ)))
    (hhi : pow ((Q ^ dim : Nat) : ℚ) (1 / (dim : ℚ)) < r + 3 / 10) :
    tensors1DPoints pow (Q ^ dim) dim = (Q : Int) := by
  have hrQ : r = (Q : ℚ) := by
    have h2 : r ^ dim = (Q : ℚ) ^ dim := by rw [hr]; push_cast; rfl
    exact (pow_left_inj₀ hr0 (Nat.cast_nonneg Q) (by omega)).mp h2
  subst hrQ
  unfold tensors1DPoints
  rw [Int.floor_eq_iff]
  constructor
  · push_cast
    push_cast at hlo
    linarith
  · push_cast
    push_cast at hhi
    linarith

/-- Witness for C29: 27 points in three dimensions with a `pow` that returns
`2.999999` for the cube root of 27. -/
theorem tensors1D_point_count_witness :
    tensors1DPoints exPowRounded (3 ^ 3) 3 = 3 :=
  tensors1D_point_count exPowRounded 3 3 (by decide) 3 (by norm_num) (by norm_num)
    (by simp only [exPowRounded]; norm_num)
    (by simp only [exPowRounded]; norm_num)
end Laghos
